import Mathlib

/-!
# SCISim rigid body 2D core: a shallow embedding

Scalars (`double` in the source) are the rationals, so every definition can be
evaluated.  The flat configuration vector `q` is a list of scalars, a body `i`
owning the entries `3 i`, `3 i + 1` (centre) and `3 i + 2` (angle).  The test
that ends the run of the command line driver compares a product computed in
floating point: that product is a parameter, with binary64 rounding as its
instance.

Classes whose source files are not among the sources (`PlanarPortal`,
`SpatialGrid`, the constraint classes, `TeleportedCollision`, the geometry and
state classes) are modelled from the specification, or taken as parameters.
-/

namespace SCISim

/-! ## Small vectors and the flat configuration vector -/

/-- Eigen's `Vector2s` / `Array2s`: a pair of scalars. -/
structure Vector2s where
  x : ℚ
  y : ℚ
deriving DecidableEq

namespace Vector2s

/-- Component-wise sum. -/
def add (a b : Vector2s) : Vector2s := ⟨a.x + b.x, a.y + b.y⟩

/-- Component-wise difference. -/
def sub (a b : Vector2s) : Vector2s := ⟨a.x - b.x, a.y - b.y⟩

/-- Scalar multiple. -/
def smul (c : ℚ) (a : Vector2s) : Vector2s := ⟨c * a.x, c * a.y⟩

/-- Unary minus. -/
def neg (a : Vector2s) : Vector2s := ⟨-a.x, -a.y⟩

/-- Eigen's `dot`. -/
def dot (a b : Vector2s) : ℚ := a.x * b.x + a.y * b.y

/-- Eigen's `squaredNorm`. -/
def squaredNorm (a : Vector2s) : ℚ := a.x * a.x + a.y * a.y

/-- Eigen's `normalized()`: the vector divided by its norm.  The square root is
not a rational operation, so the routine that computes it is the parameter
`sqrt`.  (Division by zero yields zero in `ℚ`, hence the zero vector is mapped
to itself, as by Eigen's guarded implementation.) -/
def normalized (sqrt : ℚ → ℚ) (a : Vector2s) : Vector2s :=
  ⟨a.x / sqrt (squaredNorm a), a.y / sqrt (squaredNorm a)⟩

end Vector2s

/-- Eigen's `VectorXs`: a dynamically sized vector of scalars. -/
abbrev VectorXs := List ℚ

/-- The read access `q.segment<2>( k )`. -/
def segment2 (q : VectorXs) (k : Nat) : Vector2s := ⟨q.getD k 0, q.getD (k + 1) 0⟩

/-- The write access `q.segment<2>( k ) = x`. -/
def setSegment2 (q : VectorXs) (k : Nat) (x : Vector2s) : VectorXs :=
  (q.set k x.x).set (k + 1) x.y

/-- The value `std::numeric_limits<unsigned>::max()`, used as the "no portal" mark. -/
def UNSIGNED_MAX : Nat := 4294967295

/-! ## Geometry, planes, portals, state -/

/-- Axis aligned bounding box `(min, max)`. -/
structure AABB where
  min : Vector2s
  max : Vector2s
deriving DecidableEq

instance : Inhabited AABB := ⟨⟨⟨0, 0⟩, ⟨0, 0⟩⟩⟩

/-- Modelled from the spec: whether two boxes overlap (class `AABB` is absent
from the sources); the boxes are closed, so boxes that merely touch overlap. -/
def AABB.overlaps (a b : AABB) : Bool :=
  decide (a.min.x ≤ b.max.x ∧ b.min.x ≤ a.max.x ∧ a.min.y ≤ b.max.y ∧ b.min.y ≤ a.max.y)

/-- Modelled from the spec: the geometry variants (§3, "only `Circle { r }` is
specified"); `RigidBody2DGeometry` and `CircleGeometry` are absent from the sources. -/
inductive RigidBody2DGeometry where
  | circle (r : ℚ)
deriving DecidableEq

instance : Inhabited RigidBody2DGeometry := ⟨.circle 0⟩

/-- Modelled from the spec: `computeAABB` (§4.B): for a circle the box
`(x − r·𝟙, x + r·𝟙)`, the angle being ignored. -/
def RigidBody2DGeometry.computeAABB (geo : RigidBody2DGeometry) (x : Vector2s) (_theta : ℚ) : AABB :=
  match geo with
  | .circle r => ⟨⟨x.x - r, x.y - r⟩, ⟨x.x + r, x.y + r⟩⟩

/-- Modelled from the spec: a static plane (§3), a point `x` and a normal `n`. -/
structure StaticPlane where
  x : Vector2s
  n : Vector2s
deriving DecidableEq

instance : Inhabited StaticPlane := ⟨⟨⟨0, 0⟩, ⟨0, 0⟩⟩⟩

/-- Modelled from the spec: the `PlanarPortal` class (§4.C), whose source is
absent.  The spec names its operations without giving their formulas, so a
portal is the record of its operations.  `aabbTouchesPortal` answers `some side`
when the C++ function returns true and sets `intersecting_plane_index = side`. -/
structure PlanarPortal where
  pointInsidePortal : Vector2s → Bool
  teleportPointInsidePortal : Vector2s → Vector2s
  aabbTouchesPortal : Vector2s → Vector2s → Option Bool
  teleportPoint : Vector2s → Bool → Vector2s
  teleportPointThroughPlaneA : Vector2s → Vector2s
  teleportPointThroughPlaneB : Vector2s → Vector2s
  isLeesEdwards : Bool
  getKinematicVelocityOfAABB : Vector2s → Vector2s → Vector2s

/-- Modelled from the spec: a body force (§3), able to compute a potential
`U(q, M)`; class `RigidBody2DForce` is absent from the sources. -/
structure RigidBody2DForce where
  computePotential : VectorXs → List ℚ → ℚ

/-- Modelled from the spec: the state (§3, §4.A); class `RigidBody2DState` is
absent from the sources.  `M` holds the diagonal of the mass matrix. -/
structure RigidBody2DState where
  q : VectorXs
  v : VectorXs
  M : List ℚ
  geometry : List RigidBody2DGeometry
  geometryIndices : List Nat
  planes : List StaticPlane
  planarPortals : List PlanarPortal
  forces : List RigidBody2DForce

/-- The lookup `m_state.geometry()[ m_state.geometryIndices()( bdy_idx ) ]`,
which is also what the accessor `m_state.bodyGeometry( bdy_idx )` returns. -/
def RigidBody2DState.bodyGeometry (st : RigidBody2DState) (bdy_idx : Nat) : RigidBody2DGeometry :=
  st.geometry.getD (st.geometryIndices.getD bdy_idx 0) default

/-! ## Constraints -/

/-- Modelled from the spec: the four constraint variants (§3), each holding the
arguments its constructor is called with in `RigidBody2DSim.cpp`. -/
inductive Constraint where
  | staticPlaneCircle (body : Nat) (plane : Nat) (r : ℚ) (pl : StaticPlane)
  | circleCircle (i j : Nat) (n p : Vector2s) (r0 r1 : ℚ)
  | teleportedCircleCircle (i j : Nat) (x0 x1 : Vector2s) (r0 r1 : ℚ)
      (delta0 delta1 : Vector2s) (rr0 rr1 : ℚ)
  | kinematicKickCircleCircle (i j : Nat) (x0 x1 : Vector2s) (r0 r1 : ℚ) (kick : Vector2s)
deriving DecidableEq

/-- The dynamic type of a constraint, as `typeid` reports it. -/
inductive ConstraintType where
  | StaticPlaneCircleConstraint
  | CircleCircleConstraint
  | TeleportedCircleCircleConstraint
  | KinematicKickCircleCircleConstraint
deriving DecidableEq

/-- The result of `typeid( constraint )`. -/
def Constraint.typeid : Constraint → ConstraintType
  | .staticPlaneCircle .. => .StaticPlaneCircleConstraint
  | .circleCircle .. => .CircleCircleConstraint
  | .teleportedCircleCircle .. => .TeleportedCircleCircleConstraint
  | .kinematicKickCircleCircle .. => .KinematicKickCircleCircleConstraint

/-- Modelled from the spec: `getBodyIndices` (§4.G): `(i, j)`, with `j = −1` for
a constraint on one body. -/
def Constraint.getBodyIndices : Constraint → Int × Int
  | .staticPlaneCircle body _ _ _ => (body, -1)
  | .circleCircle i j _ _ _ _ => (i, j)
  | .teleportedCircleCircle i j _ _ _ _ _ _ _ _ => (i, j)
  | .kinematicKickCircleCircle i j _ _ _ _ _ => (i, j)

/-- Modelled from the spec: `CircleCircleConstraint::isActive` (§4.F): active
iff `‖x0 − x1‖ ≤ r0 + r1`.  A norm is at most `R` exactly when `R` is
non-negative and the squared norm is at most `R²`, which is how the test is
written over the rationals. -/
def CircleCircleConstraint.isActive (x0 x1 : Vector2s) (r0 r1 : ℚ) : Bool :=
  decide (0 ≤ r0 + r1 ∧ (x0.sub x1).squaredNorm ≤ (r0 + r1) * (r0 + r1))

/-- Modelled from the spec: `StaticPlaneCircleConstraint::isActive` (§4.F):
active iff `n·(x − x₀) ≤ r`. -/
def StaticPlaneCircleConstraint.isActive (x_circle : Vector2s) (r_circle : ℚ) (plane : StaticPlane) : Bool :=
  decide (plane.n.dot (x_circle.sub plane.x) ≤ r_circle)

/-- Modelled from the spec: `operator==` of a constraint class (§4.G): all the
fields of the variant match. -/
def Constraint.fieldsMatch (c0 c1 : Constraint) : Bool := decide (c0 = c1)

/-! ## Narrow phase (`RigidBody2DSim.cpp`) -/

/-- The static function `dispatchNarrowPhaseCollision`: activity is tested at
`q1`, the constraint is created from `q0`. -/
def dispatchNarrowPhaseCollision (sqrt : ℚ → ℚ) (idx0 idx1 : Nat)
    (geo0 geo1 : RigidBody2DGeometry) (q0 q1 : VectorXs)
    (active_set : List Constraint) : List Constraint :=
  match geo0 with
  | .circle r0 =>
    match geo1 with
    | .circle r1 =>
      if CircleCircleConstraint.isActive (segment2 q1 (3 * idx0)) (segment2 q1 (3 * idx1)) r0 r1 then
        let n := ((segment2 q0 (3 * idx0)).sub (segment2 q0 (3 * idx1))).normalized sqrt
        let p := (segment2 q0 (3 * idx0)).add
          (Vector2s.smul (r0 / (r0 + r1)) ((segment2 q0 (3 * idx1)).sub (segment2 q0 (3 * idx0))))
        active_set ++ [Constraint.circleCircle idx0 idx1 n p r0 r1]
      else
        active_set

/-- The static function `collisionIsActive` on centres, angles and geometries. -/
def collisionIsActive (x0 : Vector2s) (_theta0 : ℚ) (geo0 : RigidBody2DGeometry)
    (x1 : Vector2s) (_theta1 : ℚ) (geo1 : RigidBody2DGeometry) : Bool :=
  match geo0 with
  | .circle r0 =>
    match geo1 with
    | .circle r1 =>
      if CircleCircleConstraint.isActive x0 x1 r0 r1 then true else false

/-- The static overload of `collisionIsActive` on two body indices and `q`. -/
def collisionIsActiveIdx (idx0 idx1 : Nat) (geo0 geo1 : RigidBody2DGeometry) (q : VectorXs) : Bool :=
  let x0 := segment2 q (3 * idx0)
  let theta0 := q.getD (3 * idx0 + 2) 0
  let x1 := segment2 q (3 * idx1)
  let theta1 := q.getD (3 * idx1 + 2) 0
  collisionIsActive x0 theta0 geo0 x1 theta1 geo1

/-! ## Teleported collisions -/

/-- Modelled from the spec: `TeleportedBody` (§4.E): the body, the portal and
the plane side behind a virtual bounding box. -/
structure TeleportedBody where
  bodyIndex : Nat
  portalIndex : Nat
  planeIndex : Bool
deriving DecidableEq

/-- Modelled from the spec: `TeleportedCollision` (§4.F), the record
`{ i, j, portal₀, portal₁, side₀, side₁ }` as the set of teleported collisions
keeps it. -/
structure TeleportedCollision where
  bodyIndex0 : Nat
  bodyIndex1 : Nat
  portalIndex0 : Nat
  portalIndex1 : Nat
  plane0 : Bool
  plane1 : Bool
deriving DecidableEq

/-- Modelled from the spec: the constructor of `TeleportedCollision` (§4.F,
§8). The record is written in its canonical order, the smaller body index
first, each body keeping its portal and its side, so that a pair of bodies
has one key whichever of the two comes first in the candidate. -/
def TeleportedCollision.new (body_index_0 body_index_1 portal_index_0 portal_index_1 : Nat)
    (plane_0 plane_1 : Bool) : TeleportedCollision :=
  if body_index_1 < body_index_0 then
    { bodyIndex0 := body_index_1, bodyIndex1 := body_index_0, portalIndex0 := portal_index_1,
      portalIndex1 := portal_index_0, plane0 := plane_1, plane1 := plane_0 }
  else
    { bodyIndex0 := body_index_0, bodyIndex1 := body_index_1, portalIndex0 := portal_index_0,
      portalIndex1 := portal_index_1, plane0 := plane_0, plane1 := plane_1 }

/-- Modelled from the spec: `TeleportedCollision::operator<` (§4.F, §5, §8).
The key of the set is the canonical pair of bodies `(i, j)`: the same pair
found through a second candidate is equivalent to the element already there,
so that its insertion is a no-op. The elements of the set, no two of which
have the same pair, are thereby in the increasing order of
`(i, j, portal₀, portal₁, side₀, side₁)`, see `TeleportedCollision.lexLt`. -/
def TeleportedCollision.lt (a b : TeleportedCollision) : Bool :=
  decide (a.bodyIndex0 < b.bodyIndex0 ∨ (a.bodyIndex0 = b.bodyIndex0 ∧
    a.bodyIndex1 < b.bodyIndex1))

/-- The lexicographic order of `(i, j, portal₀, portal₁, side₀, side₁)` (§5). -/
def TeleportedCollision.lexLt (a b : TeleportedCollision) : Bool :=
  decide (a.bodyIndex0 < b.bodyIndex0 ∨ (a.bodyIndex0 = b.bodyIndex0 ∧
    (a.bodyIndex1 < b.bodyIndex1 ∨ (a.bodyIndex1 = b.bodyIndex1 ∧
    (a.portalIndex0 < b.portalIndex0 ∨ (a.portalIndex0 = b.portalIndex0 ∧
    (a.portalIndex1 < b.portalIndex1 ∨ (a.portalIndex1 = b.portalIndex1 ∧
    (a.plane0 < b.plane0 ∨ (a.plane0 = b.plane0 ∧ a.plane1 < b.plane1))))))))))

/-- The order of `std::pair<unsigned,unsigned>`: lexicographic. -/
def pairLt (a b : Nat × Nat) : Bool :=
  decide (a.1 < b.1 ∨ (a.1 = b.1 ∧ a.2 < b.2))

/-- The operation `std::set::insert` on the increasing list of the set's elements:
the element is placed before the first one that is not smaller, unless that
one is equivalent to it, in which case nothing changes. -/
def setInsert {α : Type} (lt : α → α → Bool) (a : α) : List α → List α
  | [] => [a]
  | e :: s =>
    if lt e a then e :: setInsert lt a s
    else if lt a e then a :: e :: s
    else e :: s

/-- Member function `getTeleportedCollisionCenter`; `none` stands for the
out-of-range access `planarPortals()[ portal_index ]`. -/
def getTeleportedCollisionCenter (st : RigidBody2DState) (portal_index : Nat)
    (portal_plane : Bool) (x : Vector2s) : Option Vector2s :=
  match st.planarPortals[portal_index]? with
  | none => none
  | some portal =>
    if portal_plane = false then some (portal.teleportPointThroughPlaneA x)
    else some (portal.teleportPointThroughPlaneB x)

/-- Member function `getTeleportedCollisionCenters`. -/
def getTeleportedCollisionCenters (st : RigidBody2DState) (q : VectorXs)
    (teleported_collision : TeleportedCollision) : Option (Vector2s × Vector2s) :=
  let idx0 := teleported_collision.bodyIndex0
  let idx1 := teleported_collision.bodyIndex1
  let prtl_idx0 := teleported_collision.portalIndex0
  let prtl_idx1 := teleported_collision.portalIndex1
  let x0 := if prtl_idx0 ≠ UNSIGNED_MAX then
      getTeleportedCollisionCenter st prtl_idx0 teleported_collision.plane0 (segment2 q (3 * idx0))
    else some (segment2 q (3 * idx0))
  let x1 := if prtl_idx1 ≠ UNSIGNED_MAX then
      getTeleportedCollisionCenter st prtl_idx1 teleported_collision.plane1 (segment2 q (3 * idx1))
    else some (segment2 q (3 * idx1))
  match x0, x1 with
  | some a, some b => some (a, b)
  | _, _ => none

/-- Member function `teleportedCollisionIsActive`. -/
def teleportedCollisionIsActive (st : RigidBody2DState) (teleported_collision : TeleportedCollision)
    (geo0 geo1 : RigidBody2DGeometry) (q : VectorXs) : Option Bool :=
  match getTeleportedCollisionCenters st q teleported_collision with
  | none => none
  | some (x0, x1) =>
    let theta0 := q.getD (3 * teleported_collision.bodyIndex0 + 2) 0
    let theta1 := q.getD (3 * teleported_collision.bodyIndex1 + 2) 0
    some (collisionIsActive x0 theta0 geo0 x1 theta1 geo1)

/-- Whether the portal of one side of a teleported collision is Lees-Edwards
(the two blocks "determine whether the first / second body was teleported"). -/
def portalIsLeesEdwards (st : RigidBody2DState) (portal_index : Nat) : Option Bool :=
  if portal_index ≠ UNSIGNED_MAX then
    match st.planarPortals[portal_index]? with
    | none => none
    | some portal => some portal.isLeesEdwards
  else some false

/-- The kinematic velocity a portal imposes on the box of a body at `q1`. -/
def kinematicVelocityOfBody (st : RigidBody2DState) (portal_index body_index : Nat)
    (geo : RigidBody2DGeometry) (q1 : VectorXs) : Option Vector2s :=
  match st.planarPortals[portal_index]? with
  | none => none
  | some portal =>
    let box := geo.computeAABB (segment2 q1 (3 * body_index)) (q1.getD (3 * body_index + 2) 0)
    some (portal.getKinematicVelocityOfAABB box.min box.max)

/-- Member function `dispatchTeleportedNarrowPhaseCollision`. -/
def dispatchTeleportedNarrowPhaseCollision (st : RigidBody2DState)
    (teleported_collision : TeleportedCollision) (geo0 geo1 : RigidBody2DGeometry)
    (q0 q1 : VectorXs) (active_set : List Constraint) : Option (List Constraint) :=
  match getTeleportedCollisionCenters st q0 teleported_collision,
      getTeleportedCollisionCenters st q1 teleported_collision,
      portalIsLeesEdwards st teleported_collision.portalIndex0,
      portalIsLeesEdwards st teleported_collision.portalIndex1 with
  | some (x0_t0, x1_t0), some (x0_t1, x1_t1), some portal0_is_lees_edwards,
      some portal1_is_lees_edwards =>
    let delta0_t0 := x0_t0.sub (segment2 q0 (3 * teleported_collision.bodyIndex0))
    let delta1_t0 := x1_t0.sub (segment2 q0 (3 * teleported_collision.bodyIndex1))
    if !portal0_is_lees_edwards && !portal1_is_lees_edwards then
      match geo0 with
      | .circle r0 =>
        match geo1 with
        | .circle r1 =>
          if CircleCircleConstraint.isActive x0_t1 x1_t1 r0 r1 then
            some (active_set ++ [Constraint.teleportedCircleCircle teleported_collision.bodyIndex0
              teleported_collision.bodyIndex1 x0_t0 x1_t0 r0 r1 delta0_t0 delta1_t0 r0 r1])
          else some active_set
    else
      let kinematic_kick :=
        if portal1_is_lees_edwards then
          kinematicVelocityOfBody st teleported_collision.portalIndex1
            teleported_collision.bodyIndex1 geo1 q1
        else
          (kinematicVelocityOfBody st teleported_collision.portalIndex0
            teleported_collision.bodyIndex0 geo0 q1).map Vector2s.neg
      match kinematic_kick with
      | none => none
      | some kick =>
        match geo0 with
        | .circle r0 =>
          match geo1 with
          | .circle r1 =>
            if CircleCircleConstraint.isActive x0_t1 x1_t1 r0 r1 then
              some (active_set ++ [Constraint.kinematicKickCircleCircle
                teleported_collision.bodyIndex0 teleported_collision.bodyIndex1
                x0_t0 x1_t0 r0 r1 kick])
            else some active_set
  | _, _, _, _ => none

/-! ## Active set assembly -/

/-- Member function `computeBodyBodyActiveSetAllPairs`. -/
def computeBodyBodyActiveSetAllPairs (sqrt : ℚ → ℚ) (st : RigidBody2DState)
    (q0 q1 : VectorXs) (active_set : List Constraint) : List Constraint :=
  let nbodies := q0.length / 3
  (List.range nbodies).foldl (fun acc0 bdy_idx_0 =>
    (List.range' (bdy_idx_0 + 1) (nbodies - (bdy_idx_0 + 1))).foldl (fun acc1 bdy_idx_1 =>
      let geo0 := st.geometry.getD (st.geometryIndices.getD bdy_idx_0 0) default
      let geo1 := st.geometry.getD (st.geometryIndices.getD bdy_idx_1 0) default
      dispatchNarrowPhaseCollision sqrt bdy_idx_0 bdy_idx_1 geo0 geo1 q0 q1 acc1) acc0) active_set

/-- Member function `computeBodyPlaneActiveSetAllPairs`. -/
def computeBodyPlaneActiveSetAllPairs (st : RigidBody2DState)
    (q0 q1 : VectorXs) (active_set : List Constraint) : List Constraint :=
  let nbodies := q0.length / 3
  (List.range st.planes.length).foldl (fun acc0 plane_idx =>
    (List.range nbodies).foldl (fun acc1 bdy_idx =>
      match st.geometry.getD (st.geometryIndices.getD bdy_idx 0) default with
      | .circle r =>
        if StaticPlaneCircleConstraint.isActive (segment2 q1 (3 * bdy_idx)) r
            (st.planes.getD plane_idx default) then
          acc1 ++ [Constraint.staticPlaneCircle bdy_idx plane_idx r (st.planes.getD plane_idx default)]
        else acc1) acc0) active_set

/-- The loop "compute an AABB for each body" of the spatial grid functions. -/
def computeBodyAABBs (st : RigidBody2DState) (q : VectorXs) (nbodies : Nat) : List AABB :=
  (List.range nbodies).map (fun bdy_idx =>
    (st.bodyGeometry bdy_idx).computeAABB (segment2 q (3 * bdy_idx)) (q.getD (3 * bdy_idx + 2) 0))

/-- The inner loop "for each body" of the teleport indexer, for one portal: a
body whose box touches the portal gets a box at its teleported centre, appended
to `aabbs`, and an entry of the map from box index to `TeleportedBody`. -/
def teleportBodiesThroughPortal (st : RigidBody2DState) (q : VectorXs) (nbodies : Nat)
    (planar_portal : PlanarPortal) (prtl_idx : Nat)
    (acc : List AABB × List (Nat × TeleportedBody)) : List AABB × List (Nat × TeleportedBody) :=
  (List.range nbodies).foldl (fun acc bdy_idx =>
    match planar_portal.aabbTouchesPortal (acc.1.getD bdy_idx default).min
        (acc.1.getD bdy_idx default).max with
    | some intersecting_plane_index =>
      let x_out := planar_portal.teleportPoint (segment2 q (3 * bdy_idx)) intersecting_plane_index
      let box := (st.bodyGeometry bdy_idx).computeAABB x_out (q.getD (3 * bdy_idx + 2) 0)
      let aabbs := acc.1 ++ [box]
      (aabbs, acc.2 ++ [(aabbs.length - 1,
        ({ bodyIndex := bdy_idx, portalIndex := prtl_idx,
           planeIndex := intersecting_plane_index } : TeleportedBody))])
    | none => acc) acc

/-- The outer loop "for each portal" of the teleport indexer; `prtl_idx` is the
position of the portal in `planarPortals()`, what `Utilities::index` returns. -/
def teleportIndexer (st : RigidBody2DState) (q : VectorXs) (nbodies : Nat) :
    List PlanarPortal → Nat → List AABB × List (Nat × TeleportedBody) →
    List AABB × List (Nat × TeleportedBody)
  | [], _, acc => acc
  | planar_portal :: rest, prtl_idx, acc =>
    teleportIndexer st q nbodies rest (prtl_idx + 1)
      (teleportBodiesThroughPortal st q nbodies planar_portal prtl_idx acc)

/-- The boxes (real, then virtual) and the map of the virtual ones, as built at
the start of `computeBodyBodyActiveSetSpatialGrid` and `bodyCollidesWithAnother`. -/
def buildAABBs (st : RigidBody2DState) (q : VectorXs) (nbodies : Nat) :
    List AABB × List (Nat × TeleportedBody) :=
  teleportIndexer st q nbodies st.planarPortals 0 (computeBodyAABBs st q nbodies, [])

/-- The local variables the candidate loop of
`computeBodyBodyActiveSetSpatialGrid` updates. -/
structure OverlapLoopState where
  active_set : List Constraint
  teleported_collisions : List TeleportedCollision
  duplicate_indices : List (Nat × Nat)

/-- The lookup of a candidate index: itself when it is a body, the entry of
the map when it is a virtual box (`none`: `find` returned `end()`). -/
def resolveCandidate (nbodies : Nat) (teleported_aabb_body_indices : List (Nat × TeleportedBody))
    (idx : Nat) : Option (Nat × Nat × Bool) :=
  if idx ≥ nbodies then
    match teleported_aabb_body_indices.lookup idx with
    | none => none
    | some tb => some (tb.bodyIndex, tb.portalIndex, tb.planeIndex)
  else some (idx, UNSIGNED_MAX, false)

/-- One iteration of the loop "create constraints for bodies that actually overlap". -/
def processCandidate (sqrt : ℚ → ℚ) (st : RigidBody2DState) (nbodies : Nat)
    (teleported_aabb_body_indices : List (Nat × TeleportedBody)) (q0 q1 : VectorXs)
    (s : OverlapLoopState) (possible_overlap_pair : Nat × Nat) : Option OverlapLoopState :=
  let first_teleported := decide (possible_overlap_pair.1 ≥ nbodies)
  let second_teleported := decide (possible_overlap_pair.2 ≥ nbodies)
  if !first_teleported && !second_teleported then
    some { s with active_set := (dispatchNarrowPhaseCollision sqrt possible_overlap_pair.1
      possible_overlap_pair.2 (st.bodyGeometry possible_overlap_pair.1)
      (st.bodyGeometry possible_overlap_pair.2) q0 q1 s.active_set) }
  else
    match resolveCandidate nbodies teleported_aabb_body_indices possible_overlap_pair.1,
        resolveCandidate nbodies teleported_aabb_body_indices possible_overlap_pair.2 with
    | some (bdy_idx_0, prtl_idx_0, prtl_plane_0), some (bdy_idx_1, prtl_idx_1, prtl_plane_1) =>
      if first_teleported && second_teleported &&
          collisionIsActiveIdx bdy_idx_0 bdy_idx_1 (st.bodyGeometry bdy_idx_0)
            (st.bodyGeometry bdy_idx_1) q1 then
        some { s with duplicate_indices := (s.duplicate_indices ++ [(bdy_idx_0, bdy_idx_1)]) }
      else
        let possible_collision : TeleportedCollision :=
          TeleportedCollision.new bdy_idx_0 bdy_idx_1 prtl_idx_0 prtl_idx_1 prtl_plane_0
            prtl_plane_1
        match teleportedCollisionIsActive st possible_collision (st.bodyGeometry bdy_idx_0)
            (st.bodyGeometry bdy_idx_1) q1 with
        | none => none
        | some true =>
          some { s with teleported_collisions :=
            (setInsert TeleportedCollision.lt possible_collision s.teleported_collisions) }
        | some false => some s
    | _, _ => none

/-- The loop "create constraints for teleported collisions". -/
def dispatchTeleportedCollisions (st : RigidBody2DState) (q0 q1 : VectorXs) :
    List TeleportedCollision → List Constraint → Option (List Constraint)
  | [], active_set => some active_set
  | teleported_collision :: rest, active_set =>
    match dispatchTeleportedNarrowPhaseCollision st teleported_collision
        (st.bodyGeometry teleported_collision.bodyIndex0)
        (st.bodyGeometry teleported_collision.bodyIndex1) q0 q1 active_set with
    | none => none
    | some next => dispatchTeleportedCollisions st q0 q1 rest next

/-- The loop over `possible_overlaps`, in the order of the set. -/
def processCandidates (sqrt : ℚ → ℚ) (st : RigidBody2DState) (nbodies : Nat)
    (teleported_aabb_body_indices : List (Nat × TeleportedBody)) (q0 q1 : VectorXs) :
    List (Nat × Nat) → OverlapLoopState → Option OverlapLoopState
  | [], s => some s
  | possible_overlap_pair :: rest, s =>
    match processCandidate sqrt st nbodies teleported_aabb_body_indices q0 q1 s
        possible_overlap_pair with
    | none => none
    | some next =>
      processCandidates sqrt st nbodies teleported_aabb_body_indices q0 q1 rest next

/-- The set `possible_overlaps` that `SpatialGrid::getPotentialOverlaps` fills:
`getPotentialOverlaps` (class `SpatialGrid` is absent from the sources, hence a
parameter) lists the pairs it inserts, the `std::set` keeps them increasing and
without repetition. -/
def possibleOverlaps (getPotentialOverlaps : List AABB → List (Nat × Nat))
    (aabbs : List AABB) : List (Nat × Nat) :=
  (getPotentialOverlaps aabbs).foldl (fun set pair => setInsert pairLt pair set) []

/-- Member function `computeBodyBodyActiveSetSpatialGrid`, without its debug
assertions; `none` stands for a failed lookup (undefined behaviour). -/
def computeBodyBodyActiveSetSpatialGrid (sqrt : ℚ → ℚ)
    (getPotentialOverlaps : List AABB → List (Nat × Nat)) (st : RigidBody2DState)
    (q0 q1 : VectorXs) (active_set : List Constraint) : Option (List Constraint) :=
  let nbodies := q0.length / 3
  let boxes := buildAABBs st q1 nbodies
  let possible_overlaps := possibleOverlaps getPotentialOverlaps boxes.1
  match processCandidates sqrt st nbodies boxes.2 q0 q1 possible_overlaps
      { active_set := active_set, teleported_collisions := [], duplicate_indices := [] } with
  | none => none
  | some s => dispatchTeleportedCollisions st q0 q1 s.teleported_collisions s.active_set

/-- Whether two constraints refer to the same unordered pair of body indices,
the condition negated in the final debug assertion. -/
def sameBodyPair (c0 c1 : Constraint) : Bool :=
  let indices0 := c0.getBodyIndices
  let indices1 := c1.getBodyIndices
  decide (min indices0.1 indices0.2 = min indices1.1 indices1.2 ∧
    max indices0.1 indices0.2 = max indices1.1 indices1.2)

/-- The debug block "do an all pairs check for duplicates" at the end of
`computeBodyBodyActiveSetSpatialGrid`: true iff none of its assertions fails. -/
def allPairsDuplicateCheck : List Constraint → Bool
  | [] => true
  | c0 :: rest => rest.all (fun c1 => !sameBodyPair c0 c1) && allPairsDuplicateCheck rest

/-- Member function `computeActiveSet`: the output is cleared, then filled by
the spatial grid and the body-plane scan. -/
def computeActiveSet (sqrt : ℚ → ℚ) (getPotentialOverlaps : List AABB → List (Nat × Nat))
    (st : RigidBody2DState) (q0 q1 : VectorXs) (_active_set : List Constraint) :
    Option (List Constraint) :=
  match computeBodyBodyActiveSetSpatialGrid sqrt getPotentialOverlaps st q0 q1 [] with
  | none => none
  | some active_set => some (computeBodyPlaneActiveSetAllPairs st q0 q1 active_set)

/-- The assertion `fabs( current_normal.norm() - 1.0 ) <= 1.0e-6` of
`computeImpactBases`, written on the squared norm. -/
def unitNormAssertion (current_normal : Vector2s) : Bool :=
  decide ((1 - 1 / 1000000) * (1 - 1 / 1000000) ≤ current_normal.squaredNorm ∧
    current_normal.squaredNorm ≤ (1 + 1 / 1000000) * (1 + 1 / 1000000))

/-- Member function `equal`; `none` stands for `std::exit( EXIT_FAILURE )`. -/
def equal (constraint0 constraint1 : Constraint) : Option Bool :=
  let type0 := constraint0.typeid
  let type1 := constraint1.typeid
  if type0 ≠ type1 then some false
  else if type0 = ConstraintType.StaticPlaneCircleConstraint then
    some (constraint0.fieldsMatch constraint1)
  else if type0 = ConstraintType.CircleCircleConstraint then
    some (constraint0.fieldsMatch constraint1)
  else if type0 = ConstraintType.TeleportedCircleCircleConstraint then
    some (constraint0.fieldsMatch constraint1)
  else none

/-! ## Periodic boundary conditions -/

/-- The inner loop "for each body" of `enforcePeriodicBoundaryConditions`. -/
def enforcePortal (planar_portal : PlanarPortal) (nbodies : Nat) (q : VectorXs) : VectorXs :=
  (List.range nbodies).foldl (fun q bdy_idx =>
    if planar_portal.pointInsidePortal (segment2 q (3 * bdy_idx)) then
      setSegment2 q (3 * bdy_idx) (planar_portal.teleportPointInsidePortal (segment2 q (3 * bdy_idx)))
    else q) q

/-- Member function `enforcePeriodicBoundaryConditions`. -/
def enforcePeriodicBoundaryConditions (st : RigidBody2DState) (q : VectorXs) : VectorXs :=
  let nbodies := q.length / 3
  st.planarPortals.foldl (fun q planar_portal => enforcePortal planar_portal nbodies q) q

/-! ## Concrete inputs used by the examples -/

/-- The periodic portal of the spec's scenario 4, with period `L`: it identifies
the plane `y = 0` (normal `(0, 1)`, side A) with the plane `y = L` (normal
`(0, −1)`, side B).  A point is inside the portal when it lies behind one of the
two planes; teleporting through a plane translates by the period. -/
def slabPortal (L : ℚ) : PlanarPortal where
  pointInsidePortal := fun x => decide (x.y < 0 ∨ L < x.y)
  teleportPointInsidePortal := fun x => if x.y < 0 then ⟨x.x, x.y + L⟩ else ⟨x.x, x.y - L⟩
  aabbTouchesPortal := fun min max =>
    if min.y < 0 then some false else if L < max.y then some true else none
  teleportPoint := fun x side => if side = false then ⟨x.x, x.y + L⟩ else ⟨x.x, x.y - L⟩
  teleportPointThroughPlaneA := fun x => ⟨x.x, x.y + L⟩
  teleportPointThroughPlaneB := fun x => ⟨x.x, x.y - L⟩
  isLeesEdwards := false
  getKinematicVelocityOfAABB := fun _ _ => ⟨0, 0⟩

/-- A broad phase that returns exactly the pairs `(a, b)`, `a < b`, of boxes
that overlap, in increasing order. -/
def bruteForceOverlaps (aabbs : List AABB) : List (Nat × Nat) :=
  (List.range aabbs.length).flatMap (fun a =>
    (List.range' (a + 1) (aabbs.length - (a + 1))).filterMap (fun b =>
      if (aabbs.getD a default).overlaps (aabbs.getD b default) then some (a, b) else none))

/-- A state of `n` bodies that are all disks of radius `r`, with the given
planes and portals and no forces. -/
def diskState (n : Nat) (r : ℚ) (q : VectorXs) (planes : List StaticPlane)
    (portals : List PlanarPortal) : RigidBody2DState where
  q := q
  v := List.replicate (3 * n) 0
  M := List.replicate (3 * n) 1
  geometry := [RigidBody2DGeometry.circle r]
  geometryIndices := List.replicate n 0
  planes := planes
  planarPortals := portals
  forces := []

/-! ## Auxiliary definitions used in the statements -/

/-- Passing a point through one portal of the wrap: teleported once when inside. -/
def wrapPoint (p : PlanarPortal) (x : Vector2s) : Vector2s :=
  if p.pointInsidePortal x then p.teleportPointInsidePortal x else x

/-- The accessor `CircleGeometry::r()`. -/
def RigidBody2DGeometry.r : RigidBody2DGeometry → ℚ
  | .circle r => r

/-- The signed distance `n·(x − x₀)` from plane `plane_idx` of the state to the
centre of body `bdy_idx` in `q`. -/
def planeDistance (st : RigidBody2DState) (q : VectorXs) (plane_idx bdy_idx : Nat) : ℚ :=
  (st.planes.getD plane_idx default).n.dot
    ((segment2 q (3 * bdy_idx)).sub (st.planes.getD plane_idx default).x)

/-- The `StaticPlaneCircle` constraint of body `bdy_idx` against plane
`plane_idx`: body index, plane index, the radius of the body and the plane. -/
def staticPlaneCircleOf (st : RigidBody2DState) (plane_idx bdy_idx : Nat) : Constraint :=
  Constraint.staticPlaneCircle bdy_idx plane_idx (st.bodyGeometry bdy_idx).r
    (st.planes.getD plane_idx default)

/-- The `CircleCircle` constraint the narrow phase creates for bodies `i`, `j`:
the unit normal `(x_i − x_j)/‖x_i − x_j‖` and the anchor
`x_i + r_i/(r_i + r_j)·(x_j − x_i)`, with the centres read in `q0`. -/
def circleCircleOf (sqrt : ℚ → ℚ) (st : RigidBody2DState) (q0 : VectorXs) (i j : Nat) : Constraint :=
  Constraint.circleCircle i j
    (((segment2 q0 (3 * i)).sub (segment2 q0 (3 * j))).normalized sqrt)
    ((segment2 q0 (3 * i)).add
      (Vector2s.smul ((st.bodyGeometry i).r / ((st.bodyGeometry i).r + (st.bodyGeometry j).r))
        ((segment2 q0 (3 * j)).sub (segment2 q0 (3 * i)))))
    (st.bodyGeometry i).r (st.bodyGeometry j).r

/-- The narrow-phase predicate `‖x_i − x_j‖ ≤ r_i + r_j` for the bodies `i`, `j`
of the state at the configuration `q`, with the real square root. -/
def centresWithinRadii (st : RigidBody2DState) (q : VectorXs) (i j : Nat) : Prop :=
  Real.sqrt ((((segment2 q (3 * i)).sub (segment2 q (3 * j))).squaredNorm : ℚ) : ℝ)
    ≤ ((((st.bodyGeometry i).r + (st.bodyGeometry j).r : ℚ)) : ℝ)

/-- What an iteration of the candidate loop appends to the active set: the
result of the standard narrow phase when both indices are bodies, nothing
when one of them is a virtual box. -/
def realPairConstraints (sqrt : ℚ → ℚ) (st : RigidBody2DState) (nbodies : Nat)
    (q0 q1 : VectorXs) (pair : Nat × Nat) : List Constraint :=
  if pair.1 < nbodies ∧ pair.2 < nbodies then
    dispatchNarrowPhaseCollision sqrt pair.1 pair.2 (st.bodyGeometry pair.1)
      (st.bodyGeometry pair.2) q0 q1 []
  else []

/-- Two unit disks above the plane through the origin with normal `(0, 1)`: at
`restingDisksQ` the first one, centred at `(0, 1)`, is tangent to the plane and
the second one, centred at `(5, 3)`, is away from it. -/
def restingDisksQ : VectorXs := [0, 1, 0, 5, 3, 0]

/-- The state of the two disks of `restingDisksQ` and the plane. -/
def restingDisksState : RigidBody2DState :=
  diskState 2 1 restingDisksQ [⟨⟨0, 0⟩, ⟨0, 1⟩⟩] []

/-- Two unit disks at `(0, 11/10)` and `(0, 21/10)`: they overlap. -/
def narrowDomainQ : VectorXs := [0, 11 / 10, 0, 0, 21 / 10, 0]

/-- The two unit disks in a periodic domain of period `5/2`, narrower than two
diameters: the disks overlap directly and also through the portal. -/
def narrowDomainState : RigidBody2DState :=
  diskState 2 1 narrowDomainQ [] [slabPortal (5 / 2)]

/-- Whether a constraint is of the variant `CircleCircle`. -/
def isCircleCircle (c : Constraint) : Bool :=
  decide (c.typeid = ConstraintType.CircleCircleConstraint)

/-- The invariant of the teleport indexer: the boxes are the boxes `base` of the
bodies followed by virtual boxes, the keys of the map are the indices of the
virtual boxes in increasing order, and every entry records a body and a portal
index below `nportals`. -/
def IndexerInvariant (base : List AABB) (nportals : Nat)
    (acc : List AABB × List (Nat × TeleportedBody)) : Prop :=
  ∃ virt, acc.1 = base ++ virt ∧
    acc.2.map Prod.fst = List.range' base.length virt.length ∧
    ∀ e ∈ acc.2, e.2.bodyIndex < base.length ∧ e.2.portalIndex < nportals

/-- A portal index of a teleported collision is usable: it is the "no portal"
mark or the index of a portal of the state. -/
def ValidPortalIndex (st : RigidBody2DState) (portal_index : Nat) : Prop :=
  portal_index ≠ UNSIGNED_MAX → portal_index < st.planarPortals.length

/-- A teleported collision refers to bodies of the state and to usable portal
indices. -/
def ValidTeleportedCollision (st : RigidBody2DState) (nbodies : Nat)
    (tc : TeleportedCollision) : Prop :=
  tc.bodyIndex0 < nbodies ∧ tc.bodyIndex1 < nbodies ∧
    ValidPortalIndex st tc.portalIndex0 ∧ ValidPortalIndex st tc.portalIndex1

/-! ## Energy and momentum (`RigidBody2DSim.cpp`) -/

/-- Eigen's `dot` of two dynamically sized vectors. -/
def VectorXs.dot (a b : VectorXs) : ℚ := (List.zipWith (fun x y => x * y) a b).sum

/-- The product `M * v` of the mass matrix, which is diagonal and stored as its
diagonal, with a vector. -/
def massTimes (M : List ℚ) (v : VectorXs) : VectorXs := List.zipWith (fun m x => m * x) M v

/-- Modelled from the spec: the accessor `m_state.m( bdy_idx )` (§3): the mass
of a body is the entry `M[3i, 3i]`. -/
def RigidBody2DState.m (st : RigidBody2DState) (bdy_idx : Nat) : ℚ := st.M.getD (3 * bdy_idx) 0

/-- Modelled from the spec: the accessor `m_state.I( bdy_idx )` (§3): the
moment of inertia of a body is the entry `M[3i+2, 3i+2]`. -/
def RigidBody2DState.I (st : RigidBody2DState) (bdy_idx : Nat) : ℚ :=
  st.M.getD (3 * bdy_idx + 2) 0

/-- Modelled from the spec: `MathUtilities::cross` (§4.J): the 2D cross
product, a scalar. -/
def MathUtilities.cross (a b : Vector2s) : ℚ := a.x * b.y - a.y * b.x

/-- Member function `computeKineticEnergy`. -/
def computeKineticEnergy (st : RigidBody2DState) : ℚ :=
  (1 / 2) * VectorXs.dot st.v (massTimes st.M st.v)

/-- Member function `computePotentialEnergy`. -/
def computePotentialEnergy (st : RigidBody2DState) : ℚ :=
  st.forces.foldl (fun U force => U + force.computePotential st.q st.M) 0

/-- Member function `computeTotalEnergy`. -/
def computeTotalEnergy (st : RigidBody2DState) : ℚ :=
  computeKineticEnergy st + computePotentialEnergy st

/-- Member function `computeAngularMomentum`; the result `L` has one entry. -/
def computeAngularMomentum (st : RigidBody2DState) (v : VectorXs) : VectorXs :=
  let nbodies := st.q.length / 3
  let L0 : ℚ := 0
  let L1 := (List.range nbodies).foldl (fun L bdy_idx =>
    L + st.m bdy_idx * MathUtilities.cross (segment2 st.q (3 * bdy_idx)) (segment2 v (3 * bdy_idx))) L0
  let L2 := (List.range nbodies).foldl (fun L bdy_idx =>
    L + st.I bdy_idx * v.getD (3 * bdy_idx + 2) 0) L1
  [L2]

/-- Member function `computeTotalAngularMomentum`. -/
def computeTotalAngularMomentum (st : RigidBody2DState) : ℚ :=
  (computeAngularMomentum st st.v).getD 0 0

/-! ## Constraint assembly -/

/-- Eigen's dense matrix `MatrixXXsc`: its size and its coefficients. -/
structure MatrixXXsc where
  rows : Nat
  cols : Nat
  coeff : Nat → Nat → ℚ

/-- Eigen's `resize`; the coefficients of the resized matrix are not specified
by Eigen, they are zero here. -/
def MatrixXXsc.resize (_M : MatrixXXsc) (rows cols : Nat) : MatrixXXsc :=
  { rows := rows, cols := cols, coeff := fun _ _ => 0 }

/-- The assignment `M.block<2,2>( 0, col ) = basis`. -/
def MatrixXXsc.setBlock22 (M : MatrixXXsc) (col : Nat) (basis : MatrixXXsc) : MatrixXXsc :=
  { M with coeff := fun i j =>
      if i < 2 ∧ col ≤ j ∧ j < col + 2 then basis.coeff i (j - col) else M.coeff i j }

/-- The column `M.col( j )` of a dense matrix. -/
def MatrixXXsc.col (M : MatrixXXsc) (j : Nat) : VectorXs :=
  (List.range M.rows).map (fun i => M.coeff i j)

/-- The loop of `computeContactBases`, from column `col_num` on, over the
constraints `active_set[col_num], ...` that remain; `computeBasis` is the
virtual method of the constraint classes, absent from the sources. -/
def computeContactBasesLoop (computeBasis : Constraint → VectorXs → VectorXs → MatrixXXsc)
    (q v : VectorXs) : List Constraint → Nat → MatrixXXsc → MatrixXXsc
  | [], _, contact_bases => contact_bases
  | constraint :: rest, col_num, contact_bases =>
    computeContactBasesLoop computeBasis q v rest (col_num + 1)
      (contact_bases.setBlock22 (2 * col_num) (computeBasis constraint q v))

/-- Member function `computeContactBases`. -/
def computeContactBases (computeBasis : Constraint → VectorXs → VectorXs → MatrixXXsc)
    (q v : VectorXs) (active_set : List Constraint) (contact_bases : MatrixXXsc) : MatrixXXsc :=
  let ncols := active_set.length
  computeContactBasesLoop computeBasis q v active_set 0 (contact_bases.resize 2 (2 * ncols))

/-! ## The generalized friction basis (`FrictionOperator.cpp`) -/

/-- The conversion of a number to `unsigned`, 32 bits wide. -/
def u32 (n : Nat) : Nat := n % 4294967296

/-- Eigen's sparse matrix `SparseMatrixsc`: its size, the room reserved per
column and its non-zero entries `(row, column, value)`. -/
structure SparseMatrixsc where
  rows : Nat
  cols : Nat
  reserved : List Nat
  entries : List (Nat × Nat × ℚ)

/-- Eigen's `resize` of a sparse matrix: the new size, no entry. -/
def SparseMatrixsc.resize (_D : SparseMatrixsc) (rows cols : Nat) : SparseMatrixsc :=
  { rows := rows, cols := cols, reserved := [], entries := [] }

/-- Eigen's `reserve`: room for the given number of entries in each column. -/
def SparseMatrixsc.reserve (D : SparseMatrixsc) (column_nonzeros : List Nat) : SparseMatrixsc :=
  { D with reserved := column_nonzeros }

/-- Eigen's `makeCompressed`: the storage is compacted, the matrix is the same. -/
def SparseMatrixsc.makeCompressed (D : SparseMatrixsc) : SparseMatrixsc := D

/-- The first loop of `formGeneralizedSmoothFrictionBasis`, which fills
`column_nonzeros`: `remaining` iterations are left, the iterator `itr` points
at the head of the list; `none` stands for an iterator moved past `K.end()`. -/
def smoothColumnNonzeros (frictionStencilSize : Constraint → Nat) (nsamples : Nat) :
    Nat → List Constraint → Nat → List Nat → Option (List Nat)
  | 0, _, _, column_nonzeros => some column_nonzeros
  | _ + 1, [], _, _ => none
  | remaining + 1, constraint :: rest, collision_number, column_nonzeros =>
    smoothColumnNonzeros frictionStencilSize nsamples remaining rest (u32 (collision_number + 1))
      ((List.range nsamples).foldl (fun column_nonzeros sample_number =>
        column_nonzeros.set (u32 (u32 (nsamples * collision_number) + sample_number))
          (frictionStencilSize constraint)) column_nonzeros)

/-- The inner loop over the samples of one constraint, second loop of
`formGeneralizedSmoothFrictionBasis`;
`computeGeneralizedFrictionGivenTangentSample` is the virtual method of the
constraint classes, absent from the sources. -/
def smoothSamples
    (computeGeneralizedFrictionGivenTangentSample :
      Constraint → VectorXs → VectorXs → Nat → SparseMatrixsc → SparseMatrixsc)
    (q : VectorXs) (bases : MatrixXXsc) (nambientdims nsamples : Nat)
    (constraint : Constraint) (collision_number : Nat) (D : SparseMatrixsc) : SparseMatrixsc :=
  (List.range nsamples).foldl (fun D sample_number =>
    let current_column := u32 (u32 (nsamples * collision_number) + sample_number)
    let current_sample :=
      bases.col (u32 (u32 (u32 (nambientdims * collision_number) + sample_number) + 1))
    computeGeneralizedFrictionGivenTangentSample constraint q current_sample current_column D) D

/-- The second loop of `formGeneralizedSmoothFrictionBasis`, over the constraints. -/
def smoothLoop
    (computeGeneralizedFrictionGivenTangentSample :
      Constraint → VectorXs → VectorXs → Nat → SparseMatrixsc → SparseMatrixsc)
    (q : VectorXs) (bases : MatrixXXsc) (nambientdims nsamples : Nat) :
    Nat → List Constraint → Nat → SparseMatrixsc → Option SparseMatrixsc
  | 0, _, _, D => some D
  | _ + 1, [], _, _ => none
  | remaining + 1, constraint :: rest, collision_number, D =>
    smoothLoop computeGeneralizedFrictionGivenTangentSample q bases nambientdims nsamples
      remaining rest (u32 (collision_number + 1))
      (smoothSamples computeGeneralizedFrictionGivenTangentSample q bases nambientdims nsamples
        constraint collision_number D)

/-- The function `FrictionOperator::formGeneralizedSmoothFrictionBasis`. -/
def formGeneralizedSmoothFrictionBasis (frictionStencilSize : Constraint → Nat)
    (computeGeneralizedFrictionGivenTangentSample :
      Constraint → VectorXs → VectorXs → Nat → SparseMatrixsc → SparseMatrixsc)
    (ndofs ncons : Nat) (q : VectorXs) (K : List Constraint) (bases : MatrixXXsc)
    (D : SparseMatrixsc) : Option SparseMatrixsc :=
  let nambientdims := u32 bases.rows
  let nsamples := u32 (nambientdims + 4294967295)
  let D1 := D.resize ndofs (u32 (nsamples * ncons))
  match smoothColumnNonzeros frictionStencilSize nsamples ncons K 0
      (List.replicate D1.cols 0) with
  | none => none
  | some column_nonzeros =>
    match smoothLoop computeGeneralizedFrictionGivenTangentSample q bases nambientdims nsamples
        ncons K 0 (D1.reserve column_nonzeros) with
    | none => none
    | some D2 => some D2.makeCompressed

/-- One call of `computeGeneralizedFrictionGivenTangentSample`: the number of
the constraint asked, the column of `bases` handed over as tangent and the
column of `D` to fill. -/
structure FrictionCall where
  collision_number : Nat
  tangent_column : Nat
  current_column : Nat
deriving DecidableEq

/-- The calls the friction basis is expected to make for `m` constraints in `d`
ambient dimensions: for each constraint `k` and sample `s < d − 1`, in this
order, one call filling column `(d−1)·k + s` from the tangent `d·k + s + 1`. -/
def frictionCalls (d m : Nat) : List FrictionCall :=
  (List.range m).flatMap (fun k =>
    (List.range (d - 1)).map (fun s =>
      ({ collision_number := k, tangent_column := d * k + s + 1,
         current_column := (d - 1) * k + s } : FrictionCall)))

/-- The effect of one call on `D`: constraint `collision_number` of `K` fills
the column. -/
def applyFrictionCall
    (computeGeneralizedFrictionGivenTangentSample :
      Constraint → VectorXs → VectorXs → Nat → SparseMatrixsc → SparseMatrixsc)
    (q : VectorXs) (K : List Constraint) (bases : MatrixXXsc)
    (D : SparseMatrixsc) (call : FrictionCall) : SparseMatrixsc :=
  match K[call.collision_number]? with
  | none => D
  | some constraint =>
    computeGeneralizedFrictionGivenTangentSample constraint q (bases.col call.tangent_column)
      call.current_column D

/-- Two `StaticPlaneCircle` constraints, used as a small active set. -/
def twoPlaneConstraints : List Constraint :=
  [Constraint.staticPlaneCircle 0 0 1 ⟨⟨0, 0⟩, ⟨0, 1⟩⟩,
   Constraint.staticPlaneCircle 1 0 1 ⟨⟨0, 0⟩, ⟨0, 1⟩⟩]

/-- A bases matrix with 2 rows and 4 columns: for each of two constraints the
normal `(0, 1)` and the tangent `(1, 0)`. -/
def twoContactBases : MatrixXXsc :=
  { rows := 2, cols := 4, coeff := fun i j => if (i + j) % 2 = 1 then 1 else 0 }

/-- A friction routine that records, in the column it is asked to fill, the
two components of the tangent it is given. -/
def recordTangent (_constraint : Constraint) (_q : VectorXs) (tangent : VectorXs)
    (column : Nat) (D : SparseMatrixsc) : SparseMatrixsc :=
  { D with entries := D.entries ++ [(0, column, tangent.getD 0 0), (1, column, tangent.getD 1 0)] }

/-! ## The time stepping drivers (`RigidBody2DSim::flow`) -/

/-- The class `UnconstrainedMap`, absent from the sources: its `flow` maps
`(q, v)`, the system, the iteration and the time step to `(q1, v1)`. -/
structure UnconstrainedMap where
  flow : VectorXs → VectorXs → RigidBody2DState → Nat → ℚ → VectorXs × VectorXs

/-- The class `ImpactMap`, absent from the sources: its `flow` is given the
system, the unconstrained map, the impact operator, the iteration, the time
step, the coefficient of restitution and `(q, v)`, and returns `(q1, v1)`. -/
structure ImpactMap (ImpactOperator : Type) where
  flow : RigidBody2DState → UnconstrainedMap → ImpactOperator → Nat → ℚ → ℚ →
    VectorXs → VectorXs → VectorXs × VectorXs

/-- The class `ImpactFrictionMap`, absent from the sources: its `flow` is given
the system, the unconstrained map, the friction solver, the iteration, the
time step, the coefficients of restitution and of friction and `(q, v)`, and
returns `(q1, v1)`. -/
structure ImpactFrictionMap (FrictionSolver : Type) where
  flow : RigidBody2DState → UnconstrainedMap → FrictionSolver → Nat → ℚ → ℚ → ℚ →
    VectorXs → VectorXs → VectorXs × VectorXs

/-- Member function `updatePeriodicBoundaryConditionsStartOfStep`;
`updateMovingPortals` is the method of `PlanarPortal`, absent from the sources. -/
def updatePeriodicBoundaryConditionsStartOfStep
    (updateMovingPortals : PlanarPortal → ℚ → PlanarPortal) (st : RigidBody2DState)
    (next_iteration : Nat) (dt : ℚ) : RigidBody2DState :=
  let t : ℚ := next_iteration * dt
  { st with planarPortals := st.planarPortals.map (fun planar_portal =>
      updateMovingPortals planar_portal t) }

/-- The end of every `flow`: `q1` and `v1` are swapped into the state, then the
periodic boundary conditions are enforced on the `q` of the state. -/
def commitAndEnforce (st : RigidBody2DState) (q1 v1 : VectorXs) : RigidBody2DState :=
  let swapped : RigidBody2DState := { st with q := q1, v := v1 }
  { swapped with q := enforcePeriodicBoundaryConditions swapped swapped.q }

/-- Member function `flow( iteration, dt, umap )`. -/
def flow (updateMovingPortals : PlanarPortal → ℚ → PlanarPortal) (st : RigidBody2DState)
    (iteration : Nat) (dt : ℚ) (umap : UnconstrainedMap) : RigidBody2DState :=
  let updated := updatePeriodicBoundaryConditionsStartOfStep updateMovingPortals st iteration dt
  let next := umap.flow updated.q updated.v updated iteration dt
  commitAndEnforce updated next.1 next.2

/-- Member function `flow( iteration, dt, umap, iop, CoR, imap )`. -/
def flowImpact {ImpactOperator : Type} (updateMovingPortals : PlanarPortal → ℚ → PlanarPortal)
    (st : RigidBody2DState) (iteration : Nat) (dt : ℚ) (umap : UnconstrainedMap)
    (iop : ImpactOperator) (CoR : ℚ) (imap : ImpactMap ImpactOperator) : RigidBody2DState :=
  let updated := updatePeriodicBoundaryConditionsStartOfStep updateMovingPortals st iteration dt
  let next := imap.flow updated umap iop iteration dt CoR updated.q updated.v
  commitAndEnforce updated next.1 next.2

/-- Member function `flow( iteration, dt, umap, CoR, mu, solver, ifmap )`. -/
def flowImpactFriction {FrictionSolver : Type}
    (updateMovingPortals : PlanarPortal → ℚ → PlanarPortal)
    (st : RigidBody2DState) (iteration : Nat) (dt : ℚ) (umap : UnconstrainedMap)
    (CoR mu : ℚ) (solver : FrictionSolver) (ifmap : ImpactFrictionMap FrictionSolver) :
    RigidBody2DState :=
  let updated := updatePeriodicBoundaryConditionsStartOfStep updateMovingPortals st iteration dt
  let next := ifmap.flow updated umap solver iteration dt CoR mu updated.q updated.v
  commitAndEnforce updated next.1 next.2

/-! ## The single body overlap query -/

/-- What a `flow` leaves in the state, given the state `updated` whose portals
were advanced and the pair `next = (q1, v1)` the external map returned: the
advanced portals, `v1` as velocity, the wrapped `q1` as configuration, the
other members untouched, and the sizes of `q` and `v` when the map kept them. -/
def FlowOutcome (updated : RigidBody2DState) (next : VectorXs × VectorXs)
    (result : RigidBody2DState) : Prop :=
  result.planarPortals = updated.planarPortals ∧
  result.v = next.2 ∧
  result.q = enforcePeriodicBoundaryConditions updated next.1 ∧
  result.M = updated.M ∧ result.geometry = updated.geometry ∧
  result.geometryIndices = updated.geometryIndices ∧ result.planes = updated.planes ∧
  (∀ N, updated.q.length = 3 * N → updated.v.length = 3 * N →
    next.1.length = updated.q.length → next.2.length = updated.v.length →
    result.q.length = 3 * N ∧ result.v.length = 3 * N)

/-- An unconstrained map that moves every coordinate by `dt` times its
velocity. -/
def explicitEulerMap : UnconstrainedMap where
  flow := fun q v _ _ dt => (List.zipWith (fun x u => x + dt * u) q v, v)

/-! ## The scene parser (`XMLSceneParser.cpp`) -/

/-- A node of a parsed XML document (`rapidxml::xml_node`): its name, its
attributes `(name, value)` and its child nodes, in document order. -/
inductive XmlNode where
  | mk (name : String) (attributes : List (String × String)) (children : List XmlNode)

/-- The name of a node. -/
def XmlNode.name : XmlNode → String
  | .mk name _ _ => name

/-- The attributes of a node. -/
def XmlNode.attributes : XmlNode → List (String × String)
  | .mk _ attributes _ => attributes

/-- The children of a node. -/
def XmlNode.children : XmlNode → List XmlNode
  | .mk _ _ children => children

/-- The value of `node.first_attribute( name )`, `none` for `nullptr`. -/
def XmlNode.first_attribute (node : XmlNode) (name : String) : Option String :=
  (node.attributes.find? (fun attr => attr.1 == name)).map (fun attr => attr.2)

/-- The node `node.first_node( name )`, `none` for `nullptr`. -/
def XmlNode.first_node (node : XmlNode) (name : String) : Option XmlNode :=
  node.children.find? (fun child => child.name == name)

/-- The nodes visited by
`for( nd = node.first_node( name ); nd; nd = nd->next_sibling( name ) )`. -/
def XmlNode.nodes (node : XmlNode) (name : String) : List XmlNode :=
  node.children.filter (fun child => child.name == name)

/-- A `scalar` read from a scene file: a number or an infinity. -/
inductive XmlScalar where
  | negInfinity
  | finite (value : ℚ)
  | infinity
deriving DecidableEq

/-- The comparison `a < b` of two scalars. -/
def XmlScalar.lt : XmlScalar → XmlScalar → Bool
  | .negInfinity, .negInfinity => false
  | .negInfinity, _ => true
  | .finite _, .negInfinity => false
  | .finite a, .finite b => decide (a < b)
  | .finite _, .infinity => true
  | .infinity, _ => false

/-- The comparison `a <= b` of two scalars. -/
def XmlScalar.le (a b : XmlScalar) : Bool := !(XmlScalar.lt b a)

/-- The routines that read values from strings (`StringUtilities`, the
extraction operators of `std::stringstream`), absent from the sources: each
returns `none` when the C++ routine reports a failure. -/
structure StringUtilities where
  extractScalar : String → Option XmlScalar
  extractUnsigned : String → Option Nat
  extractInt : String → Option Int
  extractBool : String → Option Bool
  extractRational : String → Option ℚ
  readScalarPair : String → Option (XmlScalar × XmlScalar)
  streamScalars : String → List ℚ
  streamWords : String → List String

/-- The impact operators the parser creates. -/
inductive ImpactOperator where
  | GaussSeidelOperator (v_tol : XmlScalar)
  | JacobiOperator (v_tol : XmlScalar)
  | LCPOperatorQL (tol : XmlScalar)
  | LCPOperatorQLVP (tol : XmlScalar)
  | LCPOperatorIpopt (linear_solvers : List String) (con_tol : XmlScalar)
  | GROperator (v_tol : XmlScalar) (lcp_solver : ImpactOperator)
  | GRROperator (elastic_operator inelastic_operator : ImpactOperator)
deriving DecidableEq

/-- The friction operators the parser creates. -/
inductive FrictionOperator where
  | BoundConstrainedMDPOperatorQL (tol : XmlScalar)
deriving DecidableEq

/-- The friction solvers the parser creates. -/
inductive FrictionSolver where
  | StaggeredProjections (internal_warm_start_alpha internal_warm_start_beta : Bool)
      (impact_operator : ImpactOperator) (friction_operator : FrictionOperator)
  | Sobogus (eval_every : Nat)
deriving DecidableEq

/-- The impact-friction maps the parser creates. -/
inductive ImpactFrictionMapObject where
  | GeometricImpactFrictionMap (tol : XmlScalar) (max_iters : Nat) (flag0 flag1 : Bool)
  | StabilizedImpactFrictionMap (tol : XmlScalar) (max_iters : Nat)
deriving DecidableEq

/-- The object `new ImpactMap{ false }` the parser creates. -/
structure ImpactMapObject where
  flag : Bool
deriving DecidableEq

/-- The integrators the parser creates. -/
inductive IntegratorObject where
  | VerletMap
  | SymplecticEulerMap
deriving DecidableEq

/-- The arguments the constructor of `PlanarPortal` is called with in
`loadPlanarPortals`: two planes, two tangent velocities, two pairs of bounds. -/
structure PlanarPortalArgs where
  plane_a : StaticPlane
  plane_b : StaticPlane
  va : XmlScalar
  vb : XmlScalar
  bounds_a : XmlScalar × XmlScalar
  bounds_b : XmlScalar × XmlScalar
deriving DecidableEq

/-- The pattern "locate the attribute, then extract a scalar from it". -/
def attributeScalar (su : StringUtilities) (node : XmlNode) (name : String) : Option XmlScalar :=
  match node.first_attribute name with
  | none => none
  | some value => su.extractScalar value

/-- The static function `loadLCPSolver`. -/
def loadLCPSolver (su : StringUtilities) (node : XmlNode) : Option ImpactOperator :=
  match node.first_attribute "name" with
  | none => none
  | some solver_name =>
    if solver_name == "ql" then
      match attributeScalar su node "tol" with
      | none => none
      | some tol => some (ImpactOperator.LCPOperatorQL tol)
    else if solver_name == "ql_vp" then
      match attributeScalar su node "tol" with
      | none => none
      | some tol => some (ImpactOperator.LCPOperatorQLVP tol)
    else if solver_name == "ipopt" then
      match node.first_attribute "linear_solvers" with
      | none => none
      | some value =>
        let linear_solvers := su.streamWords value
        if linear_solvers.isEmpty then none
        else
          match attributeScalar su node "con_tol" with
          | none => none
          | some con_tol =>
            if XmlScalar.le con_tol (XmlScalar.finite 0) then none
            else some (ImpactOperator.LCPOperatorIpopt linear_solvers con_tol)
    else none

/-- The termination tolerance `v_tol` of `loadImpactOperatorNoCoR`: read and
checked for the types that use it (`none`: the function returns false), left
unset (`some none`) for the others. -/
def loadVTol (su : StringUtilities) (node : XmlNode) (type : String) :
    Option (Option XmlScalar) :=
  if type == "gauss_seidel" || type == "jacobi" || type == "gr" then
    match node.first_attribute "v_tol" with
    | none => none
    | some value =>
      match su.extractScalar value with
      | none => none
      | some v_tol => if XmlScalar.lt v_tol (XmlScalar.finite 0) then none else some (some v_tol)
  else some none

mutual
/-- The static function `loadImpactOperatorNoCoR`. -/
def loadImpactOperatorNoCoR (su : StringUtilities) : XmlNode → Option ImpactOperator
  | .mk name attributes children =>
    match (XmlNode.mk name attributes children).first_attribute "type" with
    | none => none
    | some type =>
      match loadVTol su (XmlNode.mk name attributes children) type with
      | none => none
      | some v_tol =>
        if type == "gauss_seidel" then
          some (ImpactOperator.GaussSeidelOperator (v_tol.getD (XmlScalar.finite 0)))
        else if type == "jacobi" then
          some (ImpactOperator.JacobiOperator (v_tol.getD (XmlScalar.finite 0)))
        else if type == "lcp" then
          match (XmlNode.mk name attributes children).first_node "solver" with
          | some solver => loadLCPSolver su solver
          | none => none
        else if type == "gr" then
          match (XmlNode.mk name attributes children).first_node "solver" with
          | some solver =>
            match loadLCPSolver su solver with
            | none => none
            | some lcp_solver =>
              some (ImpactOperator.GROperator (v_tol.getD (XmlScalar.finite 0)) lcp_solver)
          | none => none
        else if type == "grr" then
          match loadFirstImpactOperatorNoCoR su "elastic_operator" children with
          | none => none
          | some none => none
          | some (some elastic_operator) =>
            match loadFirstImpactOperatorNoCoR su "inelastic_operator" children with
            | none => none
            | some none => none
            | some (some inelastic_operator) =>
              some (ImpactOperator.GRROperator elastic_operator inelastic_operator)
        else none
/-- The call of `loadImpactOperatorNoCoR` on `first_node( name )` among the
given children: `none` when there is no such node, otherwise the result of
the call. -/
def loadFirstImpactOperatorNoCoR (su : StringUtilities) (name : String) :
    List XmlNode → Option (Option ImpactOperator)
  | [] => none
  | child :: rest =>
    if child.name == name then some (loadImpactOperatorNoCoR su child)
    else loadFirstImpactOperatorNoCoR su name rest
end

/-- The static function `loadImpactOperator`: the operator and `CoR`. -/
def loadImpactOperator (su : StringUtilities) (node : XmlNode) :
    Option (ImpactOperator × XmlScalar) :=
  match node.first_attribute "CoR" with
  | none => none
  | some value =>
    match su.extractScalar value with
    | none => none
    | some CoR =>
      match loadImpactOperatorNoCoR su node with
      | none => none
      | some impact_operator => some (impact_operator, CoR)

/-- The static function `loadQLMDPOperator`. -/
def loadQLMDPOperator (su : StringUtilities) (node : XmlNode) : Option FrictionOperator :=
  match node.first_attribute "tol" with
  | none => none
  | some value =>
    match su.extractScalar value with
    | none => none
    | some tol =>
      if XmlScalar.lt tol (XmlScalar.finite 0) then none
      else some (FrictionOperator.BoundConstrainedMDPOperatorQL tol)

/-- The static function `loadMDPOperator`. -/
def loadMDPOperator (su : StringUtilities) (node : XmlNode) : Option FrictionOperator :=
  match node.first_attribute "name" with
  | none => none
  | some name => if name == "ql" then loadQLMDPOperator su node else none

/-- What a friction-solver loader hands back on success: `mu`, `CoR`, the
friction solver and the impact-friction map. -/
structure FrictionSolverSetup where
  mu : XmlScalar
  CoR : XmlScalar
  friction_solver : FrictionSolver
  if_map : ImpactFrictionMapObject
deriving DecidableEq

/-- The pattern "locate the attribute, extract a scalar, reject a negative
one" shared by the `mu` and `tol` attributes of the friction solvers. -/
def attributeNonnegativeScalar (su : StringUtilities) (node : XmlNode) (name : String) :
    Option XmlScalar :=
  match attributeScalar su node name with
  | none => none
  | some value => if XmlScalar.lt value (XmlScalar.finite 0) then none else some value

/-- The coefficient of restitution of a friction solver node: located,
extracted, and rejected when `CoR < 0.0 || CoR > 1.0`. -/
def attributeCoR (su : StringUtilities) (node : XmlNode) : Option XmlScalar :=
  match attributeScalar su node "CoR" with
  | none => none
  | some CoR =>
    if XmlScalar.lt CoR (XmlScalar.finite 0) || XmlScalar.lt (XmlScalar.finite 1) CoR then none
    else some CoR

/-- The pattern "locate the attribute, then extract a boolean from it". -/
def attributeBool (su : StringUtilities) (node : XmlNode) (name : String) : Option Bool :=
  match node.first_attribute name with
  | none => none
  | some value => su.extractBool value

/-- The pattern "locate the attribute, extract an `int`, reject it when it is
`<= 0`". -/
def attributePositiveInt (su : StringUtilities) (node : XmlNode) (name : String) : Option Int :=
  match node.first_attribute name with
  | none => none
  | some value =>
    match su.extractInt value with
    | none => none
    | some n => if n ≤ 0 then none else some n

/-- The choice of the impact-friction map from the `staggering` attribute. -/
def staggeringMap (staggering_type : String) (tol : XmlScalar) (max_iters : Int) :
    Option ImpactFrictionMapObject :=
  if staggering_type == "geometric" then
    some (ImpactFrictionMapObject.GeometricImpactFrictionMap tol max_iters.toNat false false)
  else if staggering_type == "stabilized" then
    some (ImpactFrictionMapObject.StabilizedImpactFrictionMap tol max_iters.toNat)
  else none

/-- The static function `loadStaggeredProjectionsFrictionSolver`. -/
def loadStaggeredProjectionsFrictionSolver (su : StringUtilities) (node : XmlNode) :
    Option FrictionSolverSetup :=
  match attributeNonnegativeScalar su node "mu" with
  | none => none
  | some mu =>
  match attributeCoR su node with
  | none => none
  | some CoR =>
  match attributeBool su node "internal_warm_start_alpha" with
  | none => none
  | some internal_warm_start_alpha =>
  match attributeBool su node "internal_warm_start_beta" with
  | none => none
  | some internal_warm_start_beta =>
  match node.first_node "lcp_impact_solver" with
  | none => none
  | some impact_operator_node =>
  match loadLCPSolver su impact_operator_node with
  | none => none
  | some impact_operator =>
  match node.first_node "mdp_friction_solver" with
  | none => none
  | some friction_operator_node =>
  match loadMDPOperator su friction_operator_node with
  | none => none
  | some friction_operator =>
  match node.first_attribute "staggering" with
  | none => none
  | some staggering_type =>
  match attributeNonnegativeScalar su node "tol" with
  | none => none
  | some tol =>
  match attributePositiveInt su node "max_iters" with
  | none => none
  | some max_iters =>
  match staggeringMap staggering_type tol max_iters with
  | none => none
  | some if_map =>
    some ⟨mu, CoR,
      FrictionSolver.StaggeredProjections internal_warm_start_alpha internal_warm_start_beta
        impact_operator friction_operator, if_map⟩

/-- The static function `loadSobogusFrictionSolver`. -/
def loadSobogusFrictionSolver (su : StringUtilities) (node : XmlNode) :
    Option FrictionSolverSetup :=
  match attributeNonnegativeScalar su node "mu" with
  | none => none
  | some mu =>
  match attributeCoR su node with
  | none => none
  | some CoR =>
  match attributePositiveInt su node "max_iters" with
  | none => none
  | some max_iters =>
  match attributePositiveInt su node "eval_every" with
  | none => none
  | some eval_every =>
  if eval_every > max_iters then none
  else
  match attributeNonnegativeScalar su node "tol" with
  | none => none
  | some tol =>
  match node.first_attribute "staggering" with
  | none => none
  | some staggering_type =>
  match staggeringMap staggering_type tol max_iters with
  | none => none
  | some if_map => some ⟨mu, CoR, FrictionSolver.Sobogus eval_every.toNat, if_map⟩

/-- The static function `loadCameraSettings`: whether it returns true. -/
def loadCameraSettings (su : StringUtilities) (node : XmlNode) : Bool :=
  (attributeScalar su node "cx").isSome
    && (attributeScalar su node "cy").isSome
    && (attributeScalar su node "scale_factor").isSome
    && ((node.first_attribute "fps").bind su.extractUnsigned).isSome
    && (attributeBool su node "render_at_fps").isSome
    && (attributeBool su node "locked").isSome

/-- The static function `loadEndTime`. -/
def loadEndTime (su : StringUtilities) (node : XmlNode) : Option XmlScalar :=
  match node.first_attribute "t" with
  | none => none
  | some value =>
    match su.extractScalar value with
    | none => none
    | some end_time => if XmlScalar.le end_time (XmlScalar.finite 0) then none else some end_time

/-- The static function `loadScriptingSetup`: the callback name, empty when
there is no `scripting` node. -/
def loadScriptingSetup (node : XmlNode) : Option String :=
  match node.first_node "scripting" with
  | none => some ""
  | some scripting_node => scripting_node.first_attribute "callback"

/-- The static function `loadBalls`: whether it returns true (every `ball`
node carries the seven attributes; the values extracted are not checked). -/
def loadBalls (node : XmlNode) : Bool :=
  (node.nodes "ball").all (fun nd =>
    ["x", "y", "vx", "vy", "m", "r", "fixed"].all (fun name => (nd.first_attribute name).isSome))

/-- The static function `loadStaticDrums`: whether it returns true. -/
def loadStaticDrums (node : XmlNode) : Bool :=
  (node.nodes "static_drum").all (fun nd =>
    ["x", "y", "r"].all (fun name => (nd.first_attribute name).isSome))

/-- The two components of an attribute of a `static_plane` node. -/
def loadPlaneVector (su : StringUtilities) (nd : XmlNode) (name : String) : Option Vector2s :=
  match nd.first_attribute name with
  | none => none
  | some value =>
    let components := su.streamScalars value
    if components.length != 2 then none
    else some ⟨components.getD 0 0, components.getD 1 0⟩

/-- The loop of `loadStaticPlanes` over the `static_plane` nodes. -/
def loadStaticPlanesLoop (su : StringUtilities) :
    List XmlNode → List StaticPlane → Option (List StaticPlane)
  | [], planes => some planes
  | nd :: rest, planes =>
    match loadPlaneVector su nd "x" with
    | none => none
    | some x =>
      match loadPlaneVector su nd "n" with
      | none => none
      | some n => loadStaticPlanesLoop su rest (planes ++ [⟨x, n⟩])

/-- The static function `loadStaticPlanes`. -/
def loadStaticPlanes (su : StringUtilities) (node : XmlNode) (planes : List StaticPlane) :
    Option (List StaticPlane) :=
  loadStaticPlanesLoop su (node.nodes "static_plane") planes

/-- The static function `loadGravityForce`: whether it returns true. -/
def loadGravityForce (node : XmlNode) : Bool :=
  (node.nodes "gravity").all (fun nd =>
    ["fx", "fy"].all (fun name => (nd.first_attribute name).isSome))

/-- The static function `loadHertzianPenaltyForce`: whether it returns true. -/
def loadHertzianPenaltyForce (su : StringUtilities) (node : XmlNode) : Bool :=
  (node.nodes "hertzian_penalty").all (fun nd =>
    match nd.first_attribute "k" with
    | none => false
    | some value =>
      match su.extractScalar value with
      | none => false
      | some k => !(XmlScalar.lt k (XmlScalar.finite 0)))

/-- The static function `loadIntegrator`: the integrator, `dt_string`, `dt`. -/
def loadIntegrator (su : StringUtilities) (node : XmlNode) :
    Option (IntegratorObject × String × ℚ) :=
  match node.first_node "integrator" with
  | none => none
  | some nd =>
    match nd.first_attribute "dt" with
    | none => none
    | some value =>
      match su.extractRational value with
      | none => none
      | some dt =>
        if !(decide (0 < dt)) then none
        else
          match nd.first_attribute "type" with
          | none => none
          | some integrator_type =>
            if integrator_type == "verlet" then some (IntegratorObject.VerletMap, value, dt)
            else if integrator_type == "symplectic_euler" then
              some (IntegratorObject.SymplecticEulerMap, value, dt)
            else none

/-- The reading and the checks of the `planeA` and `planeB` attributes of a
portal node, given the number of planes and the pairs accepted so far. -/
def loadPortalPlaneIndices (su : StringUtilities) (nplanes : Nat)
    (plane_pairs : List (Nat × Nat)) (nd : XmlNode) : Option (Nat × Nat) :=
  match nd.first_attribute "planeA" with
  | none => none
  | some value_a =>
    match su.extractUnsigned value_a with
    | none => none
    | some index_a =>
      if index_a ≥ nplanes then none
      else
        match nd.first_attribute "planeB" with
        | none => none
        | some value_b =>
          match su.extractUnsigned value_b with
          | none => none
          | some index_b =>
            if index_b ≥ nplanes then none
            else if index_a == index_b then none
            else if plane_pairs.any (fun pair =>
                (index_a == pair.1 || index_a == pair.2)
                  || (index_b == pair.1 || index_b == pair.2)) then none
            else some (index_a, index_b)

/-- The three vectors `loadPlanarPortals` fills while it reads the nodes. -/
structure PortalLists where
  plane_pairs : List (Nat × Nat)
  plane_tangent_velocities : List (XmlScalar × XmlScalar)
  plane_bounds : List ((XmlScalar × XmlScalar) × (XmlScalar × XmlScalar))
deriving DecidableEq

/-- The first loop of `loadPlanarPortals`, over the `planar_portal` nodes. -/
def loadPlanarPortalNodes (su : StringUtilities) (nplanes : Nat) :
    List XmlNode → PortalLists → Option PortalLists
  | [], lists => some lists
  | nd :: rest, lists =>
    match loadPortalPlaneIndices su nplanes lists.plane_pairs nd with
    | none => none
    | some pair =>
      loadPlanarPortalNodes su nplanes rest
        ⟨lists.plane_pairs ++ [pair],
          lists.plane_tangent_velocities ++ [(XmlScalar.finite 0, XmlScalar.finite 0)],
          lists.plane_bounds ++ [((XmlScalar.negInfinity, XmlScalar.infinity),
            (XmlScalar.negInfinity, XmlScalar.infinity))]⟩

/-- The reading and the checks of a `boundsa` or `boundsb` attribute. -/
def loadPortalBounds (su : StringUtilities) (nd : XmlNode) (name : String) :
    Option (XmlScalar × XmlScalar) :=
  match nd.first_attribute name with
  | none => none
  | some value =>
    match su.readScalarPair value with
    | none => none
    | some bounds =>
      if XmlScalar.lt (XmlScalar.finite 0) bounds.1 then none
      else if XmlScalar.lt bounds.2 (XmlScalar.finite 0) then none
      else if !((bounds.1 != XmlScalar.negInfinity && bounds.2 != XmlScalar.infinity)
          || (bounds.1 == XmlScalar.negInfinity && bounds.2 == XmlScalar.infinity)) then none
      else some bounds

/-- The second loop of `loadPlanarPortals`, over the `lees_edwards_portal`
nodes. -/
def loadLeesEdwardsPortalNodes (su : StringUtilities) (nplanes : Nat) :
    List XmlNode → PortalLists → Option PortalLists
  | [], lists => some lists
  | nd :: rest, lists =>
    match loadPortalPlaneIndices su nplanes lists.plane_pairs nd with
    | none => none
    | some pair =>
      match attributeScalar su nd "va" with
      | none => none
      | some va =>
        match attributeScalar su nd "vb" with
        | none => none
        | some vb =>
          match loadPortalBounds su nd "boundsa" with
          | none => none
          | some boundsa =>
            match loadPortalBounds su nd "boundsb" with
            | none => none
            | some boundsb =>
              loadLeesEdwardsPortalNodes su nplanes rest
                ⟨lists.plane_pairs ++ [pair],
                  lists.plane_tangent_velocities ++ [(va, vb)],
                  lists.plane_bounds ++ [(boundsa, boundsb)]⟩

/-- The portals `loadPlanarPortals` constructs from the three vectors. -/
def buildPlanarPortals (planes : List StaticPlane) (lists : PortalLists) :
    List PlanarPortalArgs :=
  (List.range lists.plane_pairs.length).map (fun i =>
    let pair := lists.plane_pairs.getD i (0, 0)
    let velocities :=
      lists.plane_tangent_velocities.getD i (XmlScalar.finite 0, XmlScalar.finite 0)
    let bounds := lists.plane_bounds.getD i
      ((XmlScalar.negInfinity, XmlScalar.infinity), (XmlScalar.negInfinity, XmlScalar.infinity))
    ⟨planes.getD pair.1 default, planes.getD pair.2 default, velocities.1, velocities.2,
      bounds.1, bounds.2⟩)

/-- The vector `indices` of `loadPlanarPortals`, before it is sorted. -/
def portalPlaneIndices (plane_pairs : List (Nat × Nat)) : List Nat :=
  plane_pairs.foldl (fun indices pair => indices ++ [pair.1, pair.2]) []

/-- The last loop of `loadPlanarPortals`: the planes at the sorted indices
are erased, the largest index first. -/
def erasePortalPlanes (planes : List StaticPlane) (plane_pairs : List (Nat × Nat)) :
    List StaticPlane :=
  ((portalPlaneIndices plane_pairs).insertionSort (fun a b => a ≤ b)).reverse.foldl
    (fun planes index => planes.eraseIdx index) planes

/-- The static function `loadPlanarPortals`: the planes and the portals
afterwards, `none` when it returns false. -/
def loadPlanarPortals (su : StringUtilities) (node : XmlNode) (planes : List StaticPlane)
    (planar_portals : List PlanarPortalArgs) :
    Option (List StaticPlane × List PlanarPortalArgs) :=
  if !((node.first_node "planar_portal").isSome
      || (node.first_node "lees_edwards_portal").isSome) then
    some (planes, planar_portals)
  else if planes.length < 2 then none
  else
    match loadPlanarPortalNodes su planes.length (node.nodes "planar_portal") ⟨[], [], []⟩ with
    | none => none
    | some lists0 =>
      match loadLeesEdwardsPortalNodes su planes.length (node.nodes "lees_edwards_portal")
          lists0 with
      | none => none
      | some lists =>
        some (erasePortalPlanes planes lists.plane_pairs,
          planar_portals ++ buildPlanarPortals planes lists)

/-- The outputs of `parseXMLSceneFile` that concern the solvers, the planes
and the portals; `none` in a pointer field is `nullptr`, `none` in `CoR` and
`mu` is `SCALAR_NAN`. -/
structure ParsedScene where
  scripting_callback_name : String
  planes : List StaticPlane
  planar_portals : List PlanarPortalArgs
  integrator : IntegratorObject
  dt_string : String
  dt : ℚ
  end_time : XmlScalar
  impact_operator : Option ImpactOperator
  impact_map : Option ImpactMapObject
  CoR : Option XmlScalar
  friction_solver : Option FrictionSolver
  mu : Option XmlScalar
  if_map : Option ImpactFrictionMapObject
  camera_set : Bool
deriving DecidableEq

/-- The solver outputs while `parseXMLSceneFile` runs. -/
structure SolverOutputs where
  impact_operator : Option ImpactOperator
  impact_map : Option ImpactMapObject
  CoR : Option XmlScalar
  friction_solver : Option FrictionSolver
  mu : Option XmlScalar
  if_map : Option ImpactFrictionMapObject
deriving DecidableEq

/-- The block "Attempt to load an impact operator" of `parseXMLSceneFile`,
followed by the three resets of the friction outputs. -/
def parseImpactOperator (su : StringUtilities) (root_node : XmlNode) : Option SolverOutputs :=
  match root_node.first_node "impact_operator" with
  | some nd =>
    match loadImpactOperator su nd with
    | none => none
    | some (impact_operator, CoR) =>
      some ⟨some impact_operator, some ⟨false⟩, some CoR, none, none, none⟩
  | none => some ⟨none, none, none, none, none, none⟩

/-- One of the two blocks of `parseXMLSceneFile` that load a friction solver:
the node of the given name, if present, is refused when a solver is already
set, and otherwise handed to the loader. -/
def parseFrictionSolver (loader : XmlNode → Option FrictionSolverSetup) (root_node : XmlNode)
    (name : String) (out : SolverOutputs) : Option SolverOutputs :=
  match root_node.first_node name with
  | none => some out
  | some nd =>
    if out.impact_operator.isSome || out.impact_map.isSome then none
    else if out.friction_solver.isSome then none
    else
      match loader nd with
      | none => none
      | some setup =>
        some { out with
          mu := some setup.mu, CoR := some setup.CoR,
          friction_solver := some setup.friction_solver, if_map := some setup.if_map }

/-- The function `XMLSceneParser::parseXMLSceneFile` on the document read
from the file (`none`: the file could not be read or parsed), with the planes
and portals vectors as passed in; `none` when it returns false. -/
def parseXMLSceneFile (su : StringUtilities) (doc : Option XmlNode) (planes : List StaticPlane)
    (planar_portals : List PlanarPortalArgs) : Option ParsedScene :=
  match doc with
  | none => none
  | some document =>
  match document.first_node "ball2d_scene" with
  | none => none
  | some root_node =>
  match loadScriptingSetup root_node with
  | none => none
  | some scripting_callback_name =>
  match (match root_node.first_node "end_time" with
    | some nd => loadEndTime su nd
    | none => some XmlScalar.infinity) with
  | none => none
  | some end_time =>
  if !loadGravityForce root_node then none
  else if !loadHertzianPenaltyForce su root_node then none
  else
  match (match root_node.first_node "camera" with
    | some nd => if loadCameraSettings su nd then some true else none
    | none => some false) with
  | none => none
  | some camera_set =>
  match loadIntegrator su root_node with
  | none => none
  | some (integrator, dt_string, dt) =>
  match parseImpactOperator su root_node with
  | none => none
  | some out0 =>
  match parseFrictionSolver (loadStaggeredProjectionsFrictionSolver su) root_node
      "staggerd_projections_friction_solver" out0 with
  | none => none
  | some out1 =>
  match parseFrictionSolver (loadSobogusFrictionSolver su) root_node
      "sobogus_friction_solver" out1 with
  | none => none
  | some out =>
  if !loadStaticDrums root_node then none
  else
  match loadStaticPlanes su root_node planes with
  | none => none
  | some planes1 =>
  match loadPlanarPortals su root_node planes1 planar_portals with
  | none => none
  | some (planes2, planar_portals2) =>
  if !loadBalls root_node then none
  else
    some ⟨scripting_callback_name, planes2, planar_portals2, integrator, dt_string, dt,
      end_time, out.impact_operator, out.impact_map, out.CoR, out.friction_solver, out.mu,
      out.if_map, camera_set⟩

/-! ### A concrete reader of decimal numerals, for the examples -/

/-- The value of a string of decimal digits, `none` when a character is not a
digit or the string is empty. -/
def decimalDigits (cs : List Char) : Option Nat :=
  if cs.isEmpty then none
  else
    cs.foldl (fun acc c =>
      match acc with
      | none => none
      | some n => if c.isDigit then some (10 * n + (c.toNat - 48)) else none) (some 0)

/-- The value of an unsigned decimal numeral with an optional fraction, such
as `12` or `0.25`. -/
def decimalUnsignedRational (cs : List Char) : Option ℚ :=
  let whole := cs.takeWhile (fun c => c != '.')
  let rest := cs.dropWhile (fun c => c != '.')
  match decimalDigits whole with
  | none => none
  | some w =>
    if rest.isEmpty then some (w : ℚ)
    else
      match decimalDigits (rest.drop 1) with
      | none => none
      | some f => some ((w : ℚ) + (f : ℚ) / (10 ^ (rest.drop 1).length : ℕ))

/-- The value of a decimal numeral with an optional leading minus sign. -/
def decimalRational (cs : List Char) : Option ℚ :=
  match cs with
  | '-' :: rest => (decimalUnsignedRational rest).map (fun value => -value)
  | _ => decimalUnsignedRational cs

/-- The value of a scalar attribute: `inf`, `-inf` or a decimal numeral. -/
def decimalScalar (s : String) : Option XmlScalar :=
  if s == "inf" then some XmlScalar.infinity
  else if s == "-inf" then some XmlScalar.negInfinity
  else (decimalRational s.data).map XmlScalar.finite

/-- The blank-separated words of a list of characters. -/
def blankWords : List Char → List Char → List (List Char)
  | [], word => if word.isEmpty then [] else [word]
  | c :: rest, word =>
    if c == ' ' then
      if word.isEmpty then blankWords rest [] else word :: blankWords rest []
    else blankWords rest (word ++ [c])

/-- The longest prefix of a list of options that holds values. -/
def takeSome {α : Type} : List (Option α) → List α
  | some a :: rest => a :: takeSome rest
  | _ => []

/-- A reader of decimal numerals that stands for `StringUtilities` in the
examples: integers are plain digit strings, scalars decimal numerals or
`inf` / `-inf`, booleans `0` / `1`, lists are separated by blanks. -/
def decimalStringUtilities : StringUtilities where
  extractScalar := decimalScalar
  extractUnsigned := fun s => decimalDigits s.data
  extractInt := fun s =>
    match s.data with
    | '-' :: rest => (decimalDigits rest).map (fun n => -(n : Int))
    | cs => (decimalDigits cs).map (fun n => (n : Int))
  extractBool := fun s => if s == "1" then some true else if s == "0" then some false else none
  extractRational := fun s => decimalRational s.data
  readScalarPair := fun s =>
    match (blankWords s.data []).map (fun word => decimalScalar (String.mk word)) with
    | [some a, some b] => some (a, b)
    | _ => none
  streamScalars := fun s => takeSome ((blankWords s.data []).map decimalRational)
  streamWords := fun s => (blankWords s.data []).map String.mk

/-- The portal nodes of a scene in the order `loadPlanarPortals` reads them:
the `planar_portal` nodes, then the `lees_edwards_portal` nodes. -/
def portalNodes (node : XmlNode) : List XmlNode :=
  node.nodes "planar_portal" ++ node.nodes "lees_edwards_portal"

/-- The plane index a portal node names in the given attribute. -/
def namedPlaneIndex (su : StringUtilities) (nd : XmlNode) (name : String) : Option Nat :=
  (nd.first_attribute name).bind su.extractUnsigned

/-- The plane indices named by a list of portal nodes, `planeA` before
`planeB` for each node; an attribute that is missing or unreadable names
none. -/
def namedPlaneIndices (su : StringUtilities) (nodes : List XmlNode) : List (Option Nat) :=
  nodes.flatMap (fun nd => [namedPlaneIndex su nd "planeA", namedPlaneIndex su nd "planeB"])

/-- The planes of a list whose index is named by no portal, in their order. -/
def planesNotNamed (named : List Nat) (planes : List StaticPlane) : List StaticPlane :=
  (planes.enum.filter (fun entry => !named.contains entry.1)).map Prod.snd

/-- A `static_plane` node through the point `(0, y)` with normal `(0, ny)`. -/
def planeNode (y ny : String) : XmlNode :=
  XmlNode.mk "static_plane" [("x", "0 " ++ y), ("n", "0 " ++ ny)] []

/-- The root of a scene with five planes, a Lees-Edwards portal on the planes
4 and 1 and a planar portal on the planes 3 and 0; the planar portal is read
first, and the plane 2 is left. -/
def portalSceneRoot : XmlNode :=
  XmlNode.mk "ball2d_scene" []
    [ XmlNode.mk "integrator" [("type", "verlet"), ("dt", "0.01")] [],
      planeNode "0" "1", planeNode "1" "1", planeNode "2" "-1", planeNode "3" "-1",
      planeNode "4" "1",
      XmlNode.mk "lees_edwards_portal"
        [("planeA", "4"), ("planeB", "1"), ("va", "1"), ("vb", "-1"),
          ("boundsa", "-inf inf"), ("boundsb", "-2 2")] [],
      XmlNode.mk "planar_portal" [("planeA", "3"), ("planeB", "0")] [] ]

/-- The five planes of `portalSceneRoot`. -/
def portalScenePlanes : List StaticPlane :=
  [⟨⟨0, 0⟩, ⟨0, 1⟩⟩, ⟨⟨0, 1⟩, ⟨0, 1⟩⟩, ⟨⟨0, 2⟩, ⟨0, -1⟩⟩, ⟨⟨0, 3⟩, ⟨0, -1⟩⟩, ⟨⟨0, 4⟩, ⟨0, 1⟩⟩]

/-- What `loadPlanarPortals` returns on `portalSceneRoot` with the five
planes: the plane 2, and the portals on the planes (3, 0) and (4, 1). -/
def portalSceneResult : List StaticPlane × List PlanarPortalArgs :=
  ([⟨⟨0, 2⟩, ⟨0, -1⟩⟩],
    [ ⟨⟨⟨0, 3⟩, ⟨0, -1⟩⟩, ⟨⟨0, 0⟩, ⟨0, 1⟩⟩, XmlScalar.finite 0, XmlScalar.finite 0,
        (XmlScalar.negInfinity, XmlScalar.infinity), (XmlScalar.negInfinity, XmlScalar.infinity)⟩,
      ⟨⟨⟨0, 4⟩, ⟨0, 1⟩⟩, ⟨⟨0, 1⟩, ⟨0, 1⟩⟩, XmlScalar.finite 1, XmlScalar.finite (-1),
        (XmlScalar.negInfinity, XmlScalar.infinity),
        (XmlScalar.finite (-2), XmlScalar.finite 2)⟩ ])

/-- The root of a scene whose only portal names the plane 1 twice. -/
def repeatedPlaneRoot : XmlNode :=
  XmlNode.mk "ball2d_scene" []
    [ XmlNode.mk "planar_portal" [("planeA", "1"), ("planeB", "1")] [] ]

/-- The document whose only top-level node is the given root. -/
def sceneDocument (root : XmlNode) : XmlNode :=
  XmlNode.mk "" [] [root]

/-- An `integrator` node with a Verlet map and a time step of 1/100. -/
def integratorNode : XmlNode :=
  XmlNode.mk "integrator" [("type", "verlet"), ("dt", "0.01")] []

/-- An `impact_operator` node of type `gauss_seidel` with the given `CoR`. -/
def impactOperatorNode (CoR : String) : XmlNode :=
  XmlNode.mk "impact_operator" [("CoR", CoR), ("type", "gauss_seidel"), ("v_tol", "0")] []

/-- The root of a scene whose impact operator has the coefficient of
restitution −1. -/
def negativeCoRRoot : XmlNode :=
  XmlNode.mk "ball2d_scene" [] [integratorNode, impactOperatorNode "-1"]

/-- A staggered-projections friction solver node with the given node name. -/
def staggeredProjectionsNode (name : String) : XmlNode :=
  XmlNode.mk name
    [("mu", "0.5"), ("CoR", "0.8"), ("max_iters", "50"), ("tol", "0"),
      ("staggering", "geometric"), ("internal_warm_start_alpha", "1"),
      ("internal_warm_start_beta", "1")]
    [ XmlNode.mk "lcp_impact_solver" [("name", "ql"), ("tol", "0")] [],
      XmlNode.mk "mdp_friction_solver" [("name", "ql"), ("tol", "0")] [] ]

/-- The root of a scene with an impact operator and a friction solver node of
the given name. -/
def twoSolverRoot (name : String) : XmlNode :=
  XmlNode.mk "ball2d_scene" []
    [integratorNode, impactOperatorNode "0.5", staggeredProjectionsNode name]

/-- The names under which `parseXMLSceneFile` looks for the three solver
nodes. -/
def solverNodeNames : List String :=
  ["impact_operator", "staggerd_projections_friction_solver", "sobogus_friction_solver"]

/-- How many of the three solver nodes the parser finds in a root node. -/
def solverNodeCount (root_node : XmlNode) : Nat :=
  (solverNodeNames.filter (fun name => (root_node.first_node name).isSome)).length

/-- The infinite-sliding invariant of a pair of bounds `(lo, hi)`:
`lo ≤ 0 ≤ hi`, and `hi = +∞` when `lo = −∞`. -/
def InfiniteSliding (bounds : XmlScalar × XmlScalar) : Prop :=
  XmlScalar.le bounds.1 (XmlScalar.finite 0) = true
    ∧ XmlScalar.le (XmlScalar.finite 0) bounds.2 = true
    ∧ (bounds.1 = XmlScalar.negInfinity → bounds.2 = XmlScalar.infinity)

/-- The bounds every `planar_portal` node is given. -/
def unboundedBounds : XmlScalar × XmlScalar :=
  (XmlScalar.negInfinity, XmlScalar.infinity)

/-- The root of a scene with two planes and a Lees-Edwards portal whose
`boundsa` is the given string. -/
def boundsSceneRoot (boundsa : String) : XmlNode :=
  XmlNode.mk "ball2d_scene" []
    [ XmlNode.mk "lees_edwards_portal"
        [("planeA", "0"), ("planeB", "1"), ("va", "1"), ("vb", "-1"),
          ("boundsa", boundsa), ("boundsb", "-inf inf")] [] ]

/-- Two planes, through `(0, 0)` and `(0, 10)`. -/
def twoPlanes : List StaticPlane :=
  [⟨⟨0, 0⟩, ⟨0, 1⟩⟩, ⟨⟨0, 10⟩, ⟨0, -1⟩⟩]

/-! ## The command line driver (`rigidbody2d_cli.cpp`) -/

/-- The conversion of a `std::intmax_t` to `unsigned`: the value modulo
`2^32`. -/
def toUnsigned (z : Int) : Nat := (z % 4294967296).toNat

/-- The block "compute the data output rate" of `main`: the value stored in
`g_steps_per_save`, `none` when `main` returns `EXIT_FAILURE`.  The class
`Rational<std::intmax_t>` is absent from the sources and is taken to be the
rationals: `isInteger` holds when the reduced denominator is 1, and
`numerator` is the reduced numerator. -/
def computeStepsPerSave (g_dt : ℚ) (output_frequency : Nat) : Option Nat :=
  if output_frequency != 0 then
    let potential_steps_per_frame : ℚ := 1 / (g_dt * (output_frequency : ℚ))
    if !(decide (potential_steps_per_frame.den = 1)) then none
    else some (toUnsigned potential_steps_per_frame.num)
  else some 1

/-- A call the driver makes, as recorded in the trace of a run, with the
value of `g_iteration` (for a flow, of `next_iter`) and of `g_output_frame`
when it is made; for `exportConfigurationData`, its exit code and the value
of `g_output_frame` when it returns.  The configuration file written by
`saveState` carries the number `g_output_frame`, the force file the number
`g_output_frame - 1`. -/
inductive CliEvent where
  | stepSystem (g_iteration : Nat)
  | openForceFile (g_iteration : Nat) (g_output_frame : Nat)
  | flow (next_iter : Nat)
  | flowImpact (next_iter : Nat)
  | flowImpactFriction (next_iter : Nat)
  | saveState (g_iteration : Nat) (g_output_frame : Nat)
  | exportConfigurationData (g_iteration : Nat) (exit_success : Bool) (g_output_frame : Nat)
deriving DecidableEq

/-- The global variables of the driver that its loop reads or writes, and,
as a last field that is not a variable of the program, the trace of the calls
made so far.  A null pointer is `none`. -/
structure CliGlobals (Op FS : Type) where
  g_sim : RigidBody2DState
  g_iteration : Nat
  g_unconstrained_map : Option UnconstrainedMap
  g_dt : ℚ
  g_end_time : XmlScalar
  g_impact_operator : Option Op
  g_CoR : ℚ
  g_friction_solver : Option FS
  g_mu : ℚ
  g_impact_map : Option (ImpactMap Op)
  g_impact_friction_map : Option (ImpactFrictionMap FS)
  g_output_dir_name : String
  g_output_forces : Bool
  g_steps_per_save : Nat
  g_output_frame : Nat
  g_serialize_snapshots : Bool
  trace : List CliEvent

/-- What the driver depends on outside itself: the update of moving portals
(class `PlanarPortal`), whether each output operation succeeds (`true`) or
fails, `HDF5File` throwing or the stream not opening (`false`), and the
floating-point arithmetic of the simulation time: `simulationTime` is the
value of `g_iteration * scalar( g_dt )`, the product of the iteration with the
time step converted to `scalar`, as the machine computes it (the type `scalar`
and the conversion of `Rational` are declared outside the sources). The value
is finite: `g_dt` is a ratio of `std::intmax_t` and `g_iteration` is
`unsigned`. -/
structure CliEnvironment (Op FS : Type) where
  updateMovingPortals : PlanarPortal → ℚ → PlanarPortal
  simulationTime : Nat → ℚ → ℚ
  saveState : CliGlobals Op FS → Bool
  serializeSystem : CliGlobals Op FS → Bool
  openForceFile : CliGlobals Op FS → Bool
  writeSolution : CliGlobals Op FS → Bool

/-- Appending an event to the trace. -/
def CliGlobals.record {Op FS : Type} (g : CliGlobals Op FS) (event : CliEvent) :
    CliGlobals Op FS :=
  { g with trace := g.trace ++ [event] }

/-- The static function `exportConfigurationData`, for `g_steps_per_save != 0`
(its assertion): the exit code (`true` for `EXIT_SUCCESS`) and the globals
afterwards. -/
def exportConfigurationData {Op FS : Type} (env : CliEnvironment Op FS)
    (g : CliGlobals Op FS) : Bool × CliGlobals Op FS :=
  if g.g_iteration % g.g_steps_per_save == 0 then
    let g1 := if !g.g_output_dir_name.isEmpty then
        g.record (CliEvent.saveState g.g_iteration g.g_output_frame) else g
    if !g.g_output_dir_name.isEmpty && !env.saveState g then
      (false, g1.record (CliEvent.exportConfigurationData g.g_iteration false g.g_output_frame))
    else if g.g_serialize_snapshots && !env.serializeSystem g then
      (false, g1.record (CliEvent.exportConfigurationData g.g_iteration false g.g_output_frame))
    else
      (true, { g1 with
        g_output_frame := u32 (g.g_output_frame + 1),
        trace := g1.trace ++ [CliEvent.exportConfigurationData g.g_iteration true
          (u32 (g.g_output_frame + 1))] })
  else
    (true, g.record (CliEvent.exportConfigurationData g.g_iteration true g.g_output_frame))

/-- The five-way choice of `stepSystem` on which maps are set: the globals
after the flow and whether the function goes on (`true`) or returns
`EXIT_FAILURE` at once (`false`); `force_file_is_open` is what
`force_file.is_open()` returns. -/
def stepSystemDispatch {Op FS : Type} (env : CliEnvironment Op FS) (g : CliGlobals Op FS)
    (next_iter : Nat) (force_file_is_open : Bool) : Bool × CliGlobals Op FS :=
  match g.g_unconstrained_map, g.g_impact_operator, g.g_impact_map, g.g_friction_solver,
      g.g_impact_friction_map with
  | none, none, none, none, none => (true, g)
  | some umap, none, none, none, none =>
    (true, { g with
      g_sim := flow env.updateMovingPortals g.g_sim next_iter g.g_dt umap,
      trace := g.trace ++ [CliEvent.flow next_iter] })
  | some umap, some iop, some imap, none, none =>
    let g1 : CliGlobals Op FS := { g with
      g_sim := flowImpact env.updateMovingPortals g.g_sim next_iter g.g_dt umap iop g.g_CoR imap,
      trace := g.trace ++ [CliEvent.flowImpact next_iter] }
    if force_file_is_open && !env.writeSolution g1 then (false, g1) else (true, g1)
  | some umap, none, none, some solver, some ifmap =>
    (true, { g with
      g_sim := flowImpactFriction env.updateMovingPortals g.g_sim next_iter g.g_dt umap
        g.g_CoR g.g_mu solver ifmap,
      trace := g.trace ++ [CliEvent.flowImpactFriction next_iter] })
  | _, _, _, _, _ => (false, g)

/-- The assignment of a new value to `g_iteration`. -/
def CliGlobals.setIteration {Op FS : Type} (g : CliGlobals Op FS) (g_iteration : Nat) :
    CliGlobals Op FS :=
  { g with g_iteration := g_iteration }

/-- Whether `stepSystem` opens a force file: force output is enabled and the
iteration is a multiple of the steps per save. -/
def opensForceFile {Op FS : Type} (g : CliGlobals Op FS) : Bool :=
  g.g_output_forces && g.g_iteration % g.g_steps_per_save == 0

/-- The globals when `stepSystem` reaches its choice of a flow: the trace has
the entry of `stepSystem` and, when a force file is opened, its opening. -/
def stepStart {Op FS : Type} (g : CliGlobals Op FS) : CliGlobals Op FS :=
  if opensForceFile g then
    (g.record (CliEvent.stepSystem g.g_iteration)).record
      (CliEvent.openForceFile g.g_iteration g.g_output_frame)
  else g.record (CliEvent.stepSystem g.g_iteration)

/-- The static function `stepSystem`, for `g_steps_per_save != 0` (its
assertion): the exit code and the globals afterwards.  The calls
`exportForcesNextStep` act on the maps, whose classes are absent, and are
not modelled. -/
def stepSystem {Op FS : Type} (env : CliEnvironment Op FS) (g : CliGlobals Op FS) :
    Bool × CliGlobals Op FS :=
  let next_iter := u32 (g.g_iteration + 1)
  if opensForceFile g && !env.openForceFile g then (false, stepStart g)
  else
    let dispatched := stepSystemDispatch env (stepStart g) next_iter (opensForceFile g)
    if !dispatched.1 then (false, dispatched.2)
    else exportConfigurationData env (dispatched.2.setIteration next_iter)

/-- The loop of `executeSimLoop`, run for at most `fuel` iterations: the exit
code when the function returns within them (`none` while it is still
running) and the globals reached. -/
def simLoop {Op FS : Type} (env : CliEnvironment Op FS) :
    Nat → CliGlobals Op FS → Option Bool × CliGlobals Op FS
  | 0, g => (none, g)
  | fuel + 1, g =>
    if XmlScalar.le g.g_end_time
        (XmlScalar.finite (env.simulationTime g.g_iteration g.g_dt)) then
      if g.g_output_forces then
        let stepped := stepSystem env g
        if !stepped.1 then (some false, stepped.2) else (some true, stepped.2)
      else (some true, g)
    else
      let stepped := stepSystem env g
      if !stepped.1 then (some false, stepped.2) else simLoop env fuel stepped.2

/-- The static function `executeSimLoop`, its loop run for at most `fuel`
iterations. -/
def executeSimLoop {Op FS : Type} (env : CliEnvironment Op FS) (fuel : Nat)
    (g : CliGlobals Op FS) : Option Bool × CliGlobals Op FS :=
  let exported := exportConfigurationData env g
  if !exported.1 then (some false, exported.2) else simLoop env fuel exported.2

/-! ## More concrete inputs used by the examples -/

/-- Two unit disks at `(0, 2)` and `(0, 11/5)`: they overlap, and in a
periodic domain of period `5/2` both reach over the plane `y = 5/2`. -/
def twoVirtualQ : VectorXs := [0, 2, 0, 0, 11 / 5, 0]

/-- The two unit disks of `twoVirtualQ` in the periodic domain of period
`5/2`: each of them has a virtual box, of index 2 and 3. -/
def twoVirtualState : RigidBody2DState :=
  diskState 2 1 twoVirtualQ [] [slabPortal (5 / 2)]

/-- A Lees-Edwards portal on the planes `y = 0` and `y = L`: the periodic
portal of `slabPortal`, marked Lees-Edwards, that imposes the velocity
`(v, 0)` on every box. -/
def leesEdwardsSlabPortal (L v : ℚ) : PlanarPortal :=
  { slabPortal L with isLeesEdwards := true, getKinematicVelocityOfAABB := fun _ _ => ⟨v, 0⟩ }

/-- The two unit disks of `narrowDomainQ` in a domain of period `5/2` whose
portal is Lees-Edwards with the velocity `(3, 0)`. -/
def leesEdwardsState : RigidBody2DState :=
  diskState 2 1 narrowDomainQ [] [leesEdwardsSlabPortal (5 / 2) 3]

/-- The teleported collision of body 0, where it is, with body 1 teleported
through the side B of portal 0. -/
def secondTeleported : TeleportedCollision :=
  { bodyIndex0 := 0, bodyIndex1 := 1, portalIndex0 := UNSIGNED_MAX, portalIndex1 := 0,
    plane0 := false, plane1 := true }

/-- The teleported collision of body 1, where it is, with body 0 teleported
through the side A of portal 0, as the constructor writes it: body 0 comes
first, with its portal. -/
def firstTeleported : TeleportedCollision :=
  TeleportedCollision.new 1 0 UNSIGNED_MAX 0 false false

/-- Two unit disks at `y = 1/5` and `y = 12/5`: apart where they are, in
contact through a portal of period `5/2`. -/
def wrapQ : VectorXs := [0, 1 / 5, 0, 0, 12 / 5, 0]

/-- The two unit disks of `wrapQ` in the periodic domain of period `5/2`. -/
def wrapState : RigidBody2DState :=
  diskState 2 1 wrapQ [] [slabPortal (5 / 2)]

/-- The constraints the teleported narrow phase creates for one teleported
collision of the set, from an empty active set (none when a portal lookup
fails). -/
def teleportedConstraintsOf (st : RigidBody2DState) (q0 q1 : VectorXs)
    (teleported_collision : TeleportedCollision) : List Constraint :=
  (dispatchTeleportedNarrowPhaseCollision st teleported_collision
    (st.bodyGeometry teleported_collision.bodyIndex0)
    (st.bodyGeometry teleported_collision.bodyIndex1) q0 q1 []).getD []

/-- The two unit disks of `narrowDomainQ` in the periodic domain of period
`5/2`, with a plane through `(0, 1/10)` of normal `(0, 1)` that the first
disk touches. -/
def orderState : RigidBody2DState :=
  diskState 2 1 narrowDomainQ [⟨⟨0, 1 / 10⟩, ⟨0, 1⟩⟩] [slabPortal (5 / 2)]

/-! ## Auxiliary definitions for the command line driver -/

/-- Which of the five maps and solvers are set: the unconstrained map, the
impact operator, the impact map, the friction solver and the impact-friction
map. -/
def mapsPresent {Op FS : Type} (g : CliGlobals Op FS) : Bool × Bool × Bool × Bool × Bool :=
  (g.g_unconstrained_map.isSome, g.g_impact_operator.isSome, g.g_impact_map.isSome,
    g.g_friction_solver.isSome, g.g_impact_friction_map.isSome)

/-- The four combinations of maps `stepSystem` accepts: nothing, the
unconstrained map alone, with the impact operator and map, with the friction
solver and the impact-friction map. -/
def acceptedMaps : List (Bool × Bool × Bool × Bool × Bool) :=
  [(false, false, false, false, false), (true, false, false, false, false),
    (true, true, true, false, false), (true, false, false, true, true)]

/-- The settings of a run that no step changes are the same in two values of
the globals. -/
def SameConfig {Op FS : Type} (g g' : CliGlobals Op FS) : Prop :=
  g'.g_dt = g.g_dt ∧ g'.g_end_time = g.g_end_time ∧ g'.g_output_forces = g.g_output_forces
    ∧ g'.g_steps_per_save = g.g_steps_per_save ∧ g'.g_output_dir_name = g.g_output_dir_name
    ∧ g'.g_serialize_snapshots = g.g_serialize_snapshots ∧ mapsPresent g' = mapsPresent g

/-- The iterations at which `stepSystem` was entered, in the order of a
trace. -/
def stepIterations (trace : List CliEvent) : List Nat :=
  trace.filterMap (fun event =>
    match event with
    | CliEvent.stepSystem g_iteration => some g_iteration
    | _ => none)

/-- The relation between the iteration and the output frame at one event of a
run with `s` steps per save: after
a successful `exportConfigurationData` the output frame is
`iteration / s + 1`; when a force file is opened the output frame is positive
and the number of the file, `g_output_frame - 1`, is `iteration / s`; a
configuration file is saved at a multiple of `s` under the number
`iteration / s`. -/
def FrameInvariant (s : Nat) : CliEvent → Prop
  | CliEvent.exportConfigurationData g_iteration true g_output_frame =>
      g_output_frame = g_iteration / s + 1
  | CliEvent.openForceFile g_iteration g_output_frame =>
      0 < g_output_frame ∧ g_output_frame - 1 = g_iteration / s
  | CliEvent.saveState g_iteration g_output_frame =>
      g_iteration % s = 0 ∧ g_output_frame = g_iteration / s
  | _ => True

/-- The integer nearest to a nonnegative rational, the even one of two that
are equally near. -/
def roundNearestEven (m : ℚ) : Int :=
  if m - (m.floor : ℚ) < 1 / 2 then m.floor
  else if 1 / 2 < m - (m.floor : ℚ) then m.floor + 1
  else if m.floor % 2 = 0 then m.floor
  else m.floor + 1

/-- The rounding of a positive rational `x` to 53 significant binary digits:
the unit `ulp`, a power of two, is halved or doubled (at most `fuel` times)
until `x / ulp` lies in `[2^52, 2^53)`, and `x / ulp` is rounded to the
nearest integer, ties to even. -/
def roundDoubleAux : Nat → ℚ → ℚ → ℚ
  | 0, x, ulp => (roundNearestEven (x / ulp) : ℚ) * ulp
  | fuel + 1, x, ulp =>
    if x / ulp < 4503599627370496 then roundDoubleAux fuel x (ulp / 2)
    else if 9007199254740992 ≤ x / ulp then roundDoubleAux fuel x (ulp * 2)
    else (roundNearestEven (x / ulp) : ℚ) * ulp

/-- The IEEE 754 binary64 number nearest to a rational (round to nearest,
ties to even), in the range of the normal numbers: an integer below `2^53` in
magnitude is a binary64 number and is returned as it is; any other number is
rounded to 53 significant binary digits. -/
def roundDouble (x : ℚ) : ℚ :=
  if x.den = 1 ∧ x.num.natAbs < 9007199254740992 then x
  else if x < 0 then -(roundDoubleAux 2200 (-x) 1)
  else roundDoubleAux 2200 x 1

/-- The conversion `scalar( g_dt )` of a `Rational<std::intmax_t>` with `scalar`
being `double`: the quotient of the numerator and the denominator, each
converted to `double`, in binary64 arithmetic. -/
def scalarOfRational (x : ℚ) : ℚ :=
  roundDouble (roundDouble (x.num : ℚ) / roundDouble (x.den : ℚ))

/-- The product `g_iteration * scalar( g_dt )` in binary64 arithmetic: the
iteration, an `unsigned`, is converted exactly. -/
def doubleTime (g_iteration : Nat) (g_dt : ℚ) : ℚ :=
  roundDouble ((g_iteration : ℚ) * scalarOfRational g_dt)

/-- An environment with binary64 arithmetic in which saving and serializing
succeed and the force file operations succeed or fail as told; the portals do
not move. -/
def stubEnvironment (save_ok force_ok : Bool) : CliEnvironment Unit Unit where
  updateMovingPortals := fun planar_portal _ => planar_portal
  simulationTime := doubleTime
  saveState := fun _ => save_ok
  serializeSystem := fun _ => true
  openForceFile := fun _ => force_ok
  writeSolution := fun _ => force_ok

/-- The globals of a run on the two resting disks with a time step of 1, one
step per save, the output directory `out` and no impact or friction solver. -/
def stubGlobals (g_iteration g_output_frame : Nat) (g_end_time : XmlScalar)
    (g_output_forces : Bool) (g_unconstrained_map : Option UnconstrainedMap) :
    CliGlobals Unit Unit where
  g_sim := restingDisksState
  g_iteration := g_iteration
  g_unconstrained_map := g_unconstrained_map
  g_dt := 1
  g_end_time := g_end_time
  g_impact_operator := none
  g_CoR := 1
  g_friction_solver := none
  g_mu := 0
  g_impact_map := none
  g_impact_friction_map := none
  g_output_dir_name := "out"
  g_output_forces := g_output_forces
  g_steps_per_save := 1
  g_output_frame := g_output_frame
  g_serialize_snapshots := false
  trace := []

/-- The globals `stepSystem` hands to `exportConfigurationData` after a step
that left the simulation in `g_sim` and recorded the events `flows`: the
iteration counter is incremented, in `unsigned` arithmetic. -/
def afterStep {Op FS : Type} (g : CliGlobals Op FS) (g_sim : RigidBody2DState)
    (flows : List CliEvent) : CliGlobals Op FS :=
  ({ stepStart g with g_sim := g_sim, trace := (stepStart g).trace ++ flows }).setIteration
    (u32 (g.g_iteration + 1))

/-- Every save, serialization and force file operation of the run succeeds. -/
def NoIOFailure {Op FS : Type} (env : CliEnvironment Op FS) : Prop :=
  ∀ g : CliGlobals Op FS, env.saveState g = true ∧ env.serializeSystem g = true
    ∧ env.openForceFile g = true ∧ env.writeSolution g = true

/-! ## Theorems -/

theorem length_setSegment2 (q : VectorXs) (k : Nat) (x : Vector2s) :
    (setSegment2 q k x).length = q.length := by
  simp [setSegment2]

theorem segment2_setSegment2_same (q : VectorXs) (k : Nat) (x : Vector2s)
    (h : k + 1 < q.length) : segment2 (setSegment2 q k x) k = x := by
  have h0 : k < q.length := by omega
  cases x with
  | mk a b =>
    simp [segment2, setSegment2, List.getD_eq_getElem?_getD, List.getElem?_set, h, h0]

theorem segment2_setSegment2_other (q : VectorXs) (b c : Nat) (x : Vector2s) (h : b ≠ c) :
    segment2 (setSegment2 q (3 * c) x) (3 * b) = segment2 q (3 * b) := by
  have h1 : 3 * c ≠ 3 * b := by omega
  have h2 : 3 * c + 1 ≠ 3 * b := by omega
  have h3 : 3 * c ≠ 3 * b + 1 := by omega
  have h4 : 3 * c + 1 ≠ 3 * b + 1 := by omega
  simp [segment2, setSegment2, List.getD_eq_getElem?_getD, List.getElem?_set, h1, h2, h3, h4]

theorem length_enforcePortal (p : PlanarPortal) (n : Nat) (q : VectorXs) :
    (enforcePortal p n q).length = q.length := by
  unfold enforcePortal
  induction n with
  | zero => simp
  | succ n ih =>
    rw [List.range_succ, List.foldl_append]
    simp only [List.foldl_cons, List.foldl_nil]
    split
    · rw [length_setSegment2, ih]
    · exact ih

theorem segment2_enforcePortal (p : PlanarPortal) (q : VectorXs) (n : Nat)
    (hn : n ≤ q.length / 3) (b : Nat) :
    segment2 (enforcePortal p n q) (3 * b)
      = if b < n then wrapPoint p (segment2 q (3 * b)) else segment2 q (3 * b) := by
  unfold enforcePortal
  induction n with
  | zero => simp
  | succ n ih =>
    have ih1 := ih (by omega)
    have hlen := length_enforcePortal p n q
    unfold enforcePortal at hlen
    rw [List.range_succ, List.foldl_append]
    simp only [List.foldl_cons, List.foldl_nil]
    by_cases hb : b = n
    · subst hb
      have hnot : ¬ b < b := lt_irrefl b
      rw [if_neg hnot] at ih1
      rw [if_pos (Nat.lt_succ_self b)]
      unfold wrapPoint
      rw [ih1]
      split
      · rw [segment2_setSegment2_same _ _ _ (by rw [hlen]; omega)]
      · exact ih1
    · have hiff : (b < n + 1) ↔ (b < n) := by omega
      simp only [hiff]
      split
      · rw [segment2_setSegment2_other _ _ _ _ hb]; exact ih1
      · exact ih1

theorem length_enforcePortals (ps : List PlanarPortal) (n : Nat) (q : VectorXs) :
    (ps.foldl (fun q planar_portal => enforcePortal planar_portal n q) q).length = q.length := by
  induction ps generalizing q with
  | nil => rfl
  | cons p ps ih => rw [List.foldl_cons, ih, length_enforcePortal]

theorem length_enforcePeriodicBoundaryConditions (st : RigidBody2DState) (q : VectorXs) :
    (enforcePeriodicBoundaryConditions st q).length = q.length := by
  unfold enforcePeriodicBoundaryConditions
  exact length_enforcePortals _ _ _

theorem segment2_enforcePortals (ps : List PlanarPortal) (n : Nat) (q : VectorXs)
    (hn : n ≤ q.length / 3) (b : Nat) (hb : b < n) :
    segment2 (ps.foldl (fun q planar_portal => enforcePortal planar_portal n q) q) (3 * b)
      = ps.foldl (fun x planar_portal => wrapPoint planar_portal x) (segment2 q (3 * b)) := by
  induction ps generalizing q with
  | nil => rfl
  | cons p ps ih =>
    rw [List.foldl_cons, List.foldl_cons, ih _ (by rw [length_enforcePortal]; exact hn),
      segment2_enforcePortal p q n hn b, if_pos hb]

/-- The centre of every body after the wrap is its centre passed through the
portals in order. -/
theorem segment2_enforcePeriodicBoundaryConditions (st : RigidBody2DState) (q : VectorXs)
    (b : Nat) (hb : b < q.length / 3) :
    segment2 (enforcePeriodicBoundaryConditions st q) (3 * b)
      = st.planarPortals.foldl (fun x planar_portal => wrapPoint planar_portal x)
          (segment2 q (3 * b)) := by
  unfold enforcePeriodicBoundaryConditions
  exact segment2_enforcePortals _ _ _ (le_refl _) b hb

/-- Passing a point of a region `S` through a list of portals that are well
behaved on `S` leaves it in `S`, outside each of them, and outside every
portal it was outside of. -/
theorem wrapPoints_outside (all : List PlanarPortal) (S : Vector2s → Prop)
    (hclosed : ∀ p ∈ all, ∀ x, S x → p.pointInsidePortal x = true →
      S (p.teleportPointInsidePortal x))
    (hself : ∀ p ∈ all, ∀ x, S x → p.pointInsidePortal x = true →
      p.pointInsidePortal (p.teleportPointInsidePortal x) = false)
    (hother : ∀ p ∈ all, ∀ p' ∈ all, ∀ x, S x → p'.pointInsidePortal x = true →
      p.pointInsidePortal x = false →
      p.pointInsidePortal (p'.teleportPointInsidePortal x) = false)
    (ps : List PlanarPortal) (hps : ∀ p ∈ ps, p ∈ all) (x : Vector2s) (hx : S x) :
    (∀ p0 ∈ all, p0.pointInsidePortal x = false →
        p0.pointInsidePortal (ps.foldl (fun x p => wrapPoint p x) x) = false) ∧
      (∀ p ∈ ps, p.pointInsidePortal (ps.foldl (fun x p => wrapPoint p x) x) = false) := by
  induction ps generalizing x with
  | nil => exact ⟨fun _ _ h => h, fun p hp => absurd hp (List.not_mem_nil p)⟩
  | cons p ps ih =>
    have hp : p ∈ all := hps p (List.mem_cons_self p ps)
    have hps2 : ∀ p1 ∈ ps, p1 ∈ all := fun p1 h1 => hps p1 (List.mem_cons_of_mem p h1)
    have hS : S (wrapPoint p x) := by
      unfold wrapPoint
      split
      · next hin => exact hclosed p hp x hx hin
      · exact hx
    obtain ⟨ih1, ih2⟩ := ih hps2 (wrapPoint p x) hS
    have hkeep : ∀ p0 ∈ all, p0.pointInsidePortal x = false →
        p0.pointInsidePortal (wrapPoint p x) = false := by
      intro p0 hp0 h0
      unfold wrapPoint
      split
      · next hin => exact hother p0 hp0 p hp x hx hin h0
      · exact h0
    have hp_out : p.pointInsidePortal (wrapPoint p x) = false := by
      unfold wrapPoint
      split
      · next hin => exact hself p hp x hx hin
      · next hin => simpa using hin
    refine ⟨fun p0 hp0 h0 => ih1 p0 hp0 (hkeep p0 hp0 h0), ?_⟩
    intro p1 hp1
    rw [List.foldl_cons]
    rcases List.mem_cons.1 hp1 with h | h
    · subst h
      exact ih1 p1 hp hp_out
    · exact ih2 p1 h

theorem enforcePortal_fixed (p : PlanarPortal) (n : Nat) (q : VectorXs)
    (h : ∀ b, b < n → p.pointInsidePortal (segment2 q (3 * b)) = false) :
    enforcePortal p n q = q := by
  unfold enforcePortal
  induction n with
  | zero => simp
  | succ n ih =>
    rw [List.range_succ, List.foldl_append, ih (fun b hb => h b (by omega))]
    simp [h n (Nat.lt_succ_self n)]

theorem enforcePortals_fixed (ps : List PlanarPortal) (n : Nat) (q : VectorXs)
    (h : ∀ p ∈ ps, ∀ b, b < n → p.pointInsidePortal (segment2 q (3 * b)) = false) :
    ps.foldl (fun q planar_portal => enforcePortal planar_portal n q) q = q := by
  induction ps with
  | nil => rfl
  | cons p ps ih =>
    rw [List.foldl_cons, enforcePortal_fixed p n q (h p (List.mem_cons_self p ps))]
    exact ih (fun p1 h1 => h p1 (List.mem_cons_of_mem p h1))

/-- The wrap leaves every body centre outside every portal, when the centres
lie in a region `S` on which the portals are well behaved. -/
theorem enforce_outside_aux (st : RigidBody2DState) (q : VectorXs) (S : Vector2s → Prop)
    (hq : ∀ b, b < q.length / 3 → S (segment2 q (3 * b)))
    (hclosed : ∀ p ∈ st.planarPortals, ∀ x, S x → p.pointInsidePortal x = true →
      S (p.teleportPointInsidePortal x))
    (hself : ∀ p ∈ st.planarPortals, ∀ x, S x → p.pointInsidePortal x = true →
      p.pointInsidePortal (p.teleportPointInsidePortal x) = false)
    (hother : ∀ p ∈ st.planarPortals, ∀ p' ∈ st.planarPortals, ∀ x, S x →
      p'.pointInsidePortal x = true → p.pointInsidePortal x = false →
      p.pointInsidePortal (p'.teleportPointInsidePortal x) = false) :
    ∀ b, b < q.length / 3 → ∀ p ∈ st.planarPortals,
      p.pointInsidePortal (segment2 (enforcePeriodicBoundaryConditions st q) (3 * b)) = false := by
  intro b hb p hp
  rw [segment2_enforcePeriodicBoundaryConditions st q b hb]
  exact (wrapPoints_outside st.planarPortals S hclosed hself hother st.planarPortals
    (fun _ h => h) (segment2 q (3 * b)) (hq b hb)).2 p hp

/-- The region between one period below and one period above the slab. -/
theorem slabPortal_region :
    (∀ p ∈ [slabPortal 10], ∀ x : Vector2s, (-10 ≤ x.y ∧ x.y ≤ 20) →
      p.pointInsidePortal x = true →
      (-10 ≤ (p.teleportPointInsidePortal x).y ∧ (p.teleportPointInsidePortal x).y ≤ 20)) ∧
    (∀ p ∈ [slabPortal 10], ∀ x : Vector2s, (-10 ≤ x.y ∧ x.y ≤ 20) →
      p.pointInsidePortal x = true →
      p.pointInsidePortal (p.teleportPointInsidePortal x) = false) ∧
    (∀ p ∈ [slabPortal 10], ∀ p' ∈ [slabPortal 10], ∀ x : Vector2s, (-10 ≤ x.y ∧ x.y ≤ 20) →
      p'.pointInsidePortal x = true → p.pointInsidePortal x = false →
      p.pointInsidePortal (p'.teleportPointInsidePortal x) = false) := by
  refine ⟨?_, ?_, ?_⟩
  · intro p hp x hx hin
    rw [List.mem_singleton] at hp
    subst hp
    simp only [slabPortal, decide_eq_true_eq] at hin ⊢
    split <;> constructor <;> rcases hin with h | h <;> simp only [] <;> linarith [hx.1, hx.2]
  · intro p hp x hx hin
    rw [List.mem_singleton] at hp
    subst hp
    simp only [slabPortal, decide_eq_true_eq, decide_eq_false_iff_not, not_or, not_lt] at hin ⊢
    split <;> constructor <;> rcases hin with h | h <;> simp only [] <;> linarith [hx.1, hx.2]
  · intro p hp p' hp' x _ hin hout
    rw [List.mem_singleton] at hp hp'
    subst hp
    subst hp'
    rw [hin] at hout
    exact absurd hout (by decide)

/-- Claim C1, as amended: when the body centres of `q` lie in a region that the
teleports of the portals map into itself, and on which every portal teleports
a point inside it to a point outside it and never moves a point that is
outside another portal into that portal, then after
`enforcePeriodicBoundaryConditions` no body centre is inside any portal. -/
theorem enforcePeriodicBoundaryConditions_outside (st : RigidBody2DState) (q : VectorXs)
    (S : Vector2s → Prop)
    (hq : ∀ b, b < q.length / 3 → S (segment2 q (3 * b)))
    (hclosed : ∀ p ∈ st.planarPortals, ∀ x, S x → p.pointInsidePortal x = true →
      S (p.teleportPointInsidePortal x))
    (hself : ∀ p ∈ st.planarPortals, ∀ x, S x → p.pointInsidePortal x = true →
      p.pointInsidePortal (p.teleportPointInsidePortal x) = false)
    (hother : ∀ p ∈ st.planarPortals, ∀ p' ∈ st.planarPortals, ∀ x, S x →
      p'.pointInsidePortal x = true → p.pointInsidePortal x = false →
      p.pointInsidePortal (p'.teleportPointInsidePortal x) = false) :
    ∀ b, b < q.length / 3 → ∀ p ∈ st.planarPortals,
      p.pointInsidePortal (segment2 (enforcePeriodicBoundaryConditions st q) (3 * b)) = false :=
  enforce_outside_aux st q S hq hclosed hself hother

/-- Witness of the amended claim C1: a disk at `(0, −4)` and the periodic portal
between `y = 0` and `y = 10`; after the wrap the centre is outside the portal. -/
theorem enforcePeriodicBoundaryConditions_outside_witness :
    (slabPortal 10).pointInsidePortal
      (segment2 (enforcePeriodicBoundaryConditions
        (diskState 1 1 [0, -4, 0] [] [slabPortal 10]) [0, -4, 0]) (3 * 0)) = false :=
  enforcePeriodicBoundaryConditions_outside (diskState 1 1 [0, -4, 0] [] [slabPortal 10])
    [0, -4, 0] (fun x => -10 ≤ x.y ∧ x.y ≤ 20)
    (by
      intro b hb
      have hb0 : b = 0 := by
        have : b < 1 := hb
        omega
      subst hb0
      simp only [segment2, List.getD_eq_getElem?_getD]
      norm_num)
    slabPortal_region.1 slabPortal_region.2.1 slabPortal_region.2.2
    0 (by decide) (slabPortal 10) (List.mem_singleton.2 rfl)

/-- Claim C1 fails as stated: with the periodic portal between `y = 0` and
`y = 10`, a body centre at `(0, −15)` is teleported once, to `(0, −5)`, and is
still inside the portal after the wrap. -/
theorem enforcePeriodicBoundaryConditions_leaves_inside :
    (diskState 1 1 [0, -15, 0] [] [slabPortal 10]).planarPortals = [slabPortal 10] ∧
    (slabPortal 10).pointInsidePortal
      (segment2 (enforcePeriodicBoundaryConditions
        (diskState 1 1 [0, -15, 0] [] [slabPortal 10]) [0, -15, 0]) (3 * 0)) = true := by
  refine ⟨rfl, ?_⟩
  decide!

/-- Claim C2, as amended: under the conditions of the amended claim C1, applying
`enforcePeriodicBoundaryConditions` to its own result changes nothing. -/
theorem enforcePeriodicBoundaryConditions_idempotent (st : RigidBody2DState) (q : VectorXs)
    (S : Vector2s → Prop)
    (hq : ∀ b, b < q.length / 3 → S (segment2 q (3 * b)))
    (hclosed : ∀ p ∈ st.planarPortals, ∀ x, S x → p.pointInsidePortal x = true →
      S (p.teleportPointInsidePortal x))
    (hself : ∀ p ∈ st.planarPortals, ∀ x, S x → p.pointInsidePortal x = true →
      p.pointInsidePortal (p.teleportPointInsidePortal x) = false)
    (hother : ∀ p ∈ st.planarPortals, ∀ p' ∈ st.planarPortals, ∀ x, S x →
      p'.pointInsidePortal x = true → p.pointInsidePortal x = false →
      p.pointInsidePortal (p'.teleportPointInsidePortal x) = false) :
    enforcePeriodicBoundaryConditions st (enforcePeriodicBoundaryConditions st q)
      = enforcePeriodicBoundaryConditions st q := by
  have hout := enforce_outside_aux st q S hq hclosed hself hother
  have hlen := length_enforcePeriodicBoundaryConditions st q
  generalize enforcePeriodicBoundaryConditions st q = q1 at hout hlen
  unfold enforcePeriodicBoundaryConditions
  apply enforcePortals_fixed
  intro p hp b hb
  exact hout b (by rw [← hlen]; exact hb) p hp

/-- Witness of the amended claim C2: a disk at `(0, −4)` and the periodic portal
between `y = 0` and `y = 10`; wrapping twice gives what wrapping once gives. -/
theorem enforcePeriodicBoundaryConditions_idempotent_witness :
    enforcePeriodicBoundaryConditions (diskState 1 1 [0, -4, 0] [] [slabPortal 10])
        (enforcePeriodicBoundaryConditions (diskState 1 1 [0, -4, 0] [] [slabPortal 10])
          [0, -4, 0])
      = enforcePeriodicBoundaryConditions (diskState 1 1 [0, -4, 0] [] [slabPortal 10])
          [0, -4, 0] :=
  enforcePeriodicBoundaryConditions_idempotent (diskState 1 1 [0, -4, 0] [] [slabPortal 10])
    [0, -4, 0] (fun x => -10 ≤ x.y ∧ x.y ≤ 20)
    (by
      intro b hb
      have hb0 : b = 0 := by
        have : b < 1 := hb
        omega
      subst hb0
      simp only [segment2, List.getD_eq_getElem?_getD]
      norm_num)
    slabPortal_region.1 slabPortal_region.2.1 slabPortal_region.2.2

/-- Claim C2 fails as stated: with the periodic portal between `y = 0` and
`y = 10` and a body centre at `(0, −15)`, one wrap gives `(0, −5)` and a second
wrap gives `(0, 5)`. -/
theorem enforcePeriodicBoundaryConditions_not_idempotent :
    enforcePeriodicBoundaryConditions (diskState 1 1 [0, -15, 0] [] [slabPortal 10])
        (enforcePeriodicBoundaryConditions (diskState 1 1 [0, -15, 0] [] [slabPortal 10])
          [0, -15, 0])
      ≠ enforcePeriodicBoundaryConditions (diskState 1 1 [0, -15, 0] [] [slabPortal 10])
          [0, -15, 0] := by
  decide!

/-! ### Loops that append to the active set -/

theorem foldl_append_flatMap {α β : Type} (G : α → List β) (step : List β → α → List β)
    (hstep : ∀ acc a, step acc a = acc ++ G a) (l : List α) (acc : List β) :
    l.foldl step acc = acc ++ l.flatMap G := by
  induction l generalizing acc with
  | nil => simp
  | cons a l ih => rw [List.foldl_cons, ih, hstep, List.flatMap_cons, List.append_assoc]

theorem foldl_append_filterMap {α β : Type} (g : α → Option β) (step : List β → α → List β)
    (hstep : ∀ acc a, step acc a = acc ++ (g a).toList) (l : List α) (acc : List β) :
    l.foldl step acc = acc ++ l.filterMap g := by
  induction l generalizing acc with
  | nil => simp
  | cons a l ih =>
    rw [List.foldl_cons, ih, hstep, List.append_assoc]
    cases h : g a <;> simp [List.filterMap_cons, h]

/-- The body-plane scan appends, plane after plane and body after body, the
constraint of every active pair. -/
theorem computeBodyPlaneActiveSetAllPairs_eq (st : RigidBody2DState) (q0 q1 : VectorXs)
    (active_set : List Constraint) :
    computeBodyPlaneActiveSetAllPairs st q0 q1 active_set
      = active_set ++ (List.range st.planes.length).flatMap (fun plane_idx =>
          (List.range (q0.length / 3)).filterMap (fun bdy_idx =>
            if planeDistance st q1 plane_idx bdy_idx ≤ (st.bodyGeometry bdy_idx).r then
              some (staticPlaneCircleOf st plane_idx bdy_idx) else none)) := by
  unfold computeBodyPlaneActiveSetAllPairs
  apply foldl_append_flatMap
  intro acc plane_idx
  apply foldl_append_filterMap
  intro acc1 bdy_idx
  simp only [staticPlaneCircleOf, planeDistance, RigidBody2DState.bodyGeometry,
    StaticPlaneCircleConstraint.isActive]
  cases st.geometry.getD (st.geometryIndices.getD bdy_idx 0) default with
  | circle r =>
    simp only [RigidBody2DGeometry.r, decide_eq_true_eq]
    split <;> simp

theorem staticPlaneCircleOf_injective (st : RigidBody2DState) (pl b pl' b' : Nat)
    (h : staticPlaneCircleOf st pl b = staticPlaneCircleOf st pl' b') : pl = pl' ∧ b = b' := by
  unfold staticPlaneCircleOf at h
  injection h with h1 h2 _ _
  exact ⟨h2, h1⟩

theorem bodyPlane_appended_nodup (st : RigidBody2DState) (q1 : VectorXs) (P N : Nat) :
    ((List.range P).flatMap (fun plane_idx =>
      (List.range N).filterMap (fun bdy_idx =>
        if planeDistance st q1 plane_idx bdy_idx ≤ (st.bodyGeometry bdy_idx).r then
          some (staticPlaneCircleOf st plane_idx bdy_idx) else none))).Nodup := by
  rw [List.nodup_flatMap]
  constructor
  · intro pl _
    apply List.Nodup.filterMap _ (List.nodup_range N)
    intro a a' c hc hc'
    simp only [Option.mem_def] at hc hc'
    split at hc <;> split at hc' <;> simp only [Option.some.injEq, reduceCtorEq] at hc hc'
    exact (staticPlaneCircleOf_injective st pl a pl a' (hc.trans hc'.symm)).2
  · apply List.Nodup.pairwise_of_forall_ne (List.nodup_range P)
    intro pl _ pl' _ hne
    intro c hc hc'
    simp only [List.mem_filterMap, List.mem_range] at hc hc'
    obtain ⟨b, _, hb⟩ := hc
    obtain ⟨b', _, hb'⟩ := hc'
    split at hb <;> split at hb' <;> simp only [Option.some.injEq, reduceCtorEq] at hb hb'
    exact hne (staticPlaneCircleOf_injective st pl b pl' b' (hb.trans hb'.symm)).1

theorem bodyPlane_appended_mem (st : RigidBody2DState) (q1 : VectorXs) (P N : Nat)
    (c : Constraint) :
    c ∈ (List.range P).flatMap (fun plane_idx =>
      (List.range N).filterMap (fun bdy_idx =>
        if planeDistance st q1 plane_idx bdy_idx ≤ (st.bodyGeometry bdy_idx).r then
          some (staticPlaneCircleOf st plane_idx bdy_idx) else none))
    ↔ ∃ pl b, pl < P ∧ b < N ∧ planeDistance st q1 pl b ≤ (st.bodyGeometry b).r ∧
        c = staticPlaneCircleOf st pl b := by
  simp only [List.mem_flatMap, List.mem_filterMap, List.mem_range]
  constructor
  · rintro ⟨pl, hpl, b, hb, h⟩
    split at h
    · next hact =>
      simp only [Option.some.injEq] at h
      exact ⟨pl, b, hpl, hb, hact, h.symm⟩
    · simp at h
  · rintro ⟨pl, b, hpl, hb, hact, hc⟩
    exact ⟨pl, hpl, b, hb, by rw [if_pos hact, hc]⟩

/-- Claim C3: `computeBodyPlaneActiveSetAllPairs` keeps the constraints already
in the active set and appends exactly one `StaticPlaneCircle` constraint
(carrying the body index, the plane index, the radius of the body and the
plane) for each pair of a plane and a body with `n·(x − x₀) ≤ r` at the centre
of the body in `q1`, none for a pair with `n·(x − x₀) > r` (so a tangent disk is
active, a strictly more distant one is not), and nothing else; `q0`, whose
size is that of `q1`, does not influence the result. -/
theorem computeBodyPlaneActiveSetAllPairs_spec (st : RigidBody2DState) (q0 q1 : VectorXs)
    (active_set : List Constraint) (hsize : q0.length = q1.length) :
    ∃ appended, computeBodyPlaneActiveSetAllPairs st q0 q1 active_set = active_set ++ appended ∧
      (∀ c ∈ appended, ∃ pl b, pl < st.planes.length ∧ b < q1.length / 3 ∧
        planeDistance st q1 pl b ≤ (st.bodyGeometry b).r ∧ c = staticPlaneCircleOf st pl b) ∧
      (∀ pl b, pl < st.planes.length → b < q1.length / 3 →
        appended.count (staticPlaneCircleOf st pl b)
          = if planeDistance st q1 pl b ≤ (st.bodyGeometry b).r then 1 else 0) ∧
      (∀ q0' : VectorXs, q0'.length = q1.length →
        computeBodyPlaneActiveSetAllPairs st q0' q1 active_set
          = computeBodyPlaneActiveSetAllPairs st q0 q1 active_set) := by
  refine ⟨_, computeBodyPlaneActiveSetAllPairs_eq st q0 q1 active_set, ?_, ?_, ?_⟩
  · intro c hc
    rw [hsize] at hc
    exact (bodyPlane_appended_mem st q1 _ _ c).1 hc
  · intro pl b hpl hb
    rw [hsize]
    split
    · next hact =>
      apply List.count_eq_one_of_mem (bodyPlane_appended_nodup st q1 _ _)
      exact (bodyPlane_appended_mem st q1 _ _ _).2 ⟨pl, b, hpl, hb, hact, rfl⟩
    · next hact =>
      apply List.count_eq_zero_of_not_mem
      intro hmem
      obtain ⟨pl', b', _, _, hact', heq⟩ := (bodyPlane_appended_mem st q1 _ _ _).1 hmem
      obtain ⟨h1, h2⟩ := staticPlaneCircleOf_injective st pl b pl' b' heq
      subst h1
      subst h2
      exact hact hact'
  · intro q0' hsize'
    rw [computeBodyPlaneActiveSetAllPairs_eq, computeBodyPlaneActiveSetAllPairs_eq, hsize, hsize']

/-- Witness of claim C3: a unit disk resting on the plane through the origin
with normal `(0, 1)` (tangent) and a second unit disk away from it; the one
constraint appended is that of the tangent disk. -/
theorem computeBodyPlaneActiveSetAllPairs_spec_witness :
    computeBodyPlaneActiveSetAllPairs restingDisksState [0, 2, 0, 5, 3, 0] restingDisksQ []
      = [Constraint.staticPlaneCircle 0 0 1 ⟨⟨0, 0⟩, ⟨0, 1⟩⟩] ∧
    ∃ appended, computeBodyPlaneActiveSetAllPairs restingDisksState [0, 2, 0, 5, 3, 0]
        restingDisksQ [] = [] ++ appended ∧
      (∀ c ∈ appended, ∃ pl b, pl < restingDisksState.planes.length ∧
        b < restingDisksQ.length / 3 ∧
        planeDistance restingDisksState restingDisksQ pl b
          ≤ (restingDisksState.bodyGeometry b).r ∧
        c = staticPlaneCircleOf restingDisksState pl b) ∧
      (∀ pl b, pl < restingDisksState.planes.length → b < restingDisksQ.length / 3 →
        appended.count (staticPlaneCircleOf restingDisksState pl b)
          = if planeDistance restingDisksState restingDisksQ pl b
              ≤ (restingDisksState.bodyGeometry b).r then 1 else 0) ∧
      (∀ q0' : VectorXs, q0'.length = restingDisksQ.length →
        computeBodyPlaneActiveSetAllPairs restingDisksState q0' restingDisksQ []
          = computeBodyPlaneActiveSetAllPairs restingDisksState [0, 2, 0, 5, 3, 0]
              restingDisksQ []) :=
  ⟨by decide!,
    computeBodyPlaneActiveSetAllPairs_spec restingDisksState [0, 2, 0, 5, 3, 0]
      restingDisksQ [] rfl⟩

/-! ### The narrow phase -/

/-- The circle test `isActive` is the comparison of the distance with the sum of the radii. -/
theorem isActive_iff_sqrt (x0 x1 : Vector2s) (r0 r1 : ℚ) :
    CircleCircleConstraint.isActive x0 x1 r0 r1 = true
      ↔ Real.sqrt (((x0.sub x1).squaredNorm : ℚ) : ℝ) ≤ ((r0 + r1 : ℚ) : ℝ) := by
  unfold CircleCircleConstraint.isActive
  rw [decide_eq_true_eq, Real.sqrt_le_iff]
  constructor
  · rintro ⟨h1, h2⟩
    refine ⟨by exact_mod_cast h1, ?_⟩
    rw [pow_two]
    exact_mod_cast h2
  · rintro ⟨h1, h2⟩
    rw [pow_two] at h2
    exact ⟨by exact_mod_cast h1, by exact_mod_cast h2⟩

theorem isActive_iff_centresWithinRadii (st : RigidBody2DState) (q : VectorXs) (i j : Nat) :
    CircleCircleConstraint.isActive (segment2 q (3 * i)) (segment2 q (3 * j))
        (st.bodyGeometry i).r (st.bodyGeometry j).r = true
      ↔ centresWithinRadii st q i j :=
  isActive_iff_sqrt _ _ _ _

theorem dispatchNarrowPhaseCollision_eq (sqrt : ℚ → ℚ) (st : RigidBody2DState)
    (q0 q1 : VectorXs) (i j : Nat) (active_set : List Constraint) :
    dispatchNarrowPhaseCollision sqrt i j (st.bodyGeometry i) (st.bodyGeometry j) q0 q1 active_set
      = if CircleCircleConstraint.isActive (segment2 q1 (3 * i)) (segment2 q1 (3 * j))
            (st.bodyGeometry i).r (st.bodyGeometry j).r = true
        then active_set ++ [circleCircleOf sqrt st q0 i j] else active_set := by
  unfold dispatchNarrowPhaseCollision circleCircleOf
  cases st.bodyGeometry i with
  | circle r0 =>
    cases st.bodyGeometry j with
    | circle r1 => simp only [RigidBody2DGeometry.r]

theorem dispatchNarrowPhaseCollision_append (sqrt : ℚ → ℚ) (st : RigidBody2DState)
    (q0 q1 : VectorXs) (i j : Nat) (active_set : List Constraint) :
    dispatchNarrowPhaseCollision sqrt i j (st.bodyGeometry i) (st.bodyGeometry j) q0 q1 active_set
      = active_set ++ dispatchNarrowPhaseCollision sqrt i j (st.bodyGeometry i)
          (st.bodyGeometry j) q0 q1 [] := by
  rw [dispatchNarrowPhaseCollision_eq, dispatchNarrowPhaseCollision_eq]
  split <;> simp

/-! ### The candidate loop of the spatial grid -/

theorem processCandidate_active_set (sqrt : ℚ → ℚ) (st : RigidBody2DState) (nbodies : Nat)
    (tmap : List (Nat × TeleportedBody)) (q0 q1 : VectorXs) (s s' : OverlapLoopState)
    (pair : Nat × Nat)
    (h : processCandidate sqrt st nbodies tmap q0 q1 s pair = some s') :
    s'.active_set = s.active_set ++ realPairConstraints sqrt st nbodies q0 q1 pair := by
  unfold processCandidate at h
  unfold realPairConstraints
  by_cases hreal : pair.1 < nbodies ∧ pair.2 < nbodies
  · have h1 : ¬ pair.1 ≥ nbodies := by omega
    have h2 : ¬ pair.2 ≥ nbodies := by omega
    simp only [h1, h2, decide_False, Bool.not_false, Bool.and_self, if_true,
      Option.some.injEq] at h
    rw [if_pos hreal, ← h]
    exact dispatchNarrowPhaseCollision_append sqrt st q0 q1 pair.1 pair.2 s.active_set
  · rw [if_neg hreal, List.append_nil]
    have hcond : (!decide (pair.1 ≥ nbodies) && !decide (pair.2 ≥ nbodies)) = false := by
      simp only [Bool.and_eq_false_imp, Bool.not_eq_true', decide_eq_false_iff_not,
        Bool.not_eq_false', decide_eq_true_eq]
      omega
    dsimp only at h
    rw [hcond] at h
    simp only [Bool.false_eq_true, if_false] at h
    split at h
    · split at h
      · injection h with h; rw [← h]
      · split at h
        · exact absurd h (by simp)
        · injection h with h; rw [← h]
        · injection h with h; rw [← h]
    · exact absurd h (by simp)

theorem processCandidates_active_set (sqrt : ℚ → ℚ) (st : RigidBody2DState) (nbodies : Nat)
    (tmap : List (Nat × TeleportedBody)) (q0 q1 : VectorXs) (cands : List (Nat × Nat))
    (s s' : OverlapLoopState)
    (h : processCandidates sqrt st nbodies tmap q0 q1 cands s = some s') :
    s'.active_set = s.active_set ++ cands.flatMap (realPairConstraints sqrt st nbodies q0 q1) := by
  induction cands generalizing s with
  | nil =>
    unfold processCandidates at h
    injection h with h
    rw [← h]; simp
  | cons pair rest ih =>
    unfold processCandidates at h
    split at h
    · exact absurd h (by simp)
    · next next hnext =>
      rw [ih next h, processCandidate_active_set sqrt st nbodies tmap q0 q1 s next pair hnext,
        List.flatMap_cons, List.append_assoc]

/-- The variants the teleported narrow phase creates. -/
theorem dispatchTeleportedNarrowPhaseCollision_appended (st : RigidBody2DState)
    (tc : TeleportedCollision) (geo0 geo1 : RigidBody2DGeometry) (q0 q1 : VectorXs)
    (active_set out : List Constraint)
    (h : dispatchTeleportedNarrowPhaseCollision st tc geo0 geo1 q0 q1 active_set = some out) :
    ∃ appended, out = active_set ++ appended ∧ ∀ c ∈ appended,
      c.typeid = ConstraintType.TeleportedCircleCircleConstraint ∨
      c.typeid = ConstraintType.KinematicKickCircleCircleConstraint := by
  unfold dispatchTeleportedNarrowPhaseCollision at h
  cases geo0 with
  | circle r0 =>
    cases geo1 with
    | circle r1 =>
      split at h
      · simp only at h
        split at h
        · split at h
          · injection h with h
            exact ⟨_, h.symm, by simp [Constraint.typeid]⟩
          · injection h with h
            exact ⟨[], by simp [h], by simp⟩
        · split at h
          · exact absurd h (by simp)
          · split at h
            · injection h with h
              exact ⟨_, h.symm, by simp [Constraint.typeid]⟩
            · injection h with h
              exact ⟨[], by simp [h], by simp⟩
      · exact absurd h (by simp)

theorem dispatchTeleportedCollisions_appended (st : RigidBody2DState) (q0 q1 : VectorXs)
    (tcs : List TeleportedCollision) (active_set out : List Constraint)
    (h : dispatchTeleportedCollisions st q0 q1 tcs active_set = some out) :
    ∃ appended, out = active_set ++ appended ∧ ∀ c ∈ appended,
      c.typeid = ConstraintType.TeleportedCircleCircleConstraint ∨
      c.typeid = ConstraintType.KinematicKickCircleCircleConstraint := by
  induction tcs generalizing active_set with
  | nil =>
    unfold dispatchTeleportedCollisions at h
    injection h with h
    exact ⟨[], by simp [h], by simp⟩
  | cons tc rest ih =>
    unfold dispatchTeleportedCollisions at h
    split at h
    · exact absurd h (by simp)
    · next next hnext =>
      obtain ⟨app1, h1, h1t⟩ := dispatchTeleportedNarrowPhaseCollision_appended st tc _ _ q0 q1
        active_set next hnext
      obtain ⟨app2, h2, h2t⟩ := ih next h
      refine ⟨app1 ++ app2, by rw [h2, h1, List.append_assoc], ?_⟩
      intro c hc
      rcases List.mem_append.1 hc with hc | hc
      · exact h1t c hc
      · exact h2t c hc

/-- The shape of the output of the spatial grid: the constraints already there,
then the result of the standard narrow phase on the candidate pairs of two
bodies in the order of the set, then the teleported constraints. -/
theorem computeBodyBodyActiveSetSpatialGrid_shape (sqrt : ℚ → ℚ)
    (grid : List AABB → List (Nat × Nat)) (st : RigidBody2DState) (q0 q1 : VectorXs)
    (active_set out : List Constraint)
    (h : computeBodyBodyActiveSetSpatialGrid sqrt grid st q0 q1 active_set = some out) :
    ∃ teleported, out = active_set
        ++ (possibleOverlaps grid (buildAABBs st q1 (q0.length / 3)).1).flatMap
            (realPairConstraints sqrt st (q0.length / 3) q0 q1)
        ++ teleported ∧
      ∀ c ∈ teleported, c.typeid = ConstraintType.TeleportedCircleCircleConstraint ∨
        c.typeid = ConstraintType.KinematicKickCircleCircleConstraint := by
  unfold computeBodyBodyActiveSetSpatialGrid at h
  simp only at h
  split at h
  · exact absurd h (by simp)
  · next s hs =>
    obtain ⟨app, happ, ht⟩ := dispatchTeleportedCollisions_appended st q0 q1 _ _ out h
    have hact := processCandidates_active_set sqrt st _ _ q0 q1 _ _ s hs
    simp only at hact
    exact ⟨app, by rw [happ, hact], ht⟩

/-- Claim C4: for every pair of bodies `(i, j)` and every `q0`, `q1`,
`dispatchNarrowPhaseCollision` appends exactly one `CircleCircle` constraint for
`(i, j)` when `‖x_i − x_j‖ ≤ r_i + r_j` holds at `q1` and appends nothing
otherwise; hence every `CircleCircle` constraint in the active set returned by
`computeActiveSet` satisfies `‖x_i − x_j‖ ≤ r_i + r_j` at `q1`. -/
theorem dispatchNarrowPhaseCollision_spec (sqrt : ℚ → ℚ)
    (grid : List AABB → List (Nat × Nat)) (st : RigidBody2DState) (q0 q1 : VectorXs) :
    (∀ i j active_set, centresWithinRadii st q1 i j →
      dispatchNarrowPhaseCollision sqrt i j (st.bodyGeometry i) (st.bodyGeometry j) q0 q1
        active_set = active_set ++ [circleCircleOf sqrt st q0 i j]) ∧
    (∀ i j active_set, ¬ centresWithinRadii st q1 i j →
      dispatchNarrowPhaseCollision sqrt i j (st.bodyGeometry i) (st.bodyGeometry j) q0 q1
        active_set = active_set) ∧
    (∀ active_set out, computeActiveSet sqrt grid st q0 q1 active_set = some out →
      ∀ i j n p r0 r1, Constraint.circleCircle i j n p r0 r1 ∈ out →
        centresWithinRadii st q1 i j) := by
  refine ⟨?_, ?_, ?_⟩
  · intro i j active_set hact
    rw [dispatchNarrowPhaseCollision_eq,
      if_pos ((isActive_iff_centresWithinRadii st q1 i j).2 hact)]
  · intro i j active_set hact
    rw [dispatchNarrowPhaseCollision_eq,
      if_neg (fun h => hact ((isActive_iff_centresWithinRadii st q1 i j).1 h))]
  · intro active_set out h i j n p r0 r1 hmem
    unfold computeActiveSet at h
    split at h
    · exact absurd h (by simp)
    · next grid_out hgrid =>
      injection h with h
      obtain ⟨tele, hshape, htele⟩ :=
        computeBodyBodyActiveSetSpatialGrid_shape sqrt grid st q0 q1 [] grid_out hgrid
      rw [← h, computeBodyPlaneActiveSetAllPairs_eq, hshape] at hmem
      simp only [List.nil_append, List.mem_append] at hmem
      rcases hmem with (hmem | hmem) | hmem
      · rw [List.mem_flatMap] at hmem
        obtain ⟨pair, _, hpair⟩ := hmem
        unfold realPairConstraints at hpair
        split at hpair
        · rw [dispatchNarrowPhaseCollision_eq] at hpair
          split at hpair
          · next hact =>
            simp only [List.nil_append, List.mem_singleton] at hpair
            unfold circleCircleOf at hpair
            injection hpair with hi hj
            subst hi
            subst hj
            exact (isActive_iff_centresWithinRadii st q1 _ _).1 hact
          · simp at hpair
        · simp at hpair
      · rcases htele _ hmem with ht | ht <;> simp [Constraint.typeid] at ht
      · obtain ⟨pl, b, _, _, _, hc⟩ := (bodyPlane_appended_mem st q1 _ _ _).1 hmem
        simp [staticPlaneCircleOf] at hc

/-- Claim C5: the `CircleCircle` constraint that `dispatchNarrowPhaseCollision`
emits for bodies `(i, j)`, active at `q1`, stores the normal
`(x_i − x_j)/‖x_i − x_j‖` and the anchor `x_i + r_i/(r_i + r_j)·(x_j − x_i)` with
the centres of `q0`: the constraint is the same whatever active `q1` is; and
for disks of positive radii the anchor lies on the segment between the two
`q0` centres. -/
theorem dispatchNarrowPhaseCollision_constraint (sqrt : ℚ → ℚ) (st : RigidBody2DState)
    (q0 q1 : VectorXs) (i j : Nat) (active_set : List Constraint)
    (hact : centresWithinRadii st q1 i j) :
    dispatchNarrowPhaseCollision sqrt i j (st.bodyGeometry i) (st.bodyGeometry j) q0 q1 active_set
      = active_set ++ [Constraint.circleCircle i j
          ⟨((segment2 q0 (3 * i)).sub (segment2 q0 (3 * j))).x
              / sqrt ((segment2 q0 (3 * i)).sub (segment2 q0 (3 * j))).squaredNorm,
            ((segment2 q0 (3 * i)).sub (segment2 q0 (3 * j))).y
              / sqrt ((segment2 q0 (3 * i)).sub (segment2 q0 (3 * j))).squaredNorm⟩
          ((segment2 q0 (3 * i)).add
            (Vector2s.smul ((st.bodyGeometry i).r / ((st.bodyGeometry i).r + (st.bodyGeometry j).r))
              ((segment2 q0 (3 * j)).sub (segment2 q0 (3 * i)))))
          (st.bodyGeometry i).r (st.bodyGeometry j).r] ∧
    (∀ q1' : VectorXs, centresWithinRadii st q1' i j →
      dispatchNarrowPhaseCollision sqrt i j (st.bodyGeometry i) (st.bodyGeometry j) q0 q1'
          active_set
        = dispatchNarrowPhaseCollision sqrt i j (st.bodyGeometry i) (st.bodyGeometry j) q0 q1
          active_set) ∧
    (0 < (st.bodyGeometry i).r → 0 < (st.bodyGeometry j).r →
      ∃ t : ℚ, 0 ≤ t ∧ t ≤ 1 ∧
        (segment2 q0 (3 * i)).add
            (Vector2s.smul ((st.bodyGeometry i).r / ((st.bodyGeometry i).r + (st.bodyGeometry j).r))
              ((segment2 q0 (3 * j)).sub (segment2 q0 (3 * i))))
          = (segment2 q0 (3 * i)).add
              (Vector2s.smul t ((segment2 q0 (3 * j)).sub (segment2 q0 (3 * i))))) := by
  refine ⟨?_, ?_, ?_⟩
  · rw [dispatchNarrowPhaseCollision_eq,
      if_pos ((isActive_iff_centresWithinRadii st q1 i j).2 hact)]
    rfl
  · intro q1' hact'
    rw [dispatchNarrowPhaseCollision_eq, dispatchNarrowPhaseCollision_eq,
      if_pos ((isActive_iff_centresWithinRadii st q1 i j).2 hact),
      if_pos ((isActive_iff_centresWithinRadii st q1' i j).2 hact')]
  · intro h0 h1
    refine ⟨(st.bodyGeometry i).r / ((st.bodyGeometry i).r + (st.bodyGeometry j).r),
      div_nonneg (le_of_lt h0) (by linarith), ?_, rfl⟩
    rw [div_le_one (by linarith)]
    linarith

/-- The unit disks of `narrowDomainState` are within contact distance at
`narrowDomainQ`. -/
theorem narrowDomain_centresWithinRadii :
    centresWithinRadii narrowDomainState narrowDomainQ 0 1 := by
  rw [← isActive_iff_centresWithinRadii]
  decide!

/-- Witness of claim C4: the two overlapping unit disks of `narrowDomainState`;
the narrow phase appends their constraint, and the `CircleCircle` constraint of
the active set is within contact distance. -/
theorem dispatchNarrowPhaseCollision_spec_witness :
    dispatchNarrowPhaseCollision (fun z => z) 0 1 (narrowDomainState.bodyGeometry 0)
        (narrowDomainState.bodyGeometry 1) narrowDomainQ narrowDomainQ []
      = [] ++ [circleCircleOf (fun z => z) narrowDomainState narrowDomainQ 0 1] ∧
    computeActiveSet (fun z => z) bruteForceOverlaps narrowDomainState narrowDomainQ
        narrowDomainQ []
      = some [Constraint.circleCircle 0 1 ⟨0, -1⟩ ⟨0, 8 / 5⟩ 1 1,
          Constraint.teleportedCircleCircle 0 1 ⟨0, 11 / 10⟩ ⟨0, -2 / 5⟩ 1 1 ⟨0, 0⟩ ⟨0, -5 / 2⟩ 1 1] ∧
    centresWithinRadii narrowDomainState narrowDomainQ 0 1 :=
  ⟨(dispatchNarrowPhaseCollision_spec (fun z => z) bruteForceOverlaps narrowDomainState
      narrowDomainQ narrowDomainQ).1 0 1 [] narrowDomain_centresWithinRadii,
    by decide!,
    (dispatchNarrowPhaseCollision_spec (fun z => z) bruteForceOverlaps narrowDomainState
      narrowDomainQ narrowDomainQ).2.2 []
      [Constraint.circleCircle 0 1 ⟨0, -1⟩ ⟨0, 8 / 5⟩ 1 1,
        Constraint.teleportedCircleCircle 0 1 ⟨0, 11 / 10⟩ ⟨0, -2 / 5⟩ 1 1 ⟨0, 0⟩ ⟨0, -5 / 2⟩ 1 1]
      (by decide!) 0 1 ⟨0, -1⟩ ⟨0, 8 / 5⟩ 1 1 (List.mem_cons_self _ _)⟩

/-- Witness of claim C5: the two overlapping unit disks of `narrowDomainState`;
the anchor is the midpoint of the centres. -/
theorem dispatchNarrowPhaseCollision_constraint_witness :
    ∃ t : ℚ, 0 ≤ t ∧ t ≤ 1 ∧
      (segment2 narrowDomainQ (3 * 0)).add
          (Vector2s.smul ((narrowDomainState.bodyGeometry 0).r
              / ((narrowDomainState.bodyGeometry 0).r + (narrowDomainState.bodyGeometry 1).r))
            ((segment2 narrowDomainQ (3 * 1)).sub (segment2 narrowDomainQ (3 * 0))))
        = (segment2 narrowDomainQ (3 * 0)).add
            (Vector2s.smul t ((segment2 narrowDomainQ (3 * 1)).sub (segment2 narrowDomainQ (3 * 0)))) :=
  (dispatchNarrowPhaseCollision_constraint (fun z => z) narrowDomainState narrowDomainQ
    narrowDomainQ 0 1 [] narrowDomain_centresWithinRadii).2.2 (by decide!) (by decide!)

/-- With an exact square root, the normalisation of a non-zero vector has norm
one, and passes the assertion of `computeImpactBases`. -/
theorem normalized_unitNorm (sqrt : ℚ → ℚ) (a : Vector2s)
    (hexact : sqrt a.squaredNorm * sqrt a.squaredNorm = a.squaredNorm)
    (hnonzero : a.squaredNorm ≠ 0) :
    (a.normalized sqrt).squaredNorm = 1 ∧ unitNormAssertion (a.normalized sqrt) = true := by
  have hs : sqrt a.squaredNorm ≠ 0 := by
    intro h0
    rw [h0, mul_zero] at hexact
    exact hnonzero hexact.symm
  have h1 : (a.normalized sqrt).squaredNorm = 1 := by
    have h2 : (a.normalized sqrt).squaredNorm
        = a.squaredNorm / (sqrt a.squaredNorm * sqrt a.squaredNorm) := by
      simp only [Vector2s.normalized, Vector2s.squaredNorm]
      field_simp
    rw [h2, hexact, div_self hnonzero]
  refine ⟨h1, ?_⟩
  unfold unitNormAssertion
  rw [h1, decide_eq_true_eq]
  norm_num

/-- Claim C6 fails on the code: for two unit disks whose centres coincide in
`q0` and that overlap in `q1`, `dispatchNarrowPhaseCollision` emits a
`CircleCircle` constraint whose stored normal is the zero vector, whatever the
square root routine, and the unit-norm assertion of `computeImpactBases` fails
for it. -/
theorem dispatchNarrowPhaseCollision_zero_normal (sqrt : ℚ → ℚ) :
    dispatchNarrowPhaseCollision sqrt 0 1 (RigidBody2DGeometry.circle 1)
        (RigidBody2DGeometry.circle 1) [0, 0, 0, 0, 0, 0] [0, 0, 0, 1, 0, 0] []
      = [Constraint.circleCircle 0 1 ⟨0, 0⟩ ⟨0, 0⟩ 1 1] ∧
    unitNormAssertion ⟨0, 0⟩ = false := by
  constructor
  · simp [dispatchNarrowPhaseCollision, CircleCircleConstraint.isActive, segment2,
      Vector2s.sub, Vector2s.add, Vector2s.smul, Vector2s.squaredNorm, Vector2s.normalized]
    norm_num
  · decide!

/-- Claim C7 fails on the code: for the two unit disks of `narrowDomainState`,
which overlap both directly and through the portal, the spatial grid emits a
`CircleCircle` and a `TeleportedCircleCircle` constraint for the same pair of
bodies `(0, 1)`, and the final all-pairs duplicate check fails. -/
theorem computeBodyBodyActiveSetSpatialGrid_duplicate_pair :
    computeBodyBodyActiveSetSpatialGrid (fun z => z) bruteForceOverlaps narrowDomainState
        narrowDomainQ narrowDomainQ []
      = some [Constraint.circleCircle 0 1 ⟨0, -1⟩ ⟨0, 8 / 5⟩ 1 1,
          Constraint.teleportedCircleCircle 0 1 ⟨0, 11 / 10⟩ ⟨0, -2 / 5⟩ 1 1 ⟨0, 0⟩ ⟨0, -5 / 2⟩ 1 1] ∧
    allPairsDuplicateCheck [Constraint.circleCircle 0 1 ⟨0, -1⟩ ⟨0, 8 / 5⟩ 1 1,
      Constraint.teleportedCircleCircle 0 1 ⟨0, 11 / 10⟩ ⟨0, -2 / 5⟩ 1 1 ⟨0, 0⟩ ⟨0, -5 / 2⟩ 1 1]
      = false := by
  constructor
  · decide!
  · decide!

/-- Claim C8: for two constraints of different variants, `equal` returns
false, in either argument order. -/
theorem equal_different_variants (c0 c1 : Constraint) (h : c0.typeid ≠ c1.typeid) :
    equal c0 c1 = some false ∧ equal c1 c0 = some false := by
  unfold equal
  simp only [ne_eq, h, not_false_eq_true, if_true, Ne.symm h, and_self]

/-- Witness of claim C8: a `StaticPlaneCircle` and a `CircleCircle` constraint. -/
theorem equal_different_variants_witness :
    equal (Constraint.staticPlaneCircle 0 0 1 ⟨⟨0, 0⟩, ⟨0, 1⟩⟩)
        (Constraint.circleCircle 0 1 ⟨0, -1⟩ ⟨0, 1⟩ 1 1) = some false ∧
    equal (Constraint.circleCircle 0 1 ⟨0, -1⟩ ⟨0, 1⟩ 1 1)
        (Constraint.staticPlaneCircle 0 0 1 ⟨⟨0, 0⟩, ⟨0, 1⟩⟩) = some false :=
  equal_different_variants (Constraint.staticPlaneCircle 0 0 1 ⟨⟨0, 0⟩, ⟨0, 1⟩⟩)
    (Constraint.circleCircle 0 1 ⟨0, -1⟩ ⟨0, 1⟩ 1 1) (by decide)

/-- Claim C9, as amended: `equal(c, c)` returns true for every constraint `c` of
the variants `StaticPlaneCircle`, `CircleCircle` and `TeleportedCircleCircle`;
for a `KinematicKickCircleCircle` constraint `equal` has no comparator and
terminates the process instead of returning. -/
theorem equal_self (c : Constraint) :
    equal c c = if c.typeid = ConstraintType.KinematicKickCircleCircleConstraint then none
      else some true := by
  cases c <;> simp [equal, Constraint.typeid, Constraint.fieldsMatch]

/-- Claim C9 fails as stated: for a `KinematicKickCircleCircle` constraint `c`,
`equal(c, c)` does not return true, it exits. -/
theorem equal_kinematicKick_exits :
    equal (Constraint.kinematicKickCircleCircle 0 1 ⟨0, 0⟩ ⟨0, 2⟩ 1 1 ⟨1, 0⟩)
        (Constraint.kinematicKickCircleCircle 0 1 ⟨0, 0⟩ ⟨0, 2⟩ 1 1 ⟨1, 0⟩) = none ∧
    equal (Constraint.kinematicKickCircleCircle 0 1 ⟨0, 0⟩ ⟨0, 2⟩ 1 1 ⟨1, 0⟩)
        (Constraint.kinematicKickCircleCircle 0 1 ⟨0, 0⟩ ⟨0, 2⟩ 1 1 ⟨1, 0⟩) ≠ some true := by
  constructor
  · rfl
  · intro h
    exact absurd h (by decide)

/-! ### The ordered set `std::set` -/

theorem mem_setInsert_of_mem {α : Type} (lt : α → α → Bool) (a x : α) (l : List α)
    (h : x ∈ l) : x ∈ setInsert lt a l := by
  induction l with
  | nil => exact absurd h (List.not_mem_nil x)
  | cons e s ih =>
    unfold setInsert
    split
    · rcases List.mem_cons.1 h with h | h
      · rw [h]; exact List.mem_cons_self _ _
      · exact List.mem_cons_of_mem _ (ih h)
    · split
      · exact List.mem_cons_of_mem _ h
      · exact h

theorem mem_setInsert_self {α : Type} (lt : α → α → Bool)
    (htri : ∀ a b, lt a b = false → lt b a = false → a = b) (a : α) (l : List α) :
    a ∈ setInsert lt a l := by
  induction l with
  | nil => exact List.mem_cons_self _ _
  | cons e s ih =>
    unfold setInsert
    split
    · exact List.mem_cons_of_mem _ ih
    · next h1 =>
      split
      · exact List.mem_cons_self _ _
      · next h2 =>
        have hae : a = e := htri a e (by simpa using h2) (by simpa using h1)
        rw [hae]; exact List.mem_cons_self _ _

theorem mem_of_mem_setInsert {α : Type} (lt : α → α → Bool) (a x : α) (l : List α)
    (h : x ∈ setInsert lt a l) : x = a ∨ x ∈ l := by
  induction l with
  | nil =>
    unfold setInsert at h
    exact Or.inl (List.mem_singleton.1 h)
  | cons e s ih =>
    unfold setInsert at h
    split at h
    · rcases List.mem_cons.1 h with h | h
      · exact Or.inr (by rw [h]; exact List.mem_cons_self _ _)
      · rcases ih h with h | h
        · exact Or.inl h
        · exact Or.inr (List.mem_cons_of_mem _ h)
    · split at h
      · rcases List.mem_cons.1 h with h | h
        · exact Or.inl h
        · exact Or.inr h
      · exact Or.inr h

theorem setInsert_sorted {α : Type} (lt : α → α → Bool)
    (htrans : ∀ a b c, lt a b = true → lt b c = true → lt a c = true) (a : α) (l : List α)
    (h : l.Pairwise (fun x y => lt x y = true)) :
    (setInsert lt a l).Pairwise (fun x y => lt x y = true) := by
  induction l with
  | nil => unfold setInsert; exact List.pairwise_singleton _ _
  | cons e s ih =>
    rw [List.pairwise_cons] at h
    unfold setInsert
    split
    · next h1 =>
      rw [List.pairwise_cons]
      refine ⟨?_, ih h.2⟩
      intro y hy
      rcases mem_of_mem_setInsert lt a y s hy with hy | hy
      · rw [hy]; exact h1
      · exact h.1 y hy
    · split
      · next h2 =>
        rw [List.pairwise_cons]
        refine ⟨?_, List.pairwise_cons.2 h⟩
        intro y hy
        rcases List.mem_cons.1 hy with hy | hy
        · rw [hy]; exact h2
        · exact htrans a e y h2 (h.1 y hy)
      · exact List.pairwise_cons.2 h

theorem mem_foldl_setInsert {α : Type} (lt : α → α → Bool)
    (htri : ∀ a b, lt a b = false → lt b a = false → a = b) (x : α) (xs init : List α) :
    x ∈ xs.foldl (fun set a => setInsert lt a set) init ↔ x ∈ init ∨ x ∈ xs := by
  induction xs generalizing init with
  | nil => simp
  | cons a xs ih =>
    rw [List.foldl_cons, ih]
    constructor
    · rintro (h | h)
      · rcases mem_of_mem_setInsert lt a x init h with h | h
        · exact Or.inr (by rw [h]; exact List.mem_cons_self _ _)
        · exact Or.inl h
      · exact Or.inr (List.mem_cons_of_mem _ h)
    · rintro (h | h)
      · exact Or.inl (mem_setInsert_of_mem lt a x init h)
      · rcases List.mem_cons.1 h with h | h
        · exact Or.inl (by rw [h]; exact mem_setInsert_self lt htri a init)
        · exact Or.inr h

theorem foldl_setInsert_sorted {α : Type} (lt : α → α → Bool)
    (htrans : ∀ a b c, lt a b = true → lt b c = true → lt a c = true) (xs init : List α)
    (h : init.Pairwise (fun x y => lt x y = true)) :
    (xs.foldl (fun set a => setInsert lt a set) init).Pairwise (fun x y => lt x y = true) := by
  induction xs generalizing init with
  | nil => exact h
  | cons a xs ih => exact ih _ (setInsert_sorted lt htrans a init h)

theorem pairLt_trans (a b c : Nat × Nat) (h1 : pairLt a b = true) (h2 : pairLt b c = true) :
    pairLt a c = true := by
  unfold pairLt at *
  rw [decide_eq_true_eq] at *
  omega

theorem pairLt_trichotomy (a b : Nat × Nat) (h1 : pairLt a b = false)
    (h2 : pairLt b a = false) : a = b := by
  unfold pairLt at *
  rw [decide_eq_false_iff_not] at *
  apply Prod.ext <;> omega

theorem pairLt_irrefl (a : Nat × Nat) : pairLt a a = false := by
  unfold pairLt
  rw [decide_eq_false_iff_not]
  omega

/-- The set of candidates holds exactly the pairs the broad phase returns. -/
theorem mem_possibleOverlaps (grid : List AABB → List (Nat × Nat)) (aabbs : List AABB)
    (pair : Nat × Nat) : pair ∈ possibleOverlaps grid aabbs ↔ pair ∈ grid aabbs := by
  unfold possibleOverlaps
  rw [mem_foldl_setInsert pairLt pairLt_trichotomy]
  simp

/-- The candidates are visited in strictly increasing lexicographic order. -/
theorem possibleOverlaps_sorted (grid : List AABB → List (Nat × Nat)) (aabbs : List AABB) :
    (possibleOverlaps grid aabbs).Pairwise (fun x y => pairLt x y = true) :=
  foldl_setInsert_sorted pairLt pairLt_trans _ _ List.Pairwise.nil

theorem possibleOverlaps_nodup (grid : List AABB → List (Nat × Nat)) (aabbs : List AABB) :
    (possibleOverlaps grid aabbs).Nodup := by
  apply List.Pairwise.imp _ (possibleOverlaps_sorted grid aabbs)
  intro a b hab heq
  rw [heq, pairLt_irrefl] at hab
  exact absurd hab (by decide)

/-! ### The teleport indexer -/

theorem foldl_range_invariant {σ : Type} (I : σ → Prop) (f : σ → Nat → σ) (n : Nat)
    (h : ∀ s b, b < n → I s → I (f s b)) (s : σ) (hs : I s) :
    I ((List.range n).foldl f s) := by
  induction n with
  | zero => exact hs
  | succ n ih =>
    rw [List.range_succ, List.foldl_append]
    exact h _ n (Nat.lt_succ_self n) (ih (fun s b hb => h s b (by omega)))

theorem IndexerInvariant.mono (base : List AABB) (P P' : Nat) (hP : P ≤ P')
    (acc : List AABB × List (Nat × TeleportedBody)) (h : IndexerInvariant base P acc) :
    IndexerInvariant base P' acc := by
  obtain ⟨virt, h1, h2, h3⟩ := h
  exact ⟨virt, h1, h2, fun e he => ⟨(h3 e he).1, lt_of_lt_of_le (h3 e he).2 hP⟩⟩

theorem teleportBodiesThroughPortal_invariant (st : RigidBody2DState) (q : VectorXs)
    (base : List AABB) (portal : PlanarPortal) (prtl_idx P : Nat) (hidx : prtl_idx < P)
    (acc : List AABB × List (Nat × TeleportedBody)) (h : IndexerInvariant base P acc) :
    IndexerInvariant base P (teleportBodiesThroughPortal st q base.length portal prtl_idx acc) := by
  unfold teleportBodiesThroughPortal
  apply foldl_range_invariant (IndexerInvariant base P) _ _ _ _ h
  intro s b hb hs
  dsimp only
  split
  · next side _ =>
    obtain ⟨virt, h1, h2, h3⟩ := hs
    refine ⟨virt ++ [_], by rw [h1, List.append_assoc], ?_, ?_⟩
    · simp only [List.map_append, h2, List.length_append, List.length_singleton,
        List.range'_1_concat, h1, List.map_cons, List.map_nil, List.append_cancel_left_eq,
        List.cons.injEq, and_true]
      omega
    · intro e he
      rcases List.mem_append.1 he with he | he
      · exact h3 e he
      · rw [List.mem_singleton] at he
        rw [he]
        exact ⟨hb, hidx⟩
  · exact hs

theorem teleportIndexer_invariant (st : RigidBody2DState) (q : VectorXs) (base : List AABB)
    (portals : List PlanarPortal) (start : Nat)
    (acc : List AABB × List (Nat × TeleportedBody))
    (h : IndexerInvariant base (start + portals.length) acc) :
    IndexerInvariant base (start + portals.length)
      (teleportIndexer st q base.length portals start acc) := by
  induction portals generalizing start acc with
  | nil => exact h
  | cons portal rest ih =>
    unfold teleportIndexer
    have hlen : start + (portal :: rest).length = (start + 1) + rest.length := by
      rw [List.length_cons]; omega
    rw [hlen] at h ⊢
    apply ih
    exact teleportBodiesThroughPortal_invariant st q base portal start _ (by omega) acc h

theorem length_computeBodyAABBs (st : RigidBody2DState) (q : VectorXs) (nbodies : Nat) :
    (computeBodyAABBs st q nbodies).length = nbodies := by
  simp [computeBodyAABBs]

/-- The boxes and the map the spatial grid starts from: the boxes of the
bodies come first, and the map has one entry per virtual box, keyed by its
index, recording a body and a portal of the state. -/
theorem buildAABBs_invariant (st : RigidBody2DState) (q : VectorXs) (nbodies : Nat) :
    IndexerInvariant (computeBodyAABBs st q nbodies) st.planarPortals.length
      (buildAABBs st q nbodies) := by
  unfold buildAABBs
  have h := teleportIndexer_invariant st q (computeBodyAABBs st q nbodies) st.planarPortals 0
    (computeBodyAABBs st q nbodies, [])
    ⟨[], by simp, by simp, by simp⟩
  rw [length_computeBodyAABBs, Nat.zero_add] at h
  exact h

theorem getD_computeBodyAABBs (st : RigidBody2DState) (q : VectorXs) (nbodies b : Nat)
    (hb : b < nbodies) :
    (computeBodyAABBs st q nbodies).getD b default
      = (st.bodyGeometry b).computeAABB (segment2 q (3 * b)) (q.getD (3 * b + 2) 0) := by
  unfold computeBodyAABBs
  rw [List.getD_eq_getElem?_getD, List.getElem?_map, List.getElem?_range hb]
  rfl

theorem getD_buildAABBs (st : RigidBody2DState) (q : VectorXs) (nbodies b : Nat)
    (hb : b < nbodies) :
    (buildAABBs st q nbodies).1.getD b default
      = (st.bodyGeometry b).computeAABB (segment2 q (3 * b)) (q.getD (3 * b + 2) 0) := by
  obtain ⟨virt, h1, _, _⟩ := buildAABBs_invariant st q nbodies
  rw [h1, List.getD_append _ _ _ _ (by rw [length_computeBodyAABBs]; exact hb),
    getD_computeBodyAABBs st q nbodies b hb]

theorem length_buildAABBs (st : RigidBody2DState) (q : VectorXs) (nbodies : Nat) :
    (buildAABBs st q nbodies).1.length = nbodies + (buildAABBs st q nbodies).2.length := by
  obtain ⟨virt, h1, h2, _⟩ := buildAABBs_invariant st q nbodies
  have h3 := congrArg List.length h2
  rw [List.length_map, List.length_range'] at h3
  rw [h1, List.length_append, length_computeBodyAABBs, h3]

/-- Two disks in contact have overlapping boxes. -/
theorem overlaps_of_isActive (geo0 geo1 : RigidBody2DGeometry) (x0 x1 : Vector2s)
    (theta0 theta1 : ℚ)
    (h : CircleCircleConstraint.isActive x0 x1 geo0.r geo1.r = true) :
    (geo0.computeAABB x0 theta0).overlaps (geo1.computeAABB x1 theta1) = true := by
  cases geo0 with
  | circle r0 =>
    cases geo1 with
    | circle r1 =>
      simp only [CircleCircleConstraint.isActive, RigidBody2DGeometry.r, Vector2s.sub,
        Vector2s.squaredNorm, decide_eq_true_eq] at h
      simp only [AABB.overlaps, RigidBody2DGeometry.computeAABB, decide_eq_true_eq]
      obtain ⟨hR, hd⟩ := h
      refine ⟨?_, ?_, ?_, ?_⟩
      · by_contra hc
        nlinarith [mul_self_nonneg (x0.y - x1.y)]
      · by_contra hc
        nlinarith [mul_self_nonneg (x0.y - x1.y)]
      · by_contra hc
        nlinarith [mul_self_nonneg (x0.x - x1.x)]
      · by_contra hc
        nlinarith [mul_self_nonneg (x0.x - x1.x)]

/-! ### The all-pairs scan and the spatial grid -/

theorem circleCircleOf_injective (sqrt : ℚ → ℚ) (st : RigidBody2DState) (q0 : VectorXs)
    (i j i' j' : Nat) (h : circleCircleOf sqrt st q0 i j = circleCircleOf sqrt st q0 i' j') :
    i = i' ∧ j = j' := by
  unfold circleCircleOf at h
  injection h with h1 h2
  exact ⟨h1, h2⟩

theorem mem_dispatchNarrowPhaseCollision_nil (sqrt : ℚ → ℚ) (st : RigidBody2DState)
    (q0 q1 : VectorXs) (i j : Nat) (c : Constraint) :
    c ∈ dispatchNarrowPhaseCollision sqrt i j (st.bodyGeometry i) (st.bodyGeometry j) q0 q1 []
      ↔ CircleCircleConstraint.isActive (segment2 q1 (3 * i)) (segment2 q1 (3 * j))
          (st.bodyGeometry i).r (st.bodyGeometry j).r = true ∧ c = circleCircleOf sqrt st q0 i j := by
  rw [dispatchNarrowPhaseCollision_eq]
  split
  · next h => simp [h]
  · next h => simp [h]

theorem nodup_dispatchNarrowPhaseCollision_nil (sqrt : ℚ → ℚ) (st : RigidBody2DState)
    (q0 q1 : VectorXs) (i j : Nat) :
    (dispatchNarrowPhaseCollision sqrt i j (st.bodyGeometry i) (st.bodyGeometry j) q0 q1
      []).Nodup := by
  rw [dispatchNarrowPhaseCollision_eq]
  split <;> simp

theorem mem_realPairConstraints (sqrt : ℚ → ℚ) (st : RigidBody2DState) (nbodies : Nat)
    (q0 q1 : VectorXs) (pair : Nat × Nat) (c : Constraint) :
    c ∈ realPairConstraints sqrt st nbodies q0 q1 pair
      ↔ (pair.1 < nbodies ∧ pair.2 < nbodies) ∧
        CircleCircleConstraint.isActive (segment2 q1 (3 * pair.1)) (segment2 q1 (3 * pair.2))
          (st.bodyGeometry pair.1).r (st.bodyGeometry pair.2).r = true ∧
        c = circleCircleOf sqrt st q0 pair.1 pair.2 := by
  unfold realPairConstraints
  split
  · next h => rw [mem_dispatchNarrowPhaseCollision_nil]; simp [h]
  · next h => simp [h]

theorem nodup_realPairConstraints (sqrt : ℚ → ℚ) (st : RigidBody2DState) (nbodies : Nat)
    (q0 q1 : VectorXs) (pair : Nat × Nat) :
    (realPairConstraints sqrt st nbodies q0 q1 pair).Nodup := by
  unfold realPairConstraints
  split
  · exact nodup_dispatchNarrowPhaseCollision_nil sqrt st q0 q1 _ _
  · exact List.nodup_nil

/-- The standard narrow phase over a list of distinct candidate pairs creates
no constraint twice. -/
theorem nodup_flatMap_realPairConstraints (sqrt : ℚ → ℚ) (st : RigidBody2DState)
    (nbodies : Nat) (q0 q1 : VectorXs) (cands : List (Nat × Nat)) (h : cands.Nodup) :
    (cands.flatMap (realPairConstraints sqrt st nbodies q0 q1)).Nodup := by
  rw [List.nodup_flatMap]
  refine ⟨fun pair _ => nodup_realPairConstraints sqrt st nbodies q0 q1 pair, ?_⟩
  apply List.Nodup.pairwise_of_forall_ne h
  intro a _ b _ hne c hca hcb
  rw [mem_realPairConstraints] at hca hcb
  obtain ⟨h1, h2⟩ := circleCircleOf_injective sqrt st q0 _ _ _ _ (hca.2.2.symm.trans hcb.2.2)
  exact hne (Prod.ext h1 h2)

/-- The all-pairs scan appends the result of the narrow phase on the pairs
`i < j` in lexicographic order. -/
theorem computeBodyBodyActiveSetAllPairs_eq (sqrt : ℚ → ℚ) (st : RigidBody2DState)
    (q0 q1 : VectorXs) (active_set : List Constraint) :
    computeBodyBodyActiveSetAllPairs sqrt st q0 q1 active_set
      = active_set ++ (List.range (q0.length / 3)).flatMap (fun i =>
          (List.range' (i + 1) (q0.length / 3 - (i + 1))).flatMap (fun j =>
            dispatchNarrowPhaseCollision sqrt i j (st.bodyGeometry i) (st.bodyGeometry j)
              q0 q1 [])) := by
  unfold computeBodyBodyActiveSetAllPairs
  apply foldl_append_flatMap
  intro acc i
  apply foldl_append_flatMap
  intro acc1 j
  exact dispatchNarrowPhaseCollision_append sqrt st q0 q1 i j acc1

theorem mem_allPairs (sqrt : ℚ → ℚ) (st : RigidBody2DState) (q0 q1 : VectorXs) (N : Nat)
    (c : Constraint) :
    c ∈ (List.range N).flatMap (fun i =>
          (List.range' (i + 1) (N - (i + 1))).flatMap (fun j =>
            dispatchNarrowPhaseCollision sqrt i j (st.bodyGeometry i) (st.bodyGeometry j)
              q0 q1 []))
      ↔ ∃ i j, i < j ∧ j < N ∧
          CircleCircleConstraint.isActive (segment2 q1 (3 * i)) (segment2 q1 (3 * j))
            (st.bodyGeometry i).r (st.bodyGeometry j).r = true ∧
          c = circleCircleOf sqrt st q0 i j := by
  simp only [List.mem_flatMap, List.mem_range, List.mem_range'_1,
    mem_dispatchNarrowPhaseCollision_nil]
  constructor
  · rintro ⟨i, hi, j, hj, hact, hc⟩
    exact ⟨i, j, by omega, by omega, hact, hc⟩
  · rintro ⟨i, j, hij, hj, hact, hc⟩
    exact ⟨i, by omega, j, by omega, hact, hc⟩

theorem nodup_allPairs (sqrt : ℚ → ℚ) (st : RigidBody2DState) (q0 q1 : VectorXs) (N : Nat) :
    ((List.range N).flatMap (fun i =>
          (List.range' (i + 1) (N - (i + 1))).flatMap (fun j =>
            dispatchNarrowPhaseCollision sqrt i j (st.bodyGeometry i) (st.bodyGeometry j)
              q0 q1 []))).Nodup := by
  rw [List.nodup_flatMap]
  constructor
  · intro i _
    rw [List.nodup_flatMap]
    refine ⟨fun j _ => nodup_dispatchNarrowPhaseCollision_nil sqrt st q0 q1 i j, ?_⟩
    apply List.Nodup.pairwise_of_forall_ne (List.nodup_range' _ _)
    intro a _ b _ hne c hca hcb
    rw [mem_dispatchNarrowPhaseCollision_nil] at hca hcb
    exact hne (circleCircleOf_injective sqrt st q0 _ _ _ _ (hca.2.symm.trans hcb.2)).2
  · apply List.Nodup.pairwise_of_forall_ne (List.nodup_range N)
    intro a _ b _ hne c hca hcb
    simp only [List.mem_flatMap, mem_dispatchNarrowPhaseCollision_nil] at hca hcb
    obtain ⟨_, _, _, ha⟩ := hca
    obtain ⟨_, _, _, hb⟩ := hcb
    exact hne (circleCircleOf_injective sqrt st q0 _ _ _ _ (ha.symm.trans hb)).1

/-- The `CircleCircle` constraints in the output of the spatial grid, started on
an empty active set, are the result of the standard narrow phase on the
candidate pairs. -/
theorem filter_isCircleCircle_spatialGrid (sqrt : ℚ → ℚ)
    (grid : List AABB → List (Nat × Nat)) (st : RigidBody2DState) (q0 q1 : VectorXs)
    (out : List Constraint)
    (h : computeBodyBodyActiveSetSpatialGrid sqrt grid st q0 q1 [] = some out) :
    out.filter isCircleCircle
      = (possibleOverlaps grid (buildAABBs st q1 (q0.length / 3)).1).flatMap
          (realPairConstraints sqrt st (q0.length / 3) q0 q1) := by
  obtain ⟨tele, hshape, htele⟩ :=
    computeBodyBodyActiveSetSpatialGrid_shape sqrt grid st q0 q1 [] out h
  rw [hshape, List.nil_append, List.filter_append]
  have h1 : tele.filter isCircleCircle = [] := by
    rw [List.filter_eq_nil_iff]
    intro c hc
    rcases htele c hc with ht | ht <;> simp [isCircleCircle, ht]
  rw [h1, List.append_nil, List.filter_eq_self]
  intro c hc
  rw [List.mem_flatMap] at hc
  obtain ⟨pair, _, hpair⟩ := hc
  rw [mem_realPairConstraints] at hpair
  rw [hpair.2.2]
  simp [isCircleCircle, circleCircleOf, Constraint.typeid]

/-- The `CircleCircle` constraints of an output of the spatial grid are, up to
their order, what the all-pairs scan produces, when the broad phase returns
ordered pairs and misses no pair of overlapping boxes. -/
theorem spatialGrid_perm_allPairs_of_eq (sqrt : ℚ → ℚ) (grid : List AABB → List (Nat × Nat))
    (st : RigidBody2DState) (q0 q1 : VectorXs)
    (hordered : ∀ aabbs, ∀ pair ∈ grid aabbs, pair.1 < pair.2)
    (hcomplete : ∀ aabbs a b, a < b → b < aabbs.length →
      (aabbs.getD a default).overlaps (aabbs.getD b default) = true → (a, b) ∈ grid aabbs)
    (out : List Constraint)
    (h : computeBodyBodyActiveSetSpatialGrid sqrt grid st q0 q1 [] = some out) :
    (out.filter isCircleCircle).Perm (computeBodyBodyActiveSetAllPairs sqrt st q0 q1 []) := by
  rw [filter_isCircleCircle_spatialGrid sqrt grid st q0 q1 out h,
    computeBodyBodyActiveSetAllPairs_eq, List.nil_append]
  rw [List.perm_ext_iff_of_nodup
    (nodup_flatMap_realPairConstraints sqrt st _ q0 q1 _ (possibleOverlaps_nodup grid _))
    (nodup_allPairs sqrt st q0 q1 _)]
  intro c
  rw [mem_allPairs, List.mem_flatMap]
  constructor
  · rintro ⟨pair, hmem, hc⟩
    rw [mem_realPairConstraints] at hc
    rw [mem_possibleOverlaps] at hmem
    exact ⟨pair.1, pair.2, hordered _ pair hmem, hc.1.2, hc.2.1, hc.2.2⟩
  · rintro ⟨i, j, hij, hj, hact, hc⟩
    refine ⟨(i, j), ?_, ?_⟩
    · rw [mem_possibleOverlaps]
      apply hcomplete _ i j hij
      · rw [length_buildAABBs]; omega
      · rw [getD_buildAABBs st q1 _ i (by omega), getD_buildAABBs st q1 _ j hj]
        exact overlaps_of_isActive _ _ _ _ _ _ hact
    · rw [mem_realPairConstraints]
      exact ⟨⟨by omega, hj⟩, hact, hc⟩

/-! ### The lookups of the spatial grid succeed -/

theorem lookup_of_keys_range {β : Type} (l : List (Nat × β)) (n : Nat)
    (hkeys : l.map Prod.fst = List.range' n l.length) (idx : Nat) (h1 : n ≤ idx)
    (h2 : idx < n + l.length) : ∃ v, l.lookup idx = some v ∧ (idx, v) ∈ l := by
  induction l generalizing n with
  | nil => simp at h2; omega
  | cons e rest ih =>
    obtain ⟨k, v⟩ := e
    rw [List.length_cons, List.range'_succ, List.map_cons, List.cons.injEq] at hkeys
    obtain ⟨hk, hrest⟩ := hkeys
    simp only at hk
    subst hk
    rw [List.lookup_cons]
    by_cases hidx : idx = k
    · subst hidx
      exact ⟨v, by simp, List.mem_cons_self _ _⟩
    · have hbeq : (idx == k) = false := by simpa using hidx
      rw [hbeq]
      rw [List.length_cons] at h2
      obtain ⟨w, hw1, hw2⟩ := ih (k + 1) hrest (by omega) (by omega)
      exact ⟨w, hw1, List.mem_cons_of_mem _ hw2⟩

/-- The candidate lookup succeeds for every index of a box, and yields a body
of the state and a usable portal index. -/
theorem resolveCandidate_isSome (st : RigidBody2DState) (q : VectorXs) (nbodies idx : Nat)
    (h : idx < (buildAABBs st q nbodies).1.length) :
    ∃ b p side, resolveCandidate nbodies (buildAABBs st q nbodies).2 idx = some (b, p, side) ∧
      b < nbodies ∧ ValidPortalIndex st p := by
  unfold resolveCandidate
  by_cases hreal : idx ≥ nbodies
  · rw [if_pos hreal]
    obtain ⟨virt, h1, h2, h3⟩ := buildAABBs_invariant st q nbodies
    have hlen := congrArg List.length h2
    rw [List.length_map, List.length_range'] at hlen
    rw [length_computeBodyAABBs] at h2 h3
    rw [← hlen] at h2
    rw [length_buildAABBs] at h
    obtain ⟨tb, htb1, htb2⟩ := lookup_of_keys_range _ nbodies h2 idx hreal h
    rw [htb1]
    exact ⟨tb.bodyIndex, tb.portalIndex, tb.planeIndex, rfl, (h3 _ htb2).1,
      fun _ => (h3 _ htb2).2⟩
  · rw [if_neg hreal]
    exact ⟨idx, UNSIGNED_MAX, false, rfl, by omega, fun hne => absurd rfl hne⟩

theorem getTeleportedCollisionCenter_isSome (st : RigidBody2DState) (portal_index : Nat)
    (side : Bool) (x : Vector2s) (h : portal_index < st.planarPortals.length) :
    ∃ y, getTeleportedCollisionCenter st portal_index side x = some y := by
  unfold getTeleportedCollisionCenter
  rw [List.getElem?_eq_getElem h]
  dsimp only
  split
  · exact ⟨_, rfl⟩
  · exact ⟨_, rfl⟩

theorem getTeleportedCollisionCenters_isSome (st : RigidBody2DState) (q : VectorXs)
    (tc : TeleportedCollision) (h0 : ValidPortalIndex st tc.portalIndex0)
    (h1 : ValidPortalIndex st tc.portalIndex1) :
    ∃ c, getTeleportedCollisionCenters st q tc = some c := by
  unfold getTeleportedCollisionCenters
  dsimp only
  have hx0 : ∃ a, (if tc.portalIndex0 ≠ UNSIGNED_MAX then
      getTeleportedCollisionCenter st tc.portalIndex0 tc.plane0 (segment2 q (3 * tc.bodyIndex0))
      else some (segment2 q (3 * tc.bodyIndex0))) = some a := by
    split
    · next hne => exact getTeleportedCollisionCenter_isSome st _ _ _ (h0 hne)
    · exact ⟨_, rfl⟩
  have hx1 : ∃ a, (if tc.portalIndex1 ≠ UNSIGNED_MAX then
      getTeleportedCollisionCenter st tc.portalIndex1 tc.plane1 (segment2 q (3 * tc.bodyIndex1))
      else some (segment2 q (3 * tc.bodyIndex1))) = some a := by
    split
    · next hne => exact getTeleportedCollisionCenter_isSome st _ _ _ (h1 hne)
    · exact ⟨_, rfl⟩
  obtain ⟨a, ha⟩ := hx0
  obtain ⟨b, hb⟩ := hx1
  rw [ha, hb]
  exact ⟨(a, b), rfl⟩

theorem teleportedCollisionIsActive_isSome (st : RigidBody2DState) (q : VectorXs)
    (tc : TeleportedCollision) (geo0 geo1 : RigidBody2DGeometry)
    (h0 : ValidPortalIndex st tc.portalIndex0) (h1 : ValidPortalIndex st tc.portalIndex1) :
    ∃ b, teleportedCollisionIsActive st tc geo0 geo1 q = some b := by
  unfold teleportedCollisionIsActive
  obtain ⟨c, hc⟩ := getTeleportedCollisionCenters_isSome st q tc h0 h1
  rw [hc]
  exact ⟨_, rfl⟩

theorem portalIsLeesEdwards_isSome (st : RigidBody2DState) (portal_index : Nat)
    (h : ValidPortalIndex st portal_index) :
    ∃ b, portalIsLeesEdwards st portal_index = some b ∧
      (b = true → portal_index < st.planarPortals.length) := by
  unfold portalIsLeesEdwards
  split
  · next hne =>
    rw [List.getElem?_eq_getElem (h hne)]
    exact ⟨_, rfl, fun _ => h hne⟩
  · exact ⟨false, rfl, fun hb => absurd hb (by decide)⟩

theorem kinematicVelocityOfBody_isSome (st : RigidBody2DState) (portal_index body_index : Nat)
    (geo : RigidBody2DGeometry) (q1 : VectorXs) (h : portal_index < st.planarPortals.length) :
    ∃ k, kinematicVelocityOfBody st portal_index body_index geo q1 = some k := by
  unfold kinematicVelocityOfBody
  rw [List.getElem?_eq_getElem h]
  exact ⟨_, rfl⟩

theorem dispatchTeleportedNarrowPhaseCollision_isSome (st : RigidBody2DState)
    (tc : TeleportedCollision) (geo0 geo1 : RigidBody2DGeometry) (q0 q1 : VectorXs)
    (active_set : List Constraint)
    (h0 : ValidPortalIndex st tc.portalIndex0) (h1 : ValidPortalIndex st tc.portalIndex1) :
    ∃ out, dispatchTeleportedNarrowPhaseCollision st tc geo0 geo1 q0 q1 active_set = some out := by
  unfold dispatchTeleportedNarrowPhaseCollision
  obtain ⟨c0, hc0⟩ := getTeleportedCollisionCenters_isSome st q0 tc h0 h1
  obtain ⟨c1, hc1⟩ := getTeleportedCollisionCenters_isSome st q1 tc h0 h1
  obtain ⟨le0, hle0, hv0⟩ := portalIsLeesEdwards_isSome st _ h0
  obtain ⟨le1, hle1, hv1⟩ := portalIsLeesEdwards_isSome st _ h1
  rw [hc0, hc1, hle0, hle1]
  obtain ⟨a0, b0⟩ := c0
  obtain ⟨a1, b1⟩ := c1
  dsimp only
  cases geo0 with
  | circle r0 =>
    cases geo1 with
    | circle r1 =>
      split
      · split
        · exact ⟨_, rfl⟩
        · exact ⟨_, rfl⟩
      · next hle =>
        have hkick : ∃ k, (if le1 = true then
            kinematicVelocityOfBody st tc.portalIndex1 tc.bodyIndex1
              (RigidBody2DGeometry.circle r1) q1
            else (kinematicVelocityOfBody st tc.portalIndex0 tc.bodyIndex0
              (RigidBody2DGeometry.circle r0) q1).map Vector2s.neg) = some k := by
          split
          · next h => exact kinematicVelocityOfBody_isSome st _ _ _ _ (hv1 h)
          · next h =>
            have hl0 : le0 = true := by
              cases le0 <;> cases le1 <;> simp at hle h ⊢
            obtain ⟨k, hk⟩ := kinematicVelocityOfBody_isSome st tc.portalIndex0 tc.bodyIndex0
              (RigidBody2DGeometry.circle r0) q1 (hv0 hl0)
            rw [hk]
            exact ⟨_, rfl⟩
        obtain ⟨k, hk⟩ := hkick
        rw [hk]
        dsimp only
        split
        · exact ⟨_, rfl⟩
        · exact ⟨_, rfl⟩

theorem dispatchTeleportedCollisions_isSome (st : RigidBody2DState) (q0 q1 : VectorXs)
    (tcs : List TeleportedCollision) (active_set : List Constraint)
    (h : ∀ tc ∈ tcs, ValidPortalIndex st tc.portalIndex0 ∧ ValidPortalIndex st tc.portalIndex1) :
    ∃ out, dispatchTeleportedCollisions st q0 q1 tcs active_set = some out := by
  induction tcs generalizing active_set with
  | nil => exact ⟨_, rfl⟩
  | cons tc rest ih =>
    unfold dispatchTeleportedCollisions
    obtain ⟨next, hnext⟩ := dispatchTeleportedNarrowPhaseCollision_isSome st tc
      (st.bodyGeometry tc.bodyIndex0) (st.bodyGeometry tc.bodyIndex1) q0 q1 active_set
      (h tc (List.mem_cons_self _ _)).1 (h tc (List.mem_cons_self _ _)).2
    rw [hnext]
    exact ih next (fun tc1 h1 => h tc1 (List.mem_cons_of_mem _ h1))

theorem TeleportedCollision.new_valid (st : RigidBody2DState) (nbodies b0 b1 p0 p1 : Nat)
    (side0 side1 : Bool) (hb0 : b0 < nbodies) (hb1 : b1 < nbodies)
    (hp0 : ValidPortalIndex st p0) (hp1 : ValidPortalIndex st p1) :
    ValidTeleportedCollision st nbodies (TeleportedCollision.new b0 b1 p0 p1 side0 side1) := by
  unfold TeleportedCollision.new
  split
  · exact ⟨hb1, hb0, hp1, hp0⟩
  · exact ⟨hb0, hb1, hp0, hp1⟩

theorem processCandidate_isSome (sqrt : ℚ → ℚ) (st : RigidBody2DState) (nbodies : Nat)
    (q0 q1 : VectorXs) (s : OverlapLoopState) (pair : Nat × Nat)
    (hpair : pair.1 < (buildAABBs st q1 nbodies).1.length ∧
      pair.2 < (buildAABBs st q1 nbodies).1.length)
    (hs : ∀ tc ∈ s.teleported_collisions, ValidTeleportedCollision st nbodies tc) :
    ∃ s', processCandidate sqrt st nbodies (buildAABBs st q1 nbodies).2 q0 q1 s pair = some s' ∧
      ∀ tc ∈ s'.teleported_collisions, ValidTeleportedCollision st nbodies tc := by
  unfold processCandidate
  dsimp only
  split
  · exact ⟨_, rfl, hs⟩
  · obtain ⟨b0, p0, side0, hr0, hb0, hp0⟩ := resolveCandidate_isSome st q1 nbodies pair.1 hpair.1
    obtain ⟨b1, p1, side1, hr1, hb1, hp1⟩ := resolveCandidate_isSome st q1 nbodies pair.2 hpair.2
    rw [hr0, hr1]
    dsimp only
    split
    · exact ⟨_, rfl, hs⟩
    · have hvalid := TeleportedCollision.new_valid st nbodies b0 b1 p0 p1 side0 side1 hb0 hb1
        hp0 hp1
      obtain ⟨act, hact⟩ := teleportedCollisionIsActive_isSome st q1
        (TeleportedCollision.new b0 b1 p0 p1 side0 side1) (st.bodyGeometry b0)
        (st.bodyGeometry b1) hvalid.2.2.1 hvalid.2.2.2
      rw [hact]
      cases act with
      | true =>
        refine ⟨_, rfl, ?_⟩
        intro tc htc
        rcases mem_of_mem_setInsert _ _ _ _ htc with h | h
        · rw [h]
          exact hvalid
        · exact hs tc h
      | false => exact ⟨_, rfl, hs⟩

theorem processCandidates_isSome (sqrt : ℚ → ℚ) (st : RigidBody2DState) (nbodies : Nat)
    (q0 q1 : VectorXs) (cands : List (Nat × Nat)) (s : OverlapLoopState)
    (hcands : ∀ pair ∈ cands, pair.1 < (buildAABBs st q1 nbodies).1.length ∧
      pair.2 < (buildAABBs st q1 nbodies).1.length)
    (hs : ∀ tc ∈ s.teleported_collisions, ValidTeleportedCollision st nbodies tc) :
    ∃ s', processCandidates sqrt st nbodies (buildAABBs st q1 nbodies).2 q0 q1 cands s = some s' ∧
      ∀ tc ∈ s'.teleported_collisions, ValidTeleportedCollision st nbodies tc := by
  induction cands generalizing s with
  | nil => exact ⟨s, rfl, hs⟩
  | cons pair rest ih =>
    unfold processCandidates
    obtain ⟨next, hnext, hvalid⟩ := processCandidate_isSome sqrt st nbodies q0 q1 s pair
      (hcands pair (List.mem_cons_self _ _)) hs
    rw [hnext]
    exact ih next (fun p hp => hcands p (List.mem_cons_of_mem _ hp)) hvalid

/-- The spatial grid returns an active set whenever the broad phase returns
indices of boxes it was given: every lookup succeeds. -/
theorem computeBodyBodyActiveSetSpatialGrid_isSome (sqrt : ℚ → ℚ)
    (grid : List AABB → List (Nat × Nat)) (st : RigidBody2DState) (q0 q1 : VectorXs)
    (active_set : List Constraint)
    (hrange : ∀ aabbs, ∀ pair ∈ grid aabbs, pair.1 < aabbs.length ∧ pair.2 < aabbs.length) :
    ∃ out, computeBodyBodyActiveSetSpatialGrid sqrt grid st q0 q1 active_set = some out := by
  unfold computeBodyBodyActiveSetSpatialGrid
  dsimp only
  obtain ⟨s, hs, hvalid⟩ := processCandidates_isSome sqrt st (q0.length / 3) q0 q1
    (possibleOverlaps grid (buildAABBs st q1 (q0.length / 3)).1)
    { active_set := active_set, teleported_collisions := [], duplicate_indices := [] }
    (fun pair hp => hrange _ pair ((mem_possibleOverlaps grid _ pair).1 hp))
    (fun tc htc => absurd htc (List.not_mem_nil tc))
  rw [hs]
  exact dispatchTeleportedCollisions_isSome st q0 q1 _ _
    (fun tc htc => ⟨(hvalid tc htc).2.2.1, (hvalid tc htc).2.2.2⟩)

/-! ### The reference broad phase -/

theorem mem_bruteForceOverlaps (aabbs : List AABB) (a b : Nat) :
    (a, b) ∈ bruteForceOverlaps aabbs
      ↔ a < b ∧ b < aabbs.length ∧
        (aabbs.getD a default).overlaps (aabbs.getD b default) = true := by
  unfold bruteForceOverlaps
  simp only [List.mem_flatMap, List.mem_filterMap, List.mem_range, List.mem_range'_1]
  constructor
  · rintro ⟨a', ha', b', hb', h⟩
    split at h
    · next hov =>
      simp only [Option.some.injEq, Prod.mk.injEq] at h
      obtain ⟨h1, h2⟩ := h
      subst h1
      subst h2
      exact ⟨by omega, by omega, hov⟩
    · simp at h
  · rintro ⟨hab, hb, hov⟩
    exact ⟨a, by omega, b, by omega, by rw [if_pos hov]⟩

/-- Claim C10: when the broad phase returns only pairs `(a, b)` with `a < b` of
indices of the boxes it is given, and returns every such pair whose boxes
overlap (the `std::set` it fills is free of duplicates), then
`computeBodyBodyActiveSetSpatialGrid` returns, and its `CircleCircle`
constraints are those produced by `computeBodyBodyActiveSetAllPairs`, same body
pairs, normals and anchors, up to their order. -/
theorem spatialGrid_perm_allPairs (sqrt : ℚ → ℚ) (grid : List AABB → List (Nat × Nat))
    (st : RigidBody2DState) (q0 q1 : VectorXs)
    (hordered : ∀ aabbs, ∀ pair ∈ grid aabbs, pair.1 < pair.2 ∧ pair.2 < aabbs.length)
    (hcomplete : ∀ aabbs a b, a < b → b < aabbs.length →
      (aabbs.getD a default).overlaps (aabbs.getD b default) = true → (a, b) ∈ grid aabbs) :
    ∃ out, computeBodyBodyActiveSetSpatialGrid sqrt grid st q0 q1 [] = some out ∧
      (out.filter isCircleCircle).Perm (computeBodyBodyActiveSetAllPairs sqrt st q0 q1 []) := by
  obtain ⟨out, hout⟩ := computeBodyBodyActiveSetSpatialGrid_isSome sqrt grid st q0 q1 []
    (fun aabbs pair h => ⟨lt_trans (hordered aabbs pair h).1 (hordered aabbs pair h).2,
      (hordered aabbs pair h).2⟩)
  exact ⟨out, hout, spatialGrid_perm_allPairs_of_eq sqrt grid st q0 q1
    (fun aabbs pair h => (hordered aabbs pair h).1) hcomplete out hout⟩

/-- Witness of claim C10: the two overlapping unit disks of `narrowDomainState`
and the broad phase that returns exactly the overlapping pairs. -/
theorem spatialGrid_perm_allPairs_witness :
    ∃ out, computeBodyBodyActiveSetSpatialGrid (fun z => z) bruteForceOverlaps
        narrowDomainState narrowDomainQ narrowDomainQ [] = some out ∧
      (out.filter isCircleCircle).Perm
        (computeBodyBodyActiveSetAllPairs (fun z => z) narrowDomainState narrowDomainQ
          narrowDomainQ []) :=
  spatialGrid_perm_allPairs (fun z => z) bruteForceOverlaps narrowDomainState narrowDomainQ
    narrowDomainQ
    (fun aabbs pair h => ⟨((mem_bruteForceOverlaps aabbs pair.1 pair.2).1 h).1,
      ((mem_bruteForceOverlaps aabbs pair.1 pair.2).1 h).2.1⟩)
    (fun aabbs a b hab hb hov => (mem_bruteForceOverlaps aabbs a b).2 ⟨hab, hb, hov⟩)

/-! ### Energy and momentum -/

theorem foldl_add_eq_sum {α : Type} (f : α → ℚ) (l : List α) (a : ℚ) :
    l.foldl (fun acc x => acc + f x) a = a + (l.map f).sum := by
  induction l generalizing a with
  | nil => simp
  | cons x l ih => rw [List.foldl_cons, ih, List.map_cons, List.sum_cons, add_assoc]

/-- Claim C14: `computeTotalEnergy` equals `½·vᵀ·M·v` plus the sum over the body
forces of the state of their potential `U(q, M)`, that is
`computeKineticEnergy + computePotentialEnergy`; with an empty force list it
equals the kinetic energy. -/
theorem computeTotalEnergy_spec (st : RigidBody2DState) :
    computeTotalEnergy st
      = (1 / 2) * (List.zipWith (fun vi mvi => vi * mvi) st.v
            (List.zipWith (fun mi vi => mi * vi) st.M st.v)).sum
          + (st.forces.map (fun force => force.computePotential st.q st.M)).sum ∧
    computeTotalEnergy st = computeKineticEnergy st + computePotentialEnergy st ∧
    computeTotalEnergy { st with forces := [] } = computeKineticEnergy st := by
  refine ⟨?_, rfl, ?_⟩
  · unfold computeTotalEnergy computeKineticEnergy computePotentialEnergy VectorXs.dot massTimes
    rw [foldl_add_eq_sum, zero_add]
  · unfold computeTotalEnergy computeKineticEnergy computePotentialEnergy
    simp

/-- Claim C15: `computeTotalAngularMomentum` equals the sum over the bodies
`i < N` of `m_i·(x_i·v_{y,i} − y_i·v_{x,i}) + I_i·ω_i`, positions read in the `q`
of the state, velocities in its `v`, masses and inertias on the diagonal of `M`. -/
theorem computeTotalAngularMomentum_spec (st : RigidBody2DState) :
    computeTotalAngularMomentum st
      = ((List.range (st.q.length / 3)).map (fun i =>
          st.M.getD (3 * i) 0
              * (st.q.getD (3 * i) 0 * st.v.getD (3 * i + 1) 0
                - st.q.getD (3 * i + 1) 0 * st.v.getD (3 * i) 0)
            + st.M.getD (3 * i + 2) 0 * st.v.getD (3 * i + 2) 0)).sum := by
  unfold computeTotalAngularMomentum computeAngularMomentum
  simp only [List.getD_cons_zero]
  rw [foldl_add_eq_sum, foldl_add_eq_sum, zero_add, ← List.sum_map_add]
  rfl

/-! ### Contact bases -/

theorem computeContactBasesLoop_spec
    (computeBasis : Constraint → VectorXs → VectorXs → MatrixXXsc) (q v : VectorXs)
    (rest : List Constraint) (col_num : Nat) (M : MatrixXXsc) :
    (computeContactBasesLoop computeBasis q v rest col_num M).rows = M.rows ∧
    (computeContactBasesLoop computeBasis q v rest col_num M).cols = M.cols ∧
    (∀ i j, j < 2 * col_num →
      (computeContactBasesLoop computeBasis q v rest col_num M).coeff i j = M.coeff i j) ∧
    (∀ k (hk : k < rest.length) i j, i < 2 → j < 2 →
      (computeContactBasesLoop computeBasis q v rest col_num M).coeff i (2 * (col_num + k) + j)
        = (computeBasis (rest.get ⟨k, hk⟩) q v).coeff i j) := by
  induction rest generalizing col_num M with
  | nil =>
    refine ⟨rfl, rfl, fun _ _ _ => rfl, ?_⟩
    intro k hk
    exact absurd hk (Nat.not_lt_zero k)
  | cons c rest ih =>
    unfold computeContactBasesLoop
    obtain ⟨h1, h2, h3, h4⟩ := ih (col_num + 1) (M.setBlock22 (2 * col_num) (computeBasis c q v))
    refine ⟨h1, h2, ?_, ?_⟩
    · intro i j hj
      rw [h3 i j (by omega)]
      simp only [MatrixXXsc.setBlock22]
      rw [if_neg (by omega)]
    · intro k hk i j hi hj
      cases k with
      | zero =>
        rw [h3 i _ (by omega)]
        simp only [MatrixXXsc.setBlock22, List.get_eq_getElem, List.getElem_cons_zero]
        rw [if_pos (by omega)]
        congr 1
        omega
      | succ k =>
        have hk2 : k < rest.length := by
          rw [List.length_cons] at hk
          omega
        have h := h4 k hk2 i j hi hj
        have hidx : 2 * (col_num + (k + 1)) + j = 2 * (col_num + 1 + k) + j := by omega
        rw [hidx, h]
        simp only [List.get_eq_getElem, List.getElem_cons_succ]

/-- Claim C12: for an active set of size `m`, `computeContactBases` returns a
matrix with 2 rows and `2m` columns whose columns `2k` and `2k+1` hold the 2×2
basis computed by the `k`-th constraint from `(q, v)`, for every `k < m`; for
an empty active set the result has no column. -/
theorem computeContactBases_spec
    (computeBasis : Constraint → VectorXs → VectorXs → MatrixXXsc) (q v : VectorXs)
    (active_set : List Constraint) (contact_bases : MatrixXXsc) :
    (computeContactBases computeBasis q v active_set contact_bases).rows = 2 ∧
    (computeContactBases computeBasis q v active_set contact_bases).cols
      = 2 * active_set.length ∧
    (∀ k (hk : k < active_set.length) i j, i < 2 → j < 2 →
      (computeContactBases computeBasis q v active_set contact_bases).coeff i (2 * k + j)
        = (computeBasis (active_set.get ⟨k, hk⟩) q v).coeff i j) ∧
    (computeContactBases computeBasis q v [] contact_bases).cols = 0 := by
  unfold computeContactBases
  obtain ⟨h1, h2, _, h4⟩ := computeContactBasesLoop_spec computeBasis q v active_set 0
    (contact_bases.resize 2 (2 * active_set.length))
  refine ⟨h1, h2, ?_, rfl⟩
  intro k hk i j hi hj
  have h := h4 k hk i j hi hj
  rw [Nat.zero_add] at h
  exact h

/-- Witness of claim C12: two constraints and a basis routine that writes the
body indices of the constraint; the second block of the result is the basis
of the second constraint. -/
theorem computeContactBases_spec_witness :
    (computeContactBases
        (fun c _ _ => { rows := 2, cols := 2, coeff := fun i j => c.getBodyIndices.1 + i + 2 * j })
        [] [] [Constraint.staticPlaneCircle 0 0 1 ⟨⟨0, 0⟩, ⟨0, 1⟩⟩,
          Constraint.staticPlaneCircle 1 0 1 ⟨⟨0, 0⟩, ⟨0, 1⟩⟩]
        { rows := 0, cols := 0, coeff := fun _ _ => 0 }).coeff 1 (2 * 1 + 0)
      = ((fun (c : Constraint) (_ _ : VectorXs) =>
            ({ rows := 2, cols := 2,
               coeff := fun i j => c.getBodyIndices.1 + i + 2 * j } : MatrixXXsc))
          ([Constraint.staticPlaneCircle 0 0 1 ⟨⟨0, 0⟩, ⟨0, 1⟩⟩,
            Constraint.staticPlaneCircle 1 0 1 ⟨⟨0, 0⟩, ⟨0, 1⟩⟩].get ⟨1, by decide⟩)
          [] []).coeff 1 0 :=
  (computeContactBases_spec
    (fun c _ _ => { rows := 2, cols := 2, coeff := fun i j => c.getBodyIndices.1 + i + 2 * j })
    [] [] [Constraint.staticPlaneCircle 0 0 1 ⟨⟨0, 0⟩, ⟨0, 1⟩⟩,
      Constraint.staticPlaneCircle 1 0 1 ⟨⟨0, 0⟩, ⟨0, 1⟩⟩]
    { rows := 0, cols := 0, coeff := fun _ _ => 0 }).2.2.1 1 (by decide) 1 0 (by decide)
    (by decide)

/-! ### The generalized smooth friction basis -/

theorem u32_of_lt (n : Nat) (h : n < 4294967296) : u32 n = n := Nat.mod_eq_of_lt h

theorem smoothColumnNonzeros_isSome (frictionStencilSize : Constraint → Nat) (nsamples : Nat)
    (rest : List Constraint) (collision_number : Nat) (column_nonzeros : List Nat) :
    ∃ cn, smoothColumnNonzeros frictionStencilSize nsamples rest.length rest collision_number
      column_nonzeros = some cn := by
  induction rest generalizing collision_number column_nonzeros with
  | nil => exact ⟨_, rfl⟩
  | cons c rest ih =>
    rw [List.length_cons]
    unfold smoothColumnNonzeros
    exact ih _ _

/-- The samples of constraint `k` are the calls expected for it. -/
theorem smoothSamples_eq
    (compute : Constraint → VectorXs → VectorXs → Nat → SparseMatrixsc → SparseMatrixsc)
    (q : VectorXs) (K : List Constraint) (bases : MatrixXXsc) (d : Nat) (c : Constraint)
    (k : Nat) (D : SparseMatrixsc) (hK : K[k]? = some c) (hd : 0 < d)
    (hsize : d * (k + 1) < 4294967296) :
    smoothSamples compute q bases d (d - 1) c k D
      = ((List.range (d - 1)).map (fun s =>
          ({ collision_number := k, tangent_column := d * k + s + 1,
             current_column := (d - 1) * k + s } : FrictionCall))).foldl
          (applyFrictionCall compute q K bases) D := by
  unfold smoothSamples
  rw [List.foldl_map]
  apply List.foldl_ext
  intro D1 s hs
  rw [List.mem_range] at hs
  have h1 : d * k + d = d * (k + 1) := by ring
  have h2 : (d - 1) * k ≤ d * k := Nat.mul_le_mul_right k (Nat.sub_le d 1)
  have e1 : u32 ((d - 1) * k) = (d - 1) * k := u32_of_lt _ (by omega)
  have e2 : u32 ((d - 1) * k + s) = (d - 1) * k + s := u32_of_lt _ (by omega)
  have e3 : u32 (d * k) = d * k := u32_of_lt _ (by omega)
  have e4 : u32 (d * k + s) = d * k + s := u32_of_lt _ (by omega)
  have e5 : u32 (d * k + s + 1) = d * k + s + 1 := u32_of_lt _ (by omega)
  simp only [e1, e2, e3, e4, e5, applyFrictionCall, hK]

theorem smoothLoop_eq
    (compute : Constraint → VectorXs → VectorXs → Nat → SparseMatrixsc → SparseMatrixsc)
    (q : VectorXs) (K : List Constraint) (bases : MatrixXXsc) (d : Nat) (hd : 0 < d)
    (rest : List Constraint) (k : Nat) (D : SparseMatrixsc)
    (hK : ∀ i (hi : i < rest.length), K[k + i]? = some (rest.get ⟨i, hi⟩))
    (hsize : d * (k + rest.length) < 4294967296) :
    smoothLoop compute q bases d (d - 1) rest.length rest k D
      = some (((List.range' k rest.length).flatMap (fun k =>
          (List.range (d - 1)).map (fun s =>
            ({ collision_number := k, tangent_column := d * k + s + 1,
               current_column := (d - 1) * k + s } : FrictionCall)))).foldl
          (applyFrictionCall compute q K bases) D) := by
  induction rest generalizing k D with
  | nil => rfl
  | cons c rest ih =>
    rw [List.length_cons] at hsize ⊢
    unfold smoothLoop
    have hk1 : d * (k + 1) ≤ d * (k + (rest.length + 1)) := Nat.mul_le_mul_left d (by omega)
    have hkd : k + 1 ≤ d * (k + 1) := Nat.le_mul_of_pos_left (k + 1) hd
    have e : u32 (k + 1) = k + 1 := u32_of_lt _ (by omega)
    have hKc : K[k]? = some c := by
      have h := hK 0 (by rw [List.length_cons]; omega)
      simpa using h
    rw [e, smoothSamples_eq compute q K bases d c k D hKc hd (by omega),
      ih (k + 1) _ ?_ (by rw [show k + 1 + rest.length = k + (rest.length + 1) by omega]; exact hsize),
      List.range'_succ, List.flatMap_cons, List.foldl_append]
    intro i hi
    have h := hK (i + 1) (by rw [List.length_cons]; omega)
    rw [show k + 1 + i = k + (i + 1) by omega, h]
    simp

theorem mem_frictionCalls (d m : Nat) (call : FrictionCall) :
    call ∈ frictionCalls d m ↔ ∃ k s, k < m ∧ s < d - 1 ∧
      call = { collision_number := k, tangent_column := d * k + s + 1,
               current_column := (d - 1) * k + s } := by
  unfold frictionCalls
  simp only [List.mem_flatMap, List.mem_map, List.mem_range]
  constructor
  · rintro ⟨k, hk, s, hs, h⟩
    exact ⟨k, s, hk, hs, h.symm⟩
  · rintro ⟨k, s, hk, hs, h⟩
    exact ⟨k, hk, s, hs, h.symm⟩

theorem nodup_frictionCalls (d m : Nat) : (frictionCalls d m).Nodup := by
  unfold frictionCalls
  rw [List.nodup_flatMap]
  constructor
  · intro k _
    apply List.Nodup.map _ (List.nodup_range _)
    intro s s' h
    injection h with _ h2 _
    omega
  · apply List.Nodup.pairwise_of_forall_ne (List.nodup_range m)
    intro k _ k' _ hne call h1 h2
    simp only [List.mem_map, List.mem_range] at h1 h2
    obtain ⟨s, _, hs⟩ := h1
    obtain ⟨s', _, hs'⟩ := h2
    rw [← hs'] at hs
    injection hs with h _ _
    exact hne h

theorem frictionCalls_columns (d m : Nat) :
    (frictionCalls d m).map (fun call => call.current_column) = List.range ((d - 1) * m) := by
  unfold frictionCalls
  induction m with
  | zero => simp
  | succ m ih =>
    rw [List.range_succ, List.flatMap_append, List.map_append, ih, Nat.mul_succ, List.range_add]
    simp [List.flatMap_singleton]

theorem frictionCalls_two (m : Nat) :
    frictionCalls 2 m = (List.range m).map (fun k =>
      ({ collision_number := k, tangent_column := 2 * k + 1, current_column := k }
        : FrictionCall)) := by
  unfold frictionCalls
  induction m with
  | zero => rfl
  | succ m ih =>
    rw [List.range_succ, List.flatMap_append, ih, List.map_append]
    simp [List.range_succ]

/-- Claim C13: given `ndofs`, an active set of `m` constraints and a bases
matrix with `d ≥ 1` rows (the sizes fitting in `unsigned`),
`formGeneralizedSmoothFrictionBasis` resizes `D` to `ndofs` rows and `(d−1)·m`
columns and then makes exactly the calls of `frictionCalls d m`, in order: for
every constraint `k < m` and sample `s < d − 1`, constraint `k` is asked exactly
once to fill column `(d−1)·k + s` from the tangent `bases.col(d·k + s + 1)`; the
columns filled are `0, 1, …, (d−1)·m − 1`; no call receives a contact normal
(a column `d·k` of `bases`); and for `d = 2` column `k` of `D` is filled by
constraint `k` from column `2k+1`. -/
theorem formGeneralizedSmoothFrictionBasis_spec (frictionStencilSize : Constraint → Nat)
    (compute : Constraint → VectorXs → VectorXs → Nat → SparseMatrixsc → SparseMatrixsc)
    (ndofs : Nat) (q : VectorXs) (K : List Constraint) (bases : MatrixXXsc) (D : SparseMatrixsc)
    (hd : 0 < bases.rows) (hsize : bases.rows * K.length < 4294967296) :
    (∃ column_nonzeros,
      formGeneralizedSmoothFrictionBasis frictionStencilSize compute ndofs K.length q K bases D
        = some (((frictionCalls bases.rows K.length).foldl
            (applyFrictionCall compute q K bases)
            ((D.resize ndofs ((bases.rows - 1) * K.length)).reserve
              column_nonzeros)).makeCompressed)) ∧
    (D.resize ndofs ((bases.rows - 1) * K.length)).rows = ndofs ∧
    (D.resize ndofs ((bases.rows - 1) * K.length)).cols = (bases.rows - 1) * K.length ∧
    (∀ k s, k < K.length → s < bases.rows - 1 →
      (frictionCalls bases.rows K.length).count
        { collision_number := k, tangent_column := bases.rows * k + s + 1,
          current_column := (bases.rows - 1) * k + s } = 1) ∧
    (∀ call ∈ frictionCalls bases.rows K.length, ∃ k s, k < K.length ∧ s < bases.rows - 1 ∧
      call = { collision_number := k, tangent_column := bases.rows * k + s + 1,
               current_column := (bases.rows - 1) * k + s }) ∧
    (frictionCalls bases.rows K.length).map (fun call => call.current_column)
      = List.range ((bases.rows - 1) * K.length) ∧
    (∀ call ∈ frictionCalls bases.rows K.length, ∀ k, call.tangent_column ≠ bases.rows * k) ∧
    frictionCalls 2 K.length = (List.range K.length).map (fun k =>
      ({ collision_number := k, tangent_column := 2 * k + 1, current_column := k }
        : FrictionCall)) := by
  refine ⟨?_, rfl, rfl, ?_, ?_, frictionCalls_columns _ _, ?_, frictionCalls_two _⟩
  · have hm : K.length ≤ bases.rows * K.length := Nat.le_mul_of_pos_left _ hd
    have hrows : bases.rows ≤ bases.rows * K.length ∨ K.length = 0 := by
      rcases Nat.eq_zero_or_pos K.length with h | h
      · exact Or.inr h
      · exact Or.inl (Nat.le_mul_of_pos_right _ h)
    by_cases hK0 : K.length = 0
    · have hnil : K = [] := List.length_eq_zero.1 hK0
      subst hnil
      exact ⟨_, rfl⟩
    · have hrows2 : bases.rows < 4294967296 := by
        rcases hrows with h | h
        · omega
        · exact absurd h hK0
      unfold formGeneralizedSmoothFrictionBasis
      have e1 : u32 bases.rows = bases.rows := u32_of_lt _ hrows2
      have e2 : u32 (bases.rows + 4294967295) = bases.rows - 1 := by
        unfold u32
        omega
      have hle : (bases.rows - 1) * K.length ≤ bases.rows * K.length :=
        Nat.mul_le_mul_right _ (Nat.sub_le _ 1)
      have e3 : u32 ((bases.rows - 1) * K.length) = (bases.rows - 1) * K.length :=
        u32_of_lt _ (by omega)
      simp only [e1, e2, e3]
      obtain ⟨cn, hcn⟩ := smoothColumnNonzeros_isSome frictionStencilSize (bases.rows - 1) K 0
        (List.replicate (D.resize ndofs ((bases.rows - 1) * K.length)).cols 0)
      rw [hcn]
      simp only
      rw [smoothLoop_eq compute q K bases bases.rows hd K 0 _ (by
        intro i hi
        rw [Nat.zero_add, List.getElem?_eq_getElem hi]
        rfl) (by rw [Nat.zero_add]; exact hsize)]
      refine ⟨cn, ?_⟩
      simp only [frictionCalls, List.range_eq_range']
  · intro k s hk hs
    apply List.count_eq_one_of_mem (nodup_frictionCalls _ _)
    exact (mem_frictionCalls _ _ _).2 ⟨k, s, hk, hs, rfl⟩
  · intro call hcall
    exact (mem_frictionCalls _ _ _).1 hcall
  · intro call hcall k' heq
    obtain ⟨k, s, _, hs, hc⟩ := (mem_frictionCalls _ _ _).1 hcall
    rw [hc] at heq
    simp only at heq
    have h1 : (bases.rows * k + (s + 1)) % bases.rows = (s + 1) % bases.rows :=
      Nat.mul_add_mod _ _ _
    have h2 : (s + 1) % bases.rows = s + 1 := Nat.mod_eq_of_lt (by omega)
    have h3 : (bases.rows * k') % bases.rows = 0 := Nat.mul_mod_right _ _
    rw [← Nat.add_assoc, heq, h3] at h1
    omega

/-- Witness of claim C13: two constraints in the plane (`d = 2`) and a friction
routine that records the tangent it receives. -/
theorem formGeneralizedSmoothFrictionBasis_spec_witness :
    ∃ column_nonzeros,
      formGeneralizedSmoothFrictionBasis (fun _ => 2) recordTangent 6 twoPlaneConstraints.length
          [] twoPlaneConstraints twoContactBases
          { rows := 0, cols := 0, reserved := [], entries := [] }
        = some (((frictionCalls twoContactBases.rows twoPlaneConstraints.length).foldl
            (applyFrictionCall recordTangent [] twoPlaneConstraints twoContactBases)
            ((({ rows := 0, cols := 0, reserved := [], entries := [] } : SparseMatrixsc).resize 6
              ((twoContactBases.rows - 1) * twoPlaneConstraints.length)).reserve
              column_nonzeros)).makeCompressed) :=
  (formGeneralizedSmoothFrictionBasis_spec (fun _ => 2) recordTangent 6 [] twoPlaneConstraints
    twoContactBases { rows := 0, cols := 0, reserved := [], entries := [] }
    (by decide) (by decide)).1

/-! ### The time stepping drivers -/

theorem commitAndEnforce_outcome (updated : RigidBody2DState) (next : VectorXs × VectorXs) :
    FlowOutcome updated next (commitAndEnforce updated next.1 next.2) := by
  refine ⟨rfl, rfl, ?_, rfl, rfl, rfl, rfl, ?_⟩
  · simp only [commitAndEnforce, enforcePeriodicBoundaryConditions]
  · intro N hq hv hq1 hv1
    have hq2 : (commitAndEnforce updated next.1 next.2).q
        = enforcePeriodicBoundaryConditions updated next.1 := by
      simp only [commitAndEnforce, enforcePeriodicBoundaryConditions]
    have hv2 : (commitAndEnforce updated next.1 next.2).v = next.2 := rfl
    rw [hq2, hv2, length_enforcePeriodicBoundaryConditions, hq1, hv1]
    exact ⟨hq, hv⟩

/-- Claim C16: each of the three `flow` overloads, called with `(iteration, dt)`,
first updates every portal with `t = iteration·dt`, then invokes the external
map on the `(q, v)` the state had before the step, then leaves in the state the
`v1` the map returned as `v` and `enforcePeriodicBoundaryConditions` of the
returned `q1` as `q`; the wrap does not touch `v`, and when the map returns
vectors of the length of its input, `|q| = |v| = 3N` is preserved. -/
theorem flow_spec {ImpactOperator FrictionSolver : Type}
    (updateMovingPortals : PlanarPortal → ℚ → PlanarPortal) (st : RigidBody2DState)
    (iteration : Nat) (dt : ℚ) (umap : UnconstrainedMap) (iop : ImpactOperator) (CoR mu : ℚ)
    (imap : ImpactMap ImpactOperator) (solver : FrictionSolver)
    (ifmap : ImpactFrictionMap FrictionSolver) :
    updatePeriodicBoundaryConditionsStartOfStep updateMovingPortals st iteration dt
      = { st with planarPortals := st.planarPortals.map (fun planar_portal =>
            updateMovingPortals planar_portal ((iteration : ℚ) * dt)) } ∧
    FlowOutcome (updatePeriodicBoundaryConditionsStartOfStep updateMovingPortals st iteration dt)
      (umap.flow st.q st.v
        (updatePeriodicBoundaryConditionsStartOfStep updateMovingPortals st iteration dt)
        iteration dt)
      (flow updateMovingPortals st iteration dt umap) ∧
    FlowOutcome (updatePeriodicBoundaryConditionsStartOfStep updateMovingPortals st iteration dt)
      (imap.flow
        (updatePeriodicBoundaryConditionsStartOfStep updateMovingPortals st iteration dt)
        umap iop iteration dt CoR st.q st.v)
      (flowImpact updateMovingPortals st iteration dt umap iop CoR imap) ∧
    FlowOutcome (updatePeriodicBoundaryConditionsStartOfStep updateMovingPortals st iteration dt)
      (ifmap.flow
        (updatePeriodicBoundaryConditionsStartOfStep updateMovingPortals st iteration dt)
        umap solver iteration dt CoR mu st.q st.v)
      (flowImpactFriction updateMovingPortals st iteration dt umap CoR mu solver ifmap) :=
  ⟨rfl, commitAndEnforce_outcome _ _, commitAndEnforce_outcome _ _,
    commitAndEnforce_outcome _ _⟩

/-- Witness of claim C16: one disk at rest at `(0, 11)`, beyond the periodic
portal between `y = 0` and `y = 10`; after the step the velocity is the one the
map returned, the centre is wrapped to `(0, 1)` and the sizes are kept. -/
theorem flow_spec_witness :
    (flow (fun p _ => p) (diskState 1 1 [0, 11, 0] [] [slabPortal 10]) 1 1
        explicitEulerMap).q = [0, 1, 0] ∧
    (flow (fun p _ => p) (diskState 1 1 [0, 11, 0] [] [slabPortal 10]) 1 1
        explicitEulerMap).v = [0, 0, 0] ∧
    FlowOutcome
      (updatePeriodicBoundaryConditionsStartOfStep (fun p _ => p)
        (diskState 1 1 [0, 11, 0] [] [slabPortal 10]) 1 1)
      (explicitEulerMap.flow (diskState 1 1 [0, 11, 0] [] [slabPortal 10]).q
        (diskState 1 1 [0, 11, 0] [] [slabPortal 10]).v
        (updatePeriodicBoundaryConditionsStartOfStep (fun p _ => p)
          (diskState 1 1 [0, 11, 0] [] [slabPortal 10]) 1 1) 1 1)
      (flow (fun p _ => p) (diskState 1 1 [0, 11, 0] [] [slabPortal 10]) 1 1
        explicitEulerMap) :=
  ⟨by decide!, by decide!,
    (flow_spec (fun p _ => p) (diskState 1 1 [0, 11, 0] [] [slabPortal 10]) 1 1
      explicitEulerMap () 0 0 (ImpactMap.mk (fun _ _ _ _ _ _ q v => (q, v))) ()
      (ImpactFrictionMap.mk (fun _ _ _ _ _ _ _ q v => (q, v)))).2.1⟩

/-! ### The single body overlap query -/

/-- The entry of the map for a virtual box: it exists and records a body and a
portal of the state. -/
theorem lookup_virtual (st : RigidBody2DState) (q : VectorXs) (nbodies idx : Nat)
    (h1 : nbodies ≤ idx) (h2 : idx < (buildAABBs st q nbodies).1.length) :
    ∃ tb, (buildAABBs st q nbodies).2.lookup idx = some tb ∧ tb.bodyIndex < nbodies ∧
      tb.portalIndex < st.planarPortals.length := by
  obtain ⟨virt, _, hkeys, hentries⟩ := buildAABBs_invariant st q nbodies
  have hlen := congrArg List.length hkeys
  rw [List.length_map, List.length_range'] at hlen
  rw [length_computeBodyAABBs] at hkeys hentries
  rw [← hlen] at hkeys
  rw [length_buildAABBs] at h2
  obtain ⟨tb, htb1, htb2⟩ := lookup_of_keys_range _ nbodies hkeys idx h1 h2
  exact ⟨tb, htb1, (hentries _ htb2).1, (hentries _ htb2).2⟩

theorem loadPortalPlaneIndices_some (su : StringUtilities) (nplanes : Nat)
    (plane_pairs : List (Nat × Nat)) (nd : XmlNode) (pair : Nat × Nat)
    (h : loadPortalPlaneIndices su nplanes plane_pairs nd = some pair) :
    namedPlaneIndex su nd "planeA" = some pair.1 ∧ namedPlaneIndex su nd "planeB" = some pair.2
      ∧ pair.1 < nplanes ∧ pair.2 < nplanes ∧ pair.1 ≠ pair.2
      ∧ ∀ p ∈ plane_pairs, pair.1 ≠ p.1 ∧ pair.1 ≠ p.2 ∧ pair.2 ≠ p.1 ∧ pair.2 ≠ p.2 := by
  unfold loadPortalPlaneIndices at h
  unfold namedPlaneIndex
  cases ha : nd.first_attribute "planeA" with
  | none => simp [ha] at h
  | some value_a =>
    rw [ha] at h
    dsimp only at h
    cases hia : su.extractUnsigned value_a with
    | none => simp [hia] at h
    | some index_a =>
      rw [hia] at h
      dsimp only at h
      by_cases h1 : index_a ≥ nplanes
      · simp [h1] at h
      · rw [if_neg h1] at h
        cases hb : nd.first_attribute "planeB" with
        | none => simp [hb] at h
        | some value_b =>
          rw [hb] at h
          dsimp only at h
          cases hib : su.extractUnsigned value_b with
          | none => simp [hib] at h
          | some index_b =>
            rw [hib] at h
            dsimp only at h
            by_cases h2 : index_b ≥ nplanes
            · simp [h2] at h
            · rw [if_neg h2] at h
              by_cases h3 : (index_a == index_b) = true
              · simp [h3] at h
              · rw [if_neg h3] at h
                by_cases h4 : plane_pairs.any (fun pair =>
                    (index_a == pair.1 || index_a == pair.2)
                      || (index_b == pair.1 || index_b == pair.2)) = true
                · simp [h4] at h
                · rw [if_neg h4] at h
                  simp only [Option.some.injEq] at h
                  subst h
                  simp only [ha, hb, Option.bind_some, Option.some_bind, hia, hib, true_and]
                  refine ⟨by omega, by omega, by simpa using h3, ?_⟩
                  intro p hp
                  simp only [List.any_eq_true, not_exists, not_and, Bool.or_eq_true,
                    beq_iff_eq] at h4
                  have := h4 p hp
                  omega

theorem portalPlaneIndices_eq (plane_pairs : List (Nat × Nat)) :
    portalPlaneIndices plane_pairs = plane_pairs.flatMap (fun pair => [pair.1, pair.2]) := by
  unfold portalPlaneIndices
  rw [foldl_append_flatMap (fun pair : Nat × Nat => [pair.1, pair.2])]
  · simp
  · intro acc a; rfl

theorem nodup_portal_step (plane_pairs : List (Nat × Nat)) (pair : Nat × Nat)
    (hne : pair.1 ≠ pair.2)
    (hnew : ∀ p ∈ plane_pairs, pair.1 ≠ p.1 ∧ pair.1 ≠ p.2 ∧ pair.2 ≠ p.1 ∧ pair.2 ≠ p.2)
    (hnodup : (plane_pairs.flatMap (fun pair => [pair.1, pair.2])).Nodup) :
    ((plane_pairs ++ [pair]).flatMap (fun pair => [pair.1, pair.2])).Nodup := by
  rw [List.flatMap_append, List.nodup_append]
  refine ⟨hnodup, by simpa using hne, ?_⟩
  intro a ha hb
  simp only [List.mem_flatMap, List.mem_cons, List.mem_singleton, List.not_mem_nil,
    or_false] at ha hb
  obtain ⟨p, hp, hap⟩ := ha
  obtain ⟨q, hq, haq⟩ := hb
  subst hq
  have := hnew p hp
  rcases hap with hap | hap <;> rcases haq with haq | haq <;> omega

theorem loadPlanarPortalNodes_spec (su : StringUtilities) (nplanes : Nat)
    (nodes : List XmlNode) (lists lists' : PortalLists)
    (h : loadPlanarPortalNodes su nplanes nodes lists = some lists') :
    ∃ new : List (Nat × Nat), lists'.plane_pairs = lists.plane_pairs ++ new
      ∧ new.length = nodes.length
      ∧ namedPlaneIndices su nodes = (new.flatMap (fun pair => [pair.1, pair.2])).map some
      ∧ (∀ index ∈ new.flatMap (fun pair => [pair.1, pair.2]), index < nplanes)
      ∧ ((lists.plane_pairs.flatMap (fun pair => [pair.1, pair.2])).Nodup →
          (lists'.plane_pairs.flatMap (fun pair => [pair.1, pair.2])).Nodup) := by
  induction nodes generalizing lists with
  | nil =>
    simp only [loadPlanarPortalNodes, Option.some.injEq] at h
    subst h
    exact ⟨[], by simp, rfl, by simp [namedPlaneIndices], by simp, fun hn => hn⟩
  | cons nd rest ih =>
    rw [loadPlanarPortalNodes] at h
    cases hpair : loadPortalPlaneIndices su nplanes lists.plane_pairs nd with
    | none => simp [hpair] at h
    | some pair =>
      rw [hpair] at h
      dsimp only at h
      obtain ⟨hA, hB, h1, h2, hne, hnew⟩ := loadPortalPlaneIndices_some su nplanes _ nd pair hpair
      obtain ⟨new, hpairs, hlen, hnamed, hlt, hnodup⟩ := ih _ h
      refine ⟨pair :: new, ?_, ?_, ?_, ?_, ?_⟩
      · rw [hpairs]; simp
      · simp [hlen]
      · simp only [namedPlaneIndices] at hnamed ⊢
        simp only [List.flatMap_cons, List.map_append, hnamed, hA, hB]
        simp
      · intro index hindex
        simp only [List.flatMap_cons, List.mem_append, List.mem_cons, List.mem_singleton,
          List.not_mem_nil, or_false] at hindex
        rcases hindex with (hi | hi) | hi
        · omega
        · omega
        · exact hlt index hi
      · intro hn
        exact hnodup (nodup_portal_step _ pair hne hnew hn)

theorem loadLeesEdwardsPortalNodes_spec (su : StringUtilities) (nplanes : Nat)
    (nodes : List XmlNode) (lists lists' : PortalLists)
    (h : loadLeesEdwardsPortalNodes su nplanes nodes lists = some lists') :
    ∃ new : List (Nat × Nat), lists'.plane_pairs = lists.plane_pairs ++ new
      ∧ new.length = nodes.length
      ∧ namedPlaneIndices su nodes = (new.flatMap (fun pair => [pair.1, pair.2])).map some
      ∧ (∀ index ∈ new.flatMap (fun pair => [pair.1, pair.2]), index < nplanes)
      ∧ ((lists.plane_pairs.flatMap (fun pair => [pair.1, pair.2])).Nodup →
          (lists'.plane_pairs.flatMap (fun pair => [pair.1, pair.2])).Nodup) := by
  induction nodes generalizing lists with
  | nil =>
    simp only [loadLeesEdwardsPortalNodes, Option.some.injEq] at h
    subst h
    exact ⟨[], by simp, rfl, by simp [namedPlaneIndices], by simp, fun hn => hn⟩
  | cons nd rest ih =>
    rw [loadLeesEdwardsPortalNodes] at h
    cases hpair : loadPortalPlaneIndices su nplanes lists.plane_pairs nd with
    | none => simp [hpair] at h
    | some pair =>
      rw [hpair] at h
      dsimp only at h
      cases hva : attributeScalar su nd "va" with
      | none => simp [hva] at h
      | some va =>
      rw [hva] at h
      dsimp only at h
      cases hvb : attributeScalar su nd "vb" with
      | none => simp [hvb] at h
      | some vb =>
      rw [hvb] at h
      dsimp only at h
      cases hba : loadPortalBounds su nd "boundsa" with
      | none => simp [hba] at h
      | some boundsa =>
      rw [hba] at h
      dsimp only at h
      cases hbb : loadPortalBounds su nd "boundsb" with
      | none => simp [hbb] at h
      | some boundsb =>
      rw [hbb] at h
      dsimp only at h
      obtain ⟨hA, hB, h1, h2, hne, hnew⟩ := loadPortalPlaneIndices_some su nplanes _ nd pair hpair
      obtain ⟨new, hpairs, hlen, hnamed, hlt, hnodup⟩ := ih _ h
      refine ⟨pair :: new, ?_, ?_, ?_, ?_, ?_⟩
      · rw [hpairs]; simp
      · simp [hlen]
      · simp only [namedPlaneIndices] at hnamed ⊢
        simp only [List.flatMap_cons, List.map_append, hnamed, hA, hB]
        simp
      · intro index hindex
        simp only [List.flatMap_cons, List.mem_append, List.mem_cons, List.mem_singleton,
          List.not_mem_nil, or_false] at hindex
        rcases hindex with (hi | hi) | hi
        · omega
        · omega
        · exact hlt index hi
      · intro hn
        exact hnodup (nodup_portal_step _ pair hne hnew hn)

theorem nodes_eq_nil_of_first_node (node : XmlNode) (name : String)
    (h : (node.first_node name).isSome = false) : node.nodes name = [] := by
  unfold XmlNode.first_node at h
  unfold XmlNode.nodes
  rw [List.filter_eq_nil_iff]
  intro a ha hp
  have : (List.find? (fun child => child.name == name) node.children).isSome = true :=
    List.find?_isSome.2 ⟨a, ha, hp⟩
  rw [h] at this
  exact Bool.noConfusion this

/-- What a successful `loadPlanarPortals` has done, in terms of the pairs of
plane indices it accepted. -/
theorem loadPlanarPortals_some (su : StringUtilities) (node : XmlNode)
    (planes : List StaticPlane) (planar_portals : List PlanarPortalArgs)
    (result : List StaticPlane × List PlanarPortalArgs)
    (h : loadPlanarPortals su node planes planar_portals = some result) :
    ∃ lists : PortalLists,
      lists.plane_pairs.length = (portalNodes node).length
      ∧ namedPlaneIndices su (portalNodes node)
          = (lists.plane_pairs.flatMap (fun pair => [pair.1, pair.2])).map some
      ∧ (∀ index ∈ lists.plane_pairs.flatMap (fun pair => [pair.1, pair.2]),
          index < planes.length)
      ∧ (lists.plane_pairs.flatMap (fun pair => [pair.1, pair.2])).Nodup
      ∧ result = (erasePortalPlanes planes lists.plane_pairs,
          planar_portals ++ buildPlanarPortals planes lists) := by
  unfold loadPlanarPortals at h
  by_cases h0 : (!((node.first_node "planar_portal").isSome
      || (node.first_node "lees_edwards_portal").isSome)) = true
  · rw [if_pos h0] at h
    simp only [Option.some.injEq] at h
    simp only [Bool.not_eq_true', Bool.or_eq_false_iff] at h0
    have hp := nodes_eq_nil_of_first_node node "planar_portal" h0.1
    have hl := nodes_eq_nil_of_first_node node "lees_edwards_portal" h0.2
    refine ⟨⟨[], [], []⟩, ?_, ?_, ?_, ?_, ?_⟩
    · simp [portalNodes, hp, hl]
    · simp [portalNodes, hp, hl, namedPlaneIndices]
    · simp
    · simp
    · rw [← h]
      simp [erasePortalPlanes, portalPlaneIndices, buildPlanarPortals]
  · rw [if_neg h0] at h
    by_cases h1 : planes.length < 2
    · simp [h1] at h
    · rw [if_neg h1] at h
      cases hl0 : loadPlanarPortalNodes su planes.length (node.nodes "planar_portal")
          ⟨[], [], []⟩ with
      | none => simp [hl0] at h
      | some lists0 =>
        rw [hl0] at h
        dsimp only at h
        cases hl1 : loadLeesEdwardsPortalNodes su planes.length
            (node.nodes "lees_edwards_portal") lists0 with
        | none => simp [hl1] at h
        | some lists =>
          rw [hl1] at h
          simp only [Option.some.injEq] at h
          obtain ⟨new0, hp0, hlen0, hnamed0, hlt0, hnd0⟩ :=
            loadPlanarPortalNodes_spec su _ _ _ _ hl0
          obtain ⟨new1, hp1, hlen1, hnamed1, hlt1, hnd1⟩ :=
            loadLeesEdwardsPortalNodes_spec su _ _ _ _ hl1
          simp only [List.nil_append] at hp0
          refine ⟨lists, ?_, ?_, ?_, ?_, h.symm⟩
          · rw [hp1, hp0]; simp [portalNodes, hlen0, hlen1]
          · rw [hp1, hp0]
            simp only [portalNodes, namedPlaneIndices, List.flatMap_append, List.map_append]
            simp only [namedPlaneIndices] at hnamed0 hnamed1
            rw [hnamed0, hnamed1]
          · rw [hp1, hp0]
            intro index hindex
            rw [List.flatMap_append, List.mem_append] at hindex
            rcases hindex with hi | hi
            · exact hlt0 index hi
            · exact hlt1 index hi
          · exact hnd1 (hnd0 (by simp))

theorem pair_flatMap_getElem? {α β : Type} (l : List α) (f g : α → β) (k : Nat) :
    (l.flatMap (fun a => [f a, g a]))[2 * k]? = l[k]?.map f
      ∧ (l.flatMap (fun a => [f a, g a]))[2 * k + 1]? = l[k]?.map g := by
  induction l generalizing k with
  | nil => simp
  | cons a l ih =>
    cases k with
    | zero => simp
    | succ k =>
      have h1 : 2 * (k + 1) = 2 * k + 1 + 1 := by ring
      rw [h1]
      simp only [List.flatMap_cons, List.cons_append, List.nil_append,
        List.getElem?_cons_succ]
      exact ih k

/-- C17. Whenever `loadPlanarPortals` succeeds, the plane indices named by
the `planar_portal` and `lees_edwards_portal` nodes together can all be read,
are pairwise distinct and are each smaller than the number of planes; and it
returns false when a portal names the same plane twice, when a plane is named
a second time further on, and when a named index is at least the number of
planes. -/
theorem loadPlanarPortals_indices (su : StringUtilities) (node : XmlNode)
    (planes : List StaticPlane) (planar_portals : List PlanarPortalArgs) :
    (∀ result, loadPlanarPortals su node planes planar_portals = some result →
      ∃ indices : List Nat, namedPlaneIndices su (portalNodes node) = indices.map some
        ∧ indices.Nodup ∧ ∀ index ∈ indices, index < planes.length)
    ∧ ((∃ nd ∈ portalNodes node, ∃ index, namedPlaneIndex su nd "planeA" = some index
          ∧ namedPlaneIndex su nd "planeB" = some index) →
        loadPlanarPortals su node planes planar_portals = none)
    ∧ ((∃ i j index : Nat, i < j
          ∧ (namedPlaneIndices su (portalNodes node))[i]? = some (some index)
          ∧ (namedPlaneIndices su (portalNodes node))[j]? = some (some index)) →
        loadPlanarPortals su node planes planar_portals = none)
    ∧ ((∃ index, some index ∈ namedPlaneIndices su (portalNodes node)
          ∧ planes.length ≤ index) →
        loadPlanarPortals su node planes planar_portals = none) := by
  have key : ∀ result, loadPlanarPortals su node planes planar_portals = some result →
      ∃ indices : List Nat, namedPlaneIndices su (portalNodes node) = indices.map some
        ∧ indices.Nodup ∧ ∀ index ∈ indices, index < planes.length := by
    intro result h
    obtain ⟨lists, _, hnamed, hlt, hnodup, _⟩ :=
      loadPlanarPortals_some su node planes planar_portals result h
    exact ⟨_, hnamed, hnodup, hlt⟩
  have hdistinct : (∃ i j index : Nat, i < j
      ∧ (namedPlaneIndices su (portalNodes node))[i]? = some (some index)
      ∧ (namedPlaneIndices su (portalNodes node))[j]? = some (some index)) →
      loadPlanarPortals su node planes planar_portals = none := by
    rintro ⟨i, j, index, hij, hi, hj⟩
    cases h : loadPlanarPortals su node planes planar_portals with
    | none => rfl
    | some result =>
      exfalso
      obtain ⟨indices, hnamed, hnodup, _⟩ := key result h
      rw [hnamed, List.getElem?_map] at hi hj
      cases hi' : indices[i]? with
      | none => simp [hi'] at hi
      | some a =>
        cases hj' : indices[j]? with
        | none => simp [hj'] at hj
        | some b =>
          simp only [hi', hj', Option.map_some', Option.some.injEq] at hi hj
          subst hi
          subst hj
          obtain ⟨hi1, hi2⟩ := List.getElem?_eq_some_iff.1 hi'
          obtain ⟨hj1, hj2⟩ := List.getElem?_eq_some_iff.1 hj'
          have := (List.Nodup.getElem_inj_iff hnodup).1 (hi2.trans hj2.symm)
          omega
  refine ⟨key, ?_, hdistinct, ?_⟩
  · rintro ⟨nd, hnd, index, hA, hB⟩
    obtain ⟨k, hk, hget⟩ := List.getElem_of_mem hnd
    apply hdistinct
    refine ⟨2 * k, 2 * k + 1, index, by omega, ?_, ?_⟩
    · have := pair_flatMap_getElem? (portalNodes node)
        (fun nd => namedPlaneIndex su nd "planeA") (fun nd => namedPlaneIndex su nd "planeB") k
      simp only [namedPlaneIndices]
      rw [this.1, List.getElem?_eq_getElem hk, hget, Option.map_some', hA]
    · have := pair_flatMap_getElem? (portalNodes node)
        (fun nd => namedPlaneIndex su nd "planeA") (fun nd => namedPlaneIndex su nd "planeB") k
      simp only [namedPlaneIndices]
      rw [this.2, List.getElem?_eq_getElem hk, hget, Option.map_some', hB]
  · rintro ⟨index, hmem, hle⟩
    cases h : loadPlanarPortals su node planes planar_portals with
    | none => rfl
    | some result =>
      exfalso
      obtain ⟨indices, hnamed, _, hlt⟩ := key result h
      rw [hnamed, List.mem_map] at hmem
      obtain ⟨a, ha, hae⟩ := hmem
      have := hlt a ha
      simp only [Option.some.injEq] at hae
      omega

/-- Witness for C17: the scene with five planes and portals on the planes
(3, 0) and (4, 1) is accepted and the theorem applies to it; a portal that
names the plane 1 twice is refused. -/
theorem loadPlanarPortals_indices_witness :
    loadPlanarPortals decimalStringUtilities portalSceneRoot portalScenePlanes []
        = some portalSceneResult
      ∧ (∃ indices : List Nat,
          namedPlaneIndices decimalStringUtilities (portalNodes portalSceneRoot)
            = indices.map some
          ∧ indices.Nodup ∧ ∀ index ∈ indices, index < portalScenePlanes.length)
      ∧ loadPlanarPortals decimalStringUtilities repeatedPlaneRoot portalScenePlanes []
        = none :=
  ⟨by decide!,
    (loadPlanarPortals_indices decimalStringUtilities portalSceneRoot portalScenePlanes []).1
      portalSceneResult (by decide!),
    (loadPlanarPortals_indices decimalStringUtilities repeatedPlaneRoot portalScenePlanes []).2.1
      ⟨XmlNode.mk "planar_portal" [("planeA", "1"), ("planeB", "1")] [],
        by simp [portalNodes, repeatedPlaneRoot, XmlNode.nodes, XmlNode.children, XmlNode.name],
        1, by decide, by decide⟩⟩

/-! ### The scene parser: the planes left after the portals are built -/

theorem eraseIdx_filter_enumFrom {α : Type} (P : Nat → Bool) (l : List α) (k a : Nat)
    (hP : ∀ i, k ≤ i → i ≤ k + a → P i = true) (ha : a < l.length) :
    a < (((l.enumFrom k).filter (fun entry => P entry.1)).map Prod.snd).length
      ∧ (((l.enumFrom k).filter (fun entry => P entry.1)).map Prod.snd).eraseIdx a
        = ((l.enumFrom k).filter
            (fun entry => decide (entry.1 ≠ k + a) && P entry.1)).map Prod.snd := by
  induction l generalizing k a with
  | nil => simp at ha
  | cons x xs ih =>
    have hk : P k = true := hP k (le_refl _) (by omega)
    cases a with
    | zero =>
      simp only [List.enumFrom_cons, List.filter_cons, hk, if_true, List.map_cons,
        List.length_cons, List.eraseIdx_cons_zero, Nat.add_zero, ne_eq, not_true_eq_false,
        decide_False, Bool.false_and, Bool.false_eq_true, if_false]
      refine ⟨by omega, ?_⟩
      congr 1
      apply List.filter_congr
      intro entry hentry
      have := List.le_fst_of_mem_enumFrom hentry
      have hne : entry.1 ≠ k := by omega
      simp [hne]
    | succ a =>
      have hne : k ≠ k + (a + 1) := by omega
      simp only [List.enumFrom_cons, List.filter_cons, hk, if_true, List.map_cons,
        List.length_cons, List.eraseIdx_cons_succ, ne_eq, hne, not_false_eq_true,
        decide_True, Bool.true_and]
      have hih := ih (k + 1) a (fun i h1 h2 => hP i (by omega) (by omega))
        (by simpa using ha)
      have hidx : k + 1 + a = k + (a + 1) := by omega
      rw [hidx] at hih
      exact ⟨by omega, by rw [hih.2]⟩

theorem foldr_eraseIdx_ascending {α : Type} (l : List α) (s : List Nat)
    (hs : s.Pairwise (fun a b => a < b)) (hlt : ∀ i ∈ s, i < l.length) :
    s.foldr (fun i acc => acc.eraseIdx i) l
        = (l.enum.filter (fun entry => !s.contains entry.1)).map Prod.snd
      ∧ (s.foldr (fun i acc => acc.eraseIdx i) l).length + s.length = l.length := by
  induction s with
  | nil =>
    simp [List.enum, List.enumFrom_map_snd]
  | cons a rest ih =>
    rw [List.pairwise_cons] at hs
    obtain ⟨ih1, ih2⟩ := ih hs.2 (fun i hi => hlt i (List.mem_cons_of_mem _ hi))
    have ha : a < l.length := hlt a (List.mem_cons_self _ _)
    have hP : ∀ i, 0 ≤ i → i ≤ 0 + a → (!rest.contains i) = true := by
      intro i _ hia
      simp only [Bool.not_eq_true', List.contains_eq_any_beq, List.any_eq_false, beq_iff_eq]
      intro b hb hbi
      have := hs.1 b hb
      omega
    obtain ⟨e1, e2⟩ := eraseIdx_filter_enumFrom (fun i => !rest.contains i) l 0 a hP ha
    simp only [List.foldr_cons]
    rw [ih1]
    refine ⟨?_, ?_⟩
    · rw [List.enum, e2]
      congr 1
      apply List.filter_congr
      intro entry _
      by_cases h : entry.1 = a
      · simp [h]
      · simp [h, List.contains_cons]
    · have e1' : a < (List.map Prod.snd
          (List.filter (fun entry => !rest.contains entry.1) l.enum)).length := e1
      rw [List.length_eraseIdx, if_pos e1']
      rw [ih1] at ih2
      simp only [List.length_cons]
      omega

theorem erasePortalPlanes_eq (planes : List StaticPlane) (plane_pairs : List (Nat × Nat))
    (hnodup : (plane_pairs.flatMap (fun pair => [pair.1, pair.2])).Nodup)
    (hlt : ∀ index ∈ plane_pairs.flatMap (fun pair => [pair.1, pair.2]),
      index < planes.length) :
    erasePortalPlanes planes plane_pairs
        = planesNotNamed (plane_pairs.flatMap (fun pair => [pair.1, pair.2])) planes
      ∧ (erasePortalPlanes planes plane_pairs).length + 2 * plane_pairs.length
        = planes.length := by
  unfold erasePortalPlanes planesNotNamed
  rw [portalPlaneIndices_eq, List.foldl_reverse]
  have hperm := List.perm_insertionSort (fun a b : Nat => a ≤ b)
    (plane_pairs.flatMap (fun pair => [pair.1, pair.2]))
  have hsorted := List.sorted_insertionSort (fun a b : Nat => a ≤ b)
    (plane_pairs.flatMap (fun pair => [pair.1, pair.2]))
  have hnd := (List.Perm.nodup_iff hperm).2 hnodup
  have hpw : (List.insertionSort (fun a b : Nat => a ≤ b)
      (plane_pairs.flatMap (fun pair => [pair.1, pair.2]))).Pairwise (fun a b => a < b) := by
    have := List.Pairwise.and hsorted hnd
    exact this.imp (fun h => lt_of_le_of_ne h.1 h.2)
  obtain ⟨h1, h2⟩ := foldr_eraseIdx_ascending planes _ hpw
    (fun i hi => hlt i ((List.Perm.mem_iff hperm).1 hi))
  refine ⟨?_, ?_⟩
  · rw [h1]
    congr 1
    apply List.filter_congr
    intro entry _
    congr 1
    simp only [List.contains_eq_any_beq]
    rw [Bool.eq_iff_iff]
    simp only [List.any_eq_true, beq_iff_eq]
    constructor
    · rintro ⟨x, hx, hxe⟩
      exact ⟨x, (List.Perm.mem_iff hperm).1 hx, hxe⟩
    · rintro ⟨x, hx, hxe⟩
      exact ⟨x, (List.Perm.mem_iff hperm).2 hx, hxe⟩
  · rw [List.Perm.length_eq hperm] at h2
    have hlen : (plane_pairs.flatMap (fun pair => [pair.1, pair.2])).length
        = 2 * plane_pairs.length := by
      clear hnodup hlt hperm hsorted hnd hpw h1 h2
      induction plane_pairs with
      | nil => rfl
      | cons p ps ih => simp only [List.flatMap_cons, List.length_append, List.length_cons,
          List.length_nil, ih]; omega
    omega

theorem getElem?_of_getD_lt (planes : List StaticPlane) (index : Nat)
    (h : index < planes.length) : planes[index]? = some (planes.getD index default) := by
  rw [List.getD_eq_getElem?_getD, List.getElem?_eq_getElem h]
  rfl

theorem planesNotNamed_sublist (named : List Nat) (planes : List StaticPlane) :
    (planesNotNamed named planes).Sublist planes := by
  unfold planesNotNamed
  have h := List.Sublist.map Prod.snd
    (List.filter_sublist planes.enum :
      (List.filter (fun entry : Nat × StaticPlane => !named.contains entry.1)
        planes.enum).Sublist planes.enum)
  rwa [List.enum_map_snd] at h

/-- C18. Whenever `loadPlanarPortals` succeeds on a list of n planes, there
is one accepted pair of plane indices per portal node, k in all, they are the
indices the nodes name, k portals are appended, the plane list afterwards has
length n − 2k and consists of the planes whose index no portal names, in
their original order, and the i-th new portal was built from the original
planes at its two indices. -/
theorem loadPlanarPortals_planes (su : StringUtilities) (node : XmlNode)
    (planes : List StaticPlane) (planar_portals : List PlanarPortalArgs)
    (result : List StaticPlane × List PlanarPortalArgs)
    (h : loadPlanarPortals su node planes planar_portals = some result) :
    ∃ pairs : List (Nat × Nat),
      pairs.length = (portalNodes node).length
      ∧ namedPlaneIndices su (portalNodes node)
          = (pairs.flatMap (fun pair => [pair.1, pair.2])).map some
      ∧ result.2.length = planar_portals.length + pairs.length
      ∧ result.2.take planar_portals.length = planar_portals
      ∧ result.1.length + 2 * pairs.length = planes.length
      ∧ result.1.length = planes.length - 2 * pairs.length
      ∧ result.1 = planesNotNamed (pairs.flatMap (fun pair => [pair.1, pair.2])) planes
      ∧ result.1.Sublist planes
      ∧ ∀ i, i < pairs.length →
          ∃ portal, result.2[planar_portals.length + i]? = some portal
            ∧ planes[(pairs.getD i (0, 0)).1]? = some portal.plane_a
            ∧ planes[(pairs.getD i (0, 0)).2]? = some portal.plane_b := by
  obtain ⟨lists, hlen, hnamed, hlt, hnodup, hres⟩ :=
    loadPlanarPortals_some su node planes planar_portals result h
  obtain ⟨he1, he2⟩ := erasePortalPlanes_eq planes lists.plane_pairs hnodup hlt
  subst hres
  refine ⟨lists.plane_pairs, hlen, hnamed, ?_, ?_, he2, ?_, he1, ?_, ?_⟩
  · simp [buildPlanarPortals]
  · simp
  · dsimp only; omega
  · dsimp only; rw [he1]; exact planesNotNamed_sublist _ _
  · intro i hi
    have hmem : lists.plane_pairs.getD i (0, 0) ∈ lists.plane_pairs := by
      rw [List.getD_eq_getElem?_getD, List.getElem?_eq_getElem hi]
      exact List.getElem_mem _
    have h1 : (lists.plane_pairs.getD i (0, 0)).1 < planes.length :=
      hlt _ (List.mem_flatMap.2 ⟨_, hmem, by simp⟩)
    have h2 : (lists.plane_pairs.getD i (0, 0)).2 < planes.length :=
      hlt _ (List.mem_flatMap.2 ⟨_, hmem, by simp⟩)
    refine ⟨⟨planes.getD (lists.plane_pairs.getD i (0, 0)).1 default,
      planes.getD (lists.plane_pairs.getD i (0, 0)).2 default,
      (lists.plane_tangent_velocities.getD i (XmlScalar.finite 0, XmlScalar.finite 0)).1,
      (lists.plane_tangent_velocities.getD i (XmlScalar.finite 0, XmlScalar.finite 0)).2,
      (lists.plane_bounds.getD i ((XmlScalar.negInfinity, XmlScalar.infinity),
        (XmlScalar.negInfinity, XmlScalar.infinity))).1,
      (lists.plane_bounds.getD i ((XmlScalar.negInfinity, XmlScalar.infinity),
        (XmlScalar.negInfinity, XmlScalar.infinity))).2⟩,
      ?_, getElem?_of_getD_lt planes _ h1, getElem?_of_getD_lt planes _ h2⟩
    dsimp only
    rw [List.getElem?_append_right (by omega)]
    simp only [Nat.add_sub_cancel_left, buildPlanarPortals, List.getElem?_map,
      List.getElem?_range hi, Option.map_some']

/-- Witness for C18: on the scene with five planes and portals on the planes
(3, 0) and (4, 1) the loader leaves the plane 2 and appends two portals. -/
theorem loadPlanarPortals_planes_witness :
    loadPlanarPortals decimalStringUtilities portalSceneRoot portalScenePlanes []
        = some portalSceneResult
      ∧ ∃ pairs : List (Nat × Nat),
        pairs.length = (portalNodes portalSceneRoot).length
        ∧ namedPlaneIndices decimalStringUtilities (portalNodes portalSceneRoot)
            = (pairs.flatMap (fun pair => [pair.1, pair.2])).map some
        ∧ portalSceneResult.2.length = ([] : List PlanarPortalArgs).length + pairs.length
        ∧ portalSceneResult.2.take ([] : List PlanarPortalArgs).length = []
        ∧ portalSceneResult.1.length + 2 * pairs.length = portalScenePlanes.length
        ∧ portalSceneResult.1.length = portalScenePlanes.length - 2 * pairs.length
        ∧ portalSceneResult.1
            = planesNotNamed (pairs.flatMap (fun pair => [pair.1, pair.2])) portalScenePlanes
        ∧ portalSceneResult.1.Sublist portalScenePlanes
        ∧ ∀ i, i < pairs.length →
            ∃ portal, portalSceneResult.2[([] : List PlanarPortalArgs).length + i]? = some portal
              ∧ portalScenePlanes[(pairs.getD i (0, 0)).1]? = some portal.plane_a
              ∧ portalScenePlanes[(pairs.getD i (0, 0)).2]? = some portal.plane_b :=
  ⟨by decide!,
    loadPlanarPortals_planes decimalStringUtilities portalSceneRoot portalScenePlanes []
      portalSceneResult (by decide!)⟩

/-! ### The scene parser: the solvers -/

/-- C19 (divergence). The function `loadImpactOperator` never compares `CoR`
with 0 or 1: once the attribute is read as a scalar, the result is that of
`loadImpactOperatorNoCoR` together with that scalar, whatever its value. The
scene whose impact operator has `CoR = -1` is accepted by
`loadImpactOperator` and by `parseXMLSceneFile`, which hands back the
coefficient −1, while the same value is refused in a friction solver node. -/
theorem loadImpactOperator_accepts_any_CoR :
    (∀ (su : StringUtilities) (node : XmlNode) (value : String) (CoR : XmlScalar),
        node.first_attribute "CoR" = some value → su.extractScalar value = some CoR →
        loadImpactOperator su node
          = (loadImpactOperatorNoCoR su node).map (fun impact_operator => (impact_operator, CoR)))
      ∧ loadImpactOperator decimalStringUtilities (impactOperatorNode "-1")
          = some (ImpactOperator.GaussSeidelOperator (XmlScalar.finite 0), XmlScalar.finite (-1))
      ∧ (parseXMLSceneFile decimalStringUtilities (some (sceneDocument negativeCoRRoot)) [] []).map
            (fun scene => (scene.impact_operator, scene.impact_map, scene.CoR))
          = some (some (ImpactOperator.GaussSeidelOperator (XmlScalar.finite 0)),
              some ⟨false⟩, some (XmlScalar.finite (-1)))
      ∧ attributeCoR decimalStringUtilities (impactOperatorNode "-1") = none := by
  refine ⟨?_, by decide!, by decide!, by decide!⟩
  intro su node value CoR hvalue hCoR
  unfold loadImpactOperator
  rw [hvalue]
  dsimp only
  rw [hCoR]
  cases loadImpactOperatorNoCoR su node <;> rfl

theorem parseImpactOperator_some (su : StringUtilities) (root_node : XmlNode)
    (out : SolverOutputs) (h : parseImpactOperator su root_node = some out) :
    out.impact_operator.isSome = (root_node.first_node "impact_operator").isSome
      ∧ out.impact_map.isSome = (root_node.first_node "impact_operator").isSome
      ∧ out.friction_solver = none ∧ out.if_map = none := by
  unfold parseImpactOperator at h
  cases hnd : root_node.first_node "impact_operator" with
  | none =>
    rw [hnd] at h
    simp only [Option.some.injEq] at h
    subst h
    simp
  | some nd =>
    rw [hnd] at h
    dsimp only at h
    cases hload : loadImpactOperator su nd with
    | none => simp [hload] at h
    | some loaded =>
      rw [hload] at h
      simp only [Option.some.injEq] at h
      subst h
      simp

theorem parseFrictionSolver_some (loader : XmlNode → Option FrictionSolverSetup)
    (root_node : XmlNode) (name : String) (out out' : SolverOutputs)
    (h : parseFrictionSolver loader root_node name out = some out') :
    ((root_node.first_node name).isSome = false ∧ out' = out)
      ∨ ((root_node.first_node name).isSome = true
          ∧ out.impact_operator = none ∧ out.impact_map = none ∧ out.friction_solver = none
          ∧ out'.impact_operator = none ∧ out'.impact_map = none
          ∧ out'.friction_solver.isSome = true ∧ out'.if_map.isSome = true) := by
  unfold parseFrictionSolver at h
  cases hnd : root_node.first_node name with
  | none =>
    rw [hnd] at h
    simp only [Option.some.injEq] at h
    exact Or.inl ⟨rfl, h.symm⟩
  | some nd =>
    rw [hnd] at h
    dsimp only at h
    right
    by_cases h1 : (out.impact_operator.isSome || out.impact_map.isSome) = true
    · simp [h1] at h
    · rw [if_neg h1] at h
      by_cases h2 : out.friction_solver.isSome = true
      · simp [h2] at h
      · rw [if_neg h2] at h
        cases hload : loader nd with
        | none => simp [hload] at h
        | some setup =>
          rw [hload] at h
          simp only [Option.some.injEq] at h
          subst h
          have h1' : out.impact_operator = none ∧ out.impact_map = none := by
            cases hio : out.impact_operator <;> cases him : out.impact_map <;>
              simp [hio, him] at h1 ⊢
          have h2' : out.friction_solver = none := by
            cases hf : out.friction_solver <;> simp [hf] at h2 ⊢
          simp [h1'.1, h1'.2, h2']

/-- What a successful `parseXMLSceneFile` has done in its solver section. -/
theorem parseXMLSceneFile_some (su : StringUtilities) (document : XmlNode)
    (planes : List StaticPlane) (planar_portals : List PlanarPortalArgs) (scene : ParsedScene)
    (h : parseXMLSceneFile su (some document) planes planar_portals = some scene) :
    ∃ root_node out0 out1 out,
      document.first_node "ball2d_scene" = some root_node
      ∧ parseImpactOperator su root_node = some out0
      ∧ parseFrictionSolver (loadStaggeredProjectionsFrictionSolver su) root_node
          "staggerd_projections_friction_solver" out0 = some out1
      ∧ parseFrictionSolver (loadSobogusFrictionSolver su) root_node
          "sobogus_friction_solver" out1 = some out
      ∧ scene.impact_operator = out.impact_operator ∧ scene.impact_map = out.impact_map
      ∧ scene.friction_solver = out.friction_solver ∧ scene.if_map = out.if_map
      ∧ scene.CoR = out.CoR ∧ scene.mu = out.mu := by
  unfold parseXMLSceneFile at h
  dsimp only at h
  cases hroot : document.first_node "ball2d_scene" with
  | none => simp [hroot] at h
  | some root_node =>
  rw [hroot] at h
  dsimp only at h
  split at h
  · exact absurd h (by simp)
  split at h
  · exact absurd h (by simp)
  split at h
  · exact absurd h (by simp)
  split at h
  · exact absurd h (by simp)
  split at h
  · exact absurd h (by simp)
  split at h
  · exact absurd h (by simp)
  rename_i integrator dt_string dt _
  cases hout0 : parseImpactOperator su root_node with
  | none => simp [hout0] at h
  | some out0 =>
  rw [hout0] at h
  dsimp only at h
  cases hout1 : parseFrictionSolver (loadStaggeredProjectionsFrictionSolver su) root_node
      "staggerd_projections_friction_solver" out0 with
  | none => simp [hout1] at h
  | some out1 =>
  rw [hout1] at h
  dsimp only at h
  cases hout : parseFrictionSolver (loadSobogusFrictionSolver su) root_node
      "sobogus_friction_solver" out1 with
  | none => simp [hout] at h
  | some out =>
  rw [hout] at h
  dsimp only at h
  split at h
  · exact absurd h (by simp)
  split at h
  · exact absurd h (by simp)
  split at h
  · exact absurd h (by simp)
  split at h
  · exact absurd h (by simp)
  simp only [Option.some.injEq] at h
  subst h
  exact ⟨root_node, out0, out1, out, rfl, hout0, hout1, hout, rfl, rfl, rfl, rfl, rfl, rfl⟩

/-- C20 (counterexample). A scene whose root holds an `impact_operator` node
and a `staggered_projections_friction_solver` node is not refused: the parser
looks for the friction solver under the name
`staggerd_projections_friction_solver`, does not see the node, and succeeds
with the impact operator and the impact map set and no friction solver. -/
theorem parseXMLSceneFile_accepts_two_solver_nodes :
    ((twoSolverRoot "staggered_projections_friction_solver").first_node
          "impact_operator").isSome = true
      ∧ ((twoSolverRoot "staggered_projections_friction_solver").first_node
          "staggered_projections_friction_solver").isSome = true
      ∧ (parseXMLSceneFile decimalStringUtilities
            (some (sceneDocument (twoSolverRoot "staggered_projections_friction_solver")))
            [] []).map
          (fun scene => (scene.impact_operator, scene.impact_map, scene.friction_solver,
            scene.if_map))
        = some (some (ImpactOperator.GaussSeidelOperator (XmlScalar.finite 0)), some ⟨false⟩,
            none, none) := by
  refine ⟨by decide, by decide, by decide!⟩

/-- C20 (amended). With the node names the parser looks for
(`impact_operator`, `staggerd_projections_friction_solver`,
`sobogus_friction_solver`), `parseXMLSceneFile` returns false for every scene
whose root holds nodes of more than one of the three names; and on success
the impact operator and the impact map are set together, the friction solver
and the impact-friction map are set together, and not both pairs are set. -/
theorem parseXMLSceneFile_solver_exclusion (su : StringUtilities) (document : XmlNode)
    (planes : List StaticPlane) (planar_portals : List PlanarPortalArgs) :
    (∀ root_node, document.first_node "ball2d_scene" = some root_node →
        2 ≤ solverNodeCount root_node →
        parseXMLSceneFile su (some document) planes planar_portals = none)
      ∧ (∀ scene, parseXMLSceneFile su (some document) planes planar_portals = some scene →
          scene.impact_operator.isSome = scene.impact_map.isSome
            ∧ scene.friction_solver.isSome = scene.if_map.isSome
            ∧ ¬ (scene.impact_operator.isSome = true ∧ scene.friction_solver.isSome = true)) := by
  have key : ∀ scene, parseXMLSceneFile su (some document) planes planar_portals = some scene →
      ∃ root_node, document.first_node "ball2d_scene" = some root_node
        ∧ solverNodeCount root_node ≤ 1
        ∧ scene.impact_operator.isSome = scene.impact_map.isSome
        ∧ scene.friction_solver.isSome = scene.if_map.isSome
        ∧ ¬ (scene.impact_operator.isSome = true ∧ scene.friction_solver.isSome = true) := by
    intro scene h
    obtain ⟨root_node, out0, out1, out, hroot, h0, h1, h2, e1, e2, e3, e4, _, _⟩ :=
      parseXMLSceneFile_some su document planes planar_portals scene h
    obtain ⟨a1, a2, a3, a4⟩ := parseImpactOperator_some su root_node out0 h0
    refine ⟨root_node, hroot, ?_⟩
    rw [e1, e2, e3, e4]
    have hcount : solverNodeCount root_node
        = (if (root_node.first_node "impact_operator").isSome then 1 else 0)
          + ((if (root_node.first_node "staggerd_projections_friction_solver").isSome
              then 1 else 0)
          + (if (root_node.first_node "sobogus_friction_solver").isSome then 1 else 0)) := by
      unfold solverNodeCount solverNodeNames
      simp only [List.filter_cons, List.filter_nil]
      cases (root_node.first_node "impact_operator").isSome <;>
        cases (root_node.first_node "staggerd_projections_friction_solver").isSome <;>
        cases (root_node.first_node "sobogus_friction_solver").isSome <;> rfl
    rw [hcount]
    rcases parseFrictionSolver_some _ root_node _ out0 out1 h1 with
      ⟨hs, hs'⟩ | ⟨hs, b1, b2, b3, b4, b5, b6, b7⟩
    · subst hs'
      rcases parseFrictionSolver_some _ root_node _ out1 out h2 with
        ⟨ht, ht'⟩ | ⟨ht, c1, c2, c3, c4, c5, c6, c7⟩
      · subst ht'
        rw [a1, a2, a3, a4, hs, ht]
        cases (root_node.first_node "impact_operator").isSome <;> simp
      · rw [c1] at a1
        rw [c4, c5, c6, c7, hs, ht, ← a1]
        simp
    · rw [b1] at a1
      rcases parseFrictionSolver_some _ root_node _ out1 out h2 with
        ⟨ht, ht'⟩ | ⟨ht, c1, c2, c3, c4, c5, c6, c7⟩
      · subst ht'
        rw [b4, b5, b6, b7, hs, ht, ← a1]
        simp
      · rw [c3] at b6
        exact absurd b6 (by simp)
  refine ⟨?_, ?_⟩
  · intro root_node hroot hcount
    cases h : parseXMLSceneFile su (some document) planes planar_portals with
    | none => rfl
    | some scene =>
      exfalso
      obtain ⟨root_node', hroot', hle, _⟩ := key scene h
      rw [hroot] at hroot'
      simp only [Option.some.injEq] at hroot'
      subst hroot'
      omega
  · intro scene h
    obtain ⟨_, _, _, r⟩ := key scene h
    exact r

/-- Witness for C20 (amended): the scene with an impact operator and a node
named `staggerd_projections_friction_solver` is refused, and the scene with
the impact operator alone is accepted with only the impact pair set. -/
theorem parseXMLSceneFile_solver_exclusion_witness :
    parseXMLSceneFile decimalStringUtilities
        (some (sceneDocument (twoSolverRoot "staggerd_projections_friction_solver"))) [] []
        = none
      ∧ (parseXMLSceneFile decimalStringUtilities (some (sceneDocument negativeCoRRoot))
          [] []).isSome = true
      ∧ ∀ scene, parseXMLSceneFile decimalStringUtilities
          (some (sceneDocument negativeCoRRoot)) [] [] = some scene →
          scene.impact_operator.isSome = scene.impact_map.isSome
            ∧ scene.friction_solver.isSome = scene.if_map.isSome
            ∧ ¬ (scene.impact_operator.isSome = true ∧ scene.friction_solver.isSome = true) :=
  ⟨(parseXMLSceneFile_solver_exclusion decimalStringUtilities
      (sceneDocument (twoSolverRoot "staggerd_projections_friction_solver")) [] []).1
      (twoSolverRoot "staggerd_projections_friction_solver") rfl (by decide),
    by decide!,
    (parseXMLSceneFile_solver_exclusion decimalStringUtilities
      (sceneDocument negativeCoRRoot) [] []).2⟩

/-! ### The scene parser: bounds of the portals -/

theorem loadPortalBounds_iff (su : StringUtilities) (nd : XmlNode) (name value : String)
    (bounds : XmlScalar × XmlScalar) (hvalue : nd.first_attribute name = some value)
    (hread : su.readScalarPair value = some bounds) :
    loadPortalBounds su nd name
      = if XmlScalar.le bounds.1 (XmlScalar.finite 0) = true
          ∧ XmlScalar.le (XmlScalar.finite 0) bounds.2 = true
          ∧ (bounds.1 = XmlScalar.negInfinity ↔ bounds.2 = XmlScalar.infinity)
        then some bounds else none := by
  unfold loadPortalBounds
  rw [hvalue]
  dsimp only
  rw [hread]
  dsimp only
  obtain ⟨lo, hi⟩ := bounds
  cases lo <;> cases hi <;> simp [XmlScalar.le, XmlScalar.lt]
  rename_i lo hi
  by_cases h1 : 0 < lo
  · simp [h1, not_le.2 h1]
  · by_cases h2 : hi < 0
    · simp [h1, h2, not_le.2 h2]
    · simp [h1, h2, not_lt.1 h1, not_lt.1 h2]

theorem loadPortalBounds_some (su : StringUtilities) (nd : XmlNode) (name : String)
    (bounds : XmlScalar × XmlScalar) (h : loadPortalBounds su nd name = some bounds) :
    ∃ value, nd.first_attribute name = some value ∧ su.readScalarPair value = some bounds
      ∧ InfiniteSliding bounds
      ∧ (bounds.1 = XmlScalar.negInfinity ↔ bounds.2 = XmlScalar.infinity) := by
  cases hvalue : nd.first_attribute name with
  | none => simp [loadPortalBounds, hvalue] at h
  | some value =>
    cases hread : su.readScalarPair value with
    | none => simp [loadPortalBounds, hvalue, hread] at h
    | some read =>
      rw [loadPortalBounds_iff su nd name value read hvalue hread] at h
      split at h
      · rename_i hc
        simp only [Option.some.injEq] at h
        subst h
        exact ⟨value, rfl, hread, ⟨hc.1, hc.2.1, hc.2.2.1⟩, hc.2.2⟩
      · exact absurd h (by simp)

theorem infiniteSliding_unboundedBounds : InfiniteSliding unboundedBounds := by
  refine ⟨by decide, by decide, fun _ => rfl⟩

theorem loadPlanarPortalNodes_bounds (su : StringUtilities) (nplanes : Nat)
    (nodes : List XmlNode) (lists lists' : PortalLists)
    (h : loadPlanarPortalNodes su nplanes nodes lists = some lists') :
    lists'.plane_pairs.length = lists.plane_pairs.length + nodes.length
      ∧ lists'.plane_bounds
        = lists.plane_bounds ++ List.replicate nodes.length (unboundedBounds, unboundedBounds) := by
  induction nodes generalizing lists with
  | nil =>
    simp only [loadPlanarPortalNodes, Option.some.injEq] at h
    subst h
    simp
  | cons nd rest ih =>
    rw [loadPlanarPortalNodes] at h
    cases hpair : loadPortalPlaneIndices su nplanes lists.plane_pairs nd with
    | none => simp [hpair] at h
    | some pair =>
      rw [hpair] at h
      dsimp only at h
      obtain ⟨h1, h2⟩ := ih _ h
      refine ⟨?_, ?_⟩
      · rw [h1]; simp only [List.length_append, List.length_cons, List.length_nil]; omega
      · rw [h2]
        simp only [List.append_assoc, List.replicate_succ, List.singleton_append]
        rfl

theorem loadLeesEdwardsPortalNodes_bounds (su : StringUtilities) (nplanes : Nat)
    (nodes : List XmlNode) (lists lists' : PortalLists)
    (h : loadLeesEdwardsPortalNodes su nplanes nodes lists = some lists') :
    lists'.plane_pairs.length = lists.plane_pairs.length + nodes.length
      ∧ lists'.plane_bounds = lists.plane_bounds ++ nodes.filterMap (fun nd =>
          match loadPortalBounds su nd "boundsa", loadPortalBounds su nd "boundsb" with
          | some boundsa, some boundsb => some (boundsa, boundsb)
          | _, _ => none)
      ∧ ∀ nd ∈ nodes, ∃ boundsa boundsb, loadPortalBounds su nd "boundsa" = some boundsa
          ∧ loadPortalBounds su nd "boundsb" = some boundsb := by
  induction nodes generalizing lists with
  | nil =>
    simp only [loadLeesEdwardsPortalNodes, Option.some.injEq] at h
    subst h
    simp
  | cons nd rest ih =>
    rw [loadLeesEdwardsPortalNodes] at h
    cases hpair : loadPortalPlaneIndices su nplanes lists.plane_pairs nd with
    | none => simp [hpair] at h
    | some pair =>
      rw [hpair] at h
      dsimp only at h
      cases hva : attributeScalar su nd "va" with
      | none => simp [hva] at h
      | some va =>
      rw [hva] at h
      dsimp only at h
      cases hvb : attributeScalar su nd "vb" with
      | none => simp [hvb] at h
      | some vb =>
      rw [hvb] at h
      dsimp only at h
      cases hba : loadPortalBounds su nd "boundsa" with
      | none => simp [hba] at h
      | some boundsa =>
      rw [hba] at h
      dsimp only at h
      cases hbb : loadPortalBounds su nd "boundsb" with
      | none => simp [hbb] at h
      | some boundsb =>
      rw [hbb] at h
      dsimp only at h
      obtain ⟨h1, h2, h3⟩ := ih _ h
      refine ⟨?_, ?_, ?_⟩
      · rw [h1]; simp only [List.length_append, List.length_cons, List.length_nil]; omega
      · rw [h2]
        simp only [List.filterMap_cons, hba, hbb, List.append_assoc, List.singleton_append]
      · intro nd' hnd'
        rcases List.mem_cons.1 hnd' with hnd' | hnd'
        · subst hnd'
          exact ⟨boundsa, boundsb, hba, hbb⟩
        · exact h3 nd' hnd'

/-- What a successful `loadPlanarPortals` has done, in terms of the bounds it
stored. -/
theorem loadPlanarPortals_bounds (su : StringUtilities) (node : XmlNode)
    (planes : List StaticPlane) (planar_portals : List PlanarPortalArgs)
    (result : List StaticPlane × List PlanarPortalArgs)
    (h : loadPlanarPortals su node planes planar_portals = some result) :
    ∃ lists : PortalLists,
      result.2 = planar_portals ++ buildPlanarPortals planes lists
      ∧ lists.plane_pairs.length
          = (node.nodes "planar_portal").length + (node.nodes "lees_edwards_portal").length
      ∧ lists.plane_bounds
          = List.replicate (node.nodes "planar_portal").length (unboundedBounds, unboundedBounds)
            ++ (node.nodes "lees_edwards_portal").filterMap (fun nd =>
              match loadPortalBounds su nd "boundsa", loadPortalBounds su nd "boundsb" with
              | some boundsa, some boundsb => some (boundsa, boundsb)
              | _, _ => none)
      ∧ ∀ nd ∈ node.nodes "lees_edwards_portal", ∃ boundsa boundsb,
          loadPortalBounds su nd "boundsa" = some boundsa
          ∧ loadPortalBounds su nd "boundsb" = some boundsb := by
  unfold loadPlanarPortals at h
  by_cases h0 : (!((node.first_node "planar_portal").isSome
      || (node.first_node "lees_edwards_portal").isSome)) = true
  · rw [if_pos h0] at h
    simp only [Option.some.injEq] at h
    simp only [Bool.not_eq_true', Bool.or_eq_false_iff] at h0
    have hp := nodes_eq_nil_of_first_node node "planar_portal" h0.1
    have hl := nodes_eq_nil_of_first_node node "lees_edwards_portal" h0.2
    refine ⟨⟨[], [], []⟩, ?_, ?_, ?_, ?_⟩
    · rw [← h]; simp [buildPlanarPortals]
    · simp [hp, hl]
    · simp [hp, hl]
    · simp [hl]
  · rw [if_neg h0] at h
    by_cases h1 : planes.length < 2
    · simp [h1] at h
    · rw [if_neg h1] at h
      cases hl0 : loadPlanarPortalNodes su planes.length (node.nodes "planar_portal")
          ⟨[], [], []⟩ with
      | none => simp [hl0] at h
      | some lists0 =>
        rw [hl0] at h
        dsimp only at h
        cases hl1 : loadLeesEdwardsPortalNodes su planes.length
            (node.nodes "lees_edwards_portal") lists0 with
        | none => simp [hl1] at h
        | some lists =>
          rw [hl1] at h
          simp only [Option.some.injEq] at h
          obtain ⟨a1, a2⟩ := loadPlanarPortalNodes_bounds su _ _ _ _ hl0
          obtain ⟨b1, b2, b3⟩ := loadLeesEdwardsPortalNodes_bounds su _ _ _ _ hl1
          refine ⟨lists, ?_, ?_, ?_, b3⟩
          · rw [← h]
          · rw [b1, a1]; simp
          · rw [b2, a2]; simp

theorem infiniteSliding_getD (bounds_list : List ((XmlScalar × XmlScalar) × (XmlScalar × XmlScalar)))
    (h : ∀ b ∈ bounds_list, InfiniteSliding b.1 ∧ InfiniteSliding b.2) (i : Nat) :
    InfiniteSliding (bounds_list.getD i (unboundedBounds, unboundedBounds)).1
      ∧ InfiniteSliding (bounds_list.getD i (unboundedBounds, unboundedBounds)).2 := by
  rw [List.getD_eq_getElem?_getD]
  cases hi : bounds_list[i]? with
  | none => exact ⟨infiniteSliding_unboundedBounds, infiniteSliding_unboundedBounds⟩
  | some b =>
    obtain ⟨hlt, hb⟩ := List.getElem?_eq_some_iff.1 hi
    exact h b (hb ▸ List.getElem_mem hlt)

/-- C21. Whenever `loadPlanarPortals` succeeds, the `boundsa` and `boundsb`
of every `lees_edwards_portal` node were read as a pair `(lo, hi)` with
`lo ≤ 0 ≤ hi` and `hi = +∞` when `lo = −∞`, every portal of a
`planar_portal` node has the bounds `(−∞, +∞)` twice, and every portal
constructed satisfies the infinite-sliding invariant on both pairs of bounds;
and `loadPlanarPortals` returns false when a `boundsa` or `boundsb` is read as
a pair that violates the invariant. -/
theorem loadPlanarPortals_infiniteSliding (su : StringUtilities) (node : XmlNode)
    (planes : List StaticPlane) (planar_portals : List PlanarPortalArgs) :
    (∀ result, loadPlanarPortals su node planes planar_portals = some result →
      (∀ nd ∈ node.nodes "lees_edwards_portal", ∀ name ∈ ["boundsa", "boundsb"],
        ∃ value bounds, nd.first_attribute name = some value
          ∧ su.readScalarPair value = some bounds ∧ InfiniteSliding bounds)
      ∧ (∀ i, i < (node.nodes "planar_portal").length →
          ∃ portal, result.2[planar_portals.length + i]? = some portal
            ∧ portal.bounds_a = unboundedBounds ∧ portal.bounds_b = unboundedBounds)
      ∧ (∀ portal ∈ result.2.drop planar_portals.length,
          InfiniteSliding portal.bounds_a ∧ InfiniteSliding portal.bounds_b))
    ∧ ((∃ nd ∈ node.nodes "lees_edwards_portal", ∃ name ∈ ["boundsa", "boundsb"],
          ∃ value bounds, nd.first_attribute name = some value
            ∧ su.readScalarPair value = some bounds ∧ ¬ InfiniteSliding bounds) →
        loadPlanarPortals su node planes planar_portals = none) := by
  have key : ∀ result, loadPlanarPortals su node planes planar_portals = some result →
      ∀ nd ∈ node.nodes "lees_edwards_portal", ∀ name ∈ ["boundsa", "boundsb"],
        ∃ value bounds, nd.first_attribute name = some value
          ∧ su.readScalarPair value = some bounds ∧ InfiniteSliding bounds := by
    intro result h nd hnd name hname
    obtain ⟨lists, _, _, _, hall⟩ := loadPlanarPortals_bounds su node planes planar_portals result h
    obtain ⟨boundsa, boundsb, ha, hb⟩ := hall nd hnd
    simp only [List.mem_cons, List.mem_singleton, List.not_mem_nil, or_false] at hname
    rcases hname with rfl | rfl
    · obtain ⟨value, h1, h2, h3, _⟩ := loadPortalBounds_some su nd _ boundsa ha
      exact ⟨value, boundsa, h1, h2, h3⟩
    · obtain ⟨value, h1, h2, h3, _⟩ := loadPortalBounds_some su nd _ boundsb hb
      exact ⟨value, boundsb, h1, h2, h3⟩
  refine ⟨?_, ?_⟩
  · intro result h
    refine ⟨key result h, ?_, ?_⟩
    · intro i hi
      obtain ⟨lists, hres, hlen, hbounds, _⟩ :=
        loadPlanarPortals_bounds su node planes planar_portals result h
      have hi' : i < lists.plane_pairs.length := by omega
      have hget : lists.plane_bounds.getD i
          ((XmlScalar.negInfinity, XmlScalar.infinity),
            (XmlScalar.negInfinity, XmlScalar.infinity))
          = (unboundedBounds, unboundedBounds) := by
        rw [List.getD_eq_getElem?_getD, hbounds,
          List.getElem?_append_left (by simpa using hi), List.getElem?_replicate]
        simp [hi]
      refine ⟨⟨planes.getD (lists.plane_pairs.getD i (0, 0)).1 default,
        planes.getD (lists.plane_pairs.getD i (0, 0)).2 default,
        (lists.plane_tangent_velocities.getD i (XmlScalar.finite 0, XmlScalar.finite 0)).1,
        (lists.plane_tangent_velocities.getD i (XmlScalar.finite 0, XmlScalar.finite 0)).2,
        (lists.plane_bounds.getD i ((XmlScalar.negInfinity, XmlScalar.infinity),
          (XmlScalar.negInfinity, XmlScalar.infinity))).1,
        (lists.plane_bounds.getD i ((XmlScalar.negInfinity, XmlScalar.infinity),
          (XmlScalar.negInfinity, XmlScalar.infinity))).2⟩, ?_, ?_, ?_⟩
      · rw [hres, List.getElem?_append_right (by omega)]
        simp only [Nat.add_sub_cancel_left, buildPlanarPortals, List.getElem?_map,
          List.getElem?_range hi', Option.map_some']
      · dsimp only; rw [hget]
      · dsimp only; rw [hget]
    · intro portal hportal
      obtain ⟨lists, hres, _, hbounds, _⟩ :=
        loadPlanarPortals_bounds su node planes planar_portals result h
      rw [hres, List.drop_left] at hportal
      simp only [buildPlanarPortals, List.mem_map, List.mem_range] at hportal
      obtain ⟨i, _, rfl⟩ := hportal
      have hall : ∀ b ∈ lists.plane_bounds, InfiniteSliding b.1 ∧ InfiniteSliding b.2 := by
        intro b hb
        rw [hbounds, List.mem_append] at hb
        rcases hb with hb | hb
        · rw [List.eq_of_mem_replicate hb]
          exact ⟨infiniteSliding_unboundedBounds, infiniteSliding_unboundedBounds⟩
        · rw [List.mem_filterMap] at hb
          obtain ⟨nd, _, hnd⟩ := hb
          cases ha : loadPortalBounds su nd "boundsa" with
          | none => simp [ha] at hnd
          | some boundsa =>
            cases hbb : loadPortalBounds su nd "boundsb" with
            | none => simp [ha, hbb] at hnd
            | some boundsb =>
              simp only [ha, hbb, Option.some.injEq] at hnd
              subst hnd
              obtain ⟨_, _, _, h3, _⟩ := loadPortalBounds_some su nd _ boundsa ha
              obtain ⟨_, _, _, h4, _⟩ := loadPortalBounds_some su nd _ boundsb hbb
              exact ⟨h3, h4⟩
      exact infiniteSliding_getD lists.plane_bounds hall i
  · rintro ⟨nd, hnd, name, hname, value, bounds, hvalue, hread, hnot⟩
    cases h : loadPlanarPortals su node planes planar_portals with
    | none => rfl
    | some result =>
      exfalso
      obtain ⟨value', bounds', hvalue', hread', hgood⟩ := key result h nd hnd name hname
      rw [hvalue] at hvalue'
      simp only [Option.some.injEq] at hvalue'
      subst hvalue'
      rw [hread] at hread'
      simp only [Option.some.injEq] at hread'
      subst hread'
      exact hnot hgood

/-- Witness for C21: the scene with a planar portal and a Lees-Edwards portal
with bounds `(−∞, +∞)` and `(−2, 2)` is accepted and the theorem applies to
it; a Lees-Edwards portal whose `boundsa` is `(1, 2)` is refused. -/
theorem loadPlanarPortals_infiniteSliding_witness :
    loadPlanarPortals decimalStringUtilities portalSceneRoot portalScenePlanes []
        = some portalSceneResult
      ∧ (∀ portal ∈ portalSceneResult.2.drop ([] : List PlanarPortalArgs).length,
          InfiniteSliding portal.bounds_a ∧ InfiniteSliding portal.bounds_b)
      ∧ loadPlanarPortals decimalStringUtilities (boundsSceneRoot "1 2") twoPlanes [] = none :=
  ⟨by decide!,
    ((loadPlanarPortals_infiniteSliding decimalStringUtilities portalSceneRoot
      portalScenePlanes []).1 portalSceneResult (by decide!)).2.2,
    (loadPlanarPortals_infiniteSliding decimalStringUtilities (boundsSceneRoot "1 2")
      twoPlanes []).2
      ⟨XmlNode.mk "lees_edwards_portal"
          [("planeA", "0"), ("planeB", "1"), ("va", "1"), ("vb", "-1"),
            ("boundsa", "1 2"), ("boundsb", "-inf inf")] [],
        by simp [boundsSceneRoot, XmlNode.nodes, XmlNode.children, XmlNode.name],
        "boundsa", by simp, "1 2", (XmlScalar.finite 1, XmlScalar.finite 2), rfl, by decide!,
        by
          intro h
          have := h.1
          revert this
          decide!⟩⟩

/-! ### The command line driver: steps per save -/

theorem toUnsigned_natCast (n : Nat) (h : n < 4294967296) : toUnsigned (n : Int) = n := by
  unfold toUnsigned
  have : ((n : Int) % 4294967296) = (n : Int) := Int.emod_eq_of_lt (by omega) (by omega)
  rw [this]
  simp

/-- C22. The conversion of the numerator to the `unsigned` `g_steps_per_save`
loses the value: with `dt = 1/2^32` and an output frequency of 1,
`1/(dt·f) = 2^32` is an integer, and the value stored is 0, neither `1/(dt·f)`
nor at least 1, so that `assert( g_steps_per_save != 0 )` fails; with
`dt = 1/10^10` the value stored is `10^10 mod 2^32`. -/
theorem computeStepsPerSave_truncates :
    (1 : ℚ) / ((1 / 4294967296 : ℚ) * ((1 : Nat) : ℚ)) = 4294967296
      ∧ computeStepsPerSave (1 / 4294967296) 1 = some 0
      ∧ computeStepsPerSave (1 / 10000000000) 1 = some 1410065408 := by
  refine ⟨by norm_num, by decide!, by decide!⟩

/-- The steps per save within the range of `unsigned`. For every positive
rational `dt` and output frequency `f`:
if `f = 0` the number of steps per save is 1; if `f ≠ 0` and `1/(dt·f)` is an
integer `n` below `2^32`, the number of steps per save is `n`, and `n ≥ 1`;
if `f ≠ 0` and `1/(dt·f)` is not an integer, `main` returns failure. -/
theorem computeStepsPerSave_spec (g_dt : ℚ) (output_frequency : Nat) (hdt : 0 < g_dt) :
    (output_frequency = 0 → computeStepsPerSave g_dt output_frequency = some 1)
      ∧ (∀ n : Nat, output_frequency ≠ 0 → 1 / (g_dt * (output_frequency : ℚ)) = (n : ℚ) →
          n < 4294967296 →
          computeStepsPerSave g_dt output_frequency = some n ∧ 1 ≤ n)
      ∧ (output_frequency ≠ 0 → (¬ ∃ z : Int, 1 / (g_dt * (output_frequency : ℚ)) = (z : ℚ)) →
          computeStepsPerSave g_dt output_frequency = none) := by
  refine ⟨?_, ?_, ?_⟩
  · intro h
    simp [computeStepsPerSave, h]
  · intro n hf hn hlt
    have hpos : (0 : ℚ) < 1 / (g_dt * (output_frequency : ℚ)) := by
      have : (0 : ℚ) < (output_frequency : ℚ) := by
        exact_mod_cast Nat.pos_of_ne_zero hf
      positivity
    have hn1 : 1 ≤ n := by
      rw [hn] at hpos
      have : (0 : ℚ) < (n : ℚ) := hpos
      exact_mod_cast this
    refine ⟨?_, hn1⟩
    unfold computeStepsPerSave
    simp only [bne_iff_ne, ne_eq, hf, not_false_eq_true, if_true]
    rw [hn]
    simp only [Rat.den_natCast, decide_True, Bool.not_true, Bool.false_eq_true, if_false,
      Rat.num_natCast]
    rw [toUnsigned_natCast n hlt]
  · intro hf hnot
    unfold computeStepsPerSave
    simp only [bne_iff_ne, ne_eq, hf, not_false_eq_true, if_true]
    have hden : (1 / (g_dt * (output_frequency : ℚ))).den ≠ 1 := by
      intro hden
      exact hnot ⟨_, (Rat.coe_int_num_of_den_eq_one hden).symm⟩
    rw [if_pos (by simpa using hden)]

/-- An instance: with `dt = 1/100` and an output frequency of
50 the number of steps per save is 2. -/
theorem computeStepsPerSave_spec_witness :
    (0 : ℚ) < 1 / 100 ∧ computeStepsPerSave (1 / 100) 50 = some 2 ∧ 1 ≤ 2 :=
  ⟨by norm_num,
    (computeStepsPerSave_spec (1 / 100) 50 (by norm_num)).2.1 2 (by decide) (by norm_num)
      (by decide)⟩

/-! ### The gate on candidates of two virtual boxes -/

theorem setInsert_teleported_same_pair (tc : TeleportedCollision) :
    ∀ set : List TeleportedCollision,
      set.Pairwise (fun a b => TeleportedCollision.lt a b = true) →
      (∃ e ∈ set, e.bodyIndex0 = tc.bodyIndex0 ∧ e.bodyIndex1 = tc.bodyIndex1) →
      setInsert TeleportedCollision.lt tc set = set := by
  intro set
  induction set with
  | nil =>
    rintro _ ⟨e, he, _⟩
    exact absurd he (List.not_mem_nil e)
  | cons x rest ih =>
    intro hsorted hex
    rw [List.pairwise_cons] at hsorted
    obtain ⟨e, he, h0, h1⟩ := hex
    unfold setInsert
    by_cases hx : x.bodyIndex0 = tc.bodyIndex0 ∧ x.bodyIndex1 = tc.bodyIndex1
    · have hxa : TeleportedCollision.lt x tc = false := by
        simp only [TeleportedCollision.lt, decide_eq_false_iff_not]
        omega
      have hax : TeleportedCollision.lt tc x = false := by
        simp only [TeleportedCollision.lt, decide_eq_false_iff_not]
        omega
      simp [hxa, hax]
    · rcases List.mem_cons.1 he with hex | hrest
      · rw [hex] at h0 h1
        exact absurd ⟨h0, h1⟩ hx
      · have hxe := hsorted.1 e hrest
        have hxa : TeleportedCollision.lt x tc = true := by
          simp only [TeleportedCollision.lt, decide_eq_true_eq] at hxe ⊢
          omega
        rw [if_pos hxa, ih hsorted.2 ⟨e, hrest, h0, h1⟩]

theorem setInsert_teleported_new_pair (tc : TeleportedCollision) :
    ∀ set : List TeleportedCollision,
      (∀ e ∈ set, ¬ (e.bodyIndex0 = tc.bodyIndex0 ∧ e.bodyIndex1 = tc.bodyIndex1)) →
      tc ∈ setInsert TeleportedCollision.lt tc set
        ∧ (setInsert TeleportedCollision.lt tc set).length = set.length + 1 := by
  intro set
  induction set with
  | nil =>
    intro _
    exact ⟨List.mem_cons_self _ _, rfl⟩
  | cons x rest ih =>
    intro hne
    obtain ⟨i1, i2⟩ := ih (fun e he => hne e (List.mem_cons_of_mem _ he))
    unfold setInsert
    split
    · exact ⟨List.mem_cons_of_mem _ i1, by rw [List.length_cons, i2, List.length_cons]⟩
    · next hxa =>
      split
      · exact ⟨List.mem_cons_self _ _, rfl⟩
      · next hax =>
        exfalso
        apply hne x (List.mem_cons_self _ _)
        simp only [TeleportedCollision.lt, Bool.not_eq_true, decide_eq_false_iff_not] at hxa hax
        omega

/-- C23 (amended). In the candidate loop of
`computeBodyBodyActiveSetSpatialGrid`: for a candidate whose two indices are
virtual, when the two bodies behind them satisfy `collisionIsActive` at `q1`
where they are, the set of teleported collisions and the active set are left
as they were; for a candidate with exactly one virtual index that test is
not made, and exactly when the teleported narrow phase is active at `q1` its
collision is inserted into the set. The insertion leaves the set as it is
when a collision of the same pair of bodies is in it already, and adds the
collision otherwise. -/
theorem processCandidate_virtual_gate (sqrt : ℚ → ℚ) (st : RigidBody2DState) (nbodies : Nat)
    (tmap : List (Nat × TeleportedBody)) (q0 q1 : VectorXs) (s : OverlapLoopState)
    (pair : Nat × Nat) (tb0 tb1 : TeleportedBody) :
    (nbodies ≤ pair.1 → nbodies ≤ pair.2 →
      tmap.lookup pair.1 = some tb0 → tmap.lookup pair.2 = some tb1 →
      collisionIsActiveIdx tb0.bodyIndex tb1.bodyIndex (st.bodyGeometry tb0.bodyIndex)
        (st.bodyGeometry tb1.bodyIndex) q1 = true →
      ∃ s', processCandidate sqrt st nbodies tmap q0 q1 s pair = some s'
        ∧ s'.teleported_collisions = s.teleported_collisions
        ∧ s'.active_set = s.active_set)
    ∧ (pair.1 < nbodies → nbodies ≤ pair.2 → tmap.lookup pair.2 = some tb1 →
        processCandidate sqrt st nbodies tmap q0 q1 s pair
          = (teleportedCollisionIsActive st
              (TeleportedCollision.new pair.1 tb1.bodyIndex UNSIGNED_MAX tb1.portalIndex
                false tb1.planeIndex)
              (st.bodyGeometry pair.1) (st.bodyGeometry tb1.bodyIndex) q1).map
            (fun active => if active = true then
              { s with teleported_collisions := (setInsert TeleportedCollision.lt
                  (TeleportedCollision.new pair.1 tb1.bodyIndex UNSIGNED_MAX tb1.portalIndex
                    false tb1.planeIndex)
                  s.teleported_collisions) }
              else s))
    ∧ (nbodies ≤ pair.1 → pair.2 < nbodies → tmap.lookup pair.1 = some tb0 →
        processCandidate sqrt st nbodies tmap q0 q1 s pair
          = (teleportedCollisionIsActive st
              (TeleportedCollision.new tb0.bodyIndex pair.2 tb0.portalIndex UNSIGNED_MAX
                tb0.planeIndex false)
              (st.bodyGeometry tb0.bodyIndex) (st.bodyGeometry pair.2) q1).map
            (fun active => if active = true then
              { s with teleported_collisions := (setInsert TeleportedCollision.lt
                  (TeleportedCollision.new tb0.bodyIndex pair.2 tb0.portalIndex UNSIGNED_MAX
                    tb0.planeIndex false)
                  s.teleported_collisions) }
              else s))
    ∧ (s.teleported_collisions.Pairwise (fun a b => TeleportedCollision.lt a b = true) →
        ∀ tc : TeleportedCollision,
          ((∃ e ∈ s.teleported_collisions,
              e.bodyIndex0 = tc.bodyIndex0 ∧ e.bodyIndex1 = tc.bodyIndex1) →
            setInsert TeleportedCollision.lt tc s.teleported_collisions
              = s.teleported_collisions)
          ∧ ((∀ e ∈ s.teleported_collisions,
              ¬ (e.bodyIndex0 = tc.bodyIndex0 ∧ e.bodyIndex1 = tc.bodyIndex1)) →
            tc ∈ setInsert TeleportedCollision.lt tc s.teleported_collisions
              ∧ (setInsert TeleportedCollision.lt tc s.teleported_collisions).length
                = s.teleported_collisions.length + 1)) := by
  refine ⟨?_, ?_, ?_, ?_⟩
  · intro h1 h2 hl1 hl2 hactive
    refine ⟨{ s with duplicate_indices :=
      (s.duplicate_indices ++ [(tb0.bodyIndex, tb1.bodyIndex)]) }, ?_, rfl, rfl⟩
    unfold processCandidate
    simp only [resolveCandidate, ge_iff_le, h1, h2, decide_True, Bool.not_true, Bool.and_self,
      Bool.false_eq_true, if_false, if_true, hl1, hl2, Bool.true_and, hactive]
  · intro h1 h2 hl2
    have h1' : ¬ nbodies ≤ pair.1 := by omega
    unfold processCandidate
    simp only [resolveCandidate, ge_iff_le, h1', h2, decide_True, decide_False, Bool.not_true,
      Bool.not_false, Bool.and_false, Bool.false_and, Bool.false_eq_true, if_false, hl2,
      if_true]
    cases hact : teleportedCollisionIsActive st
        (TeleportedCollision.new pair.1 tb1.bodyIndex UNSIGNED_MAX tb1.portalIndex
          false tb1.planeIndex)
        (st.bodyGeometry pair.1) (st.bodyGeometry tb1.bodyIndex) q1 with
    | none => simp [hact]
    | some active => cases active <;> simp [hact]
  · intro h1 h2 hl1
    have h2' : ¬ nbodies ≤ pair.2 := by omega
    unfold processCandidate
    simp only [resolveCandidate, ge_iff_le, h1, h2', decide_True, decide_False, Bool.not_true,
      Bool.not_false, Bool.and_false, Bool.false_and, Bool.true_and, Bool.false_eq_true,
      if_false, hl1, if_true]
    cases hact : teleportedCollisionIsActive st
        (TeleportedCollision.new tb0.bodyIndex pair.2 tb0.portalIndex UNSIGNED_MAX
          tb0.planeIndex false)
        (st.bodyGeometry tb0.bodyIndex) (st.bodyGeometry pair.2) q1 with
    | none => simp [hact]
    | some active => cases active <;> simp [hact]
  · intro hsorted tc
    exact ⟨setInsert_teleported_same_pair tc _ hsorted, setInsert_teleported_new_pair tc _⟩

/-- C23 (counterexample). Two unit disks at `y = 1/5` and `y = 12/5` in the
periodic domain of period `5/2` touch through the portal only; each has a
virtual box, and the broad phase returns the candidates `(0, 3)` and `(1, 2)`,
each with one virtual index. The first is recorded. For the second the
teleported narrow phase is active at `q1` too, but its collision is of the
pair of bodies already in the set: the set stays as it was, and the
candidate's collision is not in it. -/
theorem processCandidate_second_channel :
    (buildAABBs wrapState wrapQ 2).2 = [(2, ⟨0, 0, false⟩), (3, ⟨1, 0, true⟩)]
      ∧ possibleOverlaps bruteForceOverlaps (buildAABBs wrapState wrapQ 2).1 = [(0, 3), (1, 2)]
      ∧ (processCandidate (fun z => z) wrapState 2 (buildAABBs wrapState wrapQ 2).2 wrapQ wrapQ
            ⟨[], [], []⟩ (0, 3)).map (fun s => s.teleported_collisions)
          = some [secondTeleported]
      ∧ teleportedCollisionIsActive wrapState
          (TeleportedCollision.new 1 0 UNSIGNED_MAX 0 false false)
          (wrapState.bodyGeometry 1) (wrapState.bodyGeometry 0) wrapQ = some true
      ∧ (processCandidate (fun z => z) wrapState 2 (buildAABBs wrapState wrapQ 2).2 wrapQ wrapQ
            ⟨[], [secondTeleported], []⟩ (1, 2)).map (fun s => s.teleported_collisions)
          = some [secondTeleported]
      ∧ TeleportedCollision.new 1 0 UNSIGNED_MAX 0 false false ∉ [secondTeleported] := by
  refine ⟨by decide!, by decide!, by decide!, by decide!, by decide!, by decide⟩

/-- Witness for C23 (amended): for the two disks of `twoVirtualState`, whose
virtual boxes have the indices 2 and 3 and which overlap where they are, the
candidate `(2, 3)` leaves the set of teleported collisions empty; for the two
disks of `narrowDomainState`, which overlap where they are too, the candidate
`(0, 2)` with one virtual index is recorded; and a second insertion of that
collision leaves the set as it is. -/
theorem processCandidate_virtual_gate_witness :
    (buildAABBs twoVirtualState twoVirtualQ 2).2
        = [(2, ⟨0, 0, true⟩), (3, ⟨1, 0, true⟩)]
      ∧ (∃ s', processCandidate (fun z => z) twoVirtualState 2
            (buildAABBs twoVirtualState twoVirtualQ 2).2 twoVirtualQ twoVirtualQ
            ⟨[], [], []⟩ (2, 3) = some s'
          ∧ s'.teleported_collisions = [] ∧ s'.active_set = [])
      ∧ collisionIsActiveIdx 0 1 (narrowDomainState.bodyGeometry 0)
          (narrowDomainState.bodyGeometry 1) narrowDomainQ = true
      ∧ (processCandidate (fun z => z) narrowDomainState 2
            (buildAABBs narrowDomainState narrowDomainQ 2).2 narrowDomainQ narrowDomainQ
            ⟨[], [], []⟩ (0, 2)).map (fun s => s.teleported_collisions)
          = some [secondTeleported]
      ∧ setInsert TeleportedCollision.lt secondTeleported [secondTeleported]
          = [secondTeleported] :=
  ⟨by decide!,
    (processCandidate_virtual_gate (fun z => z) twoVirtualState 2
      (buildAABBs twoVirtualState twoVirtualQ 2).2 twoVirtualQ twoVirtualQ ⟨[], [], []⟩ (2, 3)
      ⟨0, 0, true⟩ ⟨1, 0, true⟩).1 (by decide) (by decide) (by decide!) (by decide!)
      (by decide!),
    by decide!, by decide!,
    ((processCandidate_virtual_gate (fun z => z) wrapState 2
      (buildAABBs wrapState wrapQ 2).2 wrapQ wrapQ ⟨[], [secondTeleported], []⟩ (1, 2)
      ⟨0, 0, false⟩ ⟨1, 0, true⟩).2.2.2 (List.pairwise_singleton _ _) secondTeleported).1
      ⟨secondTeleported, List.mem_singleton.2 rfl, rfl, rfl⟩⟩

/-! ### The teleported narrow phase -/

theorem portalIsLeesEdwards_some (st : RigidBody2DState) (portal_index : Nat) (b : Bool)
    (h : portalIsLeesEdwards st portal_index = some b) :
    (portal_index = UNSIGNED_MAX ∧ b = false)
      ∨ (portal_index ≠ UNSIGNED_MAX
          ∧ ∃ portal, st.planarPortals[portal_index]? = some portal ∧ portal.isLeesEdwards = b) := by
  unfold portalIsLeesEdwards at h
  by_cases hp : portal_index = UNSIGNED_MAX
  · left
    simp only [hp, ne_eq, not_true_eq_false, if_false, Option.some.injEq] at h
    exact ⟨hp, h.symm⟩
  · right
    rw [if_pos hp] at h
    cases hportal : st.planarPortals[portal_index]? with
    | none => simp [hportal] at h
    | some portal =>
      rw [hportal] at h
      simp only [Option.some.injEq] at h
      exact ⟨hp, portal, rfl, h⟩

theorem getTeleportedCollisionCenter_of_portal (st : RigidBody2DState) (portal_index : Nat)
    (portal_plane : Bool) (x : Vector2s) (portal : PlanarPortal)
    (h : st.planarPortals[portal_index]? = some portal) :
    getTeleportedCollisionCenter st portal_index portal_plane x
      = some (if portal_plane = false then portal.teleportPointThroughPlaneA x
          else portal.teleportPointThroughPlaneB x) := by
  unfold getTeleportedCollisionCenter
  rw [h]
  dsimp only
  split <;> rfl

theorem teleportedCenter_side (st : RigidBody2DState) (portal_index : Nat) (plane : Bool)
    (x : Vector2s) (b : Bool) (h : portalIsLeesEdwards st portal_index = some b) :
    ∃ y, (if portal_index ≠ UNSIGNED_MAX then
          getTeleportedCollisionCenter st portal_index plane x else some x) = some y
      ∧ (portal_index = UNSIGNED_MAX → y = x)
      ∧ (∀ portal, portal_index ≠ UNSIGNED_MAX → st.planarPortals[portal_index]? = some portal →
          y = if plane = false then portal.teleportPointThroughPlaneA x
            else portal.teleportPointThroughPlaneB x) := by
  rcases portalIsLeesEdwards_some st _ b h with ⟨hp, _⟩ | ⟨hp, portal, hportal, _⟩
  · refine ⟨x, ?_, fun _ => rfl, fun _ hne => absurd hp hne⟩
    rw [if_neg (by simpa using hp)]
  · refine ⟨if plane = false then portal.teleportPointThroughPlaneA x
      else portal.teleportPointThroughPlaneB x, ?_, fun hm => absurd hm hp, ?_⟩
    · rw [if_pos hp, getTeleportedCollisionCenter_of_portal st _ _ _ portal hportal]
    · intro portal' _ hportal'
      rw [hportal] at hportal'
      simp only [Option.some.injEq] at hportal'
      rw [hportal']

/-- The centre of one body of a teleported collision: the centre in `q` when
the body was not teleported, its image through the recorded side of the
recorded portal when it was. -/
theorem getTeleportedCollisionCenters_of_lees (st : RigidBody2DState) (q : VectorXs)
    (tc : TeleportedCollision) (b0 b1 : Bool)
    (h0 : portalIsLeesEdwards st tc.portalIndex0 = some b0)
    (h1 : portalIsLeesEdwards st tc.portalIndex1 = some b1) :
    ∃ x0 x1, getTeleportedCollisionCenters st q tc = some (x0, x1)
      ∧ (tc.portalIndex0 = UNSIGNED_MAX → x0 = segment2 q (3 * tc.bodyIndex0))
      ∧ (tc.portalIndex1 = UNSIGNED_MAX → x1 = segment2 q (3 * tc.bodyIndex1))
      ∧ (∀ portal, tc.portalIndex0 ≠ UNSIGNED_MAX →
          st.planarPortals[tc.portalIndex0]? = some portal →
          x0 = if tc.plane0 = false
            then portal.teleportPointThroughPlaneA (segment2 q (3 * tc.bodyIndex0))
            else portal.teleportPointThroughPlaneB (segment2 q (3 * tc.bodyIndex0)))
      ∧ (∀ portal, tc.portalIndex1 ≠ UNSIGNED_MAX →
          st.planarPortals[tc.portalIndex1]? = some portal →
          x1 = if tc.plane1 = false
            then portal.teleportPointThroughPlaneA (segment2 q (3 * tc.bodyIndex1))
            else portal.teleportPointThroughPlaneB (segment2 q (3 * tc.bodyIndex1))) := by
  obtain ⟨x0, e0, a0, c0⟩ := teleportedCenter_side st tc.portalIndex0 tc.plane0
    (segment2 q (3 * tc.bodyIndex0)) b0 h0
  obtain ⟨x1, e1, a1, c1⟩ := teleportedCenter_side st tc.portalIndex1 tc.plane1
    (segment2 q (3 * tc.bodyIndex1)) b1 h1
  refine ⟨x0, x1, ?_, a0, a1, c0, c1⟩
  unfold getTeleportedCollisionCenters
  dsimp only
  rw [e0, e1]

theorem Vector2s.sub_self (x : Vector2s) : x.sub x = ⟨0, 0⟩ := by
  simp [Vector2s.sub]

/-- C24. For a teleported collision neither of whose portals is
Lees-Edwards, `dispatchTeleportedNarrowPhaseCollision` appends exactly one
`TeleportedCircleCircle` constraint when the disks overlap at the teleported
centres of `q1` and nothing otherwise; the constraint carries the body indices
of the collision, the teleported centres of `q0`, the two radii and the
displacements of the two centres of `q0`; a body whose portal index is the
mark "no portal" keeps its centre, and its displacement is zero. -/
theorem dispatchTeleportedNarrowPhaseCollision_teleported (st : RigidBody2DState)
    (tc : TeleportedCollision) (geo0 geo1 : RigidBody2DGeometry) (q0 q1 : VectorXs)
    (active_set : List Constraint)
    (hle0 : portalIsLeesEdwards st tc.portalIndex0 = some false)
    (hle1 : portalIsLeesEdwards st tc.portalIndex1 = some false) :
    ∃ x0_t0 x1_t0 x0_t1 x1_t1,
      getTeleportedCollisionCenters st q0 tc = some (x0_t0, x1_t0)
      ∧ getTeleportedCollisionCenters st q1 tc = some (x0_t1, x1_t1)
      ∧ dispatchTeleportedNarrowPhaseCollision st tc geo0 geo1 q0 q1 active_set
          = some (if CircleCircleConstraint.isActive x0_t1 x1_t1 geo0.r geo1.r = true then
              active_set ++ [Constraint.teleportedCircleCircle tc.bodyIndex0 tc.bodyIndex1
                x0_t0 x1_t0 geo0.r geo1.r
                (x0_t0.sub (segment2 q0 (3 * tc.bodyIndex0)))
                (x1_t0.sub (segment2 q0 (3 * tc.bodyIndex1))) geo0.r geo1.r]
            else active_set)
      ∧ (tc.portalIndex0 = UNSIGNED_MAX →
          x0_t0 = segment2 q0 (3 * tc.bodyIndex0)
            ∧ x0_t0.sub (segment2 q0 (3 * tc.bodyIndex0)) = ⟨0, 0⟩)
      ∧ (tc.portalIndex1 = UNSIGNED_MAX →
          x1_t0 = segment2 q0 (3 * tc.bodyIndex1)
            ∧ x1_t0.sub (segment2 q0 (3 * tc.bodyIndex1)) = ⟨0, 0⟩)
      ∧ (∀ portal, tc.portalIndex0 ≠ UNSIGNED_MAX →
          st.planarPortals[tc.portalIndex0]? = some portal →
          x0_t0 = if tc.plane0 = false
            then portal.teleportPointThroughPlaneA (segment2 q0 (3 * tc.bodyIndex0))
            else portal.teleportPointThroughPlaneB (segment2 q0 (3 * tc.bodyIndex0)))
      ∧ (∀ portal, tc.portalIndex1 ≠ UNSIGNED_MAX →
          st.planarPortals[tc.portalIndex1]? = some portal →
          x1_t0 = if tc.plane1 = false
            then portal.teleportPointThroughPlaneA (segment2 q0 (3 * tc.bodyIndex1))
            else portal.teleportPointThroughPlaneB (segment2 q0 (3 * tc.bodyIndex1))) := by
  obtain ⟨x0_t0, x1_t0, hc0, ha0, hb0, hp0, hq0⟩ :=
    getTeleportedCollisionCenters_of_lees st q0 tc false false hle0 hle1
  obtain ⟨x0_t1, x1_t1, hc1, _, _, _, _⟩ :=
    getTeleportedCollisionCenters_of_lees st q1 tc false false hle0 hle1
  refine ⟨x0_t0, x1_t0, x0_t1, x1_t1, hc0, hc1, ?_, ?_, ?_, hp0, hq0⟩
  · unfold dispatchTeleportedNarrowPhaseCollision
    rw [hc0, hc1, hle0, hle1]
    cases geo0 with
    | circle r0 =>
      cases geo1 with
      | circle r1 =>
        simp only [Bool.not_false, Bool.and_self, if_true, RigidBody2DGeometry.r]
        split <;> rfl
  · intro h
    have := ha0 h
    exact ⟨this, by rw [this]; exact Vector2s.sub_self _⟩
  · intro h
    have := hb0 h
    exact ⟨this, by rw [this]; exact Vector2s.sub_self _⟩

/-- Witness for C24: for the two disks of `narrowDomainState`, body 1
teleported through the side B of the periodic portal overlaps body 0, and the
constraint carries the centres `(0, 11/10)` and `(0, −2/5)` and the
displacements `(0, 0)` and `(0, −5/2)`. -/
theorem dispatchTeleportedNarrowPhaseCollision_teleported_witness :
    dispatchTeleportedNarrowPhaseCollision narrowDomainState secondTeleported
        (RigidBody2DGeometry.circle 1) (RigidBody2DGeometry.circle 1)
        narrowDomainQ narrowDomainQ []
      = some [Constraint.teleportedCircleCircle 0 1 ⟨0, 11 / 10⟩ ⟨0, -2 / 5⟩ 1 1
          ⟨0, 0⟩ ⟨0, -5 / 2⟩ 1 1]
    ∧ ∃ x0_t0 x1_t0 x0_t1 x1_t1,
      getTeleportedCollisionCenters narrowDomainState narrowDomainQ secondTeleported
        = some (x0_t0, x1_t0)
      ∧ getTeleportedCollisionCenters narrowDomainState narrowDomainQ secondTeleported
        = some (x0_t1, x1_t1)
      ∧ dispatchTeleportedNarrowPhaseCollision narrowDomainState secondTeleported
          (RigidBody2DGeometry.circle 1) (RigidBody2DGeometry.circle 1)
          narrowDomainQ narrowDomainQ []
          = some (if CircleCircleConstraint.isActive x0_t1 x1_t1
                (RigidBody2DGeometry.circle 1).r (RigidBody2DGeometry.circle 1).r = true then
              [] ++ [Constraint.teleportedCircleCircle secondTeleported.bodyIndex0
                secondTeleported.bodyIndex1 x0_t0 x1_t0
                (RigidBody2DGeometry.circle 1).r (RigidBody2DGeometry.circle 1).r
                (x0_t0.sub (segment2 narrowDomainQ (3 * secondTeleported.bodyIndex0)))
                (x1_t0.sub (segment2 narrowDomainQ (3 * secondTeleported.bodyIndex1)))
                (RigidBody2DGeometry.circle 1).r (RigidBody2DGeometry.circle 1).r]
            else [])
      ∧ (secondTeleported.portalIndex0 = UNSIGNED_MAX →
          x0_t0 = segment2 narrowDomainQ (3 * secondTeleported.bodyIndex0)
            ∧ x0_t0.sub (segment2 narrowDomainQ (3 * secondTeleported.bodyIndex0)) = ⟨0, 0⟩)
      ∧ (secondTeleported.portalIndex1 = UNSIGNED_MAX →
          x1_t0 = segment2 narrowDomainQ (3 * secondTeleported.bodyIndex1)
            ∧ x1_t0.sub (segment2 narrowDomainQ (3 * secondTeleported.bodyIndex1)) = ⟨0, 0⟩)
      ∧ (∀ portal, secondTeleported.portalIndex0 ≠ UNSIGNED_MAX →
          narrowDomainState.planarPortals[secondTeleported.portalIndex0]? = some portal →
          x0_t0 = if secondTeleported.plane0 = false
            then portal.teleportPointThroughPlaneA
              (segment2 narrowDomainQ (3 * secondTeleported.bodyIndex0))
            else portal.teleportPointThroughPlaneB
              (segment2 narrowDomainQ (3 * secondTeleported.bodyIndex0)))
      ∧ (∀ portal, secondTeleported.portalIndex1 ≠ UNSIGNED_MAX →
          narrowDomainState.planarPortals[secondTeleported.portalIndex1]? = some portal →
          x1_t0 = if secondTeleported.plane1 = false
            then portal.teleportPointThroughPlaneA
              (segment2 narrowDomainQ (3 * secondTeleported.bodyIndex1))
            else portal.teleportPointThroughPlaneB
              (segment2 narrowDomainQ (3 * secondTeleported.bodyIndex1))) :=
  ⟨by decide!,
    dispatchTeleportedNarrowPhaseCollision_teleported narrowDomainState secondTeleported
      (RigidBody2DGeometry.circle 1) (RigidBody2DGeometry.circle 1) narrowDomainQ narrowDomainQ []
      (by decide) (by decide)⟩

theorem kinematicVelocityOfBody_of_portal (st : RigidBody2DState) (portal_index body_index : Nat)
    (geo : RigidBody2DGeometry) (q1 : VectorXs) (portal : PlanarPortal)
    (h : st.planarPortals[portal_index]? = some portal) :
    kinematicVelocityOfBody st portal_index body_index geo q1
      = some (portal.getKinematicVelocityOfAABB
          (geo.computeAABB (segment2 q1 (3 * body_index)) (q1.getD (3 * body_index + 2) 0)).min
          (geo.computeAABB (segment2 q1 (3 * body_index)) (q1.getD (3 * body_index + 2) 0)).max) := by
  unfold kinematicVelocityOfBody
  rw [h]

/-- C25. For a teleported collision exactly one of whose portals is
Lees-Edwards, when the disks overlap at the teleported centres of `q1`,
`dispatchTeleportedNarrowPhaseCollision` appends one
`KinematicKickCircleCircle` constraint and nothing else; its kick is the
kinematic velocity the Lees-Edwards portal gives for the box at `q1` of the
body teleported through it, taken as it is when that body is the second one
(portal 1) and negated when it is the first one (portal 0). When the disks do
not overlap nothing is appended. -/
theorem dispatchTeleportedNarrowPhaseCollision_kinematicKick (st : RigidBody2DState)
    (tc : TeleportedCollision) (geo0 geo1 : RigidBody2DGeometry) (q0 q1 : VectorXs)
    (active_set : List Constraint) (le0 le1 : Bool)
    (hle0 : portalIsLeesEdwards st tc.portalIndex0 = some le0)
    (hle1 : portalIsLeesEdwards st tc.portalIndex1 = some le1)
    (hone : le0 ≠ le1) :
    ∃ x0_t0 x1_t0 x0_t1 x1_t1 portal,
      getTeleportedCollisionCenters st q0 tc = some (x0_t0, x1_t0)
      ∧ getTeleportedCollisionCenters st q1 tc = some (x0_t1, x1_t1)
      ∧ st.planarPortals[if le1 = true then tc.portalIndex1 else tc.portalIndex0]? = some portal
      ∧ portal.isLeesEdwards = true
      ∧ (CircleCircleConstraint.isActive x0_t1 x1_t1 geo0.r geo1.r = true →
          dispatchTeleportedNarrowPhaseCollision st tc geo0 geo1 q0 q1 active_set
            = some (active_set ++ [Constraint.kinematicKickCircleCircle tc.bodyIndex0
                tc.bodyIndex1 x0_t0 x1_t0 geo0.r geo1.r
                (if le1 = true then
                  portal.getKinematicVelocityOfAABB
                    (geo1.computeAABB (segment2 q1 (3 * tc.bodyIndex1))
                      (q1.getD (3 * tc.bodyIndex1 + 2) 0)).min
                    (geo1.computeAABB (segment2 q1 (3 * tc.bodyIndex1))
                      (q1.getD (3 * tc.bodyIndex1 + 2) 0)).max
                else
                  (portal.getKinematicVelocityOfAABB
                    (geo0.computeAABB (segment2 q1 (3 * tc.bodyIndex0))
                      (q1.getD (3 * tc.bodyIndex0 + 2) 0)).min
                    (geo0.computeAABB (segment2 q1 (3 * tc.bodyIndex0))
                      (q1.getD (3 * tc.bodyIndex0 + 2) 0)).max).neg)]))
      ∧ (CircleCircleConstraint.isActive x0_t1 x1_t1 geo0.r geo1.r = false →
          dispatchTeleportedNarrowPhaseCollision st tc geo0 geo1 q0 q1 active_set
            = some active_set) := by
  obtain ⟨x0_t0, x1_t0, hc0, _, _, _, _⟩ :=
    getTeleportedCollisionCenters_of_lees st q0 tc le0 le1 hle0 hle1
  obtain ⟨x0_t1, x1_t1, hc1, _, _, _, _⟩ :=
    getTeleportedCollisionCenters_of_lees st q1 tc le0 le1 hle0 hle1
  cases le1 with
  | true =>
    have h0 : le0 = false := by cases le0 <;> simp_all
    subst h0
    rcases portalIsLeesEdwards_some st _ true hle1 with ⟨_, hb⟩ | ⟨_, portal, hportal, hle⟩
    · exact absurd hb (by decide)
    · refine ⟨x0_t0, x1_t0, x0_t1, x1_t1, portal, hc0, hc1, by simpa using hportal, hle, ?_, ?_⟩
      · intro hactive
        unfold dispatchTeleportedNarrowPhaseCollision
        rw [hc0, hc1, hle0, hle1]
        cases geo0 with
        | circle r0 =>
          cases geo1 with
          | circle r1 =>
            simp only [RigidBody2DGeometry.r] at hactive
            simp [kinematicVelocityOfBody_of_portal st _ _ _ _ portal hportal, hactive,
              RigidBody2DGeometry.r]
      · intro hactive
        unfold dispatchTeleportedNarrowPhaseCollision
        rw [hc0, hc1, hle0, hle1]
        cases geo0 with
        | circle r0 =>
          cases geo1 with
          | circle r1 =>
            simp only [RigidBody2DGeometry.r] at hactive
            simp [kinematicVelocityOfBody_of_portal st _ _ _ _ portal hportal, hactive]
  | false =>
    have h0 : le0 = true := by cases le0 <;> simp_all
    subst h0
    rcases portalIsLeesEdwards_some st _ true hle0 with ⟨_, hb⟩ | ⟨_, portal, hportal, hle⟩
    · exact absurd hb (by decide)
    · refine ⟨x0_t0, x1_t0, x0_t1, x1_t1, portal, hc0, hc1, by simpa using hportal, hle, ?_, ?_⟩
      · intro hactive
        unfold dispatchTeleportedNarrowPhaseCollision
        rw [hc0, hc1, hle0, hle1]
        cases geo0 with
        | circle r0 =>
          cases geo1 with
          | circle r1 =>
            simp only [RigidBody2DGeometry.r] at hactive
            simp [kinematicVelocityOfBody_of_portal st _ _ _ _ portal hportal, hactive,
              RigidBody2DGeometry.r]
      · intro hactive
        unfold dispatchTeleportedNarrowPhaseCollision
        rw [hc0, hc1, hle0, hle1]
        cases geo0 with
        | circle r0 =>
          cases geo1 with
          | circle r1 =>
            simp only [RigidBody2DGeometry.r] at hactive
            simp [kinematicVelocityOfBody_of_portal st _ _ _ _ portal hportal, hactive]

/-- Witness for C25: in `leesEdwardsState`, whose portal is Lees-Edwards with
the velocity `(3, 0)`, body 1 teleported as the second body gives the kick
`(3, 0)`, and body 0 teleported as the first body the kick `(−3, 0)`. -/
theorem dispatchTeleportedNarrowPhaseCollision_kinematicKick_witness :
    portalIsLeesEdwards leesEdwardsState secondTeleported.portalIndex0 = some false
      ∧ portalIsLeesEdwards leesEdwardsState secondTeleported.portalIndex1 = some true
      ∧ dispatchTeleportedNarrowPhaseCollision leesEdwardsState secondTeleported
          (RigidBody2DGeometry.circle 1) (RigidBody2DGeometry.circle 1)
          narrowDomainQ narrowDomainQ []
        = some [Constraint.kinematicKickCircleCircle 0 1 ⟨0, 11 / 10⟩ ⟨0, -2 / 5⟩ 1 1 ⟨3, 0⟩]
      ∧ dispatchTeleportedNarrowPhaseCollision leesEdwardsState firstTeleported
          (RigidBody2DGeometry.circle 1) (RigidBody2DGeometry.circle 1)
          narrowDomainQ narrowDomainQ []
        = some [Constraint.kinematicKickCircleCircle 0 1 ⟨0, 18 / 5⟩ ⟨0, 21 / 10⟩ 1 1 ⟨-3, 0⟩]
      ∧ ∃ portal, leesEdwardsState.planarPortals[secondTeleported.portalIndex1]? = some portal
          ∧ portal.isLeesEdwards = true := by
  obtain ⟨_, _, _, _, portal, _, _, hportal, hle, _, _⟩ :=
    dispatchTeleportedNarrowPhaseCollision_kinematicKick leesEdwardsState secondTeleported
      (RigidBody2DGeometry.circle 1) (RigidBody2DGeometry.circle 1) narrowDomainQ narrowDomainQ []
      false true (by decide) (by decide) (by decide)
  exact ⟨by decide, by decide, by decide!, by decide!, portal, hportal, hle⟩

/-! ### The order of the active set -/

theorem TeleportedCollision.lt_trans (a b c : TeleportedCollision)
    (h1 : TeleportedCollision.lt a b = true) (h2 : TeleportedCollision.lt b c = true) :
    TeleportedCollision.lt a c = true := by
  simp only [TeleportedCollision.lt, decide_eq_true_eq] at h1 h2 ⊢
  omega

theorem TeleportedCollision.lexLt_of_lt (a b : TeleportedCollision)
    (h : TeleportedCollision.lt a b = true) : TeleportedCollision.lexLt a b = true := by
  simp only [TeleportedCollision.lt, TeleportedCollision.lexLt, decide_eq_true_eq] at h ⊢
  rcases h with h | ⟨h1, h2⟩
  · exact Or.inl h
  · exact Or.inr ⟨h1, Or.inl h2⟩

theorem TeleportedCollision.new_canonical (b0 b1 p0 p1 : Nat) (side0 side1 : Bool) :
    (TeleportedCollision.new b0 b1 p0 p1 side0 side1).bodyIndex0
      ≤ (TeleportedCollision.new b0 b1 p0 p1 side0 side1).bodyIndex1 := by
  unfold TeleportedCollision.new
  split
  · exact Nat.le_of_lt (by assumption)
  · exact Nat.le_of_not_lt (by assumption)

theorem processCandidate_teleported_collisions (sqrt : ℚ → ℚ) (st : RigidBody2DState)
    (nbodies : Nat) (tmap : List (Nat × TeleportedBody)) (q0 q1 : VectorXs)
    (s s' : OverlapLoopState) (pair : Nat × Nat)
    (h : processCandidate sqrt st nbodies tmap q0 q1 s pair = some s') :
    s'.teleported_collisions = s.teleported_collisions
      ∨ ∃ tc, tc.bodyIndex0 ≤ tc.bodyIndex1 ∧ s'.teleported_collisions
          = setInsert TeleportedCollision.lt tc s.teleported_collisions := by
  unfold processCandidate at h
  dsimp only at h
  split at h
  · injection h with h; rw [← h]; exact Or.inl rfl
  · split at h
    · split at h
      · injection h with h; rw [← h]; exact Or.inl rfl
      · split at h
        · exact absurd h (by simp)
        · injection h with h; rw [← h]
          exact Or.inr ⟨_, TeleportedCollision.new_canonical _ _ _ _ _ _, rfl⟩
        · injection h with h; rw [← h]; exact Or.inl rfl
    · exact absurd h (by simp)

theorem processCandidates_sorted (sqrt : ℚ → ℚ) (st : RigidBody2DState) (nbodies : Nat)
    (tmap : List (Nat × TeleportedBody)) (q0 q1 : VectorXs) (cands : List (Nat × Nat))
    (s s' : OverlapLoopState)
    (h : processCandidates sqrt st nbodies tmap q0 q1 cands s = some s')
    (hs : s.teleported_collisions.Pairwise (fun a b => TeleportedCollision.lt a b = true))
    (hc : ∀ tc ∈ s.teleported_collisions, tc.bodyIndex0 ≤ tc.bodyIndex1) :
    s'.teleported_collisions.Pairwise (fun a b => TeleportedCollision.lt a b = true)
      ∧ ∀ tc ∈ s'.teleported_collisions, tc.bodyIndex0 ≤ tc.bodyIndex1 := by
  induction cands generalizing s with
  | nil =>
    unfold processCandidates at h
    injection h with h
    rw [← h]; exact ⟨hs, hc⟩
  | cons pair rest ih =>
    unfold processCandidates at h
    split at h
    · exact absurd h (by simp)
    · next next hnext =>
      rcases processCandidate_teleported_collisions sqrt st nbodies tmap q0 q1 s next pair hnext
        with h1 | ⟨tc, hcan, h1⟩
      · exact ih next h (by rw [h1]; exact hs) (by rw [h1]; exact hc)
      · refine ih next h ?_ ?_
        · rw [h1]
          exact setInsert_sorted _ TeleportedCollision.lt_trans tc _ hs
        · rw [h1]
          intro e he
          rcases mem_of_mem_setInsert _ _ _ _ he with he | he
          · rw [he]; exact hcan
          · exact hc e he

theorem dispatchTeleportedNarrowPhaseCollision_append (st : RigidBody2DState)
    (tc : TeleportedCollision) (geo0 geo1 : RigidBody2DGeometry) (q0 q1 : VectorXs)
    (active_set : List Constraint) :
    dispatchTeleportedNarrowPhaseCollision st tc geo0 geo1 q0 q1 active_set
      = (dispatchTeleportedNarrowPhaseCollision st tc geo0 geo1 q0 q1 []).map
          (fun appended => active_set ++ appended) := by
  unfold dispatchTeleportedNarrowPhaseCollision
  cases geo0 with
  | circle r0 =>
    cases geo1 with
    | circle r1 =>
      cases getTeleportedCollisionCenters st q0 tc with
      | none => rfl
      | some c0 =>
        cases getTeleportedCollisionCenters st q1 tc with
        | none => rfl
        | some c1 =>
          cases portalIsLeesEdwards st tc.portalIndex0 with
          | none => rfl
          | some le0 =>
            cases portalIsLeesEdwards st tc.portalIndex1 with
            | none => rfl
            | some le1 =>
              dsimp only
              split
              · split <;> simp
              · split
                · rfl
                · split <;> simp

theorem dispatchTeleportedCollisions_eq (st : RigidBody2DState) (q0 q1 : VectorXs)
    (tcs : List TeleportedCollision) (active_set out : List Constraint)
    (h : dispatchTeleportedCollisions st q0 q1 tcs active_set = some out) :
    out = active_set ++ tcs.flatMap (teleportedConstraintsOf st q0 q1) := by
  induction tcs generalizing active_set with
  | nil =>
    unfold dispatchTeleportedCollisions at h
    injection h with h
    simp [h]
  | cons tc rest ih =>
    unfold dispatchTeleportedCollisions at h
    split at h
    · exact absurd h (by simp)
    · next next hnext =>
      rw [dispatchTeleportedNarrowPhaseCollision_append] at hnext
      rw [ih next h, List.flatMap_cons, teleportedConstraintsOf]
      cases hd : dispatchTeleportedNarrowPhaseCollision st tc (st.bodyGeometry tc.bodyIndex0)
          (st.bodyGeometry tc.bodyIndex1) q0 q1 [] with
      | none => simp [hd] at hnext
      | some appended =>
        rw [hd] at hnext
        simp only [Option.map_some', Option.some.injEq] at hnext
        rw [← hnext, Option.getD_some, List.append_assoc]

theorem flatMap_ite_singleton {α β : Type} (c : α → Prop) [DecidablePred c] (g : α → β)
    (l : List α) :
    l.flatMap (fun a => if c a then [g a] else []) = (l.filter (fun a => decide (c a))).map g := by
  induction l with
  | nil => rfl
  | cons a l ih =>
    rw [List.flatMap_cons, ih, List.filter_cons]
    by_cases h : c a <;> simp [h]

theorem filterMap_ite_some {α β : Type} (c : α → Prop) [DecidablePred c] (g : α → β)
    (l : List α) :
    l.filterMap (fun a => if c a then some (g a) else none)
      = (l.filter (fun a => decide (c a))).map g := by
  induction l with
  | nil => rfl
  | cons a l ih =>
    rw [List.filterMap_cons, List.filter_cons]
    by_cases h : c a <;> simp [h, ih]

theorem pairwise_pairLt_product (P N : Nat) :
    ((List.range P).flatMap (fun i => (List.range N).map (fun b => (i, b)))).Pairwise
      (fun x y => pairLt x y = true) := by
  rw [List.pairwise_flatMap]
  refine ⟨?_, ?_⟩
  · intro i _
    rw [List.pairwise_map]
    have := List.pairwise_lt_range N
    exact this.imp (fun h => by simp [pairLt]; exact h)
  · have := List.pairwise_lt_range P
    refine this.imp ?_
    intro i j hij x hx y hy
    simp only [List.mem_map, List.mem_range] at hx hy
    obtain ⟨_, _, rfl⟩ := hx
    obtain ⟨_, _, rfl⟩ := hy
    simp [pairLt, hij]

theorem flatMap_filterMap_product {β : Type} (P N : Nat) (c : Nat → Nat → Prop)
    [∀ i b, Decidable (c i b)] (g : Nat → Nat → β) :
    (List.range P).flatMap (fun i =>
        (List.range N).filterMap (fun b => if c i b then some (g i b) else none))
      = (((List.range P).flatMap (fun i => (List.range N).map (fun b => (i, b)))).filter
          (fun p => decide (c p.1 p.2))).map (fun p => g p.1 p.2) := by
  rw [List.filter_flatMap, List.map_flatMap]
  congr 1
  funext i
  rw [List.filter_map, List.map_map, filterMap_ite_some]
  rfl

theorem realPairConstraints_eq (sqrt : ℚ → ℚ) (st : RigidBody2DState) (nbodies : Nat)
    (q0 q1 : VectorXs) (pair : Nat × Nat) :
    realPairConstraints sqrt st nbodies q0 q1 pair
      = if (pair.1 < nbodies ∧ pair.2 < nbodies)
          ∧ CircleCircleConstraint.isActive (segment2 q1 (3 * pair.1)) (segment2 q1 (3 * pair.2))
            (st.bodyGeometry pair.1).r (st.bodyGeometry pair.2).r = true
        then [circleCircleOf sqrt st q0 pair.1 pair.2] else [] := by
  unfold realPairConstraints
  by_cases h : pair.1 < nbodies ∧ pair.2 < nbodies
  · rw [if_pos h, dispatchNarrowPhaseCollision_eq]
    by_cases ha : CircleCircleConstraint.isActive (segment2 q1 (3 * pair.1))
        (segment2 q1 (3 * pair.2)) (st.bodyGeometry pair.1).r (st.bodyGeometry pair.2).r = true
    · rw [if_pos ha, if_pos ⟨h, ha⟩, List.nil_append]
    · rw [if_neg ha, if_neg (fun hc => ha hc.2)]
  · rw [if_neg h, if_neg (fun hc => h hc.1)]

theorem teleportedConstraintsOf_spec (st : RigidBody2DState) (q0 q1 : VectorXs)
    (tc : TeleportedCollision) :
    (teleportedConstraintsOf st q0 q1 tc).length ≤ 1
      ∧ ∀ c ∈ teleportedConstraintsOf st q0 q1 tc,
          (c.typeid = ConstraintType.TeleportedCircleCircleConstraint
            ∨ c.typeid = ConstraintType.KinematicKickCircleCircleConstraint)
          ∧ c.getBodyIndices = ((tc.bodyIndex0 : Int), (tc.bodyIndex1 : Int)) := by
  unfold teleportedConstraintsOf dispatchTeleportedNarrowPhaseCollision
  cases st.bodyGeometry tc.bodyIndex0 with
  | circle r0 =>
    cases st.bodyGeometry tc.bodyIndex1 with
    | circle r1 =>
      cases getTeleportedCollisionCenters st q0 tc with
      | none => simp
      | some c0 =>
        cases getTeleportedCollisionCenters st q1 tc with
        | none => simp
        | some c1 =>
          cases portalIsLeesEdwards st tc.portalIndex0 with
          | none => simp
          | some le0 =>
            cases portalIsLeesEdwards st tc.portalIndex1 with
            | none => simp
            | some le1 =>
              dsimp only
              split
              · split <;> simp [Constraint.typeid, Constraint.getBodyIndices]
              · split
                · simp
                · split <;> simp [Constraint.typeid, Constraint.getBodyIndices]

/-- C26. The active set `computeActiveSet` returns does not depend on the
previous contents of the output; it is returned whenever the broad phase
returns indices of the boxes it is given; and it lists, in this order: the
`CircleCircle` constraints of candidate pairs of bodies, in the strictly
increasing lexicographic order of the pairs (with `i < j` when the broad
phase returns such pairs); then the constraints of the teleported
collisions of the set, in its increasing order: the collisions are in
canonical form, strictly increasing in their key, the pair of bodies, so
that no two of them are of the same pair, and thereby increasing in
`(i, j, portal₀, portal₁, side₀, side₁)`, with at most one constraint for
each, on its two bodies; then the `StaticPlaneCircle` constraints of pairs
(plane, body) in strictly increasing lexicographic order. -/
theorem computeActiveSet_order (sqrt : ℚ → ℚ) (grid : List AABB → List (Nat × Nat))
    (st : RigidBody2DState) (q0 q1 : VectorXs) (active_set : List Constraint) :
    computeActiveSet sqrt grid st q0 q1 active_set = computeActiveSet sqrt grid st q0 q1 []
    ∧ ((∀ aabbs, ∀ pair ∈ grid aabbs, pair.1 < aabbs.length ∧ pair.2 < aabbs.length) →
        ∃ out, computeActiveSet sqrt grid st q0 q1 active_set = some out)
    ∧ ∀ out, computeActiveSet sqrt grid st q0 q1 active_set = some out →
        ∃ (pairs : List (Nat × Nat)) (tcs : List TeleportedCollision)
          (planeBodies : List (Nat × Nat)),
          out = pairs.map (fun p => circleCircleOf sqrt st q0 p.1 p.2)
              ++ tcs.flatMap (teleportedConstraintsOf st q0 q1)
              ++ planeBodies.map (fun p => staticPlaneCircleOf st p.1 p.2)
          ∧ pairs.Pairwise (fun a b => pairLt a b = true)
          ∧ (∀ p ∈ pairs, p ∈ grid (buildAABBs st q1 (q0.length / 3)).1
              ∧ p.1 < q0.length / 3 ∧ p.2 < q0.length / 3)
          ∧ ((∀ aabbs, ∀ pair ∈ grid aabbs, pair.1 < pair.2) → ∀ p ∈ pairs, p.1 < p.2)
          ∧ tcs.Pairwise (fun a b => TeleportedCollision.lt a b = true)
          ∧ tcs.Pairwise (fun a b => TeleportedCollision.lexLt a b = true)
          ∧ (∀ tc ∈ tcs, tc.bodyIndex0 ≤ tc.bodyIndex1)
          ∧ (∀ tc ∈ tcs, (teleportedConstraintsOf st q0 q1 tc).length ≤ 1
              ∧ ∀ c ∈ teleportedConstraintsOf st q0 q1 tc,
                  c.getBodyIndices = ((tc.bodyIndex0 : Int), (tc.bodyIndex1 : Int)))
          ∧ planeBodies.Pairwise (fun a b => pairLt a b = true)
          ∧ (∀ p ∈ planeBodies, p.1 < st.planes.length ∧ p.2 < q0.length / 3) := by
  refine ⟨rfl, ?_, ?_⟩
  · intro hrange
    obtain ⟨out, hout⟩ :=
      computeBodyBodyActiveSetSpatialGrid_isSome sqrt grid st q0 q1 [] hrange
    exact ⟨_, by unfold computeActiveSet; rw [hout]⟩
  · intro out h
    unfold computeActiveSet at h
    cases hgrid : computeBodyBodyActiveSetSpatialGrid sqrt grid st q0 q1 [] with
    | none => simp [hgrid] at h
    | some body_body =>
      rw [hgrid] at h
      simp only [Option.some.injEq] at h
      unfold computeBodyBodyActiveSetSpatialGrid at hgrid
      simp only at hgrid
      cases hs : processCandidates sqrt st (q0.length / 3) (buildAABBs st q1 (q0.length / 3)).2
          q0 q1 (possibleOverlaps grid (buildAABBs st q1 (q0.length / 3)).1)
          { active_set := [], teleported_collisions := [], duplicate_indices := [] } with
      | none => simp [hs] at hgrid
      | some s =>
        rw [hs] at hgrid
        simp only at hgrid
        have hact := processCandidates_active_set sqrt st _ _ q0 q1 _ _ s hs
        obtain ⟨hsorted, hcanonical⟩ := processCandidates_sorted sqrt st _ _ q0 q1 _ _ s hs
          List.Pairwise.nil (fun tc htc => absurd htc (List.not_mem_nil tc))
        have htel := dispatchTeleportedCollisions_eq st q0 q1 _ _ _ hgrid
        simp only [List.nil_append] at hact
        have hcc : s.active_set
            = ((possibleOverlaps grid (buildAABBs st q1 (q0.length / 3)).1).filter
                (fun pair => decide ((pair.1 < q0.length / 3 ∧ pair.2 < q0.length / 3)
                  ∧ CircleCircleConstraint.isActive (segment2 q1 (3 * pair.1))
                    (segment2 q1 (3 * pair.2)) (st.bodyGeometry pair.1).r
                    (st.bodyGeometry pair.2).r = true))).map
                (fun p => circleCircleOf sqrt st q0 p.1 p.2) := by
          rw [hact, ← flatMap_ite_singleton]
          congr 1
          funext pair
          exact realPairConstraints_eq sqrt st _ q0 q1 pair
        refine ⟨(possibleOverlaps grid (buildAABBs st q1 (q0.length / 3)).1).filter
            (fun pair => decide ((pair.1 < q0.length / 3 ∧ pair.2 < q0.length / 3)
              ∧ CircleCircleConstraint.isActive (segment2 q1 (3 * pair.1))
                (segment2 q1 (3 * pair.2)) (st.bodyGeometry pair.1).r
                (st.bodyGeometry pair.2).r = true)), s.teleported_collisions,
          ((List.range st.planes.length).flatMap (fun i =>
            (List.range (q0.length / 3)).map (fun b => (i, b)))).filter
            (fun p => decide (planeDistance st q1 p.1 p.2 ≤ (st.bodyGeometry p.2).r)),
          ?_, ?_, ?_, ?_, hsorted,
          hsorted.imp (fun {a b} hab => TeleportedCollision.lexLt_of_lt a b hab), hcanonical,
          ?_, ?_, ?_⟩
        · rw [← h, computeBodyPlaneActiveSetAllPairs_eq, htel, hcc,
            flatMap_filterMap_product st.planes.length (q0.length / 3)
              (fun pl b => planeDistance st q1 pl b ≤ (st.bodyGeometry b).r)
              (fun pl b => staticPlaneCircleOf st pl b)]
        · exact (possibleOverlaps_sorted grid _).filter _
        · intro p hp
          rw [List.mem_filter] at hp
          have hp2 := hp.2
          simp only [decide_eq_true_eq] at hp2
          exact ⟨(mem_possibleOverlaps grid _ p).1 hp.1, hp2.1.1, hp2.1.2⟩
        · intro hordered p hp
          rw [List.mem_filter] at hp
          exact hordered _ p ((mem_possibleOverlaps grid _ p).1 hp.1)
        · intro tc _
          exact ⟨(teleportedConstraintsOf_spec st q0 q1 tc).1,
            fun c hc => ((teleportedConstraintsOf_spec st q0 q1 tc).2 c hc).2⟩
        · exact (pairwise_pairLt_product _ _).filter _
        · intro p hp
          rw [List.mem_filter, List.mem_flatMap] at hp
          obtain ⟨⟨i, hi, hpi⟩, _⟩ := hp
          simp only [List.mem_map, List.mem_range] at hpi hi
          obtain ⟨b, hb, rfl⟩ := hpi
          exact ⟨hi, hb⟩

/-- Witness for C26: for the two overlapping disks of `orderState`, in a
narrow periodic domain and with a plane the first disk touches, the active
set is the `CircleCircle` constraint, the teleported constraint and the
`StaticPlaneCircle` constraint, in this order, whatever the output held; for
the two disks of `wrapState`, found through the portal by two candidates, it
is one teleported constraint. -/
theorem computeActiveSet_order_witness :
    computeActiveSet (fun z => z) bruteForceOverlaps orderState narrowDomainQ narrowDomainQ
        [Constraint.staticPlaneCircle 7 7 1 ⟨⟨0, 0⟩, ⟨0, 1⟩⟩]
      = some [Constraint.circleCircle 0 1 ⟨0, -1⟩ ⟨0, 8 / 5⟩ 1 1,
          Constraint.teleportedCircleCircle 0 1 ⟨0, 11 / 10⟩ ⟨0, -2 / 5⟩ 1 1
            ⟨0, 0⟩ ⟨0, -5 / 2⟩ 1 1,
          Constraint.staticPlaneCircle 0 0 1 ⟨⟨0, 1 / 10⟩, ⟨0, 1⟩⟩]
      ∧ (∃ out, computeActiveSet (fun z => z) bruteForceOverlaps orderState narrowDomainQ
          narrowDomainQ [Constraint.staticPlaneCircle 7 7 1 ⟨⟨0, 0⟩, ⟨0, 1⟩⟩] = some out)
      ∧ computeActiveSet (fun z => z) bruteForceOverlaps wrapState wrapQ wrapQ []
        = some [Constraint.teleportedCircleCircle 0 1 ⟨0, 1 / 5⟩ ⟨0, -1 / 10⟩ 1 1
            ⟨0, 0⟩ ⟨0, -5 / 2⟩ 1 1] :=
  ⟨(computeActiveSet_order (fun z => z) bruteForceOverlaps orderState narrowDomainQ
      narrowDomainQ [Constraint.staticPlaneCircle 7 7 1 ⟨⟨0, 0⟩, ⟨0, 1⟩⟩]).1.trans (by decide!),
    (computeActiveSet_order (fun z => z) bruteForceOverlaps orderState narrowDomainQ
      narrowDomainQ [Constraint.staticPlaneCircle 7 7 1 ⟨⟨0, 0⟩, ⟨0, 1⟩⟩]).2.1
      (fun aabbs pair hp =>
        ⟨by have := (mem_bruteForceOverlaps aabbs pair.1 pair.2).1 hp; omega,
          ((mem_bruteForceOverlaps aabbs pair.1 pair.2).1 hp).2.1⟩),
    by decide!⟩

/-! ### Virtual indices never reach the constraints -/

/-- C30. In `computeBodyBodyActiveSetSpatialGrid` with `N` bodies and `V`
virtual boxes: there are `N + V` boxes, the keys of the map of the virtual
boxes are `N, N+1, …, N+V−1`, every entry records a body index below `N` and
a portal index below the number of portals, so that the lookup of every
index from `N` to `N+V−1` succeeds with such an entry; and when the broad
phase returns indices below `N + V`, the function returns, and every
constraint it emits refers to two body indices in `[0, N)`. -/
theorem computeBodyBodyActiveSetSpatialGrid_indices (sqrt : ℚ → ℚ)
    (grid : List AABB → List (Nat × Nat)) (st : RigidBody2DState) (q0 q1 : VectorXs) :
    (buildAABBs st q1 (q0.length / 3)).1.length
        = q0.length / 3 + (buildAABBs st q1 (q0.length / 3)).2.length
    ∧ (buildAABBs st q1 (q0.length / 3)).2.map Prod.fst
        = List.range' (q0.length / 3) (buildAABBs st q1 (q0.length / 3)).2.length
    ∧ (∀ entry ∈ (buildAABBs st q1 (q0.length / 3)).2,
        entry.2.bodyIndex < q0.length / 3 ∧ entry.2.portalIndex < st.planarPortals.length)
    ∧ (∀ idx, q0.length / 3 ≤ idx →
        idx < q0.length / 3 + (buildAABBs st q1 (q0.length / 3)).2.length →
        ∃ tb, (buildAABBs st q1 (q0.length / 3)).2.lookup idx = some tb
          ∧ tb.bodyIndex < q0.length / 3 ∧ tb.portalIndex < st.planarPortals.length)
    ∧ ((∀ aabbs, ∀ pair ∈ grid aabbs, pair.1 < aabbs.length ∧ pair.2 < aabbs.length) →
        ∃ out, computeBodyBodyActiveSetSpatialGrid sqrt grid st q0 q1 [] = some out
          ∧ ∀ c ∈ out, (0 ≤ c.getBodyIndices.1 ∧ c.getBodyIndices.1 < ((q0.length / 3 : Nat) : Int))
            ∧ (0 ≤ c.getBodyIndices.2 ∧ c.getBodyIndices.2 < ((q0.length / 3 : Nat) : Int))) := by
  have hlen := length_buildAABBs st q1 (q0.length / 3)
  obtain ⟨virt, hboxes, hkeys, hentries⟩ := buildAABBs_invariant st q1 (q0.length / 3)
  have hbase := length_computeBodyAABBs st q1 (q0.length / 3)
  have hvirt : virt.length = (buildAABBs st q1 (q0.length / 3)).2.length := by
    have h1 := congrArg List.length hboxes
    rw [List.length_append, hbase, hlen] at h1
    omega
  refine ⟨hlen, ?_, ?_, ?_, ?_⟩
  · rw [hkeys, hbase, hvirt]
  · intro entry hentry
    have := hentries entry hentry
    rw [hbase] at this
    exact this
  · intro idx h1 h2
    exact lookup_virtual st q1 (q0.length / 3) idx h1 (by rw [hlen]; exact h2)
  · intro hrange
    obtain ⟨s, hs, hvalid⟩ := processCandidates_isSome sqrt st (q0.length / 3) q0 q1
      (possibleOverlaps grid (buildAABBs st q1 (q0.length / 3)).1)
      { active_set := [], teleported_collisions := [], duplicate_indices := [] }
      (fun pair hp => hrange _ pair ((mem_possibleOverlaps grid _ pair).1 hp))
      (fun tc htc => absurd htc (List.not_mem_nil tc))
    obtain ⟨out, hout⟩ := dispatchTeleportedCollisions_isSome st q0 q1 s.teleported_collisions
      s.active_set (fun tc htc => ⟨(hvalid tc htc).2.2.1, (hvalid tc htc).2.2.2⟩)
    refine ⟨out, ?_, ?_⟩
    · unfold computeBodyBodyActiveSetSpatialGrid
      dsimp only
      rw [hs]
      exact hout
    · have hact := processCandidates_active_set sqrt st _ _ q0 q1 _ _ s hs
      have htel := dispatchTeleportedCollisions_eq st q0 q1 _ _ _ hout
      simp only [List.nil_append] at hact
      intro c hc
      rw [htel, List.mem_append] at hc
      rcases hc with hc | hc
      · rw [hact, List.mem_flatMap] at hc
        obtain ⟨pair, _, hpc⟩ := hc
        obtain ⟨⟨h1, h2⟩, _, rfl⟩ := (mem_realPairConstraints sqrt st _ q0 q1 pair c).1 hpc
        simp only [circleCircleOf, Constraint.getBodyIndices]
        omega
      · rw [List.mem_flatMap] at hc
        obtain ⟨tc, htc, hctc⟩ := hc
        have hb := (teleportedConstraintsOf_spec st q0 q1 tc).2 c hctc
        have hv := hvalid tc htc
        rw [hb.2]
        have h1 := hv.1
        have h2 := hv.2.1
        simp only
        omega

/-- Witness for C30: for the two disks of `narrowDomainState` there is one
virtual box, of index 2, recorded for body 1 and portal 0; the reference
broad phase returns indices of boxes, and the two constraints emitted refer
to the bodies 0 and 1. -/
theorem computeBodyBodyActiveSetSpatialGrid_indices_witness :
    (buildAABBs narrowDomainState narrowDomainQ (narrowDomainQ.length / 3)).2
        = [(2, ⟨1, 0, true⟩)]
    ∧ ∃ out, computeBodyBodyActiveSetSpatialGrid (fun z => z) bruteForceOverlaps
        narrowDomainState narrowDomainQ narrowDomainQ [] = some out
      ∧ ∀ c ∈ out,
          (0 ≤ c.getBodyIndices.1 ∧ c.getBodyIndices.1 < ((narrowDomainQ.length / 3 : Nat) : Int))
          ∧ (0 ≤ c.getBodyIndices.2
            ∧ c.getBodyIndices.2 < ((narrowDomainQ.length / 3 : Nat) : Int)) :=
  ⟨by decide!,
    (computeBodyBodyActiveSetSpatialGrid_indices (fun z => z) bruteForceOverlaps
      narrowDomainState narrowDomainQ narrowDomainQ).2.2.2.2
      (fun aabbs pair hp =>
        ⟨by have := (mem_bruteForceOverlaps aabbs pair.1 pair.2).1 hp; omega,
          ((mem_bruteForceOverlaps aabbs pair.1 pair.2).1 hp).2.1⟩)⟩

/-! ### The command line driver: what a step leaves unchanged -/

theorem SameConfig.refl {Op FS : Type} (g : CliGlobals Op FS) : SameConfig g g :=
  ⟨rfl, rfl, rfl, rfl, rfl, rfl, rfl⟩

theorem SameConfig.trans {Op FS : Type} {g g' g'' : CliGlobals Op FS}
    (h1 : SameConfig g g') (h2 : SameConfig g' g'') : SameConfig g g'' := by
  obtain ⟨a1, a2, a3, a4, a5, a6, a7⟩ := h1
  obtain ⟨b1, b2, b3, b4, b5, b6, b7⟩ := h2
  exact ⟨b1.trans a1, b2.trans a2, b3.trans a3, b4.trans a4, b5.trans a5, b6.trans a6,
    b7.trans a7⟩

theorem stepIterations_append (t1 t2 : List CliEvent) :
    stepIterations (t1 ++ t2) = stepIterations t1 ++ stepIterations t2 := by
  simp [stepIterations]

theorem exportConfigurationData_config {Op FS : Type} (env : CliEnvironment Op FS)
    (g : CliGlobals Op FS) :
    SameConfig g (exportConfigurationData env g).2
      ∧ (exportConfigurationData env g).2.g_iteration = g.g_iteration
      ∧ (exportConfigurationData env g).2.g_sim = g.g_sim
      ∧ stepIterations (exportConfigurationData env g).2.trace = stepIterations g.trace
      ∧ ∃ added, (exportConfigurationData env g).2.trace = g.trace ++ added := by
  unfold exportConfigurationData
  dsimp only
  split
  · split
    · split
      · exact ⟨SameConfig.refl g, rfl, rfl, by simp [CliGlobals.record, stepIterations],
          _, by simp [CliGlobals.record]; rfl⟩
      · exact ⟨SameConfig.refl g, rfl, rfl, by simp [CliGlobals.record, stepIterations],
          _, by simp [CliGlobals.record]; rfl⟩
    · split
      · split
        · exact ⟨SameConfig.refl g, rfl, rfl, by simp [CliGlobals.record, stepIterations],
            _, by simp [CliGlobals.record]; rfl⟩
        · exact ⟨SameConfig.refl g, rfl, rfl, by simp [CliGlobals.record, stepIterations],
            _, by simp [CliGlobals.record]; rfl⟩
      · split
        · exact ⟨SameConfig.refl g, rfl, rfl, by simp [CliGlobals.record, stepIterations],
            _, by simp [CliGlobals.record]; rfl⟩
        · exact ⟨SameConfig.refl g, rfl, rfl, by simp [CliGlobals.record, stepIterations],
            _, by simp [CliGlobals.record]; rfl⟩
  · exact ⟨SameConfig.refl g, rfl, rfl, by simp [CliGlobals.record, stepIterations],
      _, by simp [CliGlobals.record]; rfl⟩

theorem stepSystemDispatch_config {Op FS : Type} (env : CliEnvironment Op FS)
    (g : CliGlobals Op FS) (next_iter : Nat) (force_file_is_open : Bool) :
    SameConfig g (stepSystemDispatch env g next_iter force_file_is_open).2
      ∧ (stepSystemDispatch env g next_iter force_file_is_open).2.g_iteration = g.g_iteration
      ∧ (stepSystemDispatch env g next_iter force_file_is_open).2.g_output_frame
          = g.g_output_frame
      ∧ stepIterations (stepSystemDispatch env g next_iter force_file_is_open).2.trace
          = stepIterations g.trace
      ∧ ∃ added, (stepSystemDispatch env g next_iter force_file_is_open).2.trace
          = g.trace ++ added := by
  unfold stepSystemDispatch
  split
  · exact ⟨SameConfig.refl g, rfl, rfl, rfl, [], by simp⟩
  · exact ⟨⟨rfl, rfl, rfl, rfl, rfl, rfl, rfl⟩, rfl, rfl, by simp [stepIterations], _, rfl⟩
  · dsimp only
    split
    · exact ⟨⟨rfl, rfl, rfl, rfl, rfl, rfl, rfl⟩, rfl, rfl, by simp [stepIterations], _, rfl⟩
    · exact ⟨⟨rfl, rfl, rfl, rfl, rfl, rfl, rfl⟩, rfl, rfl, by simp [stepIterations], _, rfl⟩
  · exact ⟨⟨rfl, rfl, rfl, rfl, rfl, rfl, rfl⟩, rfl, rfl, by simp [stepIterations], _, rfl⟩
  · exact ⟨SameConfig.refl g, rfl, rfl, rfl, [], by simp⟩

theorem stepStart_config {Op FS : Type} (g : CliGlobals Op FS) :
    SameConfig g (stepStart g)
      ∧ (stepStart g).g_iteration = g.g_iteration
      ∧ (stepStart g).g_output_frame = g.g_output_frame
      ∧ (stepStart g).g_sim = g.g_sim
      ∧ stepIterations (stepStart g).trace = stepIterations g.trace ++ [g.g_iteration]
      ∧ (stepStart g).trace = g.trace ++ (CliEvent.stepSystem g.g_iteration ::
          if opensForceFile g = true then
            [CliEvent.openForceFile g.g_iteration g.g_output_frame] else []) := by
  unfold stepStart
  split
  · exact ⟨⟨rfl, rfl, rfl, rfl, rfl, rfl, rfl⟩, rfl, rfl, rfl,
      by simp [CliGlobals.record, stepIterations], by simp [CliGlobals.record]⟩
  · exact ⟨⟨rfl, rfl, rfl, rfl, rfl, rfl, rfl⟩, rfl, rfl, rfl,
      by simp [CliGlobals.record, stepIterations], by simp [CliGlobals.record]⟩

/-- What `stepSystem` never changes, and how it extends the trace: by its
own entry, then by other events. -/
theorem stepSystem_config {Op FS : Type} (env : CliEnvironment Op FS) (g : CliGlobals Op FS) :
    SameConfig g (stepSystem env g).2
      ∧ stepIterations (stepSystem env g).2.trace = stepIterations g.trace ++ [g.g_iteration]
      ∧ ∃ added, (stepSystem env g).2.trace = g.trace ++ added := by
  obtain ⟨s1, _, _, _, s5, s6⟩ := stepStart_config g
  obtain ⟨c, _, _, hsteps, added, hadd⟩ := stepSystemDispatch_config env (stepStart g)
    (u32 (g.g_iteration + 1)) (opensForceFile g)
  obtain ⟨e1, _, _, e4, added2, e5⟩ := exportConfigurationData_config env
    ((stepSystemDispatch env (stepStart g) (u32 (g.g_iteration + 1))
      (opensForceFile g)).2.setIteration (u32 (g.g_iteration + 1)))
  unfold stepSystem
  dsimp only
  split
  · exact ⟨s1, s5, _, s6⟩
  · split
    · exact ⟨SameConfig.trans s1 c, by rw [hsteps, s5],
        (CliEvent.stepSystem g.g_iteration ::
          if opensForceFile g = true then
            [CliEvent.openForceFile g.g_iteration g.g_output_frame] else []) ++ added,
        by rw [hadd, s6, List.append_assoc]⟩
    · refine ⟨SameConfig.trans (SameConfig.trans s1 c)
        (SameConfig.trans ⟨rfl, rfl, rfl, rfl, rfl, rfl, rfl⟩ e1), ?_,
        (CliEvent.stepSystem g.g_iteration ::
          if opensForceFile g = true then
            [CliEvent.openForceFile g.g_iteration g.g_output_frame] else []) ++ added ++ added2,
        ?_⟩
      · rw [e4]
        show stepIterations (stepSystemDispatch env (stepStart g) (u32 (g.g_iteration + 1))
          (opensForceFile g)).2.trace = _
        rw [hsteps, s5]
      · rw [e5]
        show (stepSystemDispatch env (stepStart g) (u32 (g.g_iteration + 1))
          (opensForceFile g)).2.trace ++ added2 = _
        rw [hadd, s6]
        simp only [List.append_assoc]

/-! ### The command line driver: the choice of the step -/

theorem stepStart_maps {Op FS : Type} (g : CliGlobals Op FS) :
    (stepStart g).g_unconstrained_map = g.g_unconstrained_map
      ∧ (stepStart g).g_impact_operator = g.g_impact_operator
      ∧ (stepStart g).g_impact_map = g.g_impact_map
      ∧ (stepStart g).g_friction_solver = g.g_friction_solver
      ∧ (stepStart g).g_impact_friction_map = g.g_impact_friction_map
      ∧ (stepStart g).g_dt = g.g_dt ∧ (stepStart g).g_CoR = g.g_CoR
      ∧ (stepStart g).g_mu = g.g_mu := by
  unfold stepStart
  split <;> exact ⟨rfl, rfl, rfl, rfl, rfl, rfl, rfl, rfl⟩

theorem stepSystemDispatch_rejected {Op FS : Type} (env : CliEnvironment Op FS)
    (g : CliGlobals Op FS) (next_iter : Nat) (force_file_is_open : Bool)
    (h : mapsPresent g ∉ acceptedMaps) :
    stepSystemDispatch env g next_iter force_file_is_open = (false, g) := by
  unfold stepSystemDispatch
  split <;> simp_all [mapsPresent, acceptedMaps]

theorem eq_none_of_isSome_false {α : Type} (o : Option α) (h : o.isSome = false) : o = none := by
  cases o with
  | none => rfl
  | some a => simp at h

theorem eq_some_of_isSome_true {α : Type} (o : Option α) (h : o.isSome = true) :
    ∃ a, o = some a := by
  cases o with
  | none => simp at h
  | some a => exact ⟨a, rfl⟩

theorem stepSystemDispatch_none {Op FS : Type} (env : CliEnvironment Op FS)
    (g : CliGlobals Op FS) (next_iter : Nat) (force_file_is_open : Bool)
    (h1 : g.g_unconstrained_map = none) (h2 : g.g_impact_operator = none)
    (h3 : g.g_impact_map = none) (h4 : g.g_friction_solver = none)
    (h5 : g.g_impact_friction_map = none) :
    stepSystemDispatch env g next_iter force_file_is_open = (true, g) := by
  unfold stepSystemDispatch
  simp only [h1, h2, h3, h4, h5]

theorem stepSystemDispatch_flow {Op FS : Type} (env : CliEnvironment Op FS)
    (g : CliGlobals Op FS) (next_iter : Nat) (force_file_is_open : Bool) (umap : UnconstrainedMap)
    (h1 : g.g_unconstrained_map = some umap) (h2 : g.g_impact_operator = none)
    (h3 : g.g_impact_map = none) (h4 : g.g_friction_solver = none)
    (h5 : g.g_impact_friction_map = none) :
    stepSystemDispatch env g next_iter force_file_is_open
      = (true, { g with
          g_sim := flow env.updateMovingPortals g.g_sim next_iter g.g_dt umap,
          trace := g.trace ++ [CliEvent.flow next_iter] }) := by
  unfold stepSystemDispatch
  simp only [h1, h2, h3, h4, h5]

theorem stepSystemDispatch_flowImpact {Op FS : Type} (env : CliEnvironment Op FS)
    (g : CliGlobals Op FS) (next_iter : Nat) (force_file_is_open : Bool) (umap : UnconstrainedMap)
    (iop : Op) (imap : ImpactMap Op)
    (h1 : g.g_unconstrained_map = some umap) (h2 : g.g_impact_operator = some iop)
    (h3 : g.g_impact_map = some imap) (h4 : g.g_friction_solver = none)
    (h5 : g.g_impact_friction_map = none)
    (hw : force_file_is_open = true → env.writeSolution { g with
          g_sim := flowImpact env.updateMovingPortals g.g_sim next_iter g.g_dt umap iop g.g_CoR
            imap,
          trace := g.trace ++ [CliEvent.flowImpact next_iter] } = true) :
    stepSystemDispatch env g next_iter force_file_is_open
      = (true, { g with
          g_sim := flowImpact env.updateMovingPortals g.g_sim next_iter g.g_dt umap iop g.g_CoR
            imap,
          trace := g.trace ++ [CliEvent.flowImpact next_iter] }) := by
  have hw2 : (force_file_is_open && !env.writeSolution { g with
          g_sim := flowImpact env.updateMovingPortals g.g_sim next_iter g.g_dt umap iop g.g_CoR
            imap,
          trace := g.trace ++ [CliEvent.flowImpact next_iter] }) = false := by
    cases ho : force_file_is_open with
    | false => rfl
    | true => simp [hw ho]
  unfold stepSystemDispatch
  simp only [h1, h2, h3, h4, h5] at hw2 ⊢
  rw [if_neg (by rw [hw2]; simp)]

theorem stepSystemDispatch_flowImpactFriction {Op FS : Type} (env : CliEnvironment Op FS)
    (g : CliGlobals Op FS) (next_iter : Nat) (force_file_is_open : Bool) (umap : UnconstrainedMap)
    (solver : FS) (ifmap : ImpactFrictionMap FS)
    (h1 : g.g_unconstrained_map = some umap) (h2 : g.g_impact_operator = none)
    (h3 : g.g_impact_map = none) (h4 : g.g_friction_solver = some solver)
    (h5 : g.g_impact_friction_map = some ifmap) :
    stepSystemDispatch env g next_iter force_file_is_open
      = (true, { g with
          g_sim := flowImpactFriction env.updateMovingPortals g.g_sim next_iter g.g_dt umap
            g.g_CoR g.g_mu solver ifmap,
          trace := g.trace ++ [CliEvent.flowImpactFriction next_iter] }) := by
  unfold stepSystemDispatch
  simp only [h1, h2, h3, h4, h5]

/-- C27 (amended). The function `stepSystem` selects the step by the maps
that are set. For a combination other than the four accepted ones it returns
failure, and leaves the simulation and the iteration counter as they were,
no flow being called. For an accepted combination, provided the force file
(opened when force output is enabled and the iteration is a multiple of the
steps per save) is opened without error: with no map at all the simulation is
left as it was; with the unconstrained map alone the unconstrained flow is
called; with the impact operator and the impact map the impact flow is
called and, provided the impact solution is written without error when a
force file is open, the step goes on; with the friction solver and the
impact-friction map the impact-friction flow is called; in each of these
cases the flow is given `iteration + 1`, the counter becomes `iteration + 1`,
both in `unsigned` arithmetic, and `exportConfigurationData` gives the exit
code. -/
theorem stepSystem_spec {Op FS : Type} (env : CliEnvironment Op FS) (g : CliGlobals Op FS) :
    (mapsPresent g ∉ acceptedMaps →
      (stepSystem env g).1 = false ∧ (stepSystem env g).2.g_sim = g.g_sim
        ∧ (stepSystem env g).2.g_iteration = g.g_iteration
        ∧ (stepSystem env g).2.trace = (stepStart g).trace)
    ∧ ((opensForceFile g = true → env.openForceFile g = true) →
        (mapsPresent g = (false, false, false, false, false) →
          stepSystem env g = exportConfigurationData env (afterStep g g.g_sim [])
            ∧ (stepSystem env g).2.g_sim = g.g_sim
            ∧ (stepSystem env g).2.g_iteration = u32 (g.g_iteration + 1))
        ∧ (∀ umap, g.g_unconstrained_map = some umap →
            mapsPresent g = (true, false, false, false, false) →
            stepSystem env g = exportConfigurationData env
                (afterStep g
                  (flow env.updateMovingPortals g.g_sim (u32 (g.g_iteration + 1)) g.g_dt umap)
                  [CliEvent.flow (u32 (g.g_iteration + 1))])
              ∧ (stepSystem env g).2.g_sim
                = flow env.updateMovingPortals g.g_sim (u32 (g.g_iteration + 1)) g.g_dt umap
              ∧ (stepSystem env g).2.g_iteration = u32 (g.g_iteration + 1))
        ∧ (∀ umap iop imap, g.g_unconstrained_map = some umap →
            g.g_impact_operator = some iop → g.g_impact_map = some imap →
            mapsPresent g = (true, true, true, false, false) →
            (opensForceFile g = true →
              env.writeSolution { stepStart g with
                g_sim := flowImpact env.updateMovingPortals g.g_sim (u32 (g.g_iteration + 1))
                  g.g_dt umap iop g.g_CoR imap,
                trace := (stepStart g).trace ++ [CliEvent.flowImpact (u32 (g.g_iteration + 1))] }
                = true) →
            stepSystem env g = exportConfigurationData env
                (afterStep g
                  (flowImpact env.updateMovingPortals g.g_sim (u32 (g.g_iteration + 1)) g.g_dt
                    umap iop g.g_CoR imap)
                  [CliEvent.flowImpact (u32 (g.g_iteration + 1))])
              ∧ (stepSystem env g).2.g_sim
                = flowImpact env.updateMovingPortals g.g_sim (u32 (g.g_iteration + 1)) g.g_dt
                    umap iop g.g_CoR imap
              ∧ (stepSystem env g).2.g_iteration = u32 (g.g_iteration + 1))
        ∧ (∀ umap solver ifmap, g.g_unconstrained_map = some umap →
            g.g_friction_solver = some solver → g.g_impact_friction_map = some ifmap →
            mapsPresent g = (true, false, false, true, true) →
            stepSystem env g = exportConfigurationData env
                (afterStep g
                  (flowImpactFriction env.updateMovingPortals g.g_sim (u32 (g.g_iteration + 1))
                    g.g_dt umap g.g_CoR g.g_mu solver ifmap)
                  [CliEvent.flowImpactFriction (u32 (g.g_iteration + 1))])
              ∧ (stepSystem env g).2.g_sim
                = flowImpactFriction env.updateMovingPortals g.g_sim (u32 (g.g_iteration + 1))
                    g.g_dt umap g.g_CoR g.g_mu solver ifmap
              ∧ (stepSystem env g).2.g_iteration = u32 (g.g_iteration + 1))) := by
  obtain ⟨s1, s2, s3, s4, _, _⟩ := stepStart_config g
  obtain ⟨m1, m2, m3, m4, m5, m6, m7, m8⟩ := stepStart_maps g
  refine ⟨?_, ?_⟩
  · intro hrej
    have hrej' : mapsPresent (stepStart g) ∉ acceptedMaps := by rw [s1.2.2.2.2.2.2]; exact hrej
    unfold stepSystem
    dsimp only
    split
    · exact ⟨rfl, s4, s2, rfl⟩
    · rw [stepSystemDispatch_rejected env _ _ _ hrej']
      exact ⟨rfl, s4, s2, rfl⟩
  · intro hopen
    have hno : (opensForceFile g && !env.openForceFile g) = false := by
      cases ho : opensForceFile g with
      | false => rfl
      | true => simp [hopen ho]
    have hexp : ∀ g' : CliGlobals Op FS,
        stepSystem env g = exportConfigurationData env g' →
        (stepSystem env g).2.g_sim = g'.g_sim
          ∧ (stepSystem env g).2.g_iteration = g'.g_iteration := by
      intro g' h
      rw [h]
      obtain ⟨_, e2, e3, _, _⟩ := exportConfigurationData_config env g'
      exact ⟨e3, e2⟩
    simp only [mapsPresent, Prod.mk.injEq]
    refine ⟨?_, ?_, ?_, ?_⟩
    · rintro ⟨h1, h2, h3, h4, h5⟩
      have key : stepSystem env g = exportConfigurationData env (afterStep g g.g_sim []) := by
        unfold stepSystem
        dsimp only
        rw [hno, stepSystemDispatch_none env (stepStart g) _ _
          (m1.trans (eq_none_of_isSome_false _ h1)) (m2.trans (eq_none_of_isSome_false _ h2))
          (m3.trans (eq_none_of_isSome_false _ h3)) (m4.trans (eq_none_of_isSome_false _ h4))
          (m5.trans (eq_none_of_isSome_false _ h5))]
        simp only [Bool.false_eq_true, if_false, Bool.not_true]
        unfold afterStep
        rw [← s4, List.append_nil]
      exact ⟨key, hexp _ key⟩
    · rintro umap hu ⟨_, h2, h3, h4, h5⟩
      have key : stepSystem env g = exportConfigurationData env
          (afterStep g
            (flow env.updateMovingPortals g.g_sim (u32 (g.g_iteration + 1)) g.g_dt umap)
            [CliEvent.flow (u32 (g.g_iteration + 1))]) := by
        unfold stepSystem
        dsimp only
        rw [hno, stepSystemDispatch_flow env (stepStart g) _ _ umap
          (m1.trans hu) (m2.trans (eq_none_of_isSome_false _ h2))
          (m3.trans (eq_none_of_isSome_false _ h3)) (m4.trans (eq_none_of_isSome_false _ h4))
          (m5.trans (eq_none_of_isSome_false _ h5))]
        simp only [Bool.false_eq_true, if_false, Bool.not_true]
        unfold afterStep
        simp only [s4, m6]
      exact ⟨key, hexp _ key⟩
    · rintro umap iop imap hu hi hm ⟨_, _, _, h4, h5⟩ hwrite
      have key : stepSystem env g = exportConfigurationData env
          (afterStep g
            (flowImpact env.updateMovingPortals g.g_sim (u32 (g.g_iteration + 1)) g.g_dt
              umap iop g.g_CoR imap)
            [CliEvent.flowImpact (u32 (g.g_iteration + 1))]) := by
        unfold stepSystem
        dsimp only
        rw [hno, stepSystemDispatch_flowImpact env (stepStart g) _ _ umap iop imap
          (m1.trans hu) (m2.trans hi) (m3.trans hm) (m4.trans (eq_none_of_isSome_false _ h4))
          (m5.trans (eq_none_of_isSome_false _ h5)) (by simp only [s4, m6, m7] at hwrite ⊢; exact hwrite)]
        simp only [Bool.false_eq_true, if_false, Bool.not_true]
        unfold afterStep
        simp only [s4, m6, m7]
      exact ⟨key, hexp _ key⟩
    · rintro umap solver ifmap hu hs hm ⟨_, h2, h3, _, _⟩
      have key : stepSystem env g = exportConfigurationData env
          (afterStep g
            (flowImpactFriction env.updateMovingPortals g.g_sim (u32 (g.g_iteration + 1))
              g.g_dt umap g.g_CoR g.g_mu solver ifmap)
            [CliEvent.flowImpactFriction (u32 (g.g_iteration + 1))]) := by
        unfold stepSystem
        dsimp only
        rw [hno, stepSystemDispatch_flowImpactFriction env (stepStart g) _ _ umap solver ifmap
          (m1.trans hu) (m2.trans (eq_none_of_isSome_false _ h2))
          (m3.trans (eq_none_of_isSome_false _ h3)) (m4.trans hs) (m5.trans hm)]
        simp only [Bool.false_eq_true, if_false, Bool.not_true]
        unfold afterStep
        simp only [s4, m6, m7, m8]
      exact ⟨key, hexp _ key⟩

/-- C27 (counterexample). With the unconstrained map alone, an accepted
combination, and force output enabled, a force file that cannot be opened
makes `stepSystem` return failure before any flow is called, the iteration
counter staying at 0; and at iteration `2^32 - 1` the flow is given 0 and the
counter becomes 0, not `2^32`. -/
theorem stepSystem_accepted_without_increment :
    mapsPresent (stubGlobals 0 1 XmlScalar.infinity true (some explicitEulerMap)) ∈ acceptedMaps
      ∧ (stepSystem (stubEnvironment true false)
          (stubGlobals 0 1 XmlScalar.infinity true (some explicitEulerMap))).1 = false
      ∧ (stepSystem (stubEnvironment true false)
          (stubGlobals 0 1 XmlScalar.infinity true (some explicitEulerMap))).2.g_iteration = 0
      ∧ (stepSystem (stubEnvironment true false)
          (stubGlobals 0 1 XmlScalar.infinity true (some explicitEulerMap))).2.trace
        = [CliEvent.stepSystem 0, CliEvent.openForceFile 0 1]
      ∧ (stepSystem (stubEnvironment true true)
          (stubGlobals 4294967295 1 XmlScalar.infinity false (some explicitEulerMap))).1 = true
      ∧ (stepSystem (stubEnvironment true true)
          (stubGlobals 4294967295 1 XmlScalar.infinity false (some explicitEulerMap))).2.g_iteration
        = 0
      ∧ (stepSystem (stubEnvironment true true)
          (stubGlobals 4294967295 1 XmlScalar.infinity false (some explicitEulerMap))).2.trace
        = [CliEvent.stepSystem 4294967295, CliEvent.flow 0, CliEvent.saveState 0 1,
            CliEvent.exportConfigurationData 0 true 2] := by
  refine ⟨by decide, by decide, by decide, by decide, by decide, by decide, by decide⟩

/-- Witness for C27 (amended): at iteration 3 with the unconstrained map alone
and nothing failing, the unconstrained flow is given 4 and the counter
becomes 4; with an impact operator and no other map the step fails and the
counter stays at 3. -/
theorem stepSystem_spec_witness :
    mapsPresent (stubGlobals 3 4 XmlScalar.infinity true (some explicitEulerMap))
        = (true, false, false, false, false)
      ∧ (stepSystem (stubEnvironment true true)
          (stubGlobals 3 4 XmlScalar.infinity true (some explicitEulerMap))).2.g_sim
        = flow (stubEnvironment true true).updateMovingPortals restingDisksState 4 1
            explicitEulerMap
      ∧ (stepSystem (stubEnvironment true true)
          (stubGlobals 3 4 XmlScalar.infinity true (some explicitEulerMap))).2.g_iteration = 4
      ∧ mapsPresent { stubGlobals 3 4 XmlScalar.infinity true none with
            g_impact_operator := some () } ∉ acceptedMaps
      ∧ (stepSystem (stubEnvironment true true) { stubGlobals 3 4 XmlScalar.infinity true none with
            g_impact_operator := some () }).1 = false
      ∧ (stepSystem (stubEnvironment true true) { stubGlobals 3 4 XmlScalar.infinity true none with
            g_impact_operator := some () }).2.g_iteration = 3 :=
  ⟨by decide,
    (((stepSystem_spec (stubEnvironment true true)
        (stubGlobals 3 4 XmlScalar.infinity true (some explicitEulerMap))).2
      (fun _ => rfl)).2.1 explicitEulerMap rfl (by decide)).2.1,
    (((stepSystem_spec (stubEnvironment true true)
        (stubGlobals 3 4 XmlScalar.infinity true (some explicitEulerMap))).2
      (fun _ => rfl)).2.1 explicitEulerMap rfl (by decide)).2.2,
    by decide,
    ((stepSystem_spec (stubEnvironment true true) { stubGlobals 3 4 XmlScalar.infinity true none with
        g_impact_operator := some () }).1 (by decide)).1,
    ((stepSystem_spec (stubEnvironment true true) { stubGlobals 3 4 XmlScalar.infinity true none with
        g_impact_operator := some () }).1 (by decide)).2.2.1⟩

/-! ### The command line driver: runs without I/O errors -/

theorem exportConfigurationData_ok {Op FS : Type} (env : CliEnvironment Op FS)
    (h : NoIOFailure env) (g : CliGlobals Op FS) :
    (exportConfigurationData env g).1 = true := by
  unfold exportConfigurationData
  dsimp only
  simp only [(h g).1, (h g).2.1, Bool.not_true, Bool.and_false, Bool.false_eq_true, if_false]
  split <;> rfl

theorem stepSystemDispatch_ok {Op FS : Type} (env : CliEnvironment Op FS)
    (h : NoIOFailure env) (g : CliGlobals Op FS) (next_iter : Nat) (force_file_is_open : Bool)
    (hacc : mapsPresent g ∈ acceptedMaps) :
    (stepSystemDispatch env g next_iter force_file_is_open).1 = true := by
  unfold stepSystemDispatch
  split
  · rfl
  · rfl
  · dsimp only
    rw [(h _).2.2.2]
    simp
  · rfl
  · rename_i h1 h2 h3 h4
    exfalso
    simp only [mapsPresent, acceptedMaps, List.mem_cons, Prod.mk.injEq, List.mem_singleton,
      List.not_mem_nil, or_false] at hacc
    rcases hu : g.g_unconstrained_map with _ | umap <;>
    rcases hi : g.g_impact_operator with _ | iop <;>
    rcases hm : g.g_impact_map with _ | imap <;>
    rcases hf : g.g_friction_solver with _ | solver <;>
    rcases hfm : g.g_impact_friction_map with _ | ifmap <;>
    simp_all

theorem stepSystem_ok {Op FS : Type} (env : CliEnvironment Op FS)
    (h : NoIOFailure env) (g : CliGlobals Op FS) (hacc : mapsPresent g ∈ acceptedMaps) :
    (stepSystem env g).1 = true
      ∧ (stepSystem env g).2.g_iteration = u32 (g.g_iteration + 1) := by
  have hacc2 : mapsPresent (stepStart g) ∈ acceptedMaps := by
    rw [(stepStart_config g).1.2.2.2.2.2.2]; exact hacc
  have hd := stepSystemDispatch_ok env h (stepStart g) (u32 (g.g_iteration + 1))
    (opensForceFile g) hacc2
  unfold stepSystem
  dsimp only
  rw [(h g).2.2.1, hd]
  simp only [Bool.not_true, Bool.and_false, Bool.false_eq_true, if_false]
  exact ⟨exportConfigurationData_ok env h _, (exportConfigurationData_config env _).2.1⟩

theorem XmlScalar.le_infinity_finite (b : ℚ) :
    XmlScalar.le XmlScalar.infinity (XmlScalar.finite b) = false := by
  simp [XmlScalar.le, XmlScalar.lt]

theorem frameInvariant_append (s : Nat) (t1 t2 : List CliEvent)
    (h1 : ∀ event ∈ t1, FrameInvariant s event) (h2 : ∀ event ∈ t2, FrameInvariant s event) :
    ∀ event ∈ t1 ++ t2, FrameInvariant s event := by
  intro event hmem
  rcases List.mem_append.mp hmem with h | h
  · exact h1 event h
  · exact h2 event h

theorem exportConfigurationData_frames {Op FS : Type} (env : CliEnvironment Op FS)
    (g : CliGlobals Op FS) (s : Nat) (hs : g.g_steps_per_save = s)
    (htr : ∀ event ∈ g.trace, FrameInvariant s event)
    (hpre : if g.g_iteration % s = 0 then g.g_output_frame = g.g_iteration / s
      else g.g_output_frame = g.g_iteration / s + 1)
    (hbound : g.g_iteration / s + 1 < 4294967296) :
    (∀ event ∈ (exportConfigurationData env g).2.trace, FrameInvariant s event)
      ∧ ((exportConfigurationData env g).1 = true →
          (exportConfigurationData env g).2.g_output_frame = g.g_iteration / s + 1) := by
  unfold exportConfigurationData
  dsimp only
  rw [hs]
  by_cases hmod : g.g_iteration % s = 0
  · rw [if_pos hmod] at hpre
    have hu : u32 (g.g_output_frame + 1) = g.g_iteration / s + 1 := by
      rw [hpre]
      exact Nat.mod_eq_of_lt hbound
    have hg1 : ∀ event ∈ (if (!g.g_output_dir_name.isEmpty) = true then
        g.record (CliEvent.saveState g.g_iteration g.g_output_frame) else g).trace,
        FrameInvariant s event := by
      split
      · refine frameInvariant_append s _ _ htr ?_
        intro event hmem
        rw [List.mem_singleton] at hmem
        subst hmem
        exact ⟨hmod, hpre⟩
      · exact htr
    rw [if_pos (by simp [hmod])]
    split
    · refine ⟨frameInvariant_append s _ _ hg1 ?_, by simp⟩
      intro event hmem
      rw [List.mem_singleton] at hmem
      subst hmem
      trivial
    · split
      · refine ⟨frameInvariant_append s _ _ hg1 ?_, by simp⟩
        intro event hmem
        rw [List.mem_singleton] at hmem
        subst hmem
        trivial
      · refine ⟨frameInvariant_append s _ _ hg1 ?_, fun _ => hu⟩
        intro event hmem
        rw [List.mem_singleton] at hmem
        subst hmem
        exact hu
  · rw [if_neg hmod] at hpre
    rw [if_neg (by simp [hmod])]
    refine ⟨frameInvariant_append s _ _ htr ?_, fun _ => hpre⟩
    intro event hmem
    rw [List.mem_singleton] at hmem
    subst hmem
    exact hpre

theorem stepSystemDispatch_frames {Op FS : Type} (env : CliEnvironment Op FS)
    (g : CliGlobals Op FS) (next_iter : Nat) (force_file_is_open : Bool) (s : Nat)
    (htr : ∀ event ∈ g.trace, FrameInvariant s event) :
    ∀ event ∈ (stepSystemDispatch env g next_iter force_file_is_open).2.trace,
      FrameInvariant s event := by
  unfold stepSystemDispatch
  split
  · exact htr
  · refine frameInvariant_append s _ _ htr ?_
    intro event hmem
    rw [List.mem_singleton] at hmem
    subst hmem
    trivial
  · dsimp only
    split
    · refine frameInvariant_append s _ _ htr ?_
      intro event hmem
      rw [List.mem_singleton] at hmem
      subst hmem
      trivial
    · refine frameInvariant_append s _ _ htr ?_
      intro event hmem
      rw [List.mem_singleton] at hmem
      subst hmem
      trivial
  · refine frameInvariant_append s _ _ htr ?_
    intro event hmem
    rw [List.mem_singleton] at hmem
    subst hmem
    trivial
  · exact htr

theorem stepStart_frames {Op FS : Type} (g : CliGlobals Op FS) (s : Nat)
    (htr : ∀ event ∈ g.trace, FrameInvariant s event)
    (hframe : g.g_output_frame = g.g_iteration / s + 1) :
    ∀ event ∈ (stepStart g).trace, FrameInvariant s event := by
  rw [(stepStart_config g).2.2.2.2.2]
  refine frameInvariant_append s _ _ htr ?_
  intro event hmem
  rw [List.mem_cons] at hmem
  rcases hmem with h | h
  · subst h
    trivial
  · split at h
    · rw [List.mem_singleton] at h
      subst h
      show 0 < g.g_output_frame ∧ g.g_output_frame - 1 = g.g_iteration / s
      rw [hframe]
      exact ⟨Nat.succ_pos _, rfl⟩
    · simp at h

theorem stepSystem_frames {Op FS : Type} (env : CliEnvironment Op FS)
    (g : CliGlobals Op FS) (s : Nat) (hs : g.g_steps_per_save = s) (_hs1 : 1 ≤ s)
    (htr : ∀ event ∈ g.trace, FrameInvariant s event)
    (hframe : g.g_output_frame = g.g_iteration / s + 1)
    (hbound : g.g_iteration + 2 < 4294967296) :
    (∀ event ∈ (stepSystem env g).2.trace, FrameInvariant s event)
      ∧ ((stepSystem env g).1 = true →
          (stepSystem env g).2.g_iteration = g.g_iteration + 1
            ∧ (stepSystem env g).2.g_output_frame = (g.g_iteration + 1) / s + 1) := by
  obtain ⟨s1, s2, s3, _⟩ := stepStart_config g
  obtain ⟨d1, d2, d3, _⟩ := stepSystemDispatch_config env (stepStart g)
    (u32 (g.g_iteration + 1)) (opensForceFile g)
  have hst := stepStart_frames g s htr hframe
  have hd := stepSystemDispatch_frames env (stepStart g) (u32 (g.g_iteration + 1))
    (opensForceFile g) s hst
  have hu : u32 (g.g_iteration + 1) = g.g_iteration + 1 := Nat.mod_eq_of_lt (by omega)
  have hdiv : (g.g_iteration + 1) / s ≤ g.g_iteration + 1 := Nat.div_le_self _ _
  have hsucc := Nat.succ_div g.g_iteration s
  obtain ⟨e1, e2⟩ := exportConfigurationData_frames env
    ((stepSystemDispatch env (stepStart g) (u32 (g.g_iteration + 1))
      (opensForceFile g)).2.setIteration (u32 (g.g_iteration + 1))) s
    (by
      show (stepSystemDispatch env (stepStart g) (u32 (g.g_iteration + 1))
        (opensForceFile g)).2.g_steps_per_save = s
      rw [d1.2.2.2.1, s1.2.2.2.1, hs])
    hd
    (by
      show if u32 (g.g_iteration + 1) % s = 0 then
          (stepSystemDispatch env (stepStart g) (u32 (g.g_iteration + 1))
            (opensForceFile g)).2.g_output_frame = u32 (g.g_iteration + 1) / s
        else (stepSystemDispatch env (stepStart g) (u32 (g.g_iteration + 1))
          (opensForceFile g)).2.g_output_frame = u32 (g.g_iteration + 1) / s + 1
      rw [d3, s3, hu, hframe]
      by_cases hmod : (g.g_iteration + 1) % s = 0
      · rw [if_pos hmod, hsucc, if_pos (Nat.dvd_of_mod_eq_zero hmod)]
      · rw [if_neg hmod, hsucc, if_neg (fun hdvd => hmod (Nat.mod_eq_zero_of_dvd hdvd))])
    (by
      show u32 (g.g_iteration + 1) / s + 1 < 4294967296
      rw [hu]
      omega)
  unfold stepSystem
  dsimp only
  split
  · exact ⟨hst, by simp⟩
  · split
    · exact ⟨hd, by simp⟩
    · refine ⟨e1, fun hok => ⟨?_, ?_⟩⟩
      · rw [(exportConfigurationData_config env _).2.1]
        exact hu
      · rw [e2 hok]
        show u32 (g.g_iteration + 1) / s + 1 = (g.g_iteration + 1) / s + 1
        rw [hu]

theorem simLoop_frames {Op FS : Type} (env : CliEnvironment Op FS) (s : Nat) (hs1 : 1 ≤ s) :
    ∀ (fuel : Nat) (g : CliGlobals Op FS), g.g_steps_per_save = s →
      (∀ event ∈ g.trace, FrameInvariant s event) →
      g.g_output_frame = g.g_iteration / s + 1 → g.g_iteration + fuel + 1 < 4294967296 →
      ∀ event ∈ (simLoop env fuel g).2.trace, FrameInvariant s event := by
  intro fuel
  induction fuel with
  | zero =>
    intro g _ htr _ _
    exact htr
  | succ fuel ih =>
    intro g hs htr hframe hbound
    obtain ⟨f1, f2⟩ := stepSystem_frames env g s hs hs1 htr hframe (by omega)
    obtain ⟨hc, _, _⟩ := stepSystem_config env g
    simp only [simLoop]
    split
    · split
      · split
        · exact f1
        · exact f1
      · exact htr
    · split
      · exact f1
      · rename_i hok
        have hok2 : (stepSystem env g).1 = true := by simpa using hok
        obtain ⟨hit, hfr⟩ := f2 hok2
        exact ih _ (by rw [hc.2.2.2.1, hs]) f1 (by rw [hfr, hit]) (by rw [hit]; omega)

/-- C29 (amended). In a run of `executeSimLoop` started with iteration 0,
output frame 0 and `s ≥ 1` steps per save, as long as fewer than `2^32 - 1`
steps have been taken: after every successful call of
`exportConfigurationData` the output frame is `iteration / s + 1`; whenever
`stepSystem` opens a force file the output frame is positive and the number
of the file, `g_output_frame - 1`, is `iteration / s`; and a configuration
file saved at an iteration, a multiple of `s`, has the number
`iteration / s`. -/
theorem executeSimLoop_frames {Op FS : Type} (env : CliEnvironment Op FS)
    (g : CliGlobals Op FS) (fuel : Nat) (hiteration : g.g_iteration = 0)
    (hframe : g.g_output_frame = 0) (htrace : g.trace = [])
    (hs : 1 ≤ g.g_steps_per_save) (hfuel : fuel + 1 < 4294967296) :
    ∀ event ∈ (executeSimLoop env fuel g).2.trace,
      FrameInvariant g.g_steps_per_save event := by
  obtain ⟨hc, e2, _⟩ := exportConfigurationData_config env g
  obtain ⟨x1, x2⟩ := exportConfigurationData_frames env g g.g_steps_per_save rfl
    (by rw [htrace]; simp)
    (by rw [hiteration, hframe]; simp)
    (by rw [hiteration]; simp)
  unfold executeSimLoop
  dsimp only
  split
  · exact x1
  · rename_i hok
    have hok2 : (exportConfigurationData env g).1 = true := by simpa using hok
    exact simLoop_frames env g.g_steps_per_save hs fuel _ hc.2.2.2.1 x1
      (by rw [x2 hok2, e2]) (by rw [e2, hiteration]; omega)

theorem simLoop_config {Op FS : Type} (env : CliEnvironment Op FS) :
    ∀ (fuel : Nat) (g : CliGlobals Op FS), SameConfig g (simLoop env fuel g).2 := by
  intro fuel
  induction fuel with
  | zero =>
    intro g
    exact SameConfig.refl g
  | succ fuel ih =>
    intro g
    obtain ⟨hc, _, _⟩ := stepSystem_config env g
    simp only [simLoop]
    split
    · split
      · split
        · exact hc
        · exact hc
      · exact SameConfig.refl g
    · split
      · exact hc
      · exact SameConfig.trans hc (ih _)

theorem executeSimLoop_config {Op FS : Type} (env : CliEnvironment Op FS) (fuel : Nat)
    (g : CliGlobals Op FS) : SameConfig g (executeSimLoop env fuel g).2 := by
  obtain ⟨hc, _⟩ := exportConfigurationData_config env g
  unfold executeSimLoop
  dsimp only
  split
  · exact hc
  · exact SameConfig.trans hc (simLoop_config env fuel _)

theorem exportConfigurationData_every_step {Op FS : Type} (env : CliEnvironment Op FS)
    (h : NoIOFailure env) (g : CliGlobals Op FS) (hs : g.g_steps_per_save = 1) :
    (exportConfigurationData env g).2.g_output_frame = u32 (g.g_output_frame + 1) := by
  unfold exportConfigurationData
  dsimp only
  rw [hs, if_pos (by simp [Nat.mod_one])]
  simp only [(h g).1, (h g).2.1, Bool.not_true, Bool.and_false, Bool.false_eq_true, if_false]

theorem stepSystem_every_step {Op FS : Type} (env : CliEnvironment Op FS)
    (h : NoIOFailure env) (g : CliGlobals Op FS) (hacc : mapsPresent g ∈ acceptedMaps)
    (hs : g.g_steps_per_save = 1) :
    (stepSystem env g).2.g_output_frame = u32 (g.g_output_frame + 1) := by
  obtain ⟨s1, _, s3, _⟩ := stepStart_config g
  obtain ⟨d1, _, d3, _⟩ := stepSystemDispatch_config env (stepStart g)
    (u32 (g.g_iteration + 1)) (opensForceFile g)
  have hacc2 : mapsPresent (stepStart g) ∈ acceptedMaps := by
    rw [s1.2.2.2.2.2.2]; exact hacc
  have hd := stepSystemDispatch_ok env h (stepStart g) (u32 (g.g_iteration + 1))
    (opensForceFile g) hacc2
  unfold stepSystem
  dsimp only
  rw [(h g).2.2.1, hd]
  simp only [Bool.not_true, Bool.and_false, Bool.false_eq_true, if_false]
  rw [exportConfigurationData_every_step env h _ (by
    show (stepSystemDispatch env (stepStart g) (u32 (g.g_iteration + 1))
      (opensForceFile g)).2.g_steps_per_save = 1
    rw [d1.2.2.2.1, s1.2.2.2.1, hs])]
  show u32 ((stepSystemDispatch env (stepStart g) (u32 (g.g_iteration + 1))
    (opensForceFile g)).2.g_output_frame + 1) = _
  rw [d3, s3]

theorem simLoop_unbounded_run {Op FS : Type} (env : CliEnvironment Op FS)
    (h : NoIOFailure env) :
    ∀ (fuel : Nat) (g : CliGlobals Op FS), g.g_end_time = XmlScalar.infinity →
      mapsPresent g ∈ acceptedMaps → g.g_steps_per_save = 1 →
      g.g_iteration < 4294967296 → g.g_output_frame < 4294967296 →
      (simLoop env fuel g).2.g_iteration = (g.g_iteration + fuel) % 4294967296
        ∧ (simLoop env fuel g).2.g_output_frame = (g.g_output_frame + fuel) % 4294967296 := by
  intro fuel
  induction fuel with
  | zero =>
    intro g _ _ _ hk hf
    exact ⟨(Nat.mod_eq_of_lt hk).symm, (Nat.mod_eq_of_lt hf).symm⟩
  | succ fuel ih =>
    intro g hT hacc hs hk hf
    obtain ⟨hok, hit⟩ := stepSystem_ok env h g hacc
    have hfr := stepSystem_every_step env h g hacc hs
    obtain ⟨hc, _, _⟩ := stepSystem_config env g
    obtain ⟨r1, r2⟩ := ih (stepSystem env g).2 (by rw [hc.2.1]; exact hT)
      (by rw [hc.2.2.2.2.2.2]; exact hacc) (by rw [hc.2.2.2.1]; exact hs)
      (by rw [hit]; exact Nat.mod_lt _ (by decide)) (by rw [hfr]; exact Nat.mod_lt _ (by decide))
    simp only [simLoop, hT, XmlScalar.le_infinity_finite, Bool.false_eq_true, if_false, hok,
      Bool.not_true]
    rw [r1, r2, hit, hfr]
    unfold u32
    constructor <;> omega

/-- C29 (counterexample). In a run started with iteration 0, output frame 0
and one step per save: when the first configuration file cannot be saved,
the output frame after the call of `exportConfigurationData` is 0, not
`0 / 1 + 1`; and when nothing fails and the end time is `+∞`, after `2^32 - 1`
steps the iteration is `2^32 - 1` and the output frame is 0, not `2^32`,
while the next step opens a force file. -/
theorem executeSimLoop_frame_zero :
    (executeSimLoop (stubEnvironment false true) 1
        (stubGlobals 0 0 XmlScalar.infinity true none)).2.trace
        = [CliEvent.saveState 0 0, CliEvent.exportConfigurationData 0 false 0]
      ∧ (executeSimLoop (stubEnvironment false true) 1
          (stubGlobals 0 0 XmlScalar.infinity true none)).2.g_output_frame = 0
      ∧ (executeSimLoop (stubEnvironment true true) 4294967295
          (stubGlobals 0 0 XmlScalar.infinity true none)).2.g_iteration = 4294967295
      ∧ (executeSimLoop (stubEnvironment true true) 4294967295
          (stubGlobals 0 0 XmlScalar.infinity true none)).2.g_output_frame = 0
      ∧ opensForceFile (executeSimLoop (stubEnvironment true true) 4294967295
          (stubGlobals 0 0 XmlScalar.infinity true none)).2 = true := by
  have hio : NoIOFailure (stubEnvironment true true) := fun _ => ⟨rfl, rfl, rfl, rfl⟩
  obtain ⟨hc, e2, _⟩ := exportConfigurationData_config (stubEnvironment true true)
    (stubGlobals 0 0 XmlScalar.infinity true none)
  have e3 := exportConfigurationData_every_step (stubEnvironment true true) hio
    (stubGlobals 0 0 XmlScalar.infinity true none) rfl
  obtain ⟨r1, r2⟩ := simLoop_unbounded_run (stubEnvironment true true) hio 4294967295
    (exportConfigurationData (stubEnvironment true true)
      (stubGlobals 0 0 XmlScalar.infinity true none)).2
    (by rw [hc.2.1]; rfl) (by rw [hc.2.2.2.2.2.2]; decide) (by rw [hc.2.2.2.1]; rfl)
    (by rw [e2]; decide) (by rw [e3]; decide)
  have hrun : executeSimLoop (stubEnvironment true true) 4294967295
      (stubGlobals 0 0 XmlScalar.infinity true none)
      = simLoop (stubEnvironment true true) 4294967295
          (exportConfigurationData (stubEnvironment true true)
            (stubGlobals 0 0 XmlScalar.infinity true none)).2 := by
    unfold executeSimLoop
    dsimp only
    rw [exportConfigurationData_ok _ hio]
    simp only [Bool.not_true, Bool.false_eq_true, if_false]
  have hit : (executeSimLoop (stubEnvironment true true) 4294967295
      (stubGlobals 0 0 XmlScalar.infinity true none)).2.g_iteration = 4294967295 := by
    rw [hrun, r1, e2]
    rfl
  have hfr : (executeSimLoop (stubEnvironment true true) 4294967295
      (stubGlobals 0 0 XmlScalar.infinity true none)).2.g_output_frame = 0 := by
    rw [hrun, r2, e3]
    rfl
  obtain ⟨_, _, c3, c4, _⟩ := executeSimLoop_config (stubEnvironment true true) 4294967295
    (stubGlobals 0 0 XmlScalar.infinity true none)
  refine ⟨by decide, by decide, hit, hfr, ?_⟩
  unfold opensForceFile
  rw [c3, c4, hit]
  rfl

/-- Witness for C29 (amended): the events of the run with `dt = 1`, `T = 2`, one
step per save and force output enabled. -/
theorem executeSimLoop_frames_witness :
    (∀ event ∈ (executeSimLoop (stubEnvironment true true) 3
        (stubGlobals 0 0 (XmlScalar.finite 2) true (some explicitEulerMap))).2.trace,
      FrameInvariant 1 event)
      ∧ (executeSimLoop (stubEnvironment true true) 3
          (stubGlobals 0 0 (XmlScalar.finite 2) true (some explicitEulerMap))).2.trace
        = [CliEvent.saveState 0 0, CliEvent.exportConfigurationData 0 true 1,
            CliEvent.stepSystem 0, CliEvent.openForceFile 0 1, CliEvent.flow 1,
            CliEvent.saveState 1 1, CliEvent.exportConfigurationData 1 true 2,
            CliEvent.stepSystem 1, CliEvent.openForceFile 1 2, CliEvent.flow 2,
            CliEvent.saveState 2 2, CliEvent.exportConfigurationData 2 true 3,
            CliEvent.stepSystem 2, CliEvent.openForceFile 2 3, CliEvent.flow 3,
            CliEvent.saveState 3 3, CliEvent.exportConfigurationData 3 true 4] :=
  ⟨executeSimLoop_frames (stubEnvironment true true)
      (stubGlobals 0 0 (XmlScalar.finite 2) true (some explicitEulerMap)) 3 rfl rfl rfl
      (by decide) (by decide),
    by decide!⟩


end SCISim
